import Mathlib

/-!
Project Rio stat tracker (`Source/Core/Core/MSB_StatTracker.cpp`)

A shallow embedding of the stat tracker's per-tick pipeline: the two nested
state machines of `StatTracker::lookForTriggerEvents`, the record types they
fill, the derivation helpers (`logContactResult`, `logFinalResults`,
`logRunnerEvents`, the two fielder scans) and `StatTracker::decode`.

Conventions.
* Machine integers are natural numbers; a read of width `w` is reduced modulo
  `2 ^ w`, and `u8` arithmetic that can wrap is reduced modulo 256 in place.
* A thrown exception (`std::map::at`, `std::optional::value`) and a
  dereference of an empty `std::optional` both abort the tick: the function
  returns `none`.
* `MSB_StatTracker.h` is not part of the sources at hand.  What it declares
  (decode tables, field defaults, the `FielderTracker` class, `init`) is either
  a field of `Header`, a parameter of every definition that needs it, or a
  definition marked `Modelled from the spec`.
-/

namespace MSB

/-! ## Enumerations -/

/-- Top-level state of a recording session (`GAME_STATE`). -/
inductive GAME_STATE where
  | PREGAME
  | INGAME
  | ENDGAME_LOGGED
  | UNDEFINED
  deriving DecidableEq, Repr

/-- State of the at-bat machine (`EVENT_STATE`). -/
inductive EVENT_STATE where
  | START_AB
  | WAITING_FOR_EVENT
  | PITCH_RESULT
  | CONTACT_RESULT
  | LOG_FIELDER
  | MONITOR_RUNNERS
  | PLAY_OVER
  | FINAL_RESULT
  | GAME_OVER
  | UNDEFINED
  deriving DecidableEq, Repr

/-! ## The foreign memory -/

/-- Symbolic addresses of the game memory.  An address written in the source as
`base + i * stride` is the constructor `base i`: the strides (`cFielder_Offset`,
`cRunner_Offset`, `c_defensive_stat_offset`, ...) are declared in the absent
header, and distinct table slots are taken to be distinct cells. -/
inductive Addr where
  | aGameId | aGameControlStateCurr | aGameControlStatePrev | aEndOfGameFlag | aWhoQuit
  | aStadiumId | aInningsSelected | aAwayTeam_Score | aHomeTeam_Score
  | aAB_Inning | aAB_HalfInning | aAB_Balls | aAB_Strikes | aAB_Outs
  | aAB_P1_Stars | aAB_P2_Stars | aAB_IsStarChance | aAB_ChemLinksOnBase
  | aAB_PitcherPort | aAB_BatterPort | aAB_PitcherRosterID | aAB_BatterRosterID | aAB_PitcherID
  | aAB_FieldingPort | aAB_BattingPort
  | aAB_PitchThrown | aAB_PickoffAttempt | aAB_PitcherHasCtrlofPitch | aAB_PitchCurveInput
  | aAB_ContactMade | aAB_FramesUnitlBallArrivesBatter | aAB_HitByPitch | aAB_FinalResult
  | aAB_ContactResult | aAB_RBI | aAB_NumOutsDuringPlay
  | aAB_BallPos_X | aAB_BallPos_Y | aAB_BallPos_Z
  | aAB_TypeOfContact | aAB_ChargeUp | aAB_ChargeDown | aAB_MoonShot | aAB_InputDirection
  | aAB_ControlStickInput (controller : Int)
  | aAB_HorizPower | aAB_VertPower | aAB_BallAngle
  | aAB_BallVel_X | aAB_BallVel_Y | aAB_BallVel_Z | aAB_FrameOfSwingAnimUponContact
  | aAB_PitchType | aAB_ChargePitchType | aAB_StarPitch_NonCaptain | aAB_StarPitch_Captain
  | aAB_PitchSpeed | aAB_BallPos_X_Upon_Hit | aAB_BallPos_Z_Upon_Hit
  | aAB_BatterPos_X_Upon_Hit | aAB_BatterPos_Z_Upon_Hit
  | aAB_TypeOfSwing | aAB_StarSwing | aAB_Miss_SwingOrBunt
  | aFielder_ControlStatus (pos : Nat) | aFielder_Pos_X (pos : Nat) | aFielder_Pos_Y (pos : Nat)
  | aFielder_Pos_Z (pos : Nat) | aFielder_AnyJump (pos : Nat) | aFielder_Action (pos : Nat)
  | aFielder_RosterLoc (pos : Nat) | aFielder_CharId (pos : Nat)
  | aFielder_ManualSelectLock (pos : Nat) | aFielder_Bobble (pos : Nat) | aFielder_Knockout (pos : Nat)
  | aRunner_RosterLoc (base : Nat) | aRunner_CharId (base : Nat)
  | aRunner_BasepathPercentage (base : Nat) | aRunner_OutType (base : Nat)
  | aRunner_CurrentBase (base : Nat) | aRunner_Stealing (base : Nat)
  | aTeam0_Captain_Roster_Loc | aTeam1_Captain_Roster_Loc
  | aPitcher_IsStarred (slot : Nat) | aPitcher_BattersFaced (slot : Nat)
  | aPitcher_RunsAllowed (slot : Nat) | aPitcher_BattersWalked (slot : Nat)
  | aPitcher_BattersHit (slot : Nat) | aPitcher_HitsAllowed (slot : Nat)
  | aPitcher_HRsAllowed (slot : Nat) | aPitcher_PitchesThrown (slot : Nat)
  | aPitcher_Stamina (slot : Nat) | aPitcher_WasPitcher (slot : Nat)
  | aPitcher_BatterOuts (slot : Nat) | aPitcher_OutsPitched (slot : Nat)
  | aPitcher_StrikeOuts (slot : Nat) | aPitcher_StarPitchesThrown (slot : Nat)
  | aInGame_CharAttributes_CharId (slot : Nat) | aInGame_CharAttributes_FieldingHand (slot : Nat)
  | aInGame_CharAttributes_BattingHand (slot : Nat)
  | aBatter_AtBats (slot : Nat) | aBatter_Hits (slot : Nat) | aBatter_Singles (slot : Nat)
  | aBatter_Doubles (slot : Nat) | aBatter_Triples (slot : Nat) | aBatter_Homeruns (slot : Nat)
  | aBatter_BuntSuccess (slot : Nat) | aBatter_SacFlys (slot : Nat) | aBatter_Strikeouts (slot : Nat)
  | aBatter_Walks_4Balls (slot : Nat) | aBatter_Walks_Hit (slot : Nat) | aBatter_RBI (slot : Nat)
  | aBatter_BasesStolen (slot : Nat) | aBatter_StarHits (slot : Nat) | aBatter_BigPlays (slot : Nat)

/-- One tick's view of the outside world: the game memory and the wall clock
read by `std::time`. -/
structure Snapshot where
  cells : Addr → Nat
  unix_time : Nat
  local_time : String

/-- Embeds `Memory::Read_U8`. -/
def Read_U8 (m : Snapshot) (a : Addr) : Nat := m.cells a % 256

/-- Embeds `Memory::Read_U16`. -/
def Read_U16 (m : Snapshot) (a : Addr) : Nat := m.cells a % 65536

/-- Embeds `Memory::Read_U32`. -/
def Read_U32 (m : Snapshot) (a : Addr) : Nat := m.cells a % 4294967296

/-- Roster slots per team (`cRosterSize`); the spec gives 9-slot rosters. -/
def cRosterSize : Nat := 9

/-- Number of teams (`cNumOfTeams`). -/
def cNumOfTeams : Nat := 2

/-- Number of fielding positions (`cNumOfPositions`). -/
def cNumOfPositions : Nat := 9

/-! ## Records -/

/-- Embeds `StatTracker::Fielder`. -/
structure Fielder where
  fielder_roster_loc : Nat
  fielder_char_id : Nat
  fielder_pos : Nat
  fielder_x_pos : Nat
  fielder_y_pos : Nat
  fielder_z_pos : Nat
  fielder_action : Nat
  fielder_jump : Nat
  fielder_manual_select_lock : Nat
  bobble : Nat
  fielder_swapped_for_batter : Nat
  deriving DecidableEq

/-- Embeds `StatTracker::Contact`. -/
structure Contact where
  type_of_contact : Nat
  charge_power_up : Nat
  charge_power_down : Nat
  moon_shot : Nat
  input_direction_push_pull : Nat
  input_direction_stick : Nat
  horiz_power : Nat
  vert_power : Nat
  ball_angle : Nat
  ball_x_velocity : Nat
  ball_y_velocity : Nat
  ball_z_velocity : Nat
  frameOfSwingUponContact : Nat
  ball_x_pos : Nat
  ball_y_pos : Nat
  ball_z_pos : Nat
  prev_ball_x_pos : Nat
  prev_ball_y_pos : Nat
  prev_ball_z_pos : Nat
  ball_y_pos_max_height : Nat
  multi_out : Nat
  primary_contact_result : Nat
  secondary_contact_result : Nat
  first_fielder : Option Fielder
  collect_fielder : Option Fielder
  deriving DecidableEq

/-- Embeds `StatTracker::Pitch`. -/
structure Pitch where
  logged : Bool
  pitcher_team_id : Nat
  pitcher_char_id : Nat
  pitch_type : Nat
  charge_type : Nat
  star_pitch : Nat
  pitch_speed : Nat
  ball_x_pos_upon_hit : Nat
  ball_z_pos_upon_hit : Nat
  batter_x_pos_upon_hit : Nat
  batter_z_pos_upon_hit : Nat
  type_of_swing : Nat
  potential_db : Bool
  db : Nat
  pitch_result : Nat
  contact : Option Contact
  deriving DecidableEq

/-- Embeds `StatTracker::Runner`. -/
structure Runner where
  roster_loc : Nat
  char_id : Nat
  initial_base : Nat
  out_type : Nat
  out_location : Nat
  result_base : Nat
  steal : Nat
  basepath_location : Nat
  deriving DecidableEq

/-- Embeds `StatTracker::Event`: one plate appearance. -/
structure Event where
  event_num : Nat
  inning : Nat
  half_inning : Nat
  away_score : Nat
  home_score : Nat
  balls : Nat
  strikes : Nat
  outs : Nat
  away_stars : Nat
  home_stars : Nat
  is_star_chance : Nat
  chem_links_ob : Nat
  pitcher_stamina : Nat
  pitcher_roster_loc : Nat
  batter_roster_loc : Nat
  catcher_roster_loc : Nat
  history : List EVENT_STATE
  runner_batter : Option Runner
  runner_1 : Option Runner
  runner_2 : Option Runner
  runner_3 : Option Runner
  pitch : Option Pitch
  result_of_atbat : Nat
  rbi : Nat
  manual_select_locks : Fin 9 → Nat
  deriving DecidableEq

/-- Embeds `EndGameRosterDefensiveStats`. -/
structure EndGameRosterDefensiveStats where
  batters_faced : Nat
  runs_allowed : Nat
  earned_runs : Nat
  batters_walked : Nat
  batters_hit : Nat
  hits_allowed : Nat
  homeruns_allowed : Nat
  pitches_thrown : Nat
  stamina : Nat
  was_pitcher : Nat
  batter_outs : Nat
  outs_pitched : Nat
  strike_outs : Nat
  star_pitches_thrown : Nat
  big_plays : Nat
  deriving DecidableEq

/-- Embeds `EndGameRosterOffensiveStats`. -/
structure EndGameRosterOffensiveStats where
  at_bats : Nat
  hits : Nat
  singles : Nat
  doubles : Nat
  triples : Nat
  homeruns : Nat
  successful_bunts : Nat
  sac_flys : Nat
  strikouts : Nat
  walks_4balls : Nat
  walks_hit : Nat
  rbi : Nat
  bases_stolen : Nat
  star_hits : Nat
  deriving DecidableEq

/-- Embeds `CharacterSummary`. -/
structure CharacterSummary where
  char_id : Nat
  is_starred : Nat
  fielding_hand : Nat
  batting_hand : Nat
  end_game_defensive_stats : EndGameRosterDefensiveStats
  end_game_offensive_stats : EndGameRosterOffensiveStats
  deriving DecidableEq

/-- Embeds `LocalPlayers::LocalPlayers::Player`, reduced to the two strings the tracker reads. -/
structure Player where
  username : String
  userid : String
  deriving DecidableEq

/-- Embeds `GameInfo`: the game record.  `events` is the `std::map` from event index to
`Event`, kept as the list of its entries in ascending key order.  The event
counter is a natural number: the width of its C++ type is declared in the
absent header. -/
structure GameInfo where
  game_id : Nat
  start_unix_date_time : String
  start_local_date_time : String
  end_unix_date_time : String
  end_local_date_time : String
  ranked : Bool
  netplay : Bool
  host : Bool
  netplay_opponent_alias : String
  team0_port : Nat
  team1_port : Nat
  away_port : Nat
  home_port : Nat
  team0_captain_roster_loc : Nat
  team1_captain_roster_loc : Nat
  team0_player : Player
  team1_player : Player
  NetplayerUserInfo : Nat → Player
  away_score : Nat
  home_score : Nat
  innings_selected : Nat
  innings_played : Nat
  stadium : Nat
  quitter_team : Nat
  avg_ping : Nat
  lag_spikes : Nat
  character_summaries : Nat → Nat → CharacterSummary
  event_num : Nat
  events : List (Nat × Event)
  previous_state : Option Event
  partial_game : Nat

/-! ## What the absent header declares -/

/-- The declarations of `MSB_StatTracker.h` (and of the configuration globals)
that the translated functions read: the decode tables as partial maps on byte
codes, the values a default-constructed record starts with, the local player
profiles, and the comparisons made on `floatConverter` values. -/
structure Header where
  cCharIdToCharName : Nat → Option String
  cStadiumIdToStadiumName : Nat → Option String
  cTypeOfContactToHR : Nat → Option String
  cHandToHR : Nat → Option String
  cInputDirectionToHR : Nat → Option String
  cPitchTypeToHR : Nat → Option String
  cChargePitchTypeToHR : Nat → Option String
  cTypeOfSwing : Nat → Option String
  cPosition : Nat → Option String
  cFielderActions : Nat → Option String
  cFielderBobbles : Nat → Option String
  cManualSelectDecode : Nat → Option String
  cStealType : Nat → Option String
  cOutType : Nat → Option String
  cPrimaryContactResult : Nat → Option String
  cSecondaryContactResult : Nat → Option String
  cPitchResult : Nat → Option String
  cAtBatResult : Nat → Option String
  rawFielder : Fielder
  rawContact : Contact
  rawPitch : Pitch
  rawRunner : Runner
  rawEvent : Event
  rawGameInfo : GameInfo
  m_local_player_1 : Player
  m_local_player_2 : Player
  m_local_player_3 : Player
  m_local_player_4 : Player
  floatIsNonzero : Nat → Bool
  floatGreater : Nat → Nat → Bool

/-! ## `StatTracker::decode` -/

/-- The `StickVec` branch of `decode`: the names of the set direction bits,
joined by `+`. -/
def decodeStickVec (value : Nat) : String :=
  let retVal := ""
  let retVal :=
    if (value &&& 0x1) > 0 then (if retVal ≠ "" then retVal ++ "+" else retVal) ++ "Left"
    else retVal
  let retVal :=
    if (value &&& 0x2) > 0 then (if retVal ≠ "" then retVal ++ "+" else retVal) ++ "Right"
    else retVal
  let retVal :=
    if (value &&& 0x4) > 0 then (if retVal ≠ "" then retVal ++ "+" else retVal) ++ "Down"
    else retVal
  let retVal :=
    if (value &&& 0x8) > 0 then (if retVal ≠ "" then retVal ++ "+" else retVal) ++ "Up"
    else retVal
  retVal

/-- The pattern `if (table.count(value)) retVal = table.at(value);`. -/
def lookupOr (table : Nat → Option String) (value : Nat) (retVal : String) : String :=
  match table value with
  | some label => label
  | none => retVal

/-- The `QuitterTeam` branch of `decode`. -/
def decodeQuitterTeam (value : Nat) (retVal : String) : String :=
  if value = 0 then "Home"
  else if value = 1 then "Away"
  else if value = 2 then "Crash"
  else if value = 0xFF then "None"
  else retVal

/-- The label selected by the chain of `type ==` tests in `decode`, before the
invalid-value suffix is considered. -/
def decodeLabel (H : Header) (type : String) (value : Nat) : String :=
  let retVal := "Unable to Decode"
  if type = "Character" then lookupOr H.cCharIdToCharName value retVal
  else if type = "Stadium" then lookupOr H.cStadiumIdToStadiumName value retVal
  else if type = "Contact" then lookupOr H.cTypeOfContactToHR value retVal
  else if type = "Hand" then lookupOr H.cHandToHR value retVal
  else if type = "Stick" then lookupOr H.cInputDirectionToHR value retVal
  else if type = "StickVec" then decodeStickVec value
  else if type = "Pitch" then lookupOr H.cPitchTypeToHR value retVal
  else if type = "ChargePitch" then lookupOr H.cChargePitchTypeToHR value retVal
  else if type = "Swing" then lookupOr H.cTypeOfSwing value retVal
  else if type = "Position" then lookupOr H.cPosition value retVal
  else if type = "Action" then lookupOr H.cFielderActions value retVal
  else if type = "Bobble" then lookupOr H.cFielderBobbles value retVal
  else if type = "ManualSelect" then lookupOr H.cManualSelectDecode value retVal
  else if type = "Steal" then lookupOr H.cStealType value retVal
  else if type = "Out" then lookupOr H.cOutType value retVal
  else if type = "PrimaryContactResult" then lookupOr H.cPrimaryContactResult value retVal
  else if type = "SecondaryContactResult" then lookupOr H.cSecondaryContactResult value retVal
  else if type = "PitchResult" then lookupOr H.cPitchResult value retVal
  else if type = "AtBatResult" then lookupOr H.cAtBatResult value retVal
  else if type = "QuitterTeam" then decodeQuitterTeam value retVal
  else retVal ++ ". Invalid Type (" ++ type ++ ")"

/-- Embeds `StatTracker::decode(type, value, decode)`; `value` is a `u8`. -/
def decode (H : Header) (type : String) (value : Nat) (decode : Bool) : String :=
  if !decode then toString value
  else
    let retVal := decodeLabel H type value
    let retVal :=
      if retVal = "Unable to Decode" then retVal ++ ". Invalid Value (" ++ toString value ++ ")."
      else retVal
    "\"" ++ retVal ++ "\""


/-! ## Default-constructed records -/

/-- Embeds `Fielder()`: every field as the header initialises it. -/
def newFielder (H : Header) : Fielder := H.rawFielder

/-- Embeds `Contact()`: both fielder optionals start empty. -/
def newContact (H : Header) : Contact :=
  { H.rawContact with first_fielder := none, collect_fielder := none }

/-- Modelled from the spec: `Pitch()` of the absent header.  The contact
optional starts empty, and `potential_db` starts false (it "starts true when
pitcher begins centered", which the creating code sets explicitly). -/
def newPitch (H : Header) : Pitch :=
  { H.rawPitch with potential_db := false, contact := none }

/-- Modelled from the spec: `Runner()` of the absent header.  A fresh runner has
no out classification (`out_type = 0`, the value `logRunnerEvents` tests). -/
def newRunner (H : Header) : Runner :=
  { H.rawRunner with out_type := 0 }

/-- Embeds `Event()`: empty history, no runners, no pitch. -/
def newEvent (H : Header) : Event :=
  { H.rawEvent with
    history := [], runner_batter := none, runner_1 := none, runner_2 := none,
    runner_3 := none, pitch := none }

/-- Modelled from the spec: `GameInfo()` of the absent header.  No events, the
counter at 0, no previous event, and the ports and captain slots at the unset
sentinel `0xFF` that `initPlayerInfo` tests. -/
def newGameInfo (H : Header) : GameInfo :=
  { H.rawGameInfo with
    event_num := 0, events := [], previous_state := none, partial_game := 0,
    team0_port := 0xFF, team1_port := 0xFF,
    team0_captain_roster_loc := 0xFF, team1_captain_roster_loc := 0xFF }

/-! ## The events map (`std::map`) -/

/-- Embeds `map.find(k)` / `map.count(k)`: the entry stored under `k`, if any. -/
def mapFind {α : Type} (k : Nat) : List (Nat × α) → Option α
  | [] => none
  | (k', v) :: rest => if k' = k then some v else mapFind k rest

/-- Embeds `map[k] = v`: insert in key order, or overwrite the entry already under `k`. -/
def mapAssign {α : Type} (k : Nat) (v : α) : List (Nat × α) → List (Nat × α)
  | [] => [(k, v)]
  | (k', v') :: rest =>
    if k < k' then (k, v) :: (k', v') :: rest
    else if k = k' then (k, v) :: rest
    else (k', v') :: mapAssign k v rest

/-- Embeds `map.erase(map.find(k))` for a key that is present. -/
def mapErase {α : Type} (k : Nat) : List (Nat × α) → List (Nat × α)
  | [] => []
  | (k', v') :: rest => if k' = k then rest else (k', v') :: mapErase k rest

/-- The keys of the map, in iteration order. -/
def mapKeys {α : Type} (m : List (Nat × α)) : List Nat := m.map Prod.fst

/-- Modelled from the spec: `GameInfo::currentEventVld()` of the absent header;
the current event is the entry keyed by the event counter (the key the quit
path erases). -/
def GameInfo.currentEventVld (gi : GameInfo) : Bool :=
  (mapFind gi.event_num gi.events).isSome

/-- Modelled from the spec: `GameInfo::getCurrentEvent()` of the absent header,
`events.at(event_num)`; `none` when there is no such entry. -/
def GameInfo.getCurrentEvent (gi : GameInfo) : Option Event :=
  mapFind gi.event_num gi.events

/-- Write back through the reference returned by `getCurrentEvent()`. -/
def GameInfo.setCurrentEvent (gi : GameInfo) (ev : Event) : GameInfo :=
  { gi with events := mapAssign gi.event_num ev gi.events }

/-- Modelled from the spec: `GameInfo::getAwayTeamPlayer()` of the absent
header, the selection `getStatJsonPath` spells out. -/
def GameInfo.getAwayTeamPlayer (gi : GameInfo) : Player :=
  if gi.away_port = gi.team0_port then gi.team0_player else gi.team1_player

/-- Modelled from the spec: `GameInfo::getHomeTeamPlayer()` of the absent
header, the selection `getStatJsonPath` spells out. -/
def GameInfo.getHomeTeamPlayer (gi : GameInfo) : Player :=
  if gi.away_port = gi.team0_port then gi.team1_player else gi.team0_player

/-! ## The fielder tracker -/

/-- Per-roster-slot counters of the fielder tracker, each indexed by position. -/
structure FielderInfo where
  pitch_count_by_position : Nat → Nat
  batter_outs_by_position : Nat → Nat
  out_count_by_position : Nat → Nat

/-- Modelled from the spec: the `FielderTracker` class of the absent header:
per-roster-slot counters indexed by position, the most recently recorded
position of each roster slot, and the substitution table for the current
batter. -/
structure FielderTracker where
  fielder_map : Nat → FielderInfo
  current_position : Nat → Option Nat
  swapped_for_batter : Nat → Bool

/-- Overwrite one slot of a table. -/
def setAt {α : Type} (f : Nat → α) (i : Nat) (v : α) : Nat → α :=
  fun j => if j = i then v else f j

/-- Modelled from the spec: a default-constructed `FielderTracker`: all counters
zero, no position recorded, no substitution. -/
def newFielderTracker : FielderTracker :=
  { fielder_map := fun _ =>
      { pitch_count_by_position := fun _ => 0
        batter_outs_by_position := fun _ => 0
        out_count_by_position := fun _ => 0 }
    current_position := fun _ => none
    swapped_for_batter := fun _ => false }

/-- Modelled from the spec: `FielderTracker::incrementOutForPosition(roster_loc,
pos)`, "increment-out-for-position": one more out for that roster slot at that
position. -/
def FielderTracker.incrementOutForPosition (t : FielderTracker) (roster_loc pos : Nat) :
    FielderTracker :=
  let slot := t.fielder_map roster_loc
  let slot' : FielderInfo :=
    { slot with
      out_count_by_position :=
        setAt slot.out_count_by_position pos (slot.out_count_by_position pos + 1) }
  { t with fielder_map := setAt t.fielder_map roster_loc slot' }

/-- Modelled from the spec: `FielderTracker::incrementBatterOutForPosition()`,
"increment-batter-out-for-all-currently-fielding-positions": every roster slot
with a recorded position gets one more batter out at that position. -/
def FielderTracker.incrementBatterOutForPosition (t : FielderTracker) : FielderTracker :=
  { t with
    fielder_map := fun roster_loc =>
      let slot := t.fielder_map roster_loc
      match t.current_position roster_loc with
      | none => slot
      | some pos =>
        { slot with
          batter_outs_by_position :=
            setAt slot.batter_outs_by_position pos (slot.batter_outs_by_position pos + 1) } }

/-- One position of `evaluateFielders`: the roster slot read at `pos` is marked
substituted iff its last recorded position differs, is recorded at `pos`, and
gets one more pitch there. -/
def FielderTracker.evaluateFielderAt (mem : Snapshot) (t : FielderTracker) (pos : Nat) :
    FielderTracker :=
  let roster_loc := Read_U8 mem (.aFielder_RosterLoc pos)
  let slot := t.fielder_map roster_loc
  let changed : Bool :=
    match t.current_position roster_loc with
    | none => false
    | some old => decide (old ≠ pos)
  let slot' : FielderInfo :=
    { slot with
      pitch_count_by_position :=
        setAt slot.pitch_count_by_position pos (slot.pitch_count_by_position pos + 1) }
  { fielder_map := setAt t.fielder_map roster_loc slot'
    current_position := setAt t.current_position roster_loc (some pos)
    swapped_for_batter := setAt t.swapped_for_batter roster_loc changed }

/-- Modelled from the spec: `FielderTracker::evaluateFielders()`,
"record-a-pitch-at-position" with substitution detection: the substitution
table is cleared, then every position is evaluated in order. -/
def FielderTracker.evaluateFielders (mem : Snapshot) (t : FielderTracker) : FielderTracker :=
  (List.range cRosterSize).foldl (FielderTracker.evaluateFielderAt mem)
    { t with swapped_for_batter := fun _ => false }

/-- Modelled from the spec: `FielderTracker::wasFielderSwappedForBatter(roster_loc)`. -/
def FielderTracker.wasFielderSwappedForBatter (t : FielderTracker) (roster_loc : Nat) : Nat :=
  if t.swapped_for_batter roster_loc then 1 else 0

/-- Modelled from the spec: the query predicates `pitchesAtAnyPosition`,
`batterOutsAtAnyPosition`, `outsAtAnyPosition`: some position at or above the
threshold has a nonzero counter. -/
def anyPositionFrom (counts : Nat → Nat) (pos : Nat) : Bool :=
  (List.range cNumOfPositions).any fun p => decide (pos ≤ p) && decide (0 < counts p)

/-- Embeds `m_fielder_tracker[!half_inning]`: the index of the fielding side's tracker. -/
def fieldingTracker (half_inning : Nat) : Nat := if half_inning = 0 then 1 else 0

/-! ## Snapshot helpers of the state machines -/

/-- Overwrite one cell of the two-team character summary table. -/
def setSummary (cs : Nat → Nat → CharacterSummary) (team roster : Nat) (v : CharacterSummary) :
    Nat → Nat → CharacterSummary :=
  fun t r => if t = team ∧ r = roster then v else cs t r

/-- The summary row a memory team is written to: `adjusted_team_id` of
`logDefensiveStats` and `logOffensiveStats`. -/
def adjustedTeamId (gi : GameInfo) (in_team_id : Nat) : Nat :=
  if in_team_id = 0 then (if gi.team0_port = gi.away_port then 1 else 0)
  else (if gi.team1_port = gi.away_port then 1 else 0)

/-- Embeds `StatTracker::logDefensiveStats(in_team_id, roster_id)`. -/
def logDefensiveStats (mem : Snapshot) (gi : GameInfo) (in_team_id roster_id : Nat) : GameInfo :=
  let slot := in_team_id * cRosterSize + roster_id
  let adjusted_team_id := adjustedTeamId gi in_team_id
  let summary := gi.character_summaries adjusted_team_id roster_id
  let stat : EndGameRosterDefensiveStats :=
    { summary.end_game_defensive_stats with
      batters_faced := Read_U8 mem (.aPitcher_BattersFaced slot)
      runs_allowed := Read_U16 mem (.aPitcher_RunsAllowed slot)
      earned_runs := Read_U16 mem (.aPitcher_RunsAllowed slot)
      batters_walked := Read_U16 mem (.aPitcher_BattersWalked slot)
      batters_hit := Read_U16 mem (.aPitcher_BattersHit slot)
      hits_allowed := Read_U16 mem (.aPitcher_HitsAllowed slot)
      homeruns_allowed := Read_U16 mem (.aPitcher_HRsAllowed slot)
      pitches_thrown := Read_U16 mem (.aPitcher_PitchesThrown slot)
      stamina := Read_U16 mem (.aPitcher_Stamina slot)
      was_pitcher := Read_U8 mem (.aPitcher_WasPitcher slot)
      batter_outs := Read_U8 mem (.aPitcher_BatterOuts slot)
      outs_pitched := Read_U8 mem (.aPitcher_OutsPitched slot)
      strike_outs := Read_U8 mem (.aPitcher_StrikeOuts slot)
      star_pitches_thrown := Read_U8 mem (.aPitcher_StarPitchesThrown slot) }
  let summary' : CharacterSummary :=
    { summary with
      is_starred := Read_U8 mem (.aPitcher_IsStarred slot)
      end_game_defensive_stats := stat
      char_id := Read_U8 mem (.aInGame_CharAttributes_CharId slot)
      fielding_hand := Read_U8 mem (.aInGame_CharAttributes_FieldingHand slot)
      batting_hand := Read_U8 mem (.aInGame_CharAttributes_BattingHand slot) }
  { gi with
    character_summaries := setSummary gi.character_summaries adjusted_team_id roster_id summary' }

/-- Embeds `StatTracker::logOffensiveStats(in_team_id, roster_id)`. -/
def logOffensiveStats (mem : Snapshot) (gi : GameInfo) (in_team_id roster_id : Nat) : GameInfo :=
  let slot := in_team_id * cRosterSize + roster_id
  let adjusted_team_id := adjustedTeamId gi in_team_id
  let summary := gi.character_summaries adjusted_team_id roster_id
  let stat : EndGameRosterOffensiveStats :=
    { at_bats := Read_U8 mem (.aBatter_AtBats slot)
      hits := Read_U8 mem (.aBatter_Hits slot)
      singles := Read_U8 mem (.aBatter_Singles slot)
      doubles := Read_U8 mem (.aBatter_Doubles slot)
      triples := Read_U8 mem (.aBatter_Triples slot)
      homeruns := Read_U8 mem (.aBatter_Homeruns slot)
      successful_bunts := Read_U8 mem (.aBatter_BuntSuccess slot)
      sac_flys := Read_U8 mem (.aBatter_SacFlys slot)
      strikouts := Read_U8 mem (.aBatter_Strikeouts slot)
      walks_4balls := Read_U8 mem (.aBatter_Walks_4Balls slot)
      walks_hit := Read_U8 mem (.aBatter_Walks_Hit slot)
      rbi := Read_U8 mem (.aBatter_RBI slot)
      bases_stolen := Read_U8 mem (.aBatter_BasesStolen slot)
      star_hits := Read_U8 mem (.aBatter_StarHits slot) }
  let def_stat : EndGameRosterDefensiveStats :=
    { summary.end_game_defensive_stats with big_plays := Read_U8 mem (.aBatter_BigPlays slot) }
  let summary' : CharacterSummary :=
    { summary with end_game_offensive_stats := stat, end_game_defensive_stats := def_stat }
  { gi with
    character_summaries := setSummary gi.character_summaries adjusted_team_id roster_id summary' }

/-- The body of the two nested loops of `logGameInfo` for one `(team, roster)`. -/
def logRosterStats (mem : Snapshot) (gi : GameInfo) (team roster : Nat) : GameInfo :=
  logOffensiveStats mem (logDefensiveStats mem gi team roster) team roster

/-- Embeds `StatTracker::logGameInfo()`. -/
def logGameInfo (mem : Snapshot) (gi : GameInfo) : GameInfo :=
  let gi : GameInfo :=
    { gi with
      end_unix_date_time := toString mem.unix_time
      end_local_date_time := mem.local_time
      stadium := Read_U8 mem .aStadiumId
      innings_selected := Read_U8 mem .aInningsSelected
      innings_played := Read_U8 mem .aAB_Inning
      away_score := Read_U16 mem .aAwayTeam_Score
      home_score := Read_U16 mem .aHomeTeam_Score }
  (List.range cNumOfTeams).foldl
    (fun g team => (List.range cRosterSize).foldl (fun g roster => logRosterStats mem g team roster) g)
    gi

/-- Embeds `StatTracker::logEventState(in_event)`. -/
def logEventState (mem : Snapshot) (gi : GameInfo) (in_event : Event) : Event :=
  let team0_is_away : Bool := decide (gi.team0_port = gi.away_port)
  let pitching_team_0_or_1 : Nat := if Read_U8 mem .aAB_PitcherPort = gi.team1_port then 1 else 0
  let pitcher_roster_loc := Read_U8 mem .aAB_PitcherRosterID
  let pitcherStaminaSlot := pitching_team_0_or_1 * cRosterSize + pitcher_roster_loc
  { in_event with
    inning := Read_U8 mem .aAB_Inning
    half_inning := Read_U8 mem .aAB_HalfInning
    away_score := Read_U16 mem .aAwayTeam_Score
    home_score := Read_U16 mem .aHomeTeam_Score
    balls := Read_U8 mem .aAB_Balls
    strikes := Read_U8 mem .aAB_Strikes
    outs := Read_U8 mem .aAB_Outs
    away_stars := if team0_is_away then Read_U8 mem .aAB_P1_Stars else Read_U8 mem .aAB_P2_Stars
    home_stars := if team0_is_away then Read_U8 mem .aAB_P2_Stars else Read_U8 mem .aAB_P1_Stars
    is_star_chance := Read_U8 mem .aAB_IsStarChance
    chem_links_ob := Read_U8 mem .aAB_ChemLinksOnBase
    pitcher_stamina := Read_U16 mem (.aPitcher_Stamina pitcherStaminaSlot)
    pitcher_roster_loc := Read_U8 mem .aAB_PitcherRosterID
    batter_roster_loc := Read_U8 mem .aAB_BatterRosterID
    catcher_roster_loc := Read_U8 mem (.aFielder_RosterLoc 1) }

/-- Embeds `StatTracker::logRunnerInfo(base)`: the runner starting on `base`, if a roster
slot occupies it. -/
def logRunnerInfo (H : Header) (mem : Snapshot) (base : Nat) : Option Runner :=
  if Read_U8 mem (.aRunner_RosterLoc base) ≠ 0xFF then
    some
      { newRunner H with
        roster_loc := Read_U8 mem (.aRunner_RosterLoc base)
        char_id := Read_U8 mem (.aRunner_CharId base)
        initial_base := base
        basepath_location := Read_U32 mem (.aRunner_BasepathPercentage base) }
  else none

/-- Embeds `StatTracker::logRunnerEvents(in_runner)`. -/
def logRunnerEvents (mem : Snapshot) (in_runner : Runner) : Runner :=
  if in_runner.out_type ≠ 0 then in_runner
  else
    let out_type := Read_U8 mem (.aRunner_OutType in_runner.initial_base)
    let r : Runner :=
      if out_type ≠ 0 then
        { in_runner with
          out_type := out_type
          out_location := Read_U8 mem (.aRunner_CurrentBase in_runner.initial_base)
          result_base := 0xFF
          basepath_location := Read_U32 mem (.aRunner_BasepathPercentage in_runner.initial_base) }
      else
        { in_runner with
          out_type := out_type
          result_base := Read_U8 mem (.aRunner_CurrentBase in_runner.initial_base) }
    if Read_U8 mem (.aRunner_Stealing r.initial_base) > r.steal then
      { r with steal := Read_U8 mem (.aRunner_Stealing r.initial_base) }
    else r

/-- Embeds `StatTracker::logPitch(in_event)`; every access is `in_event.pitch->`. -/
def logPitch (mem : Snapshot) (gi : GameInfo) (in_event : Event) : Option Event := do
  let pitch ← in_event.pitch
  let swing_type := Read_U8 mem .aAB_TypeOfSwing
  let star_swing := Read_U8 mem .aAB_StarSwing
  let adjusted_swing : Nat := if star_swing ≠ 0 then 3 else (swing_type + 1) % 256
  let miss_type := Read_U8 mem .aAB_Miss_SwingOrBunt
  let pitch' : Pitch :=
    { pitch with
      logged := true
      pitcher_team_id := if Read_U8 mem .aAB_PitcherPort = gi.away_port then 1 else 0
      pitcher_char_id := Read_U8 mem .aAB_PitcherID
      pitch_type := Read_U8 mem .aAB_PitchType
      charge_type := Read_U8 mem .aAB_ChargePitchType
      star_pitch :=
        if Read_U8 mem .aAB_StarPitch_NonCaptain > 0 ∨ Read_U8 mem .aAB_StarPitch_Captain > 0
        then 1 else 0
      pitch_speed := Read_U8 mem .aAB_PitchSpeed
      ball_x_pos_upon_hit := Read_U32 mem .aAB_BallPos_X_Upon_Hit
      ball_z_pos_upon_hit := Read_U32 mem .aAB_BallPos_Z_Upon_Hit
      batter_x_pos_upon_hit := Read_U32 mem .aAB_BatterPos_X_Upon_Hit
      batter_z_pos_upon_hit := Read_U32 mem .aAB_BatterPos_Z_Upon_Hit
      type_of_swing :=
        if miss_type = 0 then 0
        else if miss_type ≥ 1 then adjusted_swing
        else pitch.type_of_swing }
  pure { in_event with pitch := some pitch' }

/-- Embeds `StatTracker::logContact(in_event)`: `in_event.pitch.value()` throws when no
pitch exists; otherwise a fresh `Contact` is created and filled. -/
def logContact (H : Header) (mem : Snapshot) (in_event : Event) : Option Event := do
  let pitch ← in_event.pitch
  let controller : Int := (Read_U8 mem .aAB_BatterPort : Int) - 1
  let contact : Contact :=
    { newContact H with
      type_of_contact := Read_U8 mem .aAB_TypeOfContact
      charge_power_up := Read_U32 mem .aAB_ChargeUp
      charge_power_down := Read_U32 mem .aAB_ChargeDown
      moon_shot := Read_U8 mem .aAB_MoonShot
      input_direction_push_pull := Read_U8 mem .aAB_InputDirection
      input_direction_stick := Read_U16 mem (.aAB_ControlStickInput controller) &&& 0xF
      horiz_power := Read_U16 mem .aAB_HorizPower
      vert_power := Read_U16 mem .aAB_VertPower
      ball_angle := Read_U16 mem .aAB_BallAngle
      ball_x_velocity := Read_U32 mem .aAB_BallVel_X
      ball_y_velocity := Read_U32 mem .aAB_BallVel_Y
      ball_z_velocity := Read_U32 mem .aAB_BallVel_Z
      frameOfSwingUponContact := Read_U16 mem .aAB_FrameOfSwingAnimUponContact }
  pure { in_event with pitch := some { pitch with contact := some contact } }

/-- The body of the loop of `logFielderWithBall` at one position: the fielder
there, if its control status is `0xA`.  `locks` is the `manual_select_locks`
array of the current event. -/
def fielderWithBallAt (H : Header) (mem : Snapshot) (locks : Fin 9 → Nat) (pos : Fin 9) :
    Option Fielder :=
  if Read_U8 mem (.aFielder_ControlStatus pos) = 0xA then
    let f := newFielder H
    some
      { f with
        fielder_roster_loc := Read_U8 mem (.aFielder_RosterLoc pos)
        fielder_char_id := Read_U8 mem (.aFielder_CharId pos)
        fielder_pos := pos
        fielder_x_pos := Read_U32 mem (.aFielder_Pos_X pos)
        fielder_y_pos := Read_U32 mem (.aFielder_Pos_Y pos)
        fielder_z_pos := Read_U32 mem (.aFielder_Pos_Z pos)
        fielder_action :=
          if Read_U8 mem (.aFielder_Action pos) ≠ 0 then Read_U8 mem (.aFielder_Action pos)
          else f.fielder_action
        fielder_jump :=
          if Read_U8 mem (.aFielder_AnyJump pos) ≠ 0 then Read_U8 mem (.aFielder_AnyJump pos)
          else f.fielder_jump
        fielder_manual_select_lock := locks pos }
  else none

/-- Embeds `StatTracker::logFielderWithBall()`: the first position, in index order,
whose fielder holds the ball. -/
def logFielderWithBall (H : Header) (mem : Snapshot) (locks : Fin 9 → Nat) : Option Fielder :=
  (List.finRange 9).findSome? (fielderWithBallAt H mem locks)

/-- Embeds `typeOfFielderDisruption` of `logFielderBobble` at one position. -/
def typeOfFielderDisruption (mem : Snapshot) (pos : Nat) : Nat :=
  if Read_U8 mem (.aFielder_Knockout pos) ≠ 0 then 0x10
  else if Read_U8 mem (.aFielder_Bobble pos) ≠ 0 then Read_U8 mem (.aFielder_Bobble pos)
  else 0

/-- The body of the loop of `logFielderBobble` at one position. -/
def fielderBobbleAt (H : Header) (mem : Snapshot) (pos : Fin 9) : Option Fielder :=
  if typeOfFielderDisruption mem pos > 0x1 then
    let f := newFielder H
    some
      { f with
        fielder_roster_loc := Read_U8 mem (.aFielder_RosterLoc pos)
        fielder_char_id := Read_U8 mem (.aFielder_CharId pos)
        fielder_x_pos := Read_U32 mem (.aFielder_Pos_X pos)
        fielder_y_pos := Read_U32 mem (.aFielder_Pos_Y pos)
        fielder_z_pos := Read_U32 mem (.aFielder_Pos_Z pos)
        fielder_pos := pos
        bobble := typeOfFielderDisruption mem pos
        fielder_action :=
          if Read_U8 mem (.aFielder_Action pos) ≠ 0 then Read_U8 mem (.aFielder_Action pos)
          else f.fielder_action
        fielder_jump :=
          if Read_U8 mem (.aFielder_AnyJump pos) ≠ 0 then Read_U8 mem (.aFielder_AnyJump pos)
          else f.fielder_jump
        fielder_manual_select_lock := Read_U8 mem (.aFielder_ManualSelectLock pos) }
  else none

/-- Embeds `StatTracker::logFielderBobble()`: the first position, in index order, whose
fielder bobbled or was knocked out. -/
def logFielderBobble (H : Header) (mem : Snapshot) : Option Fielder :=
  (List.finRange 9).findSome? (fielderBobbleAt H mem)

/-! ## Derivation rules -/

/-- The two fielder trackers, `m_fielder_tracker[0]` and `m_fielder_tracker[1]`. -/
abbrev Trackers := Nat → FielderTracker

/-- Embeds `StatTracker::logContactResult(in_contact)`.  `cur` is the current event (it
supplies `half_inning` and the manual-select array), `m_event_state` the event
state on entry; the result carries the contact, the event state and the
trackers as the function leaves them.  On code 3 the collecting fielder is
dereferenced without a presence test. -/
def logContactResult (H : Header) (mem : Snapshot) (cur : Event) (m_event_state : EVENT_STATE)
    (trk : Trackers) (in_contact : Contact) : Option (Contact × EVENT_STATE × Trackers) :=
  let result := Read_U8 mem .aAB_ContactResult
  if result = 1 ∨ result = 2 then
    let c : Contact :=
      { in_contact with
        primary_contact_result := result + 1
        ball_x_pos := Read_U32 mem .aAB_BallPos_X
        ball_y_pos := Read_U32 mem .aAB_BallPos_Y
        ball_z_pos := Read_U32 mem .aAB_BallPos_Z
        collect_fielder := logFielderWithBall H mem cur.manual_select_locks }
    some (c, EVENT_STATE.LOG_FIELDER, trk)
  else if result = 3 then
    let c : Contact :=
      { in_contact with
        primary_contact_result := 0
        secondary_contact_result := 0
        ball_x_pos := in_contact.prev_ball_x_pos
        ball_y_pos := in_contact.prev_ball_y_pos
        ball_z_pos := in_contact.prev_ball_z_pos
        collect_fielder := logFielderWithBall H mem cur.manual_select_locks }
    match c.collect_fielder with
    | none => none
    | some f =>
      let fielding_team_id := fieldingTracker cur.half_inning
      let trk' : Trackers :=
        setAt trk fielding_team_id
          ((trk fielding_team_id).incrementOutForPosition f.fielder_roster_loc f.fielder_pos)
      let f' : Fielder :=
        { f with
          fielder_swapped_for_batter :=
            (trk' fielding_team_id).wasFielderSwappedForBatter f.fielder_roster_loc }
      some ({ c with collect_fielder := some f' }, m_event_state, trk')
  else if result = 0xFF then
    let c : Contact :=
      { in_contact with
        primary_contact_result := 1
        secondary_contact_result := 3
        ball_x_pos := Read_U32 mem .aAB_BallPos_X
        ball_y_pos := Read_U32 mem .aAB_BallPos_Y
        ball_z_pos := Read_U32 mem .aAB_BallPos_Z }
    some (c, m_event_state, trk)
  else
    let c : Contact :=
      { in_contact with
        primary_contact_result := result
        secondary_contact_result := 0xFF
        ball_x_pos := Read_U32 mem .aAB_BallPos_X
        ball_y_pos := Read_U32 mem .aAB_BallPos_Y
        ball_z_pos := Read_U32 mem .aAB_BallPos_Z }
    some (c, m_event_state, trk)

/-- First statement of `logFinalResults`: a strikeout (`result_of_atbat == 1`)
is written into the batter-runner as out type `0x10`. -/
def logStrikeout (in_event : Event) : Option Event :=
  if in_event.result_of_atbat = 1 then do
    let r ← in_event.runner_batter
    pure { in_event with runner_batter := some { r with out_type := 0x10 } }
  else some in_event

/-- Second statement of `logFinalResults`: the guarded block that fills in the
secondary contact result. -/
def logSecondaryResult (in_event : Event) : Option Event :=
  match in_event.pitch with
  | none => some in_event
  | some p =>
    match p.contact with
    | none => some in_event
    | some contact =>
      if 0x7 ≤ in_event.result_of_atbat ∧ in_event.result_of_atbat ≤ 0xF then
        some { in_event with
               pitch := some { p with
                 contact := some { contact with
                   secondary_contact_result := in_event.result_of_atbat
                   primary_contact_result := 2 } } }
      else do
        let r ← in_event.runner_batter
        if r.out_type = 2 ∨ r.out_type = 3 then
          pure { in_event with
                 pitch := some { p with
                   contact := some { contact with secondary_contact_result := r.out_type } } }
        else if r.out_type = 0 ∧ in_event.result_of_atbat = 4 then
          pure { in_event with
                 pitch := some { p with
                   contact := some { contact with
                     secondary_contact_result := in_event.result_of_atbat } } }
        else pure in_event

/-- The fielder credited with a forced out at first: the first toucher if one
was recorded, else `collect_fielder.value()`. -/
def creditedFielder (contact : Contact) : Option Fielder :=
  match contact.first_fielder with
  | some f => some f
  | none => contact.collect_fielder

/-- Embeds `StatTracker::logFinalResults(in_event)`, called on the current event.  After
the guarded block, `in_event.pitch->contact->multi_out` and the fielder lookup
go through the optionals without a presence test. -/
def logFinalResults (mem : Snapshot) (in_event : Event) (trk : Trackers) :
    Option (Event × Trackers) := do
  let ev ← logStrikeout in_event
  let ev ← logSecondaryResult ev
  let p ← ev.pitch
  let contact ← p.contact
  let numOuts := Read_U8 mem .aAB_NumOutsDuringPlay
  let contact : Contact := { contact with multi_out := if numOuts > 1 then 1 else 0 }
  let ev : Event := { ev with pitch := some { p with contact := some contact } }
  let fielding_team_id := fieldingTracker ev.half_inning
  let trk : Trackers :=
    if numOuts > 0 then
      setAt trk fielding_team_id (trk fielding_team_id).incrementBatterOutForPosition
    else trk
  let r ← ev.runner_batter
  if r.out_type = 2 then do
    let fielder ← creditedFielder contact
    pure (ev, setAt trk fielding_team_id
      ((trk fielding_team_id).incrementOutForPosition fielder.fielder_roster_loc fielder.fielder_pos))
  else pure (ev, trk)

/-! ## Documents -/

/-- Entries of the events map for which `getStatJSON` emits an event object, in
iteration order: the loop skips entries whose `inning` is 0. -/
def statEventEntries (gi : GameInfo) : List (Nat × Event) :=
  gi.events.filter fun kv => decide (kv.2.inning ≠ 0)

/-- The number written as `Event Num`: the map key assigned to a `u8`. -/
def emittedEventNum (key : Nat) : Nat := key % 256

/-- One `... Per Position` block of the serializers: `cPosition.at(pos)` is
evaluated for every position with a nonzero counter, and throws when the
position has no label. -/
def positionLabelsOk (H : Header) (counts : Nat → Nat) : Bool :=
  !(anyPositionFrom counts 0) ||
    (List.range cNumOfPositions).all fun pos => !(decide (counts pos > 0)) || (H.cPosition pos).isSome

/-- The three per-position blocks of one character entry. -/
def rosterLabelsOk (H : Header) (t : FielderTracker) (roster : Nat) : Bool :=
  positionLabelsOk H (t.fielder_map roster).pitch_count_by_position &&
  positionLabelsOk H (t.fielder_map roster).batter_outs_by_position &&
  positionLabelsOk H (t.fielder_map roster).out_count_by_position

/-- The character loop of the serializers: summary row `team` is rendered from
tracker `1 - team`. -/
def trackerLabelsOk (H : Header) (trk : Trackers) : Bool :=
  (List.range cNumOfTeams).all fun team =>
    (List.range cRosterSize).all fun roster =>
      rosterLabelsOk H (trk (if team = 0 then 1 else 0)) roster

/-- Whether `getStatJSON(inDecode)` returns: in decoded mode the stadium name is
fetched with `cStadiumIdToStadiumName.at`, and the position labels with
`cPosition.at`; `decode` itself never throws. -/
def getStatJSON_completes (H : Header) (gi : GameInfo) (trk : Trackers) (inDecode : Bool) : Bool :=
  (!inDecode || (H.cStadiumIdToStadiumName gi.stadium).isSome) && trackerLabelsOk H trk

/-- Whether `getHUDJSON` returns: an event with inning 0 yields the empty object at
once; otherwise the position labels are fetched with `cPosition.at`. -/
def getHUDJSON_completes (H : Header) (trk : Trackers) (in_curr_event : Event) : Bool :=
  decide (in_curr_event.inning = 0) || trackerLabelsOk H trk

/-- What a tick hands to the emitter.  A document is recorded by the data it is
rendered from at the moment of the call, not by its text. -/
inductive Output where
  /-- The file `decoded.hud.json`: `getHUDJSON(label, curr, prev, true)`. -/
  | hudFile (label : String) (gi : GameInfo) (trk : Trackers) (curr : Event) (prev : Option Event)
  /-- The file `getStatJsonPath(tag)`: `getStatJSON(inDecode)`. -/
  | statFile (tag : String) (inDecode : Bool) (gi : GameInfo) (trk : Trackers)
  /-- The POST of `getStatJSON(false)`. -/
  | post (gi : GameInfo) (trk : Trackers)
  /-- Removal of the file `getStatJsonPath(tag)`. -/
  | deleteFile (tag : String)

/-- The Events array of a written full-game document; empty for other outputs. -/
def Output.events : Output → List (Nat × Event)
  | .statFile _ _ gi _ => statEventEntries gi
  | .post gi _ => statEventEntries gi
  | _ => []

/-! ## The tracker -/

/-- Embeds `mTrackerInfo`: the user's switches. -/
structure TrackerInfo where
  mRecord : Bool
  mSubmit : Bool
  mDisplay : Bool

/-- Embeds `m_state`: the session settings sampled at game start. -/
structure SessionState where
  m_ranked_status : Bool
  m_netplay_session : Bool
  m_is_host : Bool
  m_netplay_opponent_alias : String

/-- The mutable members of `StatTracker`, with the list of everything handed to
the emitter so far (oldest first). -/
structure StatTracker where
  m_game_state : GAME_STATE
  m_game_state_prev : GAME_STATE
  m_event_state : EVENT_STATE
  m_event_state_prev : EVENT_STATE
  m_game_info : GameInfo
  m_fielder_tracker : Trackers
  mTrackerInfo : TrackerInfo
  m_state : SessionState
  written : List Output

/-- Embeds `StatTracker::shouldSubmitGame()`. -/
def shouldSubmitGame (st : StatTracker) : Bool :=
  let cpuInGame : Bool :=
    decide (st.m_game_info.getAwayTeamPlayer.userid = "CPU") ||
    decide (st.m_game_info.getHomeTeamPlayer.userid = "CPU")
  !cpuInGame && st.mTrackerInfo.mSubmit

/-- The default player with both strings set to `CPU`. -/
def cpuPlayer : Player := { username := "CPU", userid := "CPU" }

/-- Embeds `StatTracker::readPlayerNames(local_game)`. -/
def readPlayerNames (H : Header) (gi : GameInfo) (local_game : Bool) : GameInfo :=
  if local_game then
    { gi with
      team0_player := if gi.team0_port = 1 then H.m_local_player_1 else cpuPlayer
      team1_player :=
        if gi.team1_port = 2 then H.m_local_player_2
        else if gi.team1_port = 3 then H.m_local_player_3
        else if gi.team1_port = 4 then H.m_local_player_4
        else cpuPlayer }
  else
    { gi with
      team0_player := gi.NetplayerUserInfo gi.team0_port
      team1_player := gi.NetplayerUserInfo gi.team1_port }

/-- Embeds `StatTracker::initPlayerInfo()`. -/
def initPlayerInfo (H : Header) (mem : Snapshot) (gi : GameInfo) : GameInfo :=
  let gi : GameInfo :=
    { gi with
      start_unix_date_time := toString mem.unix_time
      start_local_date_time := mem.local_time }
  let gi : GameInfo :=
    if gi.team0_port = 0xFF ∧ gi.team1_port = 0xFF then
      let fielder_port := Read_U8 mem .aAB_FieldingPort
      let batter_port := Read_U8 mem .aAB_BattingPort
      let gi : GameInfo :=
        if fielder_port < batter_port then
          { gi with team0_port := fielder_port, team1_port := batter_port }
        else
          { gi with team0_port := batter_port, team1_port := fielder_port }
      let gi : GameInfo := { gi with away_port := batter_port, home_port := fielder_port }
      readPlayerNames H gi (!gi.netplay)
    else gi
  if gi.team0_captain_roster_loc = 0xFF ∨ gi.team1_captain_roster_loc = 0xFF then
    { gi with
      team0_captain_roster_loc := Read_U8 mem .aTeam0_Captain_Roster_Loc
      team1_captain_roster_loc := Read_U8 mem .aTeam1_Captain_Roster_Loc }
  else gi

/-- The first two statements of `onGameQuit`: the quitter's team is recorded and
the game record refreshed from memory. -/
def quitRecord (mem : Snapshot) (gi : GameInfo) : GameInfo :=
  let quitter_port := Read_U8 mem .aWhoQuit
  logGameInfo mem { gi with quitter_team := if quitter_port = gi.away_port then 1 else 0 }

/-- What `onGameQuit` hands to the emitter: the two quit documents, the
submission of the raw one when `shouldSubmitGame()` holds, and the removal of
the two flush files. -/
def quitOutputs (st : StatTracker) : List Output :=
  [.statFile "quit.decode." true st.m_game_info st.m_fielder_tracker,
   .statFile "quit." false st.m_game_info st.m_fielder_tracker] ++
  (if shouldSubmitGame st then [.post st.m_game_info st.m_fielder_tracker] else []) ++
  [.deleteFile "partial.", .deleteFile "partial.decoded."]

/-- Embeds `StatTracker::onGameQuit()`: the quit documents are rendered from the game
record as it stands when the function is called. -/
def onGameQuit (H : Header) (mem : Snapshot) (st : StatTracker) : Option StatTracker :=
  let st : StatTracker := { st with m_game_info := quitRecord mem st.m_game_info }
  if getStatJSON_completes H st.m_game_info st.m_fielder_tracker true
      && getStatJSON_completes H st.m_game_info st.m_fielder_tracker false then
    some { st with written := st.written ++ quitOutputs st }
  else none

/-! ## State-change logging -/

/-- The two name lookups of an event summary message:
`(runner_batter) ? cCharIdToCharName.at(char_id) : "None"` and
`(pitch) ? cCharIdToCharName.at(pitcher_char_id) : "Pitch Not Thrown Yet"`.
The message is built iff both lookups that are made succeed. -/
def summaryNamesOk (H : Header) (ev : Event) : Bool :=
  (match ev.runner_batter with
   | some r => (H.cCharIdToCharName r.char_id).isSome
   | none => true) &&
  (match ev.pitch with
   | some p => (H.cCharIdToCharName p.pitcher_char_id).isSome
   | none => true)

/-- The index `batter_screen_side_port` of the previous-event-result message: a
port number. -/
def batterScreenSidePort (gi : GameInfo) (ev : Event) : Nat :=
  let batter_port := if ev.half_inning = 0 then gi.away_port else gi.home_port
  if gi.team0_port = batter_port then gi.team0_port else gi.team1_port

/-- The read `character_summaries[row][slot].char_id`.  The table has
`cNumOfTeams` rows of `cRosterSize` slots; a read outside it has no defined
result. -/
def summaryCharId (gi : GameInfo) (row slot : Nat) : Option Nat :=
  if row < cNumOfTeams ∧ slot < cRosterSize then some (gi.character_summaries row slot).char_id
  else none

/-- The two character ids read for the previous-event-result message.  The
batter's is read at row `batter_screen_side_port`, a port number.  The
pitcher's row, `pitcher_screen_side_port`, is declared and never assigned: it
holds no value when `character_summaries[pitcher_screen_side_port]` is read,
and that read has no defined result. -/
def resultMessageCharIds (gi : GameInfo) (ev : Event) : Option (Nat × Nat) := do
  let batter_screen_side_port := batterScreenSidePort gi ev
  let pitcher_screen_side_port : Option Nat := none
  let batter_char_id ← summaryCharId gi batter_screen_side_port ev.batter_roster_loc
  let pitcher_row ← pitcher_screen_side_port
  let pitcher_char_id ← summaryCharId gi pitcher_row ev.pitcher_roster_loc
  pure (batter_char_id, pitcher_char_id)

/-- The logging done for a changed event state while a current event exists: the
state is appended to the event's history, and on `PLAY_OVER` the summary
messages are formatted: their `.at` lookups can throw, and for a nonzero at-bat
result the two character ids of the result message are read first. -/
def logEventStateChange (H : Header) (_mem : Snapshot) (st : StatTracker) (ev : Event) :
    Option StatTracker :=
  let ev : Event := { ev with history := ev.history ++ [st.m_event_state] }
  let st : StatTracker := { st with m_game_info := st.m_game_info.setCurrentEvent ev }
  if st.m_event_state = EVENT_STATE.PLAY_OVER then
    if summaryNamesOk H ev then
      if ev.result_of_atbat ≠ 0 then
        match resultMessageCharIds st.m_game_info ev with
        | some ids =>
          if (H.cCharIdToCharName ids.1).isSome && (H.cCharIdToCharName ids.2).isSome then
            some st
          else none
        | none => none
      else some st
    else none
  else some st

/-- First block of `lookForTriggerEvents`: a changed game state is logged and
`m_game_state_prev` synchronised. -/
def logGameStateChange (st : StatTracker) : StatTracker :=
  if st.m_game_state ≠ st.m_game_state_prev then { st with m_game_state_prev := st.m_game_state }
  else st

/-- Second block of `lookForTriggerEvents`: a changed event state is recorded in
the current event's history (if there is a current event), and
`m_event_state_prev` is synchronised. -/
def logEventStateIfChanged (H : Header) (mem : Snapshot) (st : StatTracker) :
    Option StatTracker :=
  if st.m_event_state ≠ st.m_event_state_prev then do
    let st ←
      match st.m_game_info.getCurrentEvent with
      | some ev => logEventStateChange H mem st ev
      | none => some st
    pure { st with m_event_state_prev := st.m_event_state }
  else some st

/-- Third block of `lookForTriggerEvents`: while in game with a current event and
the display on, the current-event summary is formatted (its `.at` lookups can
throw). -/
def showCurrentEvent (H : Header) (st : StatTracker) : Option StatTracker :=
  if st.m_game_state = GAME_STATE.INGAME then
    match st.m_game_info.getCurrentEvent with
    | some ev =>
      if st.mTrackerInfo.mDisplay then (if summaryNamesOk H ev then some st else none)
      else some st
    | none => some st
  else some st

/-- The part of `lookForTriggerEvents` that precedes the two state machines. -/
def logStateChanges (H : Header) (mem : Snapshot) (st : StatTracker) : Option StatTracker := do
  let st ← logEventStateIfChanged H mem (logGameStateChange st)
  showCurrentEvent H st

/-! ## The at-bat state machine -/

/-- Apply a runner update to an optional runner slot (`if (runner) logRunnerEvents(...)`). -/
def updateRunner (mem : Snapshot) (r : Option Runner) : Option Runner :=
  r.map (logRunnerEvents mem)

/-- Write the HUD document for the current event under the given suffix. -/
def writeHUD (H : Header) (st : StatTracker) (suffix : String) (curr : Event) :
    Option StatTracker :=
  if getHUDJSON_completes H st.m_fielder_tracker curr then
    some { st with
           written := st.written ++
             [.hudFile (toString st.m_game_info.event_num ++ suffix) st.m_game_info
                st.m_fielder_tracker curr st.m_game_info.previous_state] }
  else none

/-- The body of case `START_AB` after `initPlayerInfo`: a new Event is stored
under the counter, stamped with it, filled from the snapshot, and given its
runners. -/
def createEvent (H : Header) (mem : Snapshot) (gi : GameInfo) : GameInfo :=
  let ev : Event := { newEvent H with event_num := gi.event_num }
  let ev := logEventState mem gi ev
  let gi : GameInfo := { gi with events := mapAssign gi.event_num ev gi.events }
  let gi := logGameInfo mem gi
  let ev : Event :=
    { ev with
      runner_batter := logRunnerInfo H mem 0
      runner_1 := logRunnerInfo H mem 1
      runner_2 := logRunnerInfo H mem 2
      runner_3 := logRunnerInfo H mem 3 }
  gi.setCurrentEvent ev

/-- Case `START_AB`. -/
def stepStartAB (H : Header) (mem : Snapshot) (st : StatTracker) : Option StatTracker :=
  if Read_U8 mem .aGameControlStateCurr = 0x1 ∧ Read_U8 mem .aGameControlStatePrev ≠ 0x1 then
    let gi := st.m_game_info
    let gi := if gi.event_num = 0 then initPlayerInfo H mem gi else gi
    some { st with
           m_game_info := createEvent H mem gi
           m_event_state := EVENT_STATE.WAITING_FOR_EVENT }
  else some st

/-- Case `WAITING_FOR_EVENT`, quit branch (`Read_U32(aGameId) == 0`). -/
def stepQuit (H : Header) (mem : Snapshot) (st : StatTracker) : Option StatTracker := do
  let st ← onGameQuit H mem st
  let _ ← mapFind st.m_game_info.event_num st.m_game_info.events
  pure { st with
         m_game_info :=
           { st.m_game_info with
             events := mapErase st.m_game_info.event_num st.m_game_info.events }
         m_event_state := EVENT_STATE.GAME_OVER
         m_game_state := GAME_STATE.ENDGAME_LOGGED }

/-- Case `WAITING_FOR_EVENT`. -/
def stepWaitingForEvent (H : Header) (mem : Snapshot) (st : StatTracker) : Option StatTracker :=
  if Read_U32 mem .aGameId = 0 then stepQuit H mem st
  else if Read_U8 mem .aAB_PitchThrown ≠ 0 ∨ Read_U8 mem .aAB_PickoffAttempt ≠ 0 then do
    let st : StatTracker := { st with m_game_info := logGameInfo mem st.m_game_info }
    let ev ← st.m_game_info.getCurrentEvent
    let st ← writeHUD H st "a" ev
    if Read_U8 mem .aAB_PitchThrown ≠ 0 then
      let idx := fieldingTracker ev.half_inning
      let trk : Trackers := setAt st.m_fielder_tracker idx ((st.m_fielder_tracker idx).evaluateFielders mem)
      let pitch : Pitch := newPitch H
      let pitch : Pitch :=
        if Read_U8 mem (.aFielder_Pos_X 0) = 0 then { pitch with potential_db := true } else pitch
      pure { st with
             m_fielder_tracker := trk
             m_game_info := st.m_game_info.setCurrentEvent { ev with pitch := some pitch }
             m_event_state := EVENT_STATE.PITCH_RESULT }
    else if Read_U8 mem .aAB_PickoffAttempt ≠ 0 then
      pure { st with m_event_state := EVENT_STATE.MONITOR_RUNNERS }
    else pure st
  else some st

/-- The monitoring half of case `PITCH_RESULT`: a potential DB is cancelled by the
first nonzero curve input while the pitcher has control, and the runners on
base are updated. -/
def monitorPitch (H : Header) (mem : Snapshot) (ev : Event) (pitch : Pitch) : Event :=
  let pitch : Pitch :=
    if pitch.potential_db ∧ Read_U8 mem .aAB_PitcherHasCtrlofPitch = 1 then
      if H.floatIsNonzero (Read_U32 mem .aAB_PitchCurveInput) then { pitch with potential_db := false }
      else pitch
    else pitch
  { ev with
    pitch := some pitch
    runner_1 := updateRunner mem ev.runner_1
    runner_2 := updateRunner mem ev.runner_2
    runner_3 := updateRunner mem ev.runner_3 }

/-- Case `PITCH_RESULT`. -/
def stepPitchResult (H : Header) (mem : Snapshot) (st : StatTracker) : Option StatTracker := do
  let ev ← st.m_game_info.getCurrentEvent
  let pitch ← ev.pitch
  let ev := monitorPitch H mem ev pitch
  if Read_U32 mem .aAB_ContactMade ≠ 0 then do
    let ev ← logPitch mem st.m_game_info ev
    let ev ← logContact H mem ev
    pure { st with
           m_game_info := st.m_game_info.setCurrentEvent ev
           m_event_state := EVENT_STATE.CONTACT_RESULT }
  else if Read_U8 mem .aAB_PitcherHasCtrlofPitch = 1 then
    if Read_U16 mem .aAB_FramesUnitlBallArrivesBatter ≤ 0 then do
      let ev ← logPitch mem st.m_game_info ev
      pure { st with
             m_game_info := st.m_game_info.setCurrentEvent ev
             m_event_state := EVENT_STATE.MONITOR_RUNNERS }
    else pure { st with m_game_info := st.m_game_info.setCurrentEvent ev }
  else if Read_U8 mem .aAB_HitByPitch = 1 then do
    let ev ← logPitch mem st.m_game_info ev
    if Read_U8 mem .aAB_PitchThrown = 0 then
      pure { st with
             m_game_info :=
               st.m_game_info.setCurrentEvent
                 { ev with result_of_atbat := Read_U8 mem .aAB_FinalResult }
             m_event_state := EVENT_STATE.PLAY_OVER }
    else pure { st with m_game_info := st.m_game_info.setCurrentEvent ev }
  else pure { st with m_game_info := st.m_game_info.setCurrentEvent ev }

/-- The bobble poll shared by `CONTACT_RESULT` and `LOG_FIELDER`: made only while
neither fielder is recorded. -/
def pollBobble (H : Header) (mem : Snapshot) (contact : Contact) : Contact :=
  if contact.first_fielder.isNone ∧ contact.collect_fielder.isNone then
    { contact with first_fielder := logFielderBobble H mem }
  else contact

/-- The monitoring half of case `CONTACT_RESULT` while the ball is in the air: the
position samples shift to "previous", the ball position is read, the maximum
height is kept, and a bobble is polled for. -/
def trackBall (H : Header) (mem : Snapshot) (contact : Contact) : Contact :=
  let ball_y := Read_U32 mem .aAB_BallPos_Y
  let contact : Contact :=
    { contact with
      prev_ball_x_pos := contact.ball_x_pos
      prev_ball_y_pos := contact.ball_y_pos
      prev_ball_z_pos := contact.ball_z_pos
      ball_x_pos := Read_U32 mem .aAB_BallPos_X
      ball_y_pos := ball_y
      ball_z_pos := Read_U32 mem .aAB_BallPos_Z
      ball_y_pos_max_height :=
        if H.floatGreater ball_y contact.ball_y_pos_max_height then ball_y
        else contact.ball_y_pos_max_height }
  pollBobble H mem contact

/-- Case `CONTACT_RESULT`. -/
def stepContactResult (H : Header) (mem : Snapshot) (st : StatTracker) : Option StatTracker := do
  let ev ← st.m_game_info.getCurrentEvent
  let pitch ← ev.pitch
  if Read_U8 mem .aAB_ContactResult ≠ 0 then do
    let pitch : Pitch := { pitch with pitch_result := 6 }
    let contact ← pitch.contact
    let ev : Event := { ev with pitch := some pitch }
    let (contact, es, trk) ← logContactResult H mem ev st.m_event_state st.m_fielder_tracker contact
    let ev : Event := { ev with pitch := some { pitch with contact := some contact } }
    pure { st with
           m_game_info := st.m_game_info.setCurrentEvent ev
           m_fielder_tracker := trk
           m_event_state :=
             if es ≠ EVENT_STATE.LOG_FIELDER then EVENT_STATE.MONITOR_RUNNERS else es }
  else do
    let contact ← pitch.contact
    let contact := trackBall H mem contact
    pure { st with
           m_game_info :=
             st.m_game_info.setCurrentEvent
               { ev with pitch := some { pitch with contact := some contact } } }

/-- The fielder polls of case `LOG_FIELDER`: a bobble while no fielder is
recorded, then the holder scan while no collector is recorded; finding a holder
moves the state to MONITOR_RUNNERS. -/
def scanFielders (H : Header) (mem : Snapshot) (locks : Fin 9 → Nat) (contact : Contact)
    (m_event_state : EVENT_STATE) : Contact × EVENT_STATE :=
  let contact := pollBobble H mem contact
  if contact.collect_fielder.isNone then
    let found := logFielderWithBall H mem locks
    ({ contact with collect_fielder := found },
      if found.isSome then EVENT_STATE.MONITOR_RUNNERS else m_event_state)
  else (contact, m_event_state)

/-- Case `LOG_FIELDER`. -/
def stepLogFielder (H : Header) (mem : Snapshot) (st : StatTracker) : Option StatTracker := do
  let ev ← st.m_game_info.getCurrentEvent
  let pitch ← ev.pitch
  let contact ← pitch.contact
  let scanned := scanFielders H mem ev.manual_select_locks contact st.m_event_state
  let ev : Event := { ev with pitch := some { pitch with contact := some scanned.1 } }
  if Read_U8 mem .aAB_PitchThrown = 0 then
    pure { st with
           m_game_info :=
             st.m_game_info.setCurrentEvent
               { ev with result_of_atbat := Read_U8 mem .aAB_FinalResult }
           m_event_state := EVENT_STATE.PLAY_OVER }
  else
    pure { st with
           m_game_info := st.m_game_info.setCurrentEvent ev
           m_event_state := scanned.2 }

/-- Case `MONITOR_RUNNERS`; `runner_batter.value()` throws when the slot is empty. -/
def stepMonitorRunners (mem : Snapshot) (st : StatTracker) : Option StatTracker := do
  let ev ← st.m_game_info.getCurrentEvent
  if Read_U8 mem .aAB_PitchThrown = 0 ∧ Read_U8 mem .aAB_PickoffAttempt = 0 then
    pure { st with
           m_game_info :=
             st.m_game_info.setCurrentEvent
               { ev with result_of_atbat := Read_U8 mem .aAB_FinalResult }
           m_event_state := EVENT_STATE.PLAY_OVER }
  else do
    let rb ← ev.runner_batter
    let ev : Event :=
      { ev with
        runner_batter := some (logRunnerEvents mem rb)
        runner_1 := updateRunner mem ev.runner_1
        runner_2 := updateRunner mem ev.runner_2
        runner_3 := updateRunner mem ev.runner_3 }
    pure { st with m_game_info := st.m_game_info.setCurrentEvent ev }

/-- Case `PLAY_OVER`. -/
def stepPlayOver (mem : Snapshot) (st : StatTracker) : Option StatTracker :=
  if Read_U8 mem .aAB_PitchThrown = 0 then do
    let ev ← st.m_game_info.getCurrentEvent
    pure { st with
           m_game_info := st.m_game_info.setCurrentEvent { ev with rbi := Read_U8 mem .aAB_RBI }
           m_event_state := EVENT_STATE.FINAL_RESULT }
  else some st

/-- The end-of-inning flush of `FINAL_RESULT`: both full-game documents are
written with the flag raised, then the flag is cleared. -/
def flushInning (H : Header) (mem : Snapshot) (st : StatTracker) : Option StatTracker :=
  let gi := logGameInfo mem { st.m_game_info with partial_game := 1 }
  if getStatJSON_completes H gi st.m_fielder_tracker true
      && getStatJSON_completes H gi st.m_fielder_tracker false then
    some { st with
           m_game_info := { gi with partial_game := 0 }
           written := st.written ++
             [.deleteFile "partial.decoded.", .statFile "partial.decoded." true gi st.m_fielder_tracker,
              .deleteFile "partial.", .statFile "partial." false gi st.m_fielder_tracker] }
  else none

/-- The two exits of `FINAL_RESULT`, tested one after the other. -/
def leaveFinalResult (mem : Snapshot) (st : StatTracker) : StatTracker :=
  let st : StatTracker :=
    if Read_U8 mem .aGameControlStateCurr = 0x1 then
      { st with
        m_game_info := { st.m_game_info with event_num := st.m_game_info.event_num + 1 }
        m_event_state := EVENT_STATE.START_AB }
    else st
  if Read_U8 mem .aGameControlStateCurr = 0xE ∨ Read_U8 mem .aEndOfGameFlag = 1 then
    { st with
      m_game_info := { st.m_game_info with event_num := st.m_game_info.event_num + 1 }
      m_event_state := EVENT_STATE.GAME_OVER }
  else st

/-- Case `FINAL_RESULT`; the first statement reads `pitch->potential_db`. -/
def stepFinalResult (H : Header) (mem : Snapshot) (st : StatTracker) : Option StatTracker := do
  let ev ← st.m_game_info.getCurrentEvent
  let pitch ← ev.pitch
  let ev : Event :=
    if pitch.potential_db then { ev with pitch := some { pitch with db := 1 } } else ev
  let (ev, trk) ← logFinalResults mem ev st.m_fielder_tracker
  let gi := logGameInfo mem (st.m_game_info.setCurrentEvent ev)
  let gi : GameInfo := { gi with previous_state := some ev }
  let st : StatTracker := { st with m_game_info := gi, m_fielder_tracker := trk }
  let st ← writeHUD H st "b" ev
  let st ←
    if Read_U8 mem .aAB_NumOutsDuringPlay + ev.outs ≥ 3 then flushInning H mem st else some st
  pure (leaveFinalResult mem st)

/-- The `switch (m_event_state)` of `lookForTriggerEvents`. -/
def eventStep (H : Header) (mem : Snapshot) (st : StatTracker) : Option StatTracker :=
  match st.m_event_state with
  | .START_AB => stepStartAB H mem st
  | .WAITING_FOR_EVENT => stepWaitingForEvent H mem st
  | .PITCH_RESULT => stepPitchResult H mem st
  | .CONTACT_RESULT => stepContactResult H mem st
  | .LOG_FIELDER => stepLogFielder H mem st
  | .MONITOR_RUNNERS => stepMonitorRunners mem st
  | .PLAY_OVER => stepPlayOver mem st
  | .FINAL_RESULT => stepFinalResult H mem st
  | .GAME_OVER => some st
  | .UNDEFINED => some { st with m_event_state := EVENT_STATE.START_AB }

/-! ## The game state machine -/

/-- Modelled from the spec: `StatTracker::init()` of the absent header, which
"unconditionally reinitializes all owned state": a fresh game record and fresh
fielder trackers, both machines back at their initial states. -/
def init (H : Header) (st : StatTracker) : StatTracker :=
  { st with
    m_game_state := GAME_STATE.PREGAME
    m_event_state := EVENT_STATE.START_AB
    m_game_info := newGameInfo H
    m_fielder_tracker := fun _ => newFielderTracker }

/-- Case `INGAME` of the game state machine once the at-bat machine is at
`GAME_OVER`: the final documents are written and the raw one is submitted. -/
def logEndOfGame (H : Header) (mem : Snapshot) (st : StatTracker) : Option StatTracker :=
  let gi := logGameInfo mem st.m_game_info
  let st : StatTracker := { st with m_game_info := gi }
  if getStatJSON_completes H gi st.m_fielder_tracker true
      && getStatJSON_completes H gi st.m_fielder_tracker false then
    let posts : List Output :=
      if shouldSubmitGame st then [.post gi st.m_fielder_tracker] else []
    some { st with
           written := st.written ++ [.statFile "decoded." true gi st.m_fielder_tracker] ++ posts ++
             [.deleteFile "partial.", .deleteFile "partial.decoded."] }
  else none

/-- The `switch (m_game_state)` of `lookForTriggerEvents`. -/
def gameStep (H : Header) (mem : Snapshot) (st : StatTracker) : Option StatTracker :=
  match st.m_game_state with
  | .PREGAME =>
    if Read_U32 mem .aGameId ≠ 0 ∧ st.mTrackerInfo.mRecord = true
        ∧ Read_U8 mem .aGameControlStateCurr = 0x5 then
      some { st with
             m_game_info :=
               { st.m_game_info with
                 game_id := Read_U32 mem .aGameId
                 ranked := st.m_state.m_ranked_status
                 netplay := st.m_state.m_netplay_session
                 host := st.m_state.m_is_host
                 netplay_opponent_alias := st.m_state.m_netplay_opponent_alias }
             m_game_state := GAME_STATE.INGAME }
    else some st
  | .INGAME =>
    if st.m_event_state = EVENT_STATE.GAME_OVER then logEndOfGame H mem st else some st
  | .ENDGAME_LOGGED => some (init H st)
  | .UNDEFINED => some { st with m_event_state := EVENT_STATE.START_AB }

/-- Embeds `StatTracker::lookForTriggerEvents()`, one tick: state-change logging, then
the at-bat machine while in game, then the game machine. -/
def lookForTriggerEvents (H : Header) (mem : Snapshot) (st : StatTracker) : Option StatTracker := do
  let st ← logStateChanges H mem st
  let st ← if st.m_game_state = GAME_STATE.INGAME then eventStep H mem st else some st
  gameStep H mem st

/-- Embeds `StatTracker::Run()`. -/
def Run (H : Header) (mem : Snapshot) (st : StatTracker) : Option StatTracker :=
  lookForTriggerEvents H mem st

/-! ## Vocabulary of the decode properties -/

/-- The enumerated field types the serializers pass to `decode`. -/
def decodeTypes : List String :=
  ["Character", "Stadium", "Contact", "Hand", "Stick", "StickVec", "Pitch", "ChargePitch",
   "Swing", "Position", "Action", "Bobble", "ManualSelect", "Steal", "Out",
   "PrimaryContactResult", "SecondaryContactResult", "PitchResult", "AtBatResult", "QuitterTeam"]

/-- The table `decode` consults for a type name; `none` for the two types decoded
without a table (`StickVec`, `QuitterTeam`) and for unknown names. -/
def tableOf (H : Header) (type : String) : Option (Nat → Option String) :=
  if type = "Character" then some H.cCharIdToCharName
  else if type = "Stadium" then some H.cStadiumIdToStadiumName
  else if type = "Contact" then some H.cTypeOfContactToHR
  else if type = "Hand" then some H.cHandToHR
  else if type = "Stick" then some H.cInputDirectionToHR
  else if type = "Pitch" then some H.cPitchTypeToHR
  else if type = "ChargePitch" then some H.cChargePitchTypeToHR
  else if type = "Swing" then some H.cTypeOfSwing
  else if type = "Position" then some H.cPosition
  else if type = "Action" then some H.cFielderActions
  else if type = "Bobble" then some H.cFielderBobbles
  else if type = "ManualSelect" then some H.cManualSelectDecode
  else if type = "Steal" then some H.cStealType
  else if type = "Out" then some H.cOutType
  else if type = "PrimaryContactResult" then some H.cPrimaryContactResult
  else if type = "SecondaryContactResult" then some H.cSecondaryContactResult
  else if type = "PitchResult" then some H.cPitchResult
  else if type = "AtBatResult" then some H.cAtBatResult
  else none

/-- The eighteen decode tables of the header. -/
def Header.tables (H : Header) : List (Nat → Option String) :=
  [H.cCharIdToCharName,
   H.cStadiumIdToStadiumName,
   H.cTypeOfContactToHR,
   H.cHandToHR,
   H.cInputDirectionToHR,
   H.cPitchTypeToHR,
   H.cChargePitchTypeToHR,
   H.cTypeOfSwing,
   H.cPosition,
   H.cFielderActions,
   H.cFielderBobbles,
   H.cManualSelectDecode,
   H.cStealType,
   H.cOutType,
   H.cPrimaryContactResult,
   H.cSecondaryContactResult,
   H.cPitchResult,
   H.cAtBatResult]

/-- The text `decode` returns in decoded mode for a code it cannot map. -/
def invalidValueText (value : Nat) : String :=
  "\"" ++ ("Unable to Decode. Invalid Value (" ++ toString value ++ ").") ++ "\""

/-! ## Sample data for evaluating the definitions -/

/-- A decode table that labels the codes below 16. -/
def sampleTable : Nat → Option String := fun v => if v < 16 then some "Known" else none

/-- A fielder record with every field zero. -/
def zeroFielder : Fielder :=
  { fielder_roster_loc := 0, fielder_char_id := 0, fielder_pos := 0, fielder_x_pos := 0,
    fielder_y_pos := 0, fielder_z_pos := 0, fielder_action := 0, fielder_jump := 0,
    fielder_manual_select_lock := 0, bobble := 0, fielder_swapped_for_batter := 0 }

/-- A contact record with every field zero and no fielder. -/
def zeroContact : Contact :=
  { type_of_contact := 0, charge_power_up := 0, charge_power_down := 0, moon_shot := 0,
    input_direction_push_pull := 0, input_direction_stick := 0, horiz_power := 0, vert_power := 0,
    ball_angle := 0, ball_x_velocity := 0, ball_y_velocity := 0, ball_z_velocity := 0,
    frameOfSwingUponContact := 0, ball_x_pos := 0, ball_y_pos := 0, ball_z_pos := 0,
    prev_ball_x_pos := 0, prev_ball_y_pos := 0, prev_ball_z_pos := 0, ball_y_pos_max_height := 0,
    multi_out := 0, primary_contact_result := 0, secondary_contact_result := 0xFF,
    first_fielder := none, collect_fielder := none }

/-- A pitch record with every field zero and no contact. -/
def zeroPitch : Pitch :=
  { logged := false, pitcher_team_id := 0, pitcher_char_id := 0, pitch_type := 0, charge_type := 0,
    star_pitch := 0, pitch_speed := 0, ball_x_pos_upon_hit := 0, ball_z_pos_upon_hit := 0,
    batter_x_pos_upon_hit := 0, batter_z_pos_upon_hit := 0, type_of_swing := 0,
    potential_db := false, db := 0, pitch_result := 0, contact := none }

/-- A runner record with every field zero. -/
def zeroRunner : Runner :=
  { roster_loc := 0, char_id := 0, initial_base := 0, out_type := 0, out_location := 0,
    result_base := 0, steal := 0, basepath_location := 0 }

/-- An event record with every field zero, no runner and no pitch. -/
def zeroEvent : Event :=
  { event_num := 0, inning := 0, half_inning := 0, away_score := 0, home_score := 0, balls := 0,
    strikes := 0, outs := 0, away_stars := 0, home_stars := 0, is_star_chance := 0,
    chem_links_ob := 0, pitcher_stamina := 0, pitcher_roster_loc := 0, batter_roster_loc := 0,
    catcher_roster_loc := 0, history := [], runner_batter := none, runner_1 := none,
    runner_2 := none, runner_3 := none, pitch := none, result_of_atbat := 0, rbi := 0,
    manual_select_locks := fun _ => 0 }

/-- A character summary with every field zero. -/
def zeroSummary : CharacterSummary :=
  { char_id := 0, is_starred := 0, fielding_hand := 0, batting_hand := 0,
    end_game_defensive_stats :=
      { batters_faced := 0, runs_allowed := 0, earned_runs := 0, batters_walked := 0,
        batters_hit := 0, hits_allowed := 0, homeruns_allowed := 0, pitches_thrown := 0,
        stamina := 0, was_pitcher := 0, batter_outs := 0, outs_pitched := 0, strike_outs := 0,
        star_pitches_thrown := 0, big_plays := 0 }
    end_game_offensive_stats :=
      { at_bats := 0, hits := 0, singles := 0, doubles := 0, triples := 0, homeruns := 0,
        successful_bunts := 0, sac_flys := 0, strikouts := 0, walks_4balls := 0, walks_hit := 0,
        rbi := 0, bases_stolen := 0, star_hits := 0 } }

/-- A human player profile. -/
def samplePlayer : Player := { username := "Player", userid := "player-id" }

/-- A game record with every field zero, no events, and the ports unset. -/
def zeroGameInfo : GameInfo :=
  { game_id := 0, start_unix_date_time := "", start_local_date_time := "",
    end_unix_date_time := "", end_local_date_time := "", ranked := false, netplay := false,
    host := false, netplay_opponent_alias := "", team0_port := 0xFF, team1_port := 0xFF,
    away_port := 0, home_port := 0, team0_captain_roster_loc := 0xFF,
    team1_captain_roster_loc := 0xFF, team0_player := samplePlayer, team1_player := samplePlayer,
    NetplayerUserInfo := fun _ => samplePlayer, away_score := 0, home_score := 0,
    innings_selected := 0, innings_played := 0, stadium := 0, quitter_team := 0xFF, avg_ping := 0,
    lag_spikes := 0, character_summaries := fun _ _ => zeroSummary, event_num := 0, events := [],
    previous_state := none, partial_game := 0 }

/-- A header instance for evaluating the definitions: every decode table is
`sampleTable`, default-constructed records are zero, and the float tests
compare bit patterns. -/
def sampleHeader : Header :=
  { cCharIdToCharName := sampleTable
    cStadiumIdToStadiumName := sampleTable
    cTypeOfContactToHR := sampleTable
    cHandToHR := sampleTable
    cInputDirectionToHR := sampleTable
    cPitchTypeToHR := sampleTable
    cChargePitchTypeToHR := sampleTable
    cTypeOfSwing := sampleTable
    cPosition := sampleTable
    cFielderActions := sampleTable
    cFielderBobbles := sampleTable
    cManualSelectDecode := sampleTable
    cStealType := sampleTable
    cOutType := sampleTable
    cPrimaryContactResult := sampleTable
    cSecondaryContactResult := sampleTable
    cPitchResult := sampleTable
    cAtBatResult := sampleTable
    rawFielder := zeroFielder
    rawContact := zeroContact
    rawPitch := zeroPitch
    rawRunner := zeroRunner
    rawEvent := zeroEvent
    rawGameInfo := zeroGameInfo
    m_local_player_1 := samplePlayer
    m_local_player_2 := samplePlayer
    m_local_player_3 := samplePlayer
    m_local_player_4 := samplePlayer
    floatIsNonzero := fun bits => decide (bits ≠ 0 ∧ bits ≠ 0x80000000)
    floatGreater := fun a b => decide (b < a) }

/-- A snapshot in which every cell reads 0. -/
def zeroSnapshot : Snapshot :=
  { cells := fun _ => 0, unix_time := 0, local_time := "" }

/-- A freshly constructed tracker over the sample header: recording and
submission switched on, the on-screen display off. -/
def sampleTracker : StatTracker :=
  { m_game_state := GAME_STATE.PREGAME
    m_game_state_prev := GAME_STATE.PREGAME
    m_event_state := EVENT_STATE.START_AB
    m_event_state_prev := EVENT_STATE.START_AB
    m_game_info := newGameInfo sampleHeader
    m_fielder_tracker := fun _ => newFielderTracker
    mTrackerInfo := { mRecord := true, mSubmit := true, mDisplay := false }
    m_state :=
      { m_ranked_status := false, m_netplay_session := false, m_is_host := false,
        m_netplay_opponent_alias := "" }
    written := [] }

/-- The sample tracker in game, with the at-bat machine at its terminal state. -/
def endedGame : StatTracker :=
  { sampleTracker with
    m_game_state := GAME_STATE.INGAME
    m_event_state := EVENT_STATE.GAME_OVER }

/-! ## Vocabulary of the counter properties -/

/-- The out counter of tracker `idx` for a roster slot at a position:
`m_fielder_tracker[idx].fielder_map[roster].out_count_by_position[pos]`. -/
def outCount (trk : Trackers) (idx roster pos : Nat) : Nat :=
  ((trk idx).fielder_map roster).out_count_by_position pos

/-! ## Sample at-bats -/

/-- A collecting fielder: roster slot 4 playing position 6. -/
def sampleCollector : Fielder := { zeroFielder with fielder_roster_loc := 4, fielder_pos := 6 }

/-- A contact whose ball was collected by `sampleCollector`; no first-touch fielder. -/
def collectedContact : Contact := { zeroContact with collect_fielder := some sampleCollector }

/-- A batter-runner forced out at first (out type 2). -/
def forcedOutRunner : Runner := { zeroRunner with out_type := 2 }

/-- A first-inning event (top half) whose batter was forced out after a collected hit. -/
def forcedOutEvent : Event :=
  { zeroEvent with
    inning := 1
    runner_batter := some forcedOutRunner
    pitch := some { zeroPitch with contact := some collectedContact } }

/-- A first-inning event opened by a pickoff attempt: a batter-runner, no pitch. -/
def pickoffEvent : Event :=
  { zeroEvent with inning := 1, runner_batter := some zeroRunner }

/-- A first-inning event whose pitch was not hit: a pitch, no contact. -/
def missedPitchEvent : Event :=
  { zeroEvent with inning := 1, runner_batter := some zeroRunner, pitch := some zeroPitch }

/-- A first-inning event whose batter was forced out though no fielder was recorded. -/
def unfieldedForcedOutEvent : Event :=
  { zeroEvent with
    inning := 1
    runner_batter := some forcedOutRunner
    pitch := some { zeroPitch with contact := some zeroContact } }

/-- The sample tracker in game, with `ev` as the current event (key 0) and the
at-bat machine in state `es`, the state change already logged. -/
def trackerAt (es : EVENT_STATE) (ev : Event) : StatTracker :=
  { sampleTracker with
    m_game_state := GAME_STATE.INGAME
    m_game_state_prev := GAME_STATE.INGAME
    m_event_state := es
    m_event_state_prev := es
    m_game_info := { newGameInfo sampleHeader with events := [(0, ev)] } }

/-- Two fresh fielder trackers. -/
def freshTrackers : Trackers := fun _ => newFielderTracker

/-- Run the ticks of a list of snapshots, oldest first; `none` as soon as one aborts. -/
def runTicks (H : Header) (st : StatTracker) : List Snapshot → Option StatTracker
  | [] => some st
  | mem :: rest => (lookForTriggerEvents H mem st).bind fun st' => runTicks H st' rest

/-- A snapshot given by the cells that do not read 0. -/
def snapshotOf (cells : Addr → Nat) : Snapshot :=
  { cells := cells, unix_time := 0, local_time := "" }

/-- Ball in play and caught: contact-result code 3, the fielder at position 6
(roster slot 4) holds the ball, pitch-thrown still set. -/
def caughtSnapshot : Snapshot :=
  snapshotOf fun a =>
    match a with
    | .aGameId => 1
    | .aAB_PitchThrown => 1
    | .aAB_ContactResult => 3
    | .aFielder_ControlStatus 6 => 0xA
    | .aFielder_RosterLoc 6 => 4
    | _ => 0

/-- Play still live: the batter-runner's live out type reads 2 (forced out). -/
def forcedOutSnapshot : Snapshot :=
  snapshotOf fun a =>
    match a with
    | .aGameId => 1
    | .aAB_PitchThrown => 1
    | .aRunner_OutType 0 => 2
    | _ => 0

/-- Play dead: pitch-thrown and pickoff flags clear, one out on the play, and the
control state not yet back at the at-bat scene. -/
def playDeadSnapshot : Snapshot :=
  snapshotOf fun a =>
    match a with
    | .aGameId => 1
    | .aAB_NumOutsDuringPlay => 1
    | _ => 0

/-- The ticks of a caught ball followed by a forced-out reading for the batter:
classification, one runner update, then play over and one finalization. -/
def caughtAtBat : List Snapshot :=
  [caughtSnapshot, forcedOutSnapshot, playDeadSnapshot, playDeadSnapshot, playDeadSnapshot]

/-- An event in flight after contact: a batter-runner and a pitch with a fresh contact. -/
def contactEvent : Event :=
  { zeroEvent with
    inning := 1
    runner_batter := some zeroRunner
    pitch := some { zeroPitch with contact := some zeroContact } }

/-- The sample tracker waiting for a pitch in its second at-bat: event 0 is
finalized, event 1 (counter = 1) has just been created and is unfinished. -/
def quitState : StatTracker :=
  { sampleTracker with
    m_game_state := GAME_STATE.INGAME
    m_game_state_prev := GAME_STATE.INGAME
    m_event_state := EVENT_STATE.WAITING_FOR_EVENT
    m_event_state_prev := EVENT_STATE.WAITING_FOR_EVENT
    m_game_info :=
      { newGameInfo sampleHeader with
        event_num := 1
        events := [(0, forcedOutEvent), (1, { pickoffEvent with event_num := 1 })] } }

/-- A pitch has been thrown: pitch-thrown reads 1, the game identifier is set. -/
def pitchThrownSnapshot : Snapshot :=
  snapshotOf fun a =>
    match a with
    | .aGameId => 1
    | .aAB_PitchThrown => 1
    | _ => 0

/-- The batter made contact: contact-made reads 1. -/
def contactMadeSnapshot : Snapshot :=
  snapshotOf fun a =>
    match a with
    | .aGameId => 1
    | .aAB_PitchThrown => 1
    | .aAB_ContactMade => 1
    | _ => 0

/-- The ball landed fair: contact-result reads 1; no fielder holds the ball. -/
def landedFairSnapshot : Snapshot :=
  snapshotOf fun a =>
    match a with
    | .aGameId => 1
    | .aAB_PitchThrown => 1
    | .aAB_ContactResult => 1
    | _ => 0

/-! ## Vocabulary of the event-key properties -/

/-- The least key a later `START_AB` can assign: the counter itself while no
current event can exist, the counter plus one while an at-bat is in flight. -/
def nextKeyBound (st : StatTracker) : Nat :=
  if st.m_game_state = GAME_STATE.UNDEFINED ∨ st.m_event_state = EVENT_STATE.START_AB ∨
      st.m_event_state = EVENT_STATE.UNDEFINED then st.m_game_info.event_num
  else st.m_game_info.event_num + 1

/-- The events map is well formed (keys strictly ascending, as in a `std::map`)
and every key lies below `nextKeyBound`. -/
def KeysInvariant (st : StatTracker) : Prop :=
  (mapKeys st.m_game_info.events).Pairwise (· < ·) ∧
  ∀ k ∈ mapKeys st.m_game_info.events, k < nextKeyBound st

/-- The footprint shared by the steps that only rewrite the current event: the
key list, the counter and the game state are kept. -/
def KeepsKeys (st st' : StatTracker) : Prop :=
  mapKeys st'.m_game_info.events = mapKeys st.m_game_info.events ∧
  st'.m_game_info.event_num = st.m_game_info.event_num ∧
  st'.m_game_state = st.m_game_state

/-- One insertion into the `json_stream` of a serializer. -/
inductive Piece where
  /-- A string literal of the source. -/
  | lit (s : String)
  /-- A `std::string` value: `std::to_string(..)`, `decode(..)`, a name, a label. -/
  | str (s : String)
  /-- An integer member streamed directly. -/
  | num (n : Nat)
  /-- The value `floatConverter(bits)`, streamed directly. -/
  | real (bits : Nat)
  /-- The result of `Common::GetRioRevStr()`. -/
  | version
  deriving DecidableEq

/-- Run a list of fallible insertions in order: the concatenation of what they
stream, or `none` as soon as one throws. -/
def collect : List (Option (List Piece)) → Option (List Piece)
  | [] => some []
  | none :: _ => none
  | some p :: rest => (collect rest).map fun q => p ++ q

/-- The text `std::to_string` gives a `bool`. -/
def boolText (b : Bool) : String := if b then "1" else "0"

/-- One statement `json_stream << pre << v << post;`. -/
def line (pre : String) (v : Piece) (post : String) : List Piece :=
  [Piece.lit pre, v, Piece.lit post]

/-- One statement `json_stream << text;`. -/
def text (s : String) : List Piece := [Piece.lit s]

/-! ### The head of `getStatJSON` -/

/-- The local `stadium` of `getStatJSON`: in decoded mode the name is fetched
with `cStadiumIdToStadiumName.at`, which throws for an id that has no name. -/
def statStadiumLocal (H : Header) (gi : GameInfo) (inDecode : Bool) : Option String :=
  if inDecode then
    (H.cStadiumIdToStadiumName gi.stadium).map fun name => "\"" ++ name ++ "\""
  else some (toString gi.stadium)

/-- The insertions of `getStatJSON` up to the opening of `Character Game Stats`.
The local `stadium` is computed first and not streamed: `StadiumID` is streamed
from `decode`. -/
def statHeadPieces (H : Header) (gi : GameInfo) (inDecode : Bool) : Option (List Piece) := do
  let away_player_info :=
    if inDecode then gi.getAwayTeamPlayer.username else gi.getAwayTeamPlayer.userid
  let home_player_info :=
    if inDecode then gi.getHomeTeamPlayer.username else gi.getHomeTeamPlayer.userid
  let _stadium ← statStadiumLocal H gi inDecode
  let start_date_time :=
    if inDecode then gi.start_local_date_time else gi.start_unix_date_time
  let end_date_time := if inDecode then gi.end_local_date_time else gi.end_unix_date_time
  pure
    (List.flatten
    [ text "\x7b\n",
      line "  \"GameID\": \"" (Piece.num gi.game_id) "\",\n",
      line "  \"Date - Start\": \"" (Piece.str start_date_time) "\",\n",
      line "  \"Date - End\": \"" (Piece.str end_date_time) "\",\n",
      line "  \"Ranked\": " (Piece.str (boolText gi.ranked)) ",\n",
      line "  \"Netplay\": " (Piece.str (boolText gi.netplay)) ",\n",
      line "  \"StadiumID\": " (Piece.str (decode H "Stadium" gi.stadium inDecode)) ",\n",
      line "  \"Away Player\": \"" (Piece.str away_player_info) "\",\n",
      line "  \"Home Player\": \"" (Piece.str home_player_info) "\",\n",
      line "  \"Away Score\": " (Piece.num gi.away_score) ",\n",
      line "  \"Home Score\": " (Piece.num gi.home_score) ",\n",
      line "  \"Innings Selected\": " (Piece.str (toString gi.innings_selected)) ",\n",
      line "  \"Innings Played\": " (Piece.str (toString gi.innings_played)) ",\n",
      line "  \"Quitter Team\": "
        (Piece.str (decode H "QuitterTeam" gi.quitter_team inDecode)) ",\n",
      line "  \"Average Ping\": " (Piece.str (toString gi.avg_ping)) ",\n",
      line "  \"Lag Spikes\": " (Piece.str (toString gi.lag_spikes)) ",\n",
      line "  \"Version\": \"" (Piece.version) "\",\n",
      text "  \"Character Game Stats\": \x7b\n" ])

/-! ### `getHUDJSON` -/

/-- One `... Per Position` block of `getHUDJSON`: when some position has a
nonzero counter, an object with one row per such position, its name fetched
with `cPosition.at` (which throws for a position without a name). -/
def hudPositionPieces (H : Header) (counts : Nat → Nat) : Option (List Piece) :=
  if anyPositionFrom counts 0 then
    (collect ((List.range cNumOfPositions).map fun pos =>
      if counts pos > 0 then
        (H.cPosition pos).map fun name =>
          [Piece.lit "            \"", Piece.str name, Piece.lit "\": ",
           Piece.str (toString (counts pos)),
           Piece.str (if anyPositionFrom counts (pos + 1) then "," else ""), Piece.lit "\n"]
      else some [])).map fun rows => (text "        \x7b\n") ++ rows ++ (text "        \x7d\n")
  else some []

/-- The value of `captain_roster_loc` in the character loops of the serializers. -/
def captainRosterLoc (gi : GameInfo) (team : Nat) : Nat :=
  if team = 0 then
    (if gi.home_port = gi.team0_port then gi.team0_captain_roster_loc
     else gi.team1_captain_roster_loc)
  else
    (if gi.away_port = gi.team0_port then gi.team0_captain_roster_loc
     else gi.team1_captain_roster_loc)

/-- One pass of the character loop of `getHUDJSON`. -/
def hudCharacterPieces (H : Header) (gi : GameInfo) (trk : Trackers) (inDecode : Bool)
    (team roster : Nat) : Option (List Piece) := do
  let captain_roster_loc := captainRosterLoc gi team
  let tracker_team := if team = 0 then 1 else 0
  let char_summary := gi.character_summaries team roster
  let label := "\"Team " ++ toString team ++ " Roster " ++ toString roster ++ "\": "
  let def_stat := char_summary.end_game_defensive_stats
  let slot := (trk tracker_team).fielder_map roster
  let pitches ← hudPositionPieces H slot.pitch_count_by_position
  let batterOuts ← hudPositionPieces H slot.batter_outs_by_position
  let outs ← hudPositionPieces H slot.out_count_by_position
  let of_stat := char_summary.end_game_offensive_stats
  pure
    (List.flatten
     [ line "  " (Piece.str label) "\x7b\n",
       line "    \"Team\": \"" (Piece.str (toString team)) "\",\n",
       line "    \"RosterID\": " (Piece.str (toString roster)) ",\n",
       line "    \"CharID\": "
         (Piece.str (decode H "Character" char_summary.char_id inDecode)) ",\n",
       line "    \"Superstar\": " (Piece.str (toString char_summary.is_starred)) ",\n",
       line "    \"Captain\": " (Piece.str (boolText (decide (roster = captain_roster_loc)))) ",\n",
       line "    \"Fielding Hand\": "
         (Piece.str (decode H "Hand" char_summary.fielding_hand inDecode)) ",\n",
       line "    \"Batting Hand\": "
         (Piece.str (decode H "Hand" char_summary.batting_hand inDecode)) ",\n",
       text "    \"Defensive Stats\": \x7b\n",
       line "      \"Batters Faced\": " (Piece.str (toString def_stat.batters_faced)) ",\n",
       line "      \"Runs Allowed\": " (Piece.num def_stat.runs_allowed) ",\n",
       line "      \"Earned Runs\": " (Piece.num def_stat.earned_runs) ",\n",
       line "      \"Batters Walked\": " (Piece.num def_stat.batters_walked) ",\n",
       line "      \"Batters Hit\": " (Piece.num def_stat.batters_hit) ",\n",
       line "      \"Hits Allowed\": " (Piece.num def_stat.hits_allowed) ",\n",
       line "      \"HRs Allowed\": " (Piece.num def_stat.homeruns_allowed) ",\n",
       line "      \"Pitches Thrown\": " (Piece.num def_stat.pitches_thrown) ",\n",
       line "      \"Stamina\": " (Piece.num def_stat.stamina) ",\n",
       line "      \"Was Pitcher\": " (Piece.str (toString def_stat.was_pitcher)) ",\n",
       line "      \"Strikeouts\": " (Piece.str (toString def_stat.strike_outs)) ",\n",
       line "      \"Star Pitches Thrown\": "
         (Piece.str (toString def_stat.star_pitches_thrown)) ",\n",
       line "      \"Big Plays\": " (Piece.str (toString def_stat.big_plays)) ",\n",
       line "      \"Outs Pitched\": " (Piece.str (toString def_stat.outs_pitched)) ",\n",
       text "      \"Pitches Per Position\": [\n" ] ++
     pitches ++
     (List.flatten
     [ text "      ],\n",
       text "      \"Batter Outs Per Position\": [\n" ]) ++
     batterOuts ++
     (List.flatten
     [ text "      ],\n",
       text "      \"Outs Per Position\": [\n" ]) ++
     outs ++
     (List.flatten
     [ text "      ]\n",
       text "    \x7d,\n",
       text "    \"Offensive Stats\": \x7b\n",
       line "      \"At Bats\": " (Piece.str (toString of_stat.at_bats)) ",\n",
       line "      \"Hits\": " (Piece.str (toString of_stat.hits)) ",\n",
       line "      \"Singles\": " (Piece.str (toString of_stat.singles)) ",\n",
       line "      \"Doubles\": " (Piece.str (toString of_stat.doubles)) ",\n",
       line "      \"Triples\": " (Piece.str (toString of_stat.triples)) ",\n",
       line "      \"Homeruns\": " (Piece.str (toString of_stat.homeruns)) ",\n",
       line "      \"Successful Bunts\": " (Piece.str (toString of_stat.successful_bunts)) ",\n",
       line "      \"Sac Flys\": " (Piece.str (toString of_stat.sac_flys)) ",\n",
       line "      \"Strikeouts\": " (Piece.str (toString of_stat.strikouts)) ",\n",
       line "      \"Walks (4 Balls)\": " (Piece.str (toString of_stat.walks_4balls)) ",\n",
       line "      \"Walks (Hit)\": " (Piece.str (toString of_stat.walks_hit)) ",\n",
       line "      \"RBI\": " (Piece.str (toString of_stat.rbi)) ",\n",
       line "      \"Bases Stolen\": " (Piece.str (toString of_stat.bases_stolen)) ",\n",
       line "      \"Star Hits\": " (Piece.str (toString of_stat.star_hits)) "\n",
       text "    \x7d\n",
       text "  \x7d,\n" ]))

/-- The character loop of `getHUDJSON`: teams 0 and 1, roster slots in order. -/
def hudCharactersPieces (H : Header) (gi : GameInfo) (trk : Trackers) (inDecode : Bool) :
    Option (List Piece) :=
  collect ((List.range 2).map fun team =>
    collect ((List.range cRosterSize).map fun roster =>
      hudCharacterPieces H gi trk inDecode team roster))

/-- The insertions of `getHUDJSON` from the opening brace to the character loop. -/
def hudHeadPieces (gi : GameInfo) (in_event_num : String) (in_curr_event : Event) : List Piece :=
  (List.flatten
  [ text "\x7b\n",
    line "  \"Event Num\": \"" (Piece.str in_event_num) "\",\n",
    line "  \"Away Player\": \"" (Piece.str gi.getAwayTeamPlayer.username) "\",\n",
    line "  \"Home Player\": \"" (Piece.str gi.getHomeTeamPlayer.username) "\",\n",
    line "  \"Inning\": " (Piece.str (toString in_curr_event.inning)) ",\n",
    line "  \"Half Inning\": " (Piece.str (toString in_curr_event.half_inning)) ",\n",
    line "  \"Away Score\": " (Piece.num in_curr_event.away_score) ",\n",
    line "  \"Home Score\": " (Piece.num in_curr_event.home_score) ",\n",
    line "  \"Balls\": " (Piece.str (toString in_curr_event.balls)) ",\n",
    line "  \"Strikes\": " (Piece.str (toString in_curr_event.strikes)) ",\n",
    line "  \"Outs\": " (Piece.str (toString in_curr_event.outs)) ",\n",
    line "  \"Star Chance\": " (Piece.str (toString in_curr_event.is_star_chance)) ",\n",
    line "  \"Away Stars\": " (Piece.str (toString in_curr_event.away_stars)) ",\n",
    line "  \"Home Stars\": " (Piece.str (toString in_curr_event.home_stars)) ",\n",
    line "  \"Pitcher Stamina\": " (Piece.str (toString in_curr_event.pitcher_stamina)) ",\n",
    line "  \"Chemistry Links on Base\": " (Piece.str (toString in_curr_event.chem_links_ob)) ",\n",
    line "  \"Pitcher Roster Loc\": " (Piece.str (toString in_curr_event.pitcher_roster_loc)) ",\n",
    line "  \"Batter Roster Loc\": " (Piece.str (toString in_curr_event.batter_roster_loc)) ",\n" ])

/-- The vector `runners` of `getHUDJSON`: the runners present, with their labels. -/
def hudRunners (in_curr_event : Event) : List (Runner × String) :=
  (match in_curr_event.runner_batter with
   | some r => [(r, "Batter")]
   | none => []) ++
  (match in_curr_event.runner_1 with
   | some r => [(r, "1B")]
   | none => []) ++
  (match in_curr_event.runner_2 with
   | some r => [(r, "2B")]
   | none => []) ++
  (match in_curr_event.runner_3 with
   | some r => [(r, "3B")]
   | none => [])

/-- One runner object of `getHUDJSON`, closed with the given separator. -/
def hudRunnerPieces (H : Header) (inDecode : Bool) (runner_info : Runner) (label comma : String) :
    List Piece :=
  (List.flatten
  [ line "  \"Runner " (Piece.str label) "\": \x7b\n",
    line "    \"Runner Roster Loc\": " (Piece.str (toString runner_info.roster_loc)) ",\n",
    line "    \"Runner Char Id\": "
      (Piece.str (decode H "Character" runner_info.char_id inDecode)) ",\n",
    line "    \"Runner Initial Base\": " (Piece.str (toString runner_info.initial_base)) ",\n",
    line "    \"Out Type\": " (Piece.str (decode H "Out" runner_info.out_type inDecode)) ",\n",
    line "    \"Out Location\": " (Piece.str (toString runner_info.out_location)) ",\n",
    line "    \"Steal\": " (Piece.str (decode H "Steal" runner_info.steal inDecode)) ",\n",
    line "    \"Runner Result Base\": " (Piece.str (toString runner_info.result_base)) "\n",
    line "  \x7d" (Piece.str comma) "\n" ])

/-- The runner loop of `getHUDJSON`: the separator is empty only after the last
runner when no previous event is supplied. -/
def hudRunnersPieces (H : Header) (inDecode : Bool) (prevPresent : Bool) :
    List (Runner × String) → List Piece
  | [] => []
  | (runner_info, label) :: rest =>
    hudRunnerPieces H inDecode runner_info label
      (if rest.isEmpty && !prevPresent then "" else ",") ++
    hudRunnersPieces H inDecode prevPresent rest

/-- The `First Fielder` object of the previous event, streamed when either
fielder is recorded; otherwise the contact section is finished with a newline. -/
def hudFielderPieces (H : Header) (inDecode : Bool) (contact : Contact) : List Piece :=
  match (match contact.first_fielder with
         | some f => some f
         | none => contact.collect_fielder) with
  | some fielder =>
    (List.flatten
    [ text ",\n",
      text "        \"First Fielder\": \x7b\n",
      line "          \"Fielder Roster Location\": "
        (Piece.str (toString fielder.fielder_roster_loc)) ",\n",
      line "          \"Fielder Position\": "
        (Piece.str (decode H "Position" fielder.fielder_pos inDecode)) ",\n",
      line "          \"Fielder Character\": "
        (Piece.str (decode H "Character" fielder.fielder_char_id inDecode)) ",\n",
      line "          \"Fielder Action\": "
        (Piece.str (decode H "Action" fielder.fielder_action inDecode)) ",\n",
      line "          \"Fielder Jump\": " (Piece.str (toString fielder.fielder_jump)) ",\n",
      line "          \"Fielder Swap\": "
        (Piece.str (toString fielder.fielder_swapped_for_batter)) ",\n",
      line "          \"Fielder Manual Selected\": "
        (Piece.str (decode H "ManualSelect" fielder.fielder_manual_select_lock inDecode)) ",\n",
      line "          \"Fielder Position - X\": " (Piece.real fielder.fielder_x_pos) ",\n",
      line "          \"Fielder Position - Y\": " (Piece.real fielder.fielder_y_pos) ",\n",
      line "          \"Fielder Position - Z\": " (Piece.real fielder.fielder_z_pos) ",\n",
      line "          \"Fielder Bobble\": "
        (Piece.str (decode H "Bobble" fielder.bobble inDecode)) "\n",
      text "        \x7d\n" ])
  | none => (text "\n")

/-- The `Contact` object of the previous event. -/
def hudContactPieces (H : Header) (inDecode : Bool) (contact : Contact) : List Piece :=
  (List.flatten
  [ text ",\n",
    text "      \"Contact\": \x7b\n",
    line "        \"Type of Contact\": "
      (Piece.str (decode H "Contact" contact.type_of_contact inDecode)) ",\n",
    line "        \"Charge Power Up\": " (Piece.real contact.charge_power_up) ",\n",
    line "        \"Charge Power Down\": " (Piece.real contact.charge_power_down) ",\n",
    line "        \"Star Swing Five-Star\": " (Piece.str (toString contact.moon_shot)) ",\n",
    line "        \"Input Direction - Push/Pull\": "
      (Piece.str (decode H "Stick" contact.input_direction_push_pull inDecode)) ",\n",
    line "        \"Input Direction - Stick\": "
      (Piece.str (decode H "StickVec" contact.input_direction_stick inDecode)) ",\n",
    line "        \"Frame of Swing Upon Contact\": "
      (Piece.num contact.frameOfSwingUponContact) ",\n",
    line "        \"Ball Angle\": \"" (Piece.num contact.ball_angle) "\",\n",
    line "        \"Ball Vertical Power\": \"" (Piece.num contact.vert_power) "\",\n",
    line "        \"Ball Horizontal Power\": \"" (Piece.num contact.horiz_power) "\",\n",
    line "        \"Ball Velocity - X\": " (Piece.real contact.ball_x_velocity) ",\n",
    line "        \"Ball Velocity - Y\": " (Piece.real contact.ball_y_velocity) ",\n",
    line "        \"Ball Velocity - Z\": " (Piece.real contact.ball_z_velocity) ",\n",
    line "        \"Ball Landing Position - X\": " (Piece.real contact.ball_x_pos) ",\n",
    line "        \"Ball Landing Position - Y\": " (Piece.real contact.ball_y_pos) ",\n",
    line "        \"Ball Landing Position - Z\": " (Piece.real contact.ball_z_pos) ",\n",
    line "        \"Ball Max Height\": " (Piece.real contact.ball_y_pos_max_height) ",\n",
    line "        \"Multi-out\": " (Piece.str (toString contact.multi_out)) ",\n",
    line "        \"Contact Result - Primary\": "
      (Piece.str (decode H "PrimaryContactResult" contact.primary_contact_result inDecode)) ",\n",
    [Piece.lit "        \"Contact Result - Secondary\": ",
     Piece.str (decode H "SecondaryContactResult" contact.secondary_contact_result inDecode)] ]) ++
  hudFielderPieces H inDecode contact ++
  (text "      \x7d\n")

/-- The `Pitch` object of the previous event; the contact is streamed when it
is present and its type is not `0xFF`. -/
def hudPitchPieces (H : Header) (inDecode : Bool) (pitch : Pitch) : List Piece :=
  (List.flatten
  [ text "    \"Pitch\": \x7b\n",
    line "      \"Pitcher Team Id\": " (Piece.str (toString pitch.pitcher_team_id)) ",\n",
    line "      \"Pitcher Char Id\": "
      (Piece.str (decode H "Character" pitch.pitcher_char_id inDecode)) ",\n",
    line "      \"Pitch Type\": " (Piece.str (decode H "Pitch" pitch.pitch_type inDecode)) ",\n",
    line "      \"Charge Type\": "
      (Piece.str (decode H "ChargePitch" pitch.charge_type inDecode)) ",\n",
    line "      \"Star Pitch\": " (Piece.str (toString pitch.star_pitch)) ",\n",
    line "      \"Pitch Speed\": " (Piece.str (toString pitch.pitch_speed)) ",\n",
    line "      \"Ball Position - X\": " (Piece.real pitch.ball_x_pos_upon_hit) ",\n",
    line "      \"Ball Position - Z\": " (Piece.real pitch.ball_z_pos_upon_hit) ",\n",
    line "      \"Batter Position - X\": " (Piece.real pitch.batter_x_pos_upon_hit) ",\n",
    line "      \"Batter Position - Z\": " (Piece.real pitch.batter_z_pos_upon_hit) ",\n",
    line "      \"DB\": " (Piece.str (toString pitch.db)) ",\n",
    line "      \"Pitch Result\": "
      (Piece.str (decode H "PitchResult" pitch.pitch_result inDecode)) ",\n",
    [Piece.lit "      \"Type of Swing\": ",
     Piece.str (decode H "Swing" pitch.type_of_swing inDecode)] ]) ++
  (match pitch.contact with
   | some contact =>
     if contact.type_of_contact ≠ 0xFF then hudContactPieces H inDecode contact
     else (text "\n")
   | none => (text "\n")) ++
  (text "    \x7d\n")

/-- The `Previous Event` object of `getHUDJSON`, up to its closing brace. -/
def hudPreviousEventPieces (H : Header) (inDecode : Bool) (in_prev_event : Event) : List Piece :=
  (List.flatten
  [ text "  \"Previous Event\": \x7b\n",
    line "    \"RBI\": " (Piece.str (toString in_prev_event.rbi)) ",\n",
    [Piece.lit "    \"Result of AB\": ",
     Piece.str (decode H "AtBatResult" in_prev_event.result_of_atbat inDecode),
     Piece.str (if in_prev_event.pitch.isSome then "," else ""), Piece.lit "\n"] ]) ++
  (match in_prev_event.pitch with
   | some pitch => hudPitchPieces H inDecode pitch
   | none => []) ++
  (text "  \x7d\n")

/-- Embeds `StatTracker::getHUDJSON(in_event_num, in_curr_event, in_prev_event,
inDecode)` as the sequence of its stream insertions; `none` when a
`cPosition.at` lookup throws.  An event with inning 0 yields the text of an
empty object at once. -/
def getHUDJSON (H : Header) (gi : GameInfo) (trk : Trackers) (in_event_num : String)
    (in_curr_event : Event) (in_prev_event : Option Event) (inDecode : Bool) :
    Option (List Piece) :=
  if in_curr_event.inning = 0 then some (text "\x7b\x7d")
  else
    (hudCharactersPieces H gi trk inDecode).map fun characters =>
      hudHeadPieces gi in_event_num in_curr_event ++ characters ++
      hudRunnersPieces H inDecode in_prev_event.isSome (hudRunners in_curr_event) ++
      (match in_prev_event with
       | none => (text "\x7d")
       | some prev => hudPreviousEventPieces H inDecode prev ++ (text "\x7d"))

/-- The insertion that opens the `Previous Event` object. -/
def previousEventOpening : Piece := .lit "  \"Previous Event\": \x7b\n"

/-! ## Vocabulary of the at-bat properties -/

/-- The four runner slots of an event: 0 is the batter-runner, 1 to 3 the
runners starting on first, second and third. -/
def runnerAt (ev : Event) (slot : Nat) : Option Runner :=
  if slot = 0 then ev.runner_batter
  else if slot = 1 then ev.runner_1
  else if slot = 2 then ev.runner_2
  else if slot = 3 then ev.runner_3
  else none

/-- How a stored runner may change: the steal classification does not go down,
and an out type that is set stays, except that the batter-runner's may be
rewritten to the strikeout code `0x10`. -/
def RunnerEvolves (slot : Nat) (r r' : Runner) : Prop :=
  r.steal ≤ r'.steal ∧
  (r.out_type ≠ 0 → r'.out_type = r.out_type ∨ (slot = 0 ∧ r'.out_type = 0x10))

/-- Every runner of the event is still there and has evolved. -/
def RunnersEvolve (ev ev' : Event) : Prop :=
  ∀ slot r, runnerAt ev slot = some r → ∃ r', runnerAt ev' slot = some r' ∧ RunnerEvolves slot r r'

/-- A pitch whose `potential_db` is false is still there with `potential_db` false. -/
def PitchStaysCleared (ev ev' : Event) : Prop :=
  ∀ p, ev.pitch = some p → p.potential_db = false →
    ∃ p', ev'.pitch = some p' ∧ p'.potential_db = false

/-- Every stored event is still stored under its key and is related to what it was. -/
def EventsEvolve (R : Event → Event → Prop) (st st' : StatTracker) : Prop :=
  ∀ k ev, mapFind k st.m_game_info.events = some ev →
    ∃ ev', mapFind k st'.m_game_info.events = some ev' ∧ R ev ev'

/-- The tracker is in game with an at-bat open: the event state is one of the
seven states between the creation of an Event and its finalization. -/
def inAtBat (st : StatTracker) : Bool :=
  decide (st.m_game_state = GAME_STATE.INGAME) &&
  (decide (st.m_event_state = EVENT_STATE.WAITING_FOR_EVENT) ||
   decide (st.m_event_state = EVENT_STATE.PITCH_RESULT) ||
   decide (st.m_event_state = EVENT_STATE.CONTACT_RESULT) ||
   decide (st.m_event_state = EVENT_STATE.LOG_FIELDER) ||
   decide (st.m_event_state = EVENT_STATE.MONITOR_RUNNERS) ||
   decide (st.m_event_state = EVENT_STATE.PLAY_OVER) ||
   decide (st.m_event_state = EVENT_STATE.FINAL_RESULT))

/-- The tracker is in game with an at-bat open and past `WAITING_FOR_EVENT`. -/
def pastWaiting (st : StatTracker) : Bool :=
  inAtBat st && !decide (st.m_event_state = EVENT_STATE.WAITING_FOR_EVENT)

/-- Run the ticks of a list of snapshots for as long as the tracker satisfies
`p` before each tick; `none` when a tick aborts or starts outside `p`. -/
def runWhile (H : Header) (p : StatTracker → Bool) : StatTracker → List Snapshot →
    Option StatTracker
  | st, [] => some st
  | st, mem :: rest =>
    if p st then (lookForTriggerEvents H mem st).bind fun st' => runWhile H p st' rest
    else none

/-- The number of submissions among the outputs. -/
def postCount (outs : List Output) : Nat :=
  (outs.filter fun o =>
    match o with
    | .post _ _ => true
    | _ => false).length

/-- The stadium id is named in every snapshot of the list. -/
def stadiumsNamed (H : Header) (mems : List Snapshot) : Bool :=
  mems.all fun mem => (H.cStadiumIdToStadiumName (Read_U8 mem .aStadiumId)).isSome

/-! ### Sample data -/

/-- A game record whose stadium id has no name in the sample tables. -/
def unnamedStadiumGame : GameInfo := { zeroGameInfo with stadium := 200 }

/-- A first-inning event finalized as a home run (final result `0xA`), its
contact classified as a foul by the `0xFF` rule. -/
def homeRunEvent : Event :=
  { zeroEvent with
    inning := 1
    result_of_atbat := 0xA
    runner_batter := some zeroRunner
    pitch := some
      { zeroPitch with
        contact := some
          { collectedContact with primary_contact_result := 1, secondary_contact_result := 3 } } }

/-- How a stored event may change during its at-bat: its runners evolve and a
cleared `potential_db` stays cleared. -/
def AtBatEvolves (ev ev' : Event) : Prop :=
  RunnersEvolve ev ev' ∧ PitchStaysCleared ev ev'

/-- The game has ended: game-over control state `0xE`, play dead. -/
def gameEndSnapshot : Snapshot :=
  snapshotOf fun a =>
    match a with
    | .aGameId => 1
    | .aGameControlStateCurr => 0xE
    | _ => 0

/-- An event in flight with a runner on first: a batter-runner, a runner who
started on first base, and a pitch. -/
def stealEvent : Event :=
  { zeroEvent with
    inning := 1
    runner_batter := some zeroRunner
    runner_1 := some { zeroRunner with initial_base := 1 }
    pitch := some zeroPitch }

/-- Play live with the runner from first stealing: steal code 2. -/
def stealSnapshot : Snapshot :=
  snapshotOf fun a =>
    match a with
    | .aGameId => 1
    | .aAB_PitchThrown => 1
    | .aRunner_Stealing 1 => 2
    | _ => 0

/-- The out type of the batter-runner of the event stored under key 0. -/
def batterOutType (st : StatTracker) : Option Nat :=
  (mapFind 0 st.m_game_info.events).bind fun ev => ev.runner_batter.map fun r => r.out_type

/-- The previous events handed to `getHUDJSON` by the HUD writes among the
outputs, in order. -/
def hudPrevs (outs : List Output) : List (Option Event) :=
  outs.filterMap fun o =>
    match o with
    | .hudFile _ _ _ _ prev => some prev
    | _ => none

/-- The tracker is in game between two at-bats or at the start of one: the event
state is `START_AB` or `WAITING_FOR_EVENT`. -/
def awaitingPitch (st : StatTracker) : Bool :=
  decide (st.m_game_state = GAME_STATE.INGAME) &&
  (decide (st.m_event_state = EVENT_STATE.START_AB) ||
   decide (st.m_event_state = EVENT_STATE.WAITING_FOR_EVENT))

/-- The at-bat scene has just come up: the control state reads 1 after reading
something else, first inning. -/
def atBatSceneSnapshot : Snapshot :=
  snapshotOf fun a =>
    match a with
    | .aGameId => 1
    | .aGameControlStateCurr => 1
    | .aAB_Inning => 1
    | _ => 0

/-! ### `getStatJSON` -/

/-- One `... Per Position` block of `getStatJSON`: when some position has a
nonzero counter, an object with one row per such position, its name fetched
with `cPosition.at` (which throws for a position without a name). -/
def statPositionPieces (H : Header) (counts : Nat → Nat) : Option (List Piece) :=
  if anyPositionFrom counts 0 then
    (collect ((List.range cNumOfPositions).map fun pos =>
      if counts pos > 0 then
        (H.cPosition pos).map fun name =>
          [Piece.lit "            \"", Piece.str name, Piece.lit "\": ",
           Piece.str (toString (counts pos)),
           Piece.str (if anyPositionFrom counts (pos + 1) then "," else ""), Piece.lit "\n"]
      else some [])).map fun rows => (text "          \x7b\n") ++ rows ++ (text "          \x7d\n")
  else some []

/-- One pass of the character loop of `getStatJSON`. -/
def statCharacterPieces (H : Header) (gi : GameInfo) (trk : Trackers) (inDecode : Bool)
    (team roster : Nat) : Option (List Piece) := do
  let captain_roster_loc := captainRosterLoc gi team
  let tracker_team := if team = 0 then 1 else 0
  let char_summary := gi.character_summaries team roster
  let label := "\"Team " ++ toString team ++ " Roster " ++ toString roster ++ "\": "
  let def_stat := char_summary.end_game_defensive_stats
  let slot := (trk tracker_team).fielder_map roster
  let pitches ← statPositionPieces H slot.pitch_count_by_position
  let batterOuts ← statPositionPieces H slot.batter_outs_by_position
  let outs ← statPositionPieces H slot.out_count_by_position
  let of_stat := char_summary.end_game_offensive_stats
  let commas := if roster = 8 ∧ team = 1 then "" else ","
  pure
    (List.flatten
     [ line "    " (Piece.str label) "\x7b\n",
       line "      \"Team\": \"" (Piece.str (toString team)) "\",\n",
       line "      \"RosterID\": " (Piece.str (toString roster)) ",\n",
       line "      \"CharID\": "
         (Piece.str (decode H "Character" char_summary.char_id inDecode)) ",\n",
       line "      \"Superstar\": " (Piece.str (toString char_summary.is_starred)) ",\n",
       line "      \"Captain\": "
         (Piece.str (boolText (decide (roster = captain_roster_loc)))) ",\n",
       line "      \"Fielding Hand\": "
         (Piece.str (decode H "Hand" char_summary.fielding_hand inDecode)) ",\n",
       line "      \"Batting Hand\": "
         (Piece.str (decode H "Hand" char_summary.batting_hand inDecode)) ",\n",
       text "      \"Defensive Stats\": \x7b\n",
       line "        \"Batters Faced\": " (Piece.str (toString def_stat.batters_faced)) ",\n",
       line "        \"Runs Allowed\": " (Piece.num def_stat.runs_allowed) ",\n",
       line "        \"Earned Runs\": " (Piece.num def_stat.earned_runs) ",\n",
       line "        \"Batters Walked\": " (Piece.num def_stat.batters_walked) ",\n",
       line "        \"Batters Hit\": " (Piece.num def_stat.batters_hit) ",\n",
       line "        \"Hits Allowed\": " (Piece.num def_stat.hits_allowed) ",\n",
       line "        \"HRs Allowed\": " (Piece.num def_stat.homeruns_allowed) ",\n",
       line "        \"Pitches Thrown\": " (Piece.num def_stat.pitches_thrown) ",\n",
       line "        \"Stamina\": " (Piece.num def_stat.stamina) ",\n",
       line "        \"Was Pitcher\": " (Piece.str (toString def_stat.was_pitcher)) ",\n",
       line "        \"Strikeouts\": " (Piece.str (toString def_stat.strike_outs)) ",\n",
       line "        \"Star Pitches Thrown\": "
         (Piece.str (toString def_stat.star_pitches_thrown)) ",\n",
       line "        \"Big Plays\": " (Piece.str (toString def_stat.big_plays)) ",\n",
       line "        \"Outs Pitched\": " (Piece.str (toString def_stat.outs_pitched)) ",\n",
       text "        \"Pitches Per Position\": [\n" ] ++
     pitches ++
     (List.flatten
     [ text "        ],\n",
       text "        \"Batter Outs Per Position\": [\n" ]) ++
     batterOuts ++
     (List.flatten
     [ text "        ],\n",
       text "        \"Outs Per Position\": [\n" ]) ++
     outs ++
     (List.flatten
     [ text "        ]\n",
       text "      \x7d,\n",
       text "      \"Offensive Stats\": \x7b\n",
       line "        \"At Bats\": " (Piece.str (toString of_stat.at_bats)) ",\n",
       line "        \"Hits\": " (Piece.str (toString of_stat.hits)) ",\n",
       line "        \"Singles\": " (Piece.str (toString of_stat.singles)) ",\n",
       line "        \"Doubles\": " (Piece.str (toString of_stat.doubles)) ",\n",
       line "        \"Triples\": " (Piece.str (toString of_stat.triples)) ",\n",
       line "        \"Homeruns\": " (Piece.str (toString of_stat.homeruns)) ",\n",
       line "        \"Successful Bunts\": " (Piece.str (toString of_stat.successful_bunts)) ",\n",
       line "        \"Sac Flys\": " (Piece.str (toString of_stat.sac_flys)) ",\n",
       line "        \"Strikeouts\": " (Piece.str (toString of_stat.strikouts)) ",\n",
       line "        \"Walks (4 Balls)\": " (Piece.str (toString of_stat.walks_4balls)) ",\n",
       line "        \"Walks (Hit)\": " (Piece.str (toString of_stat.walks_hit)) ",\n",
       line "        \"RBI\": " (Piece.str (toString of_stat.rbi)) ",\n",
       line "        \"Bases Stolen\": " (Piece.str (toString of_stat.bases_stolen)) ",\n",
       line "        \"Star Hits\": " (Piece.str (toString of_stat.star_hits)) "\n",
       text "      \x7d\n",
       line "    \x7d" (Piece.str commas) "\n" ]))

/-- The character loop of `getStatJSON`: teams 0 and 1, roster slots in order. -/
def statCharactersPieces (H : Header) (gi : GameInfo) (trk : Trackers) (inDecode : Bool) :
    Option (List Piece) :=
  collect ((List.range cNumOfTeams).map fun team =>
    collect ((List.range cRosterSize).map fun roster =>
      statCharacterPieces H gi trk inDecode team roster))

/-- The vector `runners` of the events loop of `getStatJSON`: the runners
present, with their labels. -/
def statRunners (event : Event) : List (Runner × String) :=
  (match event.runner_batter with
   | some r => [(r, "Batter")]
   | none => []) ++
  (match event.runner_1 with
   | some r => [(r, "1B")]
   | none => []) ++
  (match event.runner_2 with
   | some r => [(r, "2B")]
   | none => []) ++
  (match event.runner_3 with
   | some r => [(r, "3B")]
   | none => [])

/-- One runner object of an event object, closed with the given separator. -/
def statRunnerPieces (H : Header) (inDecode : Bool) (runner_info : Runner)
    (label comma : String) : List Piece :=
  (List.flatten
  [ line "      \"Runner " (Piece.str label) "\": \x7b\n",
    line "        \"Runner Roster Loc\": " (Piece.str (toString runner_info.roster_loc)) ",\n",
    line "        \"Runner Char Id\": "
      (Piece.str (decode H "Character" runner_info.char_id inDecode)) ",\n",
    line "        \"Runner Initial Base\": "
      (Piece.str (toString runner_info.initial_base)) ",\n",
    line "        \"Out Type\": " (Piece.str (decode H "Out" runner_info.out_type inDecode)) ",\n",
    line "        \"Out Location\": " (Piece.str (toString runner_info.out_location)) ",\n",
    line "        \"Steal\": " (Piece.str (decode H "Steal" runner_info.steal inDecode)) ",\n",
    line "        \"Runner Result Base\": " (Piece.str (toString runner_info.result_base)) "\n",
    line "      \x7d" (Piece.str comma) "\n" ])

/-- The runner loop of an event object: the separator is empty only after the
last runner when the event has no pitch. -/
def statRunnersPieces (H : Header) (inDecode : Bool) (pitchPresent : Bool) :
    List (Runner × String) → List Piece
  | [] => []
  | (runner_info, label) :: rest =>
    statRunnerPieces H inDecode runner_info label
      (if rest.isEmpty && !pitchPresent then "" else ",") ++
    statRunnersPieces H inDecode pitchPresent rest

/-- The `First Fielder` object of an event object, streamed when either
fielder is recorded; otherwise the contact section is finished with a newline. -/
def statFielderPieces (H : Header) (inDecode : Bool) (contact : Contact) : List Piece :=
  match (match contact.first_fielder with
         | some f => some f
         | none => contact.collect_fielder) with
  | some fielder =>
    (List.flatten
    [ text ",\n",
      text "          \"First Fielder\": \x7b\n",
      line "            \"Fielder Roster Location\": "
        (Piece.str (toString fielder.fielder_roster_loc)) ",\n",
      line "            \"Fielder Position\": "
        (Piece.str (decode H "Position" fielder.fielder_pos inDecode)) ",\n",
      line "            \"Fielder Character\": "
        (Piece.str (decode H "Character" fielder.fielder_char_id inDecode)) ",\n",
      line "            \"Fielder Action\": "
        (Piece.str (decode H "Action" fielder.fielder_action inDecode)) ",\n",
      line "            \"Fielder Jump\": " (Piece.str (toString fielder.fielder_jump)) ",\n",
      line "            \"Fielder Swap\": "
        (Piece.str (toString fielder.fielder_swapped_for_batter)) ",\n",
      line "            \"Fielder Manual Selected\": "
        (Piece.str (decode H "ManualSelect" fielder.fielder_manual_select_lock inDecode)) ",\n",
      line "            \"Fielder Position - X\": " (Piece.real fielder.fielder_x_pos) ",\n",
      line "            \"Fielder Position - Y\": " (Piece.real fielder.fielder_y_pos) ",\n",
      line "            \"Fielder Position - Z\": " (Piece.real fielder.fielder_z_pos) ",\n",
      line "            \"Fielder Bobble\": "
        (Piece.str (decode H "Bobble" fielder.bobble inDecode)) "\n",
      text "          \x7d\n" ])
  | none => (text "\n")

/-- The `Contact` object of an event object. -/
def statContactPieces (H : Header) (inDecode : Bool) (contact : Contact) : List Piece :=
  (List.flatten
  [ text ",\n",
    text "        \"Contact\": \x7b\n",
    line "          \"Type of Contact\": "
      (Piece.str (decode H "Contact" contact.type_of_contact inDecode)) ",\n",
    line "          \"Charge Power Up\": " (Piece.real contact.charge_power_up) ",\n",
    line "          \"Charge Power Down\": " (Piece.real contact.charge_power_down) ",\n",
    line "          \"Star Swing Five-Star\": " (Piece.str (toString contact.moon_shot)) ",\n",
    line "          \"Input Direction - Push/Pull\": "
      (Piece.str (decode H "Stick" contact.input_direction_push_pull inDecode)) ",\n",
    line "          \"Input Direction - Stick\": "
      (Piece.str (decode H "StickVec" contact.input_direction_stick inDecode)) ",\n",
    line "          \"Frame of Swing Upon Contact\": "
      (Piece.num contact.frameOfSwingUponContact) ",\n",
    line "          \"Ball Angle\": \"" (Piece.num contact.ball_angle) "\",\n",
    line "          \"Ball Vertical Power\": \"" (Piece.num contact.vert_power) "\",\n",
    line "          \"Ball Horizontal Power\": \"" (Piece.num contact.horiz_power) "\",\n",
    line "          \"Ball Velocity - X\": " (Piece.real contact.ball_x_velocity) ",\n",
    line "          \"Ball Velocity - Y\": " (Piece.real contact.ball_y_velocity) ",\n",
    line "          \"Ball Velocity - Z\": " (Piece.real contact.ball_z_velocity) ",\n",
    line "          \"Ball Landing Position - X\": " (Piece.real contact.ball_x_pos) ",\n",
    line "          \"Ball Landing Position - Y\": " (Piece.real contact.ball_y_pos) ",\n",
    line "          \"Ball Landing Position - Z\": " (Piece.real contact.ball_z_pos) ",\n",
    line "          \"Ball Max Height\": " (Piece.real contact.ball_y_pos_max_height) ",\n",
    line "          \"Multi-out\": " (Piece.str (toString contact.multi_out)) ",\n",
    line "          \"Contact Result - Primary\": "
      (Piece.str (decode H "PrimaryContactResult" contact.primary_contact_result inDecode)) ",\n",
    [Piece.lit "          \"Contact Result - Secondary\": ",
     Piece.str (decode H "SecondaryContactResult" contact.secondary_contact_result inDecode)] ]) ++
  statFielderPieces H inDecode contact ++
  (text "        \x7d\n")

/-- The `Pitch` object of an event object; the contact is streamed when it is
present and its type is not `0xFF`. -/
def statPitchPieces (H : Header) (inDecode : Bool) (pitch : Pitch) : List Piece :=
  (List.flatten
  [ text "      \"Pitch\": \x7b\n",
    line "        \"Pitcher Team Id\": " (Piece.str (toString pitch.pitcher_team_id)) ",\n",
    line "        \"Pitcher Char Id\": "
      (Piece.str (decode H "Character" pitch.pitcher_char_id inDecode)) ",\n",
    line "        \"Pitch Type\": " (Piece.str (decode H "Pitch" pitch.pitch_type inDecode)) ",\n",
    line "        \"Charge Type\": "
      (Piece.str (decode H "ChargePitch" pitch.charge_type inDecode)) ",\n",
    line "        \"Star Pitch\": " (Piece.str (toString pitch.star_pitch)) ",\n",
    line "        \"Pitch Speed\": " (Piece.str (toString pitch.pitch_speed)) ",\n",
    line "        \"Ball Position - X\": " (Piece.real pitch.ball_x_pos_upon_hit) ",\n",
    line "        \"Ball Position - Z\": " (Piece.real pitch.ball_z_pos_upon_hit) ",\n",
    line "        \"Batter Position - X\": " (Piece.real pitch.batter_x_pos_upon_hit) ",\n",
    line "        \"Batter Position - Z\": " (Piece.real pitch.batter_z_pos_upon_hit) ",\n",
    line "        \"DB\": " (Piece.str (toString pitch.db)) ",\n",
    line "        \"Pitch Result\": "
      (Piece.str (decode H "PitchResult" pitch.pitch_result inDecode)) ",\n",
    [Piece.lit "        \"Type of Swing\": ",
     Piece.str (decode H "Swing" pitch.type_of_swing inDecode)] ]) ++
  (match pitch.contact with
   | some contact =>
     if contact.type_of_contact ≠ 0xFF then statContactPieces H inDecode contact
     else (text "\n")
   | none => (text "\n")) ++
  (text "      \x7d\n")

/-- The insertions of one event object up to its runners: the opening brace and
the fields of the event, `Event Num` being the map key held in a `u8`. -/
def statEventHeadPieces (H : Header) (inDecode : Bool) (key : Nat) (event : Event) : List Piece :=
  let event_num := emittedEventNum key
  (List.flatten
  [ text "    \x7b\n",
    line "      \"Event Num\": " (Piece.str (toString event_num)) ",\n",
    line "      \"Inning\": " (Piece.str (toString event.inning)) ",\n",
    line "      \"Half Inning\": " (Piece.str (toString event.half_inning)) ",\n",
    line "      \"Away Score\": " (Piece.num event.away_score) ",\n",
    line "      \"Home Score\": " (Piece.num event.home_score) ",\n",
    line "      \"Balls\": " (Piece.str (toString event.balls)) ",\n",
    line "      \"Strikes\": " (Piece.str (toString event.strikes)) ",\n",
    line "      \"Outs\": " (Piece.str (toString event.outs)) ",\n",
    line "      \"Star Chance\": " (Piece.str (toString event.is_star_chance)) ",\n",
    line "      \"Away Stars\": " (Piece.str (toString event.away_stars)) ",\n",
    line "      \"Home Stars\": " (Piece.str (toString event.home_stars)) ",\n",
    line "      \"Pitcher Stamina\": " (Piece.str (toString event.pitcher_stamina)) ",\n",
    line "      \"Chemistry Links on Base\": " (Piece.str (toString event.chem_links_ob)) ",\n",
    line "      \"Pitcher Roster Loc\": " (Piece.str (toString event.pitcher_roster_loc)) ",\n",
    line "      \"Batter Roster Loc\": " (Piece.str (toString event.batter_roster_loc)) ",\n",
    line "      \"Catcher Roster Loc\": " (Piece.str (toString event.catcher_roster_loc)) ",\n",
    line "      \"RBI\": " (Piece.str (toString event.rbi)) ",\n",
    line "      \"Result of AB\": "
      (Piece.str (decode H "AtBatResult" event.result_of_atbat inDecode)) ",\n" ])

/-- One event object of `getStatJSON`, for the map entry `(key, event)`, closed
with the given separator. -/
def statEventPieces (H : Header) (inDecode : Bool) (key : Nat) (event : Event)
    (end_comma : String) : List Piece :=
  statEventHeadPieces H inDecode key event ++
  statRunnersPieces H inDecode event.pitch.isSome (statRunners event) ++
  (match event.pitch with
   | some pitch => statPitchPieces H inDecode pitch
   | none => []) ++
  line "    \x7d" (Piece.str end_comma) "\n"

/-- The events loop of `getStatJSON` over the entries of the map in iteration
order: an entry whose `inning` is 0 is skipped by `continue`; for every other
entry one event object is streamed, followed by a comma unless the entry is the
last of the map. -/
def statEventsPieces (H : Header) (inDecode : Bool) : List (Nat × Event) → List Piece
  | [] => []
  | (key, event) :: rest =>
    if event.inning = 0 then statEventsPieces H inDecode rest
    else
      statEventPieces H inDecode key event (if !rest.isEmpty then "," else "") ++
      statEventsPieces H inDecode rest

/-- Embeds `StatTracker::getStatJSON(inDecode)` as the sequence of its stream
insertions; `none` when the stadium-name lookup or a `cPosition.at` lookup
throws. -/
def getStatJSON (H : Header) (gi : GameInfo) (trk : Trackers) (inDecode : Bool) :
    Option (List Piece) := do
  let head ← statHeadPieces H gi inDecode
  let characters ← statCharactersPieces H gi trk inDecode
  pure
    (head ++ characters ++
     (List.flatten
     [ text "  \x7d,\n",
       text "  \"Events\": [\n" ]) ++
     statEventsPieces H inDecode gi.events ++
     (List.flatten
     [ text "  ]\n",
       text "\x7d\n" ]))

/-- The insertion that opens an event object. -/
def eventOpening : Piece := .lit "    \x7b\n"

/-- The values written under `Event Num` in a stream of insertions, in order:
the value streamed right after each `Event Num` label. -/
def eventNumsIn : List Piece → List String
  | [] => []
  | p :: rest =>
    match p, rest with
    | Piece.lit l, Piece.str v :: _ =>
      if l = "      \"Event Num\": " then v :: eventNumsIn rest else eventNumsIn rest
    | _, _ => eventNumsIn rest

/-- A game record with three stored events: key 0 finalized in inning 1, key 1
an empty placeholder (inning 0), key 2 in inning 2. -/
def threeEventGame : GameInfo :=
  { zeroGameInfo with
    events :=
      [(0, forcedOutEvent), (1, zeroEvent), (2, { pickoffEvent with inning := 2 })] }

/-! ## Sample data of the step rules -/

/-- The match has started: the game identifier is set and the control state
reads 5. -/
def matchStartSnapshot : Snapshot :=
  snapshotOf fun a =>
    match a with
    | .aGameId => 1
    | .aGameControlStateCurr => 5
    | _ => 0

/-- The at-bat scene has just come up with no roster slot in the batter's box:
the roster byte of runner slot 0 reads `0xFF`. -/
def emptyBoxSnapshot : Snapshot :=
  snapshotOf fun a =>
    match a with
    | .aGameId => 1
    | .aGameControlStateCurr => 1
    | .aAB_Inning => 1
    | .aRunner_RosterLoc 0 => 0xFF
    | _ => 0

/-- A pickoff attempt is under way: the pickoff flag reads 1, no pitch thrown. -/
def pickoffSnapshot : Snapshot :=
  snapshotOf fun a =>
    match a with
    | .aGameId => 1
    | .aAB_PickoffAttempt => 1
    | _ => 0

/-- A first-inning event with a runner on first and a pitch, and no batter-runner. -/
def batterlessEvent : Event :=
  { zeroEvent with
    inning := 1
    runner_1 := some { zeroRunner with initial_base := 1 }
    pitch := some zeroPitch }

/-- The batter has been hit: hit-by-pitch reads 1, the pitch-thrown flag has
cleared, the final result reads 2, five flight frames remain, and the pitcher
does not have control of the pitch. -/
def hitByPitchSnapshot : Snapshot :=
  snapshotOf fun a =>
    match a with
    | .aGameId => 1
    | .aAB_HitByPitch => 1
    | .aAB_FinalResult => 2
    | .aAB_FramesUnitlBallArrivesBatter => 5
    | _ => 0

/-- The same reading as `hitByPitchSnapshot`, with the pitcher-has-control flag at 1. -/
def hitByPitchHeldSnapshot : Snapshot :=
  snapshotOf fun a =>
    match a with
    | .aGameId => 1
    | .aAB_HitByPitch => 1
    | .aAB_FinalResult => 2
    | .aAB_FramesUnitlBallArrivesBatter => 5
    | .aAB_PitcherHasCtrlofPitch => 1
    | _ => 0

/-- The ball landed fair (contact-result 1) with the fielder at position 6
(roster slot 4) already holding it, pitch-thrown still set. -/
def fieldedFairSnapshot : Snapshot :=
  snapshotOf fun a =>
    match a with
    | .aGameId => 1
    | .aAB_PitchThrown => 1
    | .aAB_ContactResult => 1
    | .aFielder_ControlStatus 6 => 0xA
    | .aFielder_RosterLoc 6 => 4
    | _ => 0

/-- The at-bat scene is back (control state 1) while the end-of-game flag reads 1. -/
def bothExitsSnapshot : Snapshot :=
  snapshotOf fun a =>
    match a with
    | .aGameId => 1
    | .aGameControlStateCurr => 1
    | .aEndOfGameFlag => 1
    | _ => 0

/-- The event state and the collector's roster slot of the current event's contact. -/
def collectorView (st : StatTracker) : EVENT_STATE × Option (Option Nat) :=
  (st.m_event_state,
   st.m_game_info.getCurrentEvent.bind fun ev =>
     ev.pitch.bind fun p =>
       p.contact.map fun c => c.collect_fielder.map fun f => f.fielder_roster_loc)

/-- The four port members of the game record: `team0_port`, `team1_port`,
`away_port`, `home_port`. -/
def portsOf (gi : GameInfo) : Nat × Nat × Nat × Nat :=
  (gi.team0_port, gi.team1_port, gi.away_port, gi.home_port)

/-- The tracker is in game. -/
def inGame (st : StatTracker) : Bool := decide (st.m_game_state = GAME_STATE.INGAME)

/-- The first at-bat scene of a match between the players on ports 1 (in the
field) and 2 (at bat). -/
def firstAtBatSnapshot : Snapshot :=
  snapshotOf fun a =>
    match a with
    | .aGameId => 1
    | .aGameControlStateCurr => 1
    | .aAB_Inning => 1
    | .aAB_FieldingPort => 1
    | .aAB_BattingPort => 2
    | _ => 0

/-- A later at-bat scene of the same match, the sides having changed: port 2
in the field and port 1 at bat. -/
def laterAtBatSnapshot : Snapshot :=
  snapshotOf fun a =>
    match a with
    | .aGameId => 1
    | .aGameControlStateCurr => 1
    | .aAB_Inning => 1
    | .aAB_HalfInning => 1
    | .aAB_FieldingPort => 2
    | .aAB_BattingPort => 1
    | _ => 0

/-- The ticks of a first at-bat (a pitch hit fair, the play dying) followed by
the opening of the next at-bat with the sides changed. -/
def sidesChangeTicks : List Snapshot :=
  [firstAtBatSnapshot, pitchThrownSnapshot, contactMadeSnapshot, landedFairSnapshot,
   playDeadSnapshot, playDeadSnapshot, laterAtBatSnapshot, zeroSnapshot, laterAtBatSnapshot]

/-- The sample tracker in game whose record already pairs port 1 (team 0, home)
with port 2 (team 1, away). -/
def pairedTracker : StatTracker :=
  { sampleTracker with
    m_game_state := GAME_STATE.INGAME
    m_game_info :=
      { newGameInfo sampleHeader with
        team0_port := 1
        team1_port := 2
        away_port := 2
        home_port := 1 } }

/-! ## Vocabulary and sample data of the invariants, rows and separators -/

/-- The batter-out counter of tracker `idx` for a roster slot at a position:
`m_fielder_tracker[idx].fielder_map[roster].batter_outs_by_position[pos]`. -/
def batterOutCount (trk : Trackers) (idx roster pos : Nat) : Nat :=
  ((trk idx).fielder_map roster).batter_outs_by_position pos

/-- The event states whose case reads `getCurrentEvent().pitch->`. -/
def needsPitch (es : EVENT_STATE) : Bool :=
  decide (es = EVENT_STATE.PITCH_RESULT) || decide (es = EVENT_STATE.CONTACT_RESULT) ||
  decide (es = EVENT_STATE.LOG_FIELDER)

/-- The event states whose case reads `getCurrentEvent().pitch->contact`. -/
def needsContact (es : EVENT_STATE) : Bool :=
  decide (es = EVENT_STATE.CONTACT_RESULT) || decide (es = EVENT_STATE.LOG_FIELDER)

/-- The sub-records read in the tracker's event state are there: a current
event with a Pitch in `PITCH_RESULT`, `CONTACT_RESULT` and `LOG_FIELDER`, and a
Contact in that Pitch in the last two. -/
def subRecordsPresent (st : StatTracker) : Bool :=
  (!needsPitch st.m_event_state ||
    (st.m_game_info.getCurrentEvent.bind fun ev => ev.pitch).isSome) &&
  (!needsContact st.m_event_state ||
    (st.m_game_info.getCurrentEvent.bind fun ev => ev.pitch.bind fun p => p.contact).isSome)

/-- The value of `tracker_team` in the character loops of `getStatJSON` and
`getHUDJSON`: tracker 1 for summary row 0, tracker 0 for summary row 1. -/
def trackerTeam (team : Nat) : Nat := if team = 0 then 1 else 0

/-- The summary row of the side in the field, in the words of the
specification: row 0 is the home side, which fields in half-inning 0; row 1 is
the away side, which fields in half-inning 1. -/
def fieldingRowPerSpec (half_inning : Nat) : Nat := if half_inning = 0 then 0 else 1

/-- The game record of a match between port 1 (team 0, home) and port 2
(team 1, away). -/
def pairedGame : GameInfo :=
  { newGameInfo sampleHeader with
    team0_port := 1
    team1_port := 2
    away_port := 2
    home_port := 1 }

/-- The tracker of `pairedGame` in game, with `ev` as the current event (key 0)
and the at-bat machine in state `es`, the state change already logged. -/
def pairedTrackerAt (es : EVENT_STATE) (ev : Event) : StatTracker :=
  { sampleTracker with
    m_game_state := GAME_STATE.INGAME
    m_game_state_prev := GAME_STATE.INGAME
    m_event_state := es
    m_event_state_prev := es
    m_game_info := { pairedGame with events := [(0, ev)] } }

/-- The ticks of a batter-runner read as forced out while the play is live,
then the play ending with final result 0 and one finalization. -/
def outThenPlayDead : List Snapshot :=
  [forcedOutSnapshot, playDeadSnapshot, playDeadSnapshot, playDeadSnapshot]

/-- The forced-out event with the final result of the at-bat stored as 1, the
strikeout code. -/
def struckOutEvent : Event := { forcedOutEvent with result_of_atbat := 1 }

/-- A first-inning event, top half, whose at-bat ended with final result 7:
a batter-runner and a pitch that was hit. -/
def hitEvent : Event := { contactEvent with result_of_atbat := 7 }

/-- The event `contactEvent`, final result 0, with a batter-runner whose
character id (200) has no name in the sample tables. -/
def unnamedBatterEvent : Event :=
  { contactEvent with runner_batter := some { zeroRunner with char_id := 200 } }

/-- The tracker of `pairedGame` on the tick after the at-bat machine moved from
`MONITOR_RUNNERS` to `PLAY_OVER`, with `ev` as the current event: the change of
event state has not been logged yet. -/
def playOverEntered (ev : Event) : StatTracker :=
  { sampleTracker with
    m_game_state := GAME_STATE.INGAME
    m_game_state_prev := GAME_STATE.INGAME
    m_event_state := EVENT_STATE.PLAY_OVER
    m_event_state_prev := EVENT_STATE.MONITOR_RUNNERS
    m_game_info := { pairedGame with events := [(0, ev)] } }

/-- Two trackers in which roster slot 4 is recorded at position 6. -/
def stationedTrackers : Trackers := fun _ =>
  { newFielderTracker with current_position := fun r => if r = 4 then some 6 else none }

/-- The sample tracker at `FINAL_RESULT` with `forcedOutEvent` as the current
event and roster slot 4 recorded at position 6. -/
def stationedTracker : StatTracker :=
  { trackerAt EVENT_STATE.FINAL_RESULT forcedOutEvent with
    m_fielder_tracker := stationedTrackers }

/-- The counters of roster slot 4 at position 6 in tracker 1: batter outs and
outs. -/
def slotCounters (st : StatTracker) : Nat × Nat :=
  (batterOutCount st.m_fielder_tracker 1 4 6, outCount st.m_fielder_tracker 1 4 6)

/-- Contact-result code 3 (caught) while no fielder holds the ball. -/
def uncaughtSnapshot : Snapshot :=
  snapshotOf fun a =>
    match a with
    | .aGameId => 1
    | .aAB_PitchThrown => 1
    | .aAB_ContactResult => 3
    | _ => 0

/-- A game record whose last stored event is an inning-0 placeholder: key 0
finalized in inning 1, key 1 empty. -/
def quitGameRecord : GameInfo :=
  { zeroGameInfo with events := [(0, forcedOutEvent), (1, zeroEvent)] }

/-- A first-inning event with no runner and no pitch. -/
def bareEvent : Event := { zeroEvent with inning := 1 }

/-- A game record with two stored events whose keys differ by 256. -/
def wrappedGame : GameInfo :=
  { zeroGameInfo with events := [(1, pickoffEvent), (257, pickoffEvent)] }

/-- The snapshot of a match whose stat tables read 7 for the at-bats of every
slot of memory team 0 and 9 for those of memory team 1. -/
def statTableSnapshot : Snapshot :=
  snapshotOf fun a =>
    match a with
    | .aBatter_AtBats slot => if slot < 9 then 7 else 9
    | .aPitcher_BattersFaced slot => if slot < 9 then 3 else 5
    | _ => 0

/-- The at-bats and batters-faced entries of roster slot 2 in both summary rows. -/
def rowEntries (gi : GameInfo) : (Nat × Nat) × (Nat × Nat) :=
  (((gi.character_summaries 0 2).end_game_offensive_stats.at_bats,
    (gi.character_summaries 0 2).end_game_defensive_stats.batters_faced),
   ((gi.character_summaries 1 2).end_game_offensive_stats.at_bats,
    (gi.character_summaries 1 2).end_game_defensive_stats.batters_faced))

/-- Fielders in trouble: position 2 reads bobble byte 1, position 3 bobble byte
2, position 5 a knockout. -/
def bobbleSnapshot : Snapshot :=
  snapshotOf fun a =>
    match a with
    | .aFielder_Bobble 2 => 1
    | .aFielder_Bobble 3 => 2
    | .aFielder_Knockout 5 => 1
    | _ => 0

/-- A fielder knocked out while bobbling: position 3 reads bobble byte 2 and a
nonzero knockout byte. -/
def knockoutSnapshot : Snapshot :=
  snapshotOf fun a =>
    match a with
    | .aFielder_Bobble 3 => 2
    | .aFielder_Knockout 3 => 1
    | _ => 0

/-- Two fielders with control status `0xA`: positions 6 and 8. -/
def twoHoldersSnapshot : Snapshot :=
  snapshotOf fun a =>
    match a with
    | .aFielder_ControlStatus 6 => 0xA
    | .aFielder_ControlStatus 8 => 0xA
    | _ => 0

/-! ## The event counter as a machine integer

`event_num` is declared in the header.  The definitions above read it as a
natural number; this section gives the two exits of `FINAL_RESULT`, and the
tick around them, for a counter that is an unsigned integer of `w` bits. -/

theorem invalid_text (s : String) :
    "Unable to Decode" ++ ". Invalid Value (" ++ s ++ ")." =
      "Unable to Decode. Invalid Value (" ++ s ++ ")." := by
  have h : ("Unable to Decode" : String) ++ ". Invalid Value (" =
      "Unable to Decode. Invalid Value (" := by decide
  rw [h]

theorem string_append_eq_empty (a b : String) : a ++ b = "" ↔ a = "" ∧ b = "" := by
  constructor
  · intro h
    have h' : (a ++ b).data = [] := by rw [h]
    rw [String.data_append] at h'
    have := List.append_eq_nil.mp h'
    exact ⟨String.ext this.1, String.ext this.2⟩
  · rintro ⟨rfl, rfl⟩; rfl

theorem decodeLabel_of_table (H : Header) (ty : String) (tbl : Nat → Option String) (v : Nat)
    (h : tableOf H ty = some tbl) : decodeLabel H ty v = lookupOr tbl v "Unable to Decode" := by
  unfold tableOf at h
  unfold decodeLabel
  by_cases c : ty = "Character"
  · rw [if_pos c] at h ⊢; cases h; rfl
  rw [if_neg c] at h ⊢
  by_cases c : ty = "Stadium"
  · rw [if_pos c] at h ⊢; cases h; rfl
  rw [if_neg c] at h ⊢
  by_cases c : ty = "Contact"
  · rw [if_pos c] at h ⊢; cases h; rfl
  rw [if_neg c] at h ⊢
  by_cases c : ty = "Hand"
  · rw [if_pos c] at h ⊢; cases h; rfl
  rw [if_neg c] at h ⊢
  by_cases c : ty = "Stick"
  · rw [if_pos c] at h ⊢; cases h; rfl
  rw [if_neg c] at h ⊢
  by_cases c : ty = "StickVec"
  · subst c; simp at h
  rw [if_neg c]
  by_cases c : ty = "Pitch"
  · rw [if_pos c] at h ⊢; cases h; rfl
  rw [if_neg c] at h ⊢
  by_cases c : ty = "ChargePitch"
  · rw [if_pos c] at h ⊢; cases h; rfl
  rw [if_neg c] at h ⊢
  by_cases c : ty = "Swing"
  · rw [if_pos c] at h ⊢; cases h; rfl
  rw [if_neg c] at h ⊢
  by_cases c : ty = "Position"
  · rw [if_pos c] at h ⊢; cases h; rfl
  rw [if_neg c] at h ⊢
  by_cases c : ty = "Action"
  · rw [if_pos c] at h ⊢; cases h; rfl
  rw [if_neg c] at h ⊢
  by_cases c : ty = "Bobble"
  · rw [if_pos c] at h ⊢; cases h; rfl
  rw [if_neg c] at h ⊢
  by_cases c : ty = "ManualSelect"
  · rw [if_pos c] at h ⊢; cases h; rfl
  rw [if_neg c] at h ⊢
  by_cases c : ty = "Steal"
  · rw [if_pos c] at h ⊢; cases h; rfl
  rw [if_neg c] at h ⊢
  by_cases c : ty = "Out"
  · rw [if_pos c] at h ⊢; cases h; rfl
  rw [if_neg c] at h ⊢
  by_cases c : ty = "PrimaryContactResult"
  · rw [if_pos c] at h ⊢; cases h; rfl
  rw [if_neg c] at h ⊢
  by_cases c : ty = "SecondaryContactResult"
  · rw [if_pos c] at h ⊢; cases h; rfl
  rw [if_neg c] at h ⊢
  by_cases c : ty = "PitchResult"
  · rw [if_pos c] at h ⊢; cases h; rfl
  rw [if_neg c] at h ⊢
  by_cases c : ty = "AtBatResult"
  · rw [if_pos c] at h ⊢; cases h; rfl
  rw [if_neg c] at h ⊢
  exact absurd h (by simp)

theorem tableOf_mem_tables (H : Header) (ty : String) (tbl : Nat → Option String)
    (h : tableOf H ty = some tbl) : tbl ∈ H.tables := by
  unfold tableOf at h
  by_cases c : ty = "Character"
  · rw [if_pos c] at h; cases h; simp [Header.tables]
  rw [if_neg c] at h
  by_cases c : ty = "Stadium"
  · rw [if_pos c] at h; cases h; simp [Header.tables]
  rw [if_neg c] at h
  by_cases c : ty = "Contact"
  · rw [if_pos c] at h; cases h; simp [Header.tables]
  rw [if_neg c] at h
  by_cases c : ty = "Hand"
  · rw [if_pos c] at h; cases h; simp [Header.tables]
  rw [if_neg c] at h
  by_cases c : ty = "Stick"
  · rw [if_pos c] at h; cases h; simp [Header.tables]
  rw [if_neg c] at h
  by_cases c : ty = "Pitch"
  · rw [if_pos c] at h; cases h; simp [Header.tables]
  rw [if_neg c] at h
  by_cases c : ty = "ChargePitch"
  · rw [if_pos c] at h; cases h; simp [Header.tables]
  rw [if_neg c] at h
  by_cases c : ty = "Swing"
  · rw [if_pos c] at h; cases h; simp [Header.tables]
  rw [if_neg c] at h
  by_cases c : ty = "Position"
  · rw [if_pos c] at h; cases h; simp [Header.tables]
  rw [if_neg c] at h
  by_cases c : ty = "Action"
  · rw [if_pos c] at h; cases h; simp [Header.tables]
  rw [if_neg c] at h
  by_cases c : ty = "Bobble"
  · rw [if_pos c] at h; cases h; simp [Header.tables]
  rw [if_neg c] at h
  by_cases c : ty = "ManualSelect"
  · rw [if_pos c] at h; cases h; simp [Header.tables]
  rw [if_neg c] at h
  by_cases c : ty = "Steal"
  · rw [if_pos c] at h; cases h; simp [Header.tables]
  rw [if_neg c] at h
  by_cases c : ty = "Out"
  · rw [if_pos c] at h; cases h; simp [Header.tables]
  rw [if_neg c] at h
  by_cases c : ty = "PrimaryContactResult"
  · rw [if_pos c] at h; cases h; simp [Header.tables]
  rw [if_neg c] at h
  by_cases c : ty = "SecondaryContactResult"
  · rw [if_pos c] at h; cases h; simp [Header.tables]
  rw [if_neg c] at h
  by_cases c : ty = "PitchResult"
  · rw [if_pos c] at h; cases h; simp [Header.tables]
  rw [if_neg c] at h
  by_cases c : ty = "AtBatResult"
  · rw [if_pos c] at h; cases h; simp [Header.tables]
  rw [if_neg c] at h
  exact absurd h (by simp)

theorem tableOf_isSome (H : Header) (ty : String) (hty : ty ∈ decodeTypes)
    (h1 : ty ≠ "StickVec") (h2 : ty ≠ "QuitterTeam") : (tableOf H ty).isSome := by
  simp only [decodeTypes, List.mem_cons, List.mem_singleton, List.not_mem_nil, or_false] at hty
  rcases hty with h | h | h | h | h | h | h | h | h | h | h | h | h | h | h | h | h | h | h | h <;>
    first
      | exact absurd h h1
      | exact absurd h h2
      | (subst h; rfl)

/-- The label `decode` puts between the quotes: the selected label, with the
invalid-value suffix when it is the sentinel. -/
theorem decode_decoded (H : Header) (ty : String) (v : Nat) :
    decode H ty v true =
      "\"" ++ (if decodeLabel H ty v = "Unable to Decode"
              then decodeLabel H ty v ++ ". Invalid Value (" ++ toString v ++ ")."
              else decodeLabel H ty v) ++ "\"" := by
  simp [decode]

theorem lookupOr_ne_empty (tbl : Nat → Option String) (v : Nat)
    (h : ∀ l, tbl v = some l → l ≠ "") : lookupOr tbl v "Unable to Decode" ≠ "" := by
  unfold lookupOr
  cases hv : tbl v with
  | none => simp
  | some l => simpa using h l hv

theorem decodeQuitterTeam_ne_empty (v : Nat) : decodeQuitterTeam v "Unable to Decode" ≠ "" := by
  unfold decodeQuitterTeam
  split_ifs <;> simp

set_option maxRecDepth 100000 in
theorem stickVec_bits (v : Nat) (hv : v < 256) :
    (v % 16 = 0 ↔
      ¬ (v &&& 0x1) > 0 ∧ ¬ (v &&& 0x2) > 0 ∧ ¬ (v &&& 0x4) > 0 ∧ ¬ (v &&& 0x8) > 0) := by
  revert v
  decide

theorem decodeStickVec_eq_empty (v : Nat) :
    decodeStickVec v = "" ↔
      ¬ (v &&& 0x1) > 0 ∧ ¬ (v &&& 0x2) > 0 ∧ ¬ (v &&& 0x4) > 0 ∧ ¬ (v &&& 0x8) > 0 := by
  unfold decodeStickVec
  by_cases h1 : (v &&& 0x1) > 0 <;> by_cases h2 : (v &&& 0x2) > 0 <;>
    by_cases h4 : (v &&& 0x4) > 0 <;> by_cases h8 : (v &&& 0x8) > 0 <;>
    simp [h1, h2, h4, h8, string_append_eq_empty]

theorem final_label_eq_empty (r : String) (v : Nat) :
    (if r = "Unable to Decode" then r ++ ". Invalid Value (" ++ toString v ++ ")." else r) = "" ↔
      r = "" := by
  by_cases h : r = "Unable to Decode"
  · subst h; simp [string_append_eq_empty]
  · simp [h]

/-- C9, as amended: for every enumerated field type the serializer passes to
`decode` and every byte value, `decode` in decoded mode returns a quoted label;
given decode tables with non-empty labels, the content between the quotes is
non-empty in every case but one: for `StickVec` it is empty exactly when none of
the low four bits of the value is set. -/
theorem decode_label_nonempty_except_neutral_stick (H : Header)
    (hH : ∀ tbl ∈ H.tables, ∀ v l, tbl v = some l → l ≠ "")
    (ty : String) (hty : ty ∈ decodeTypes) (v : Nat) (hv : v < 256) :
    ∃ s, decode H ty v true = "\"" ++ s ++ "\"" ∧
      (s = "" ↔ (ty = "StickVec" ∧ v % 16 = 0)) := by
  refine ⟨_, decode_decoded H ty v, ?_⟩
  rw [final_label_eq_empty]
  by_cases hs : ty = "StickVec"
  · subst hs
    have : decodeLabel H "StickVec" v = decodeStickVec v := rfl
    rw [this, decodeStickVec_eq_empty, stickVec_bits v hv]
    simp
  · by_cases hq : ty = "QuitterTeam"
    · subst hq
      have : decodeLabel H "QuitterTeam" v = decodeQuitterTeam v "Unable to Decode" := rfl
      rw [this]
      simp [decodeQuitterTeam_ne_empty]
    · have hsome := tableOf_isSome H ty hty hs hq
      obtain ⟨tbl, htbl⟩ := Option.isSome_iff_exists.mp hsome
      rw [decodeLabel_of_table H ty tbl v htbl]
      have := lookupOr_ne_empty tbl v (fun l hl => hH tbl (tableOf_mem_tables H ty tbl htbl) v l hl)
      simp [this, hs]

theorem sampleHeader_labels : ∀ tbl ∈ sampleHeader.tables, ∀ v l, tbl v = some l → l ≠ "" := by
  intro tbl htbl v l hl
  have ht : tbl = sampleTable := by
    simpa [Header.tables, sampleHeader] using htbl
  subst ht
  unfold sampleTable at hl
  split_ifs at hl
  cases hl
  decide

/-- Witness for C9 as amended: the character code 3 under the sample tables. -/
theorem decode_label_nonempty_except_neutral_stick_witness :
    (∀ tbl ∈ sampleHeader.tables, ∀ v l, tbl v = some l → l ≠ "") ∧
    "Character" ∈ decodeTypes ∧ 3 < 256 ∧
    ∃ s, decode sampleHeader "Character" 3 true = "\"" ++ s ++ "\"" ∧
      (s = "" ↔ ("Character" = "StickVec" ∧ 3 % 16 = 0)) :=
  ⟨sampleHeader_labels, by decide, by decide,
    decode_label_nonempty_except_neutral_stick sampleHeader sampleHeader_labels "Character"
      (by decide) 3 (by decide)⟩

/-- C9, counterexample: `StickVec` is one of the serialized types, 0 is a byte
value, and `decode` in decoded mode returns a pair of quotes with nothing
between them. -/
theorem decode_stickvec_neutral_is_empty :
    "StickVec" ∈ decodeTypes ∧ 0 < 256 ∧
    decode sampleHeader "StickVec" 0 true = "\"" ++ "" ++ "\"" := by
  refine ⟨by decide, by decide, ?_⟩
  rfl

/-- C10: for a table-backed type, `decode` in decoded mode returns the quoted
invalid-value text with the value in decimal when the value is absent from the
type's table, and the table's label in quotes when it is present (the label
not being the sentinel `Unable to Decode` itself); for `QuitterTeam` every value
other than 0, 1, 2 and 0xFF yields the invalid-value text.  `decode` is a total
function: it never raises. -/
theorem decode_table_backed (H : Header) (ty : String) (tbl : Nat → Option String) (v : Nat)
    (h : tableOf H ty = some tbl) :
    (tbl v = none → decode H ty v true = invalidValueText v) ∧
    (∀ l, tbl v = some l → l ≠ "Unable to Decode" → decode H ty v true = "\"" ++ l ++ "\"") ∧
    (v ≠ 0 → v ≠ 1 → v ≠ 2 → v ≠ 0xFF → decode H "QuitterTeam" v true = invalidValueText v) := by
  refine ⟨?_, ?_, ?_⟩
  · intro hv
    rw [decode_decoded, decodeLabel_of_table H ty tbl v h]
    simp [lookupOr, hv, invalidValueText, ← invalid_text]
  · intro l hv hl
    rw [decode_decoded, decodeLabel_of_table H ty tbl v h]
    simp [lookupOr, hv, hl]
  · intro h0 h1 h2 h3
    rw [decode_decoded]
    have : decodeLabel H "QuitterTeam" v = decodeQuitterTeam v "Unable to Decode" := rfl
    rw [this]
    simp [decodeQuitterTeam, h0, h1, h2, h3, invalidValueText, ← invalid_text]

/-- Witness for C10: the stadium table of the sample header at the unmapped code 200. -/
theorem decode_table_backed_witness :
    tableOf sampleHeader "Stadium" = some sampleTable ∧
    (sampleTable 200 = none → decode sampleHeader "Stadium" 200 true = invalidValueText 200) ∧
    (∀ l, sampleTable 200 = some l → l ≠ "Unable to Decode" →
      decode sampleHeader "Stadium" 200 true = "\"" ++ l ++ "\"") ∧
    (200 ≠ 0 → 200 ≠ 1 → 200 ≠ 2 → 200 ≠ 0xFF →
      decode sampleHeader "QuitterTeam" 200 true = invalidValueText 200) :=
  ⟨rfl, decode_table_backed sampleHeader "Stadium" sampleTable 200 rfl⟩

/-! ## The game state machine after `GAME_OVER` -/

theorem logEndOfGame_states (H : Header) (mem : Snapshot) (st st' : StatTracker)
    (h : logEndOfGame H mem st = some st') :
    st'.m_game_state = st.m_game_state ∧ st'.m_event_state = st.m_event_state := by
  unfold logEndOfGame at h
  simp only [] at h
  split_ifs at h <;> (cases h; exact ⟨rfl, rfl⟩)

/-! ## `logFinalResults` (C4, C5, C8) -/

theorem setAt_apply {α : Type} (f : Nat → α) (i j : Nat) (v : α) :
    setAt f i v j = if j = i then v else f j := rfl

theorem outCount_setAt (trk : Trackers) (i : Nat) (t : FielderTracker) (idx roster pos : Nat) :
    outCount (setAt trk i t) idx roster pos =
      if idx = i then (t.fielder_map roster).out_count_by_position pos
      else outCount trk idx roster pos := by
  unfold outCount
  rw [setAt_apply]
  split_ifs <;> rfl

theorem incrementOut_count (t : FielderTracker) (r0 p0 roster pos : Nat) :
    ((t.incrementOutForPosition r0 p0).fielder_map roster).out_count_by_position pos =
      (t.fielder_map roster).out_count_by_position pos + (if roster = r0 ∧ pos = p0 then 1 else 0) := by
  unfold FielderTracker.incrementOutForPosition
  simp only [setAt_apply]
  by_cases hr : roster = r0
  · subst hr
    by_cases hp : pos = p0
    · subst hp; simp [setAt_apply]
    · simp [hp, setAt_apply]
  · simp [hr]

theorem incrementBatterOut_count (t : FielderTracker) (roster pos : Nat) :
    ((t.incrementBatterOutForPosition).fielder_map roster).out_count_by_position pos =
      (t.fielder_map roster).out_count_by_position pos := by
  unfold FielderTracker.incrementBatterOutForPosition
  simp only []
  cases t.current_position roster <;> rfl

/-- The guarded block of `logFinalResults` rewrites only the two result codes of
the contact. -/
theorem logSecondaryResult_present (ev : Event) (rb : Runner) (p : Pitch) (c : Contact)
    (hrb : ev.runner_batter = some rb) (hp : ev.pitch = some p) (hc : p.contact = some c) :
    ∃ c', logSecondaryResult ev = some { ev with pitch := some { p with contact := some c' } } ∧
      c'.first_fielder = c.first_fielder ∧ c'.collect_fielder = c.collect_fielder := by
  unfold logSecondaryResult
  simp only [hp, hc, hrb, Option.bind_eq_bind, Option.some_bind, pure]
  split_ifs
  · exact ⟨_, rfl, rfl, rfl⟩
  · exact ⟨_, rfl, rfl, rfl⟩
  · exact ⟨_, rfl, rfl, rfl⟩
  · refine ⟨c, ?_, rfl, rfl⟩
    cases ev; cases p; simp_all

/-- The forced-out branch of `logFinalResults`: with the batter-runner at out
type 2, a final result other than 1 and a credited fielder, the call returns
and the out counters change at the credited fielder only, by one. -/
theorem logFinalResults_forced_out (mem : Snapshot) (ev : Event) (trk : Trackers)
    (rb : Runner) (p : Pitch) (c : Contact) (g : Fielder)
    (hrb : ev.runner_batter = some rb) (hout : rb.out_type = 2) (hres : ev.result_of_atbat ≠ 1)
    (hp : ev.pitch = some p) (hc : p.contact = some c) (hg : creditedFielder c = some g) :
    ∃ ev' trk', logFinalResults mem ev trk = some (ev', trk') ∧
      ∀ idx roster pos, outCount trk' idx roster pos =
        outCount trk idx roster pos +
          (if idx = fieldingTracker ev.half_inning ∧ roster = g.fielder_roster_loc ∧
              pos = g.fielder_pos then 1 else 0) := by
  obtain ⟨c', hsec, hff, hcf⟩ := logSecondaryResult_present ev rb p c hrb hp hc
  have hg' : ∀ m, creditedFielder { c' with multi_out := m } = some g := by
    intro m
    unfold creditedFielder at hg ⊢
    simpa [hff, hcf] using hg
  unfold logFinalResults
  simp only [logStrikeout, if_neg hres, Option.bind_eq_bind, Option.some_bind, hsec, hrb, hout,
    if_true, hg', pure]
  refine ⟨_, _, rfl, ?_⟩
  intro idx roster pos
  rw [outCount_setAt]
  by_cases hi : idx = fieldingTracker ev.half_inning
  · subst hi
    rw [incrementOut_count]
    by_cases hn : Read_U8 mem .aAB_NumOutsDuringPlay > 0
    · simp [hn, setAt_apply, incrementBatterOut_count, outCount]
    · simp [hn, outCount]
  · rw [if_neg hi]
    by_cases hn : Read_U8 mem .aAB_NumOutsDuringPlay > 0
    · simp [hn, hi, outCount_setAt]
    · simp [hn, hi]

/-- Classification of a caught ball (code 3) when the holder scan finds a fielder:
the collector is recorded and counted one out. -/
theorem logContactResult_caught (H : Header) (mem : Snapshot) (cur : Event) (es : EVENT_STATE)
    (trk : Trackers) (c0 : Contact) (f : Fielder)
    (hcode : Read_U8 mem .aAB_ContactResult = 3)
    (hf : logFielderWithBall H mem cur.manual_select_locks = some f) :
    ∃ c1 trk1 f', logContactResult H mem cur es trk c0 = some (c1, es, trk1) ∧
      c1.first_fielder = c0.first_fielder ∧ c1.collect_fielder = some f' ∧
      f'.fielder_roster_loc = f.fielder_roster_loc ∧ f'.fielder_pos = f.fielder_pos ∧
      ∀ idx roster pos, outCount trk1 idx roster pos =
        outCount trk idx roster pos +
          (if idx = fieldingTracker cur.half_inning ∧ roster = f.fielder_roster_loc ∧
              pos = f.fielder_pos then 1 else 0) := by
  unfold logContactResult
  simp only [hcode, hf]
  refine ⟨_, _, _, rfl, rfl, rfl, rfl, rfl, ?_⟩
  intro idx roster pos
  rw [outCount_setAt]
  by_cases hi : idx = fieldingTracker cur.half_inning
  · subst hi
    rw [incrementOut_count]
    simp [outCount]
  · simp [hi]

/-- C4, as amended: in an at-bat whose contact-result code was 3 (caught, the
holder scan finding the collector) and whose batter-runner has out type 2 when
`logFinalResults` tests it, one classification followed by one finalization
raises the fielding side's out counter of the attributed fielder (the
first-touch fielder if one was recorded, else the collector) by 2 when the
attributed fielder has the collector's roster slot and position, the catch
having already counted one out for the collector, and by 1 otherwise. -/
theorem caught_then_forced_out_counts (H : Header) (mem1 mem2 : Snapshot) (cur : Event)
    (es : EVENT_STATE) (trk : Trackers) (c0 : Contact) (f : Fielder)
    (hcode : Read_U8 mem1 .aAB_ContactResult = 3)
    (hf : logFielderWithBall H mem1 cur.manual_select_locks = some f) :
    ∃ c1 trk1, logContactResult H mem1 cur es trk c0 = some (c1, es, trk1) ∧
      ∀ (ev : Event) (rb : Runner) (p : Pitch),
        ev.half_inning = cur.half_inning → ev.runner_batter = some rb → rb.out_type = 2 →
        ev.result_of_atbat ≠ 1 → ev.pitch = some p → p.contact = some c1 →
        ∃ g ev' trk2, creditedFielder c1 = some g ∧
          logFinalResults mem2 ev trk1 = some (ev', trk2) ∧
          outCount trk2 (fieldingTracker cur.half_inning) g.fielder_roster_loc g.fielder_pos =
            outCount trk (fieldingTracker cur.half_inning) g.fielder_roster_loc g.fielder_pos +
              (if g.fielder_roster_loc = f.fielder_roster_loc ∧ g.fielder_pos = f.fielder_pos
               then 2 else 1) := by
  obtain ⟨c1, trk1, f', h1, _, hcf, hr, hp, hcount⟩ :=
    logContactResult_caught H mem1 cur es trk c0 f hcode hf
  refine ⟨c1, trk1, h1, ?_⟩
  intro ev rb p hhalf hrb hout hres hpitch hcontact
  have hg : ∃ g, creditedFielder c1 = some g := by
    unfold creditedFielder
    cases c1.first_fielder with
    | some x => exact ⟨x, rfl⟩
    | none => exact ⟨f', hcf⟩
  obtain ⟨g, hg⟩ := hg
  obtain ⟨ev', trk2, h2, hcount2⟩ :=
    logFinalResults_forced_out mem2 ev trk1 rb p c1 g hrb hout hres hpitch hcontact hg
  refine ⟨g, ev', trk2, hg, h2, ?_⟩
  rw [hcount2, hcount, hhalf]
  by_cases hsame : g.fielder_roster_loc = f.fielder_roster_loc ∧ g.fielder_pos = f.fielder_pos
  · simp [hsame]
  · simp [hsame]

/-- Witness for C4 as amended: the ball is caught by roster slot 4 at position 6
and no first-touch fielder was recorded. -/
theorem caught_then_forced_out_counts_witness :
    Read_U8 caughtSnapshot .aAB_ContactResult = 3 ∧
    logFielderWithBall sampleHeader caughtSnapshot contactEvent.manual_select_locks =
      some sampleCollector ∧
    ∃ c1 trk1, logContactResult sampleHeader caughtSnapshot contactEvent
        EVENT_STATE.CONTACT_RESULT freshTrackers zeroContact =
          some (c1, EVENT_STATE.CONTACT_RESULT, trk1) ∧
      ∀ (ev : Event) (rb : Runner) (p : Pitch),
        ev.half_inning = contactEvent.half_inning → ev.runner_batter = some rb →
        rb.out_type = 2 → ev.result_of_atbat ≠ 1 → ev.pitch = some p → p.contact = some c1 →
        ∃ g ev' trk2, creditedFielder c1 = some g ∧
          logFinalResults playDeadSnapshot ev trk1 = some (ev', trk2) ∧
          outCount trk2 (fieldingTracker contactEvent.half_inning) g.fielder_roster_loc
              g.fielder_pos =
            outCount freshTrackers (fieldingTracker contactEvent.half_inning)
                g.fielder_roster_loc g.fielder_pos +
              (if g.fielder_roster_loc = sampleCollector.fielder_roster_loc ∧
                  g.fielder_pos = sampleCollector.fielder_pos
               then 2 else 1) :=
  ⟨by decide, by decide,
    caught_then_forced_out_counts sampleHeader caughtSnapshot playDeadSnapshot contactEvent
      EVENT_STATE.CONTACT_RESULT freshTrackers zeroContact sampleCollector (by decide)
      (by decide)⟩

/-- C4, counterexample: a caught ball (code 3) collected by roster slot 4 at
position 6, then a forced-out reading for the batter-runner, then play over and
one finalization tick.  The attributed fielder is the collector; the fielding
side's out counter for slot 4 at position 6 starts at 0 and stands at 2 once
the at-bat is finalized, not at 1. -/
theorem caught_forced_out_counted_twice :
    outCount (trackerAt EVENT_STATE.CONTACT_RESULT contactEvent).m_fielder_tracker 1 4 6 = 0 ∧
    ((runTicks sampleHeader (trackerAt EVENT_STATE.CONTACT_RESULT contactEvent) caughtAtBat).map
      fun s =>
        (s.m_event_state,
         s.m_game_info.getCurrentEvent.map (fun e =>
           (e.runner_batter.map (fun r => r.out_type),
            e.pitch.map (fun p => p.contact.map (fun c =>
              (c.primary_contact_result, c.first_fielder.isSome,
               c.collect_fielder.map (fun g => (g.fielder_roster_loc, g.fielder_pos))))))),
         outCount s.m_fielder_tracker 1 4 6)) =
      some (EVENT_STATE.FINAL_RESULT,
            some (some 2, some (some (0, false, some (4, 6)))), 2) := by
  exact ⟨by decide, rfl⟩

/-- C8, what the code does: the FINAL_RESULT step reads `pitch->potential_db`
before anything else, so an at-bat that reached FINAL_RESULT without a Pitch
(one started by a pickoff attempt) is a dereference of an absent Pitch;
`logFinalResults` writes `pitch->contact->multi_out` outside its presence
guard, so an at-bat whose pitch was not hit is a dereference of an absent
Contact; and with the batter-runner forced out and neither fielder recorded it
takes the value of an absent Fielder.  In the model each of these aborts. -/
theorem final_result_dereferences_absent_records (H : Header) (mem : Snapshot)
    (st : StatTracker) (ev : Event) (trk : Trackers) (p : Pitch) (c : Contact) (rb : Runner) :
    (st.m_game_info.getCurrentEvent = some ev → ev.pitch = none →
      stepFinalResult H mem st = none) ∧
    (ev.pitch = some p → p.contact = none → logFinalResults mem ev trk = none) ∧
    (ev.pitch = some p → p.contact = some c → c.first_fielder = none →
      c.collect_fielder = none → ev.runner_batter = some rb → rb.out_type = 2 →
      ev.result_of_atbat ≠ 1 → logFinalResults mem ev trk = none) := by
  refine ⟨?_, ?_, ?_⟩
  · intro hev hp
    unfold stepFinalResult
    simp [hev, hp]
  · intro hp hc
    unfold logFinalResults
    cases hs : logStrikeout ev with
    | none => simp
    | some ev1 =>
      have hp1 : ev1.pitch = some p := by
        unfold logStrikeout at hs
        split_ifs at hs
        · cases hr : ev.runner_batter with
          | none => simp [hr] at hs
          | some r => simp [hr] at hs; rw [← hs]; exact hp
        · cases hs; exact hp
      have : logSecondaryResult ev1 = some ev1 := by
        unfold logSecondaryResult
        simp [hp1, hc]
      simp [this, hp1, hc]
  · intro hp hc hff hcf hrb hout hres
    obtain ⟨c', hsec, hff', hcf'⟩ := logSecondaryResult_present ev rb p c hrb hp hc
    have hg : ∀ m, creditedFielder { c' with multi_out := m } = none := by
      intro m
      unfold creditedFielder
      simp [hff', hcf', hff, hcf]
    unfold logFinalResults
    simp [logStrikeout, hres, hsec, hrb, hout, hg]

/-- Witness for C8: the pickoff at-bat at FINAL_RESULT, the unhit pitch, and the
forced out with no fielder recorded. -/
theorem final_result_dereferences_absent_records_witness :
    stepFinalResult sampleHeader playDeadSnapshot
      (trackerAt EVENT_STATE.FINAL_RESULT pickoffEvent) = none ∧
    logFinalResults playDeadSnapshot missedPitchEvent freshTrackers = none ∧
    logFinalResults playDeadSnapshot unfieldedForcedOutEvent freshTrackers = none :=
  ⟨(final_result_dereferences_absent_records sampleHeader playDeadSnapshot
      (trackerAt EVENT_STATE.FINAL_RESULT pickoffEvent) pickoffEvent freshTrackers zeroPitch
      zeroContact zeroRunner).1 rfl rfl,
   (final_result_dereferences_absent_records sampleHeader playDeadSnapshot
      (trackerAt EVENT_STATE.FINAL_RESULT missedPitchEvent) missedPitchEvent freshTrackers
      zeroPitch zeroContact zeroRunner).2.1 rfl rfl,
   (final_result_dereferences_absent_records sampleHeader playDeadSnapshot
      (trackerAt EVENT_STATE.FINAL_RESULT unfieldedForcedOutEvent) unfieldedForcedOutEvent
      freshTrackers { zeroPitch with contact := some zeroContact } zeroContact forcedOutRunner).2.2
      rfl rfl rfl rfl rfl rfl (by decide)⟩

/-! ## The quit path of `WAITING_FOR_EVENT` (C6, C7) -/

theorem logRosterStats_fields (mem : Snapshot) (gi : GameInfo) (team roster : Nat) :
    ∃ cs, logRosterStats mem gi team roster = { gi with character_summaries := cs } :=
  ⟨_, rfl⟩

theorem foldl_summaries {ι : Type} (f : GameInfo → ι → GameInfo)
    (hf : ∀ g i, ∃ cs, f g i = { g with character_summaries := cs }) :
    ∀ (l : List ι) (g : GameInfo), ∃ cs, l.foldl f g = { g with character_summaries := cs } := by
  intro l
  induction l with
  | nil => intro g; exact ⟨g.character_summaries, rfl⟩
  | cons i rest ih =>
    intro g
    obtain ⟨cs1, h1⟩ := hf g i
    obtain ⟨cs2, h2⟩ := ih (f g i)
    refine ⟨cs2, ?_⟩
    rw [List.foldl_cons, h2, h1]

/-- The function `logGameInfo` rewrites the end time, stadium, innings, scores and the
character summaries, and nothing else. -/
theorem logGameInfo_fields (mem : Snapshot) (gi : GameInfo) :
    ∃ cs, logGameInfo mem gi =
      { gi with
        end_unix_date_time := toString mem.unix_time
        end_local_date_time := mem.local_time
        stadium := Read_U8 mem .aStadiumId
        innings_selected := Read_U8 mem .aInningsSelected
        innings_played := Read_U8 mem .aAB_Inning
        away_score := Read_U16 mem .aAwayTeam_Score
        home_score := Read_U16 mem .aHomeTeam_Score
        character_summaries := cs } := by
  unfold logGameInfo
  have h := foldl_summaries
    (fun g team => (List.range cRosterSize).foldl (fun g roster => logRosterStats mem g team roster) g)
    (fun g team => foldl_summaries (fun g roster => logRosterStats mem g team roster)
      (fun g roster => logRosterStats_fields mem g team roster) (List.range cRosterSize) g)
    (List.range cNumOfTeams)
  obtain ⟨cs, hcs⟩ := h
    { gi with
      end_unix_date_time := toString mem.unix_time
      end_local_date_time := mem.local_time
      stadium := Read_U8 mem .aStadiumId
      innings_selected := Read_U8 mem .aInningsSelected
      innings_played := Read_U8 mem .aAB_Inning
      away_score := Read_U16 mem .aAwayTeam_Score
      home_score := Read_U16 mem .aHomeTeam_Score }
  exact ⟨cs, hcs⟩

theorem logGameInfo_events (mem : Snapshot) (gi : GameInfo) :
    (logGameInfo mem gi).events = gi.events := by
  obtain ⟨cs, h⟩ := logGameInfo_fields mem gi
  rw [h]

theorem logGameInfo_event_num (mem : Snapshot) (gi : GameInfo) :
    (logGameInfo mem gi).event_num = gi.event_num := by
  obtain ⟨cs, h⟩ := logGameInfo_fields mem gi
  rw [h]

theorem logGameInfo_stadium (mem : Snapshot) (gi : GameInfo) :
    (logGameInfo mem gi).stadium = Read_U8 mem .aStadiumId := by
  obtain ⟨cs, h⟩ := logGameInfo_fields mem gi
  rw [h]

theorem logGameInfo_previous_state (mem : Snapshot) (gi : GameInfo) :
    (logGameInfo mem gi).previous_state = gi.previous_state := by
  obtain ⟨cs, h⟩ := logGameInfo_fields mem gi
  rw [h]

theorem logGameInfo_getCurrentEvent (mem : Snapshot) (gi : GameInfo) :
    (logGameInfo mem gi).getCurrentEvent = gi.getCurrentEvent := by
  unfold GameInfo.getCurrentEvent
  rw [logGameInfo_events, logGameInfo_event_num]

/-- Erasing a present key removes the first entry stored under it and leaves
every other entry in place. -/
theorem mapErase_of_find {α : Type} (k : Nat) (v : α) :
    ∀ m : List (Nat × α), mapFind k m = some v →
      ∃ pre post, m = pre ++ (k, v) :: post ∧ (∀ kv ∈ pre, kv.1 ≠ k) ∧
        mapErase k m = pre ++ post := by
  intro m
  induction m with
  | nil => intro h; simp [mapFind] at h
  | cons kv rest ih =>
    obtain ⟨k', v'⟩ := kv
    intro h
    unfold mapFind at h
    by_cases hk : k' = k
    · rw [if_pos hk] at h
      cases h
      subst hk
      exact ⟨[], rest, rfl, by simp, by simp [mapErase]⟩
    · rw [if_neg hk] at h
      obtain ⟨pre, post, h1, h2, h3⟩ := ih h
      refine ⟨(k', v') :: pre, post, by rw [h1]; rfl, ?_, ?_⟩
      · intro kv hkv
        rcases List.mem_cons.mp hkv with rfl | hmem
        · exact hk
        · exact h2 kv hmem
      · simp [mapErase, hk, h3]

theorem quitRecord_events (mem : Snapshot) (gi : GameInfo) :
    (quitRecord mem gi).events = gi.events := by
  unfold quitRecord; simp only []; rw [logGameInfo_events]

theorem quitRecord_event_num (mem : Snapshot) (gi : GameInfo) :
    (quitRecord mem gi).event_num = gi.event_num := by
  unfold quitRecord; simp only []; rw [logGameInfo_event_num]

theorem quitRecord_stadium (mem : Snapshot) (gi : GameInfo) :
    (quitRecord mem gi).stadium = Read_U8 mem .aStadiumId := by
  unfold quitRecord; simp only []; rw [logGameInfo_stadium]

/-- When both quit documents can be rendered, `onGameQuit` returns. -/
theorem onGameQuit_spec (H : Header) (mem : Snapshot) (st : StatTracker)
    (hstad : (H.cStadiumIdToStadiumName (Read_U8 mem .aStadiumId)).isSome = true)
    (hlab : trackerLabelsOk H st.m_fielder_tracker = true) :
    onGameQuit H mem st =
      some { st with
             m_game_info := quitRecord mem st.m_game_info
             written := st.written ++
               quitOutputs { st with m_game_info := quitRecord mem st.m_game_info } } := by
  unfold onGameQuit
  simp only [getStatJSON_completes, quitRecord_stadium, hstad, hlab, Bool.not_true,
    Bool.not_false, Bool.or_true, Bool.true_or, Bool.and_self, if_true]

/-- C6: in WAITING_FOR_EVENT with a current event, when the game identifier
reads zero and the quit documents can be rendered (the stadium id read has a
name, the positions with counts have labels), the event step completes, sets the
event state to GAME_OVER and the game state to ENDGAME_LOGGED, and removes
exactly the entry keyed by the current event counter from the events map: every
other entry keeps its key, content and order.  Nothing is assumed about the
pitch-thrown and pickoff flags. -/
theorem quit_removes_exactly_current_event (H : Header) (mem : Snapshot) (st : StatTracker)
    (ev : Event)
    (hs : st.m_event_state = EVENT_STATE.WAITING_FOR_EVENT)
    (hid : Read_U32 mem .aGameId = 0)
    (hcur : st.m_game_info.getCurrentEvent = some ev)
    (hstad : (H.cStadiumIdToStadiumName (Read_U8 mem .aStadiumId)).isSome = true)
    (hlab : trackerLabelsOk H st.m_fielder_tracker = true) :
    ∃ st', eventStep H mem st = some st' ∧
      st'.m_event_state = EVENT_STATE.GAME_OVER ∧
      st'.m_game_state = GAME_STATE.ENDGAME_LOGGED ∧
      st'.m_game_info.event_num = st.m_game_info.event_num ∧
      ∃ pre post,
        st.m_game_info.events = pre ++ (st.m_game_info.event_num, ev) :: post ∧
        (∀ kv ∈ pre, kv.1 ≠ st.m_game_info.event_num) ∧
        st'.m_game_info.events = pre ++ post := by
  have hq := onGameQuit_spec H mem st hstad hlab
  have hfind : mapFind (quitRecord mem st.m_game_info).event_num
      (quitRecord mem st.m_game_info).events = some ev := by
    rw [quitRecord_events, quitRecord_event_num]; exact hcur
  obtain ⟨pre, post, h1, h2, h3⟩ := mapErase_of_find _ ev _ hcur
  unfold eventStep
  rw [hs]
  simp only [stepWaitingForEvent, hid, if_true, stepQuit, hq, Option.bind_eq_bind,
    Option.some_bind, hfind, pure]
  refine ⟨_, rfl, rfl, rfl, ?_, pre, post, h1, h2, ?_⟩
  · exact quitRecord_event_num mem st.m_game_info
  · simp only [quitRecord_events, quitRecord_event_num]
    exact h3

/-- Witness for C6: the sample tracker in its second at-bat, on the all-zero
snapshot (game identifier 0). -/
theorem quit_removes_exactly_current_event_witness :
    quitState.m_event_state = EVENT_STATE.WAITING_FOR_EVENT ∧
    Read_U32 zeroSnapshot .aGameId = 0 ∧
    ∃ st', eventStep sampleHeader zeroSnapshot quitState = some st' ∧
      st'.m_event_state = EVENT_STATE.GAME_OVER ∧
      st'.m_game_state = GAME_STATE.ENDGAME_LOGGED ∧
      st'.m_game_info.event_num = quitState.m_game_info.event_num ∧
      ∃ pre post,
        quitState.m_game_info.events =
          pre ++ (quitState.m_game_info.event_num, { pickoffEvent with event_num := 1 }) :: post ∧
        (∀ kv ∈ pre, kv.1 ≠ quitState.m_game_info.event_num) ∧
        st'.m_game_info.events = pre ++ post :=
  ⟨rfl, rfl,
    quit_removes_exactly_current_event sampleHeader zeroSnapshot quitState
      { pickoffEvent with event_num := 1 } rfl rfl rfl (by decide) (by decide)⟩

/-- C7, what the code does: `onGameQuit` renders both quit documents before the
current event is erased, so with a current event whose inning is nonzero the
Events array of the decoded and of the raw quit document lists every entry of
the events map as it stood before the erasure, the unfinished current event
included. -/
theorem quit_documents_list_current_event (H : Header) (mem : Snapshot) (st : StatTracker)
    (ev : Event)
    (hs : st.m_event_state = EVENT_STATE.WAITING_FOR_EVENT)
    (hid : Read_U32 mem .aGameId = 0)
    (hcur : st.m_game_info.getCurrentEvent = some ev)
    (hinn : ev.inning ≠ 0)
    (hstad : (H.cStadiumIdToStadiumName (Read_U8 mem .aStadiumId)).isSome = true)
    (hlab : trackerLabelsOk H st.m_fielder_tracker = true) :
    ∃ st' decoded raw rest, eventStep H mem st = some st' ∧
      st'.written = st.written ++ (decoded :: raw :: rest) ∧
      (∃ gi trk, decoded = Output.statFile "quit.decode." true gi trk) ∧
      (∃ gi trk, raw = Output.statFile "quit." false gi trk) ∧
      decoded.events = statEventEntries st.m_game_info ∧
      raw.events = statEventEntries st.m_game_info ∧
      (st.m_game_info.event_num, ev) ∈ decoded.events ∧
      (st.m_game_info.event_num, ev) ∈ raw.events := by
  have hq := onGameQuit_spec H mem st hstad hlab
  have hfind : mapFind (quitRecord mem st.m_game_info).event_num
      (quitRecord mem st.m_game_info).events = some ev := by
    rw [quitRecord_events, quitRecord_event_num]; exact hcur
  have hentries : statEventEntries (quitRecord mem st.m_game_info) =
      statEventEntries st.m_game_info := by
    unfold statEventEntries; rw [quitRecord_events]
  have hmem : (st.m_game_info.event_num, ev) ∈ statEventEntries st.m_game_info := by
    obtain ⟨pre, post, h1, _, _⟩ := mapErase_of_find _ ev _ hcur
    unfold statEventEntries
    rw [List.mem_filter]
    refine ⟨?_, by simpa using hinn⟩
    rw [h1]
    simp
  unfold eventStep
  rw [hs]
  simp only [stepWaitingForEvent, hid, if_true, stepQuit, hq, Option.bind_eq_bind,
    Option.some_bind, hfind, pure]
  refine ⟨_, Output.statFile "quit.decode." true (quitRecord mem st.m_game_info)
      st.m_fielder_tracker,
    Output.statFile "quit." false (quitRecord mem st.m_game_info) st.m_fielder_tracker,
    (if shouldSubmitGame { st with m_game_info := quitRecord mem st.m_game_info } then
        [Output.post (quitRecord mem st.m_game_info) st.m_fielder_tracker] else []) ++
      [Output.deleteFile "partial.", Output.deleteFile "partial.decoded."],
    rfl, ?_, ⟨_, _, rfl⟩, ⟨_, _, rfl⟩, hentries, hentries, ?_, ?_⟩
  · simp [quitOutputs]
  · rw [Output.events, hentries]; exact hmem
  · rw [Output.events, hentries]; exact hmem

/-- Witness for C7: the sample tracker quits in its second at-bat; both quit
documents list event 0 and the unfinished event 1. -/
theorem quit_documents_list_current_event_witness :
    quitState.m_event_state = EVENT_STATE.WAITING_FOR_EVENT ∧
    Read_U32 zeroSnapshot .aGameId = 0 ∧
    ({ pickoffEvent with event_num := 1 } : Event).inning ≠ 0 ∧
    ∃ st' decoded raw rest, eventStep sampleHeader zeroSnapshot quitState = some st' ∧
      st'.written = quitState.written ++ (decoded :: raw :: rest) ∧
      (∃ gi trk, decoded = Output.statFile "quit.decode." true gi trk) ∧
      (∃ gi trk, raw = Output.statFile "quit." false gi trk) ∧
      decoded.events = statEventEntries quitState.m_game_info ∧
      raw.events = statEventEntries quitState.m_game_info ∧
      (quitState.m_game_info.event_num, { pickoffEvent with event_num := 1 }) ∈ decoded.events ∧
      (quitState.m_game_info.event_num, { pickoffEvent with event_num := 1 }) ∈ raw.events :=
  ⟨rfl, rfl, by decide,
    quit_documents_list_current_event sampleHeader zeroSnapshot quitState
      { pickoffEvent with event_num := 1 } rfl rfl rfl (by decide) (by decide) (by decide)⟩


/-- When both final documents can be rendered, `logEndOfGame` returns. -/
theorem logEndOfGame_completes (H : Header) (mem : Snapshot) (st : StatTracker)
    (hstad : (H.cStadiumIdToStadiumName (Read_U8 mem .aStadiumId)).isSome = true)
    (hlab : trackerLabelsOk H st.m_fielder_tracker = true) :
    ∃ st', logEndOfGame H mem st = some st' := by
  unfold logEndOfGame
  have hs := logGameInfo_stadium mem st.m_game_info
  generalize logGameInfo mem st.m_game_info = X at hs
  simp only [getStatJSON_completes, hs, hstad, hlab, Bool.not_true, Bool.not_false,
    Bool.or_true, Bool.true_or, Bool.and_self, if_true]
  exact ⟨_, rfl⟩

/-- C1, what the code does: with the game state at INGAME and the event state at
GAME_OVER, when the final documents can be rendered (the stadium id read has a
name, the positions with counts have labels), the game-state step of the tick
completes, having written the final documents, and leaves the game state at
INGAME and the event state at GAME_OVER: the assignment to ENDGAME_LOGGED that
the quit path makes is missing here, so the following tick does not reset. -/
theorem gameStep_game_over_stays_ingame (H : Header) (mem : Snapshot) (st : StatTracker)
    (hg : st.m_game_state = GAME_STATE.INGAME) (he : st.m_event_state = EVENT_STATE.GAME_OVER)
    (hstad : (H.cStadiumIdToStadiumName (Read_U8 mem .aStadiumId)).isSome = true)
    (hlab : trackerLabelsOk H st.m_fielder_tracker = true) :
    ∃ st', gameStep H mem st = some st' ∧
      st'.m_game_state = GAME_STATE.INGAME ∧ st'.m_event_state = EVENT_STATE.GAME_OVER := by
  obtain ⟨st', h⟩ := logEndOfGame_completes H mem st hstad hlab
  have hs := logEndOfGame_states H mem st st' h
  rw [hg, he] at hs
  refine ⟨st', ?_, hs⟩
  unfold gameStep
  rw [hg]
  simp only [he, if_true]
  exact h

/-- Witness for C1: the sample tracker in game at GAME_OVER, on the all-zero
snapshot; the step completes and the game state is still INGAME, not
ENDGAME_LOGGED. -/
theorem gameStep_game_over_stays_ingame_witness :
    endedGame.m_game_state = GAME_STATE.INGAME ∧
    endedGame.m_event_state = EVENT_STATE.GAME_OVER ∧
    ∃ st', gameStep sampleHeader zeroSnapshot endedGame = some st' ∧
      st'.m_game_state = GAME_STATE.INGAME ∧ st'.m_event_state = EVENT_STATE.GAME_OVER :=
  ⟨rfl, rfl,
    gameStep_game_over_stays_ingame sampleHeader zeroSnapshot endedGame rfl rfl
      (by decide) (by decide)⟩

/-! ## Single ticks of the at-bat machine (C3) -/

theorem mapFind_mapAssign {α : Type} (k : Nat) (v : α) :
    ∀ m : List (Nat × α), mapFind k (mapAssign k v m) = some v := by
  intro m
  induction m with
  | nil => simp [mapAssign, mapFind]
  | cons kv rest ih =>
    obtain ⟨k', v'⟩ := kv
    unfold mapAssign
    by_cases h1 : k < k'
    · simp [h1, mapFind]
    · by_cases h2 : k = k'
      · simp [h2, mapFind]
      · have h3 : ¬ k' = k := fun h => h2 h.symm
        simp [h1, h2, mapFind, h3, ih]

theorem getCurrentEvent_setCurrentEvent (gi : GameInfo) (ev : Event) :
    (gi.setCurrentEvent ev).getCurrentEvent = some ev := by
  unfold GameInfo.getCurrentEvent GameInfo.setCurrentEvent
  exact mapFind_mapAssign _ _ _

theorem summaryNamesOk_of_total (H : Header)
    (hn : ∀ id, (H.cCharIdToCharName id).isSome = true) (ev : Event) :
    summaryNamesOk H ev = true := by
  unfold summaryNamesOk
  cases ev.runner_batter <;> cases ev.pitch <;> simp [hn]

/-- State-change logging outside PLAY_OVER, with the display off or every
character id named: it returns, keeps both machine states, the switches and the
trackers, and touches the current event in its history only. -/
theorem logStateChanges_current (H : Header) (mem : Snapshot) (st : StatTracker) (ev : Event)
    (hosd : st.mTrackerInfo.mDisplay = false ∨ ∀ id, (H.cCharIdToCharName id).isSome = true)
    (hnp : st.m_event_state ≠ EVENT_STATE.PLAY_OVER)
    (hcur : st.m_game_info.getCurrentEvent = some ev) :
    ∃ st' h, logStateChanges H mem st = some st' ∧
      st'.m_game_state = st.m_game_state ∧ st'.m_event_state = st.m_event_state ∧
      st'.mTrackerInfo = st.mTrackerInfo ∧ st'.m_fielder_tracker = st.m_fielder_tracker ∧
      st'.m_game_info.getCurrentEvent = some { ev with history := h } := by
  -- first block
  have h1 : (logGameStateChange st).m_game_state = st.m_game_state ∧
      (logGameStateChange st).m_event_state = st.m_event_state ∧
      (logGameStateChange st).m_event_state_prev = st.m_event_state_prev ∧
      (logGameStateChange st).mTrackerInfo = st.mTrackerInfo ∧
      (logGameStateChange st).m_fielder_tracker = st.m_fielder_tracker ∧
      (logGameStateChange st).m_game_info = st.m_game_info := by
    unfold logGameStateChange
    split_ifs <;> exact ⟨rfl, rfl, rfl, rfl, rfl, rfl⟩
  unfold logStateChanges
  generalize logGameStateChange st = s1 at h1 ⊢
  obtain ⟨hg1, he1, hp1, ht1, hf1, hi1⟩ := h1
  -- second block
  have h2 : ∃ s2 h, logEventStateIfChanged H mem s1 = some s2 ∧
      s2.m_game_state = st.m_game_state ∧ s2.m_event_state = st.m_event_state ∧
      s2.mTrackerInfo = st.mTrackerInfo ∧ s2.m_fielder_tracker = st.m_fielder_tracker ∧
      s2.m_game_info.getCurrentEvent = some { ev with history := h } := by
    unfold logEventStateIfChanged
    by_cases hes : s1.m_event_state = s1.m_event_state_prev
    · rw [if_neg (not_not.mpr hes)]
      exact ⟨s1, ev.history, rfl, hg1, he1, ht1, hf1, by rw [hi1]; exact hcur⟩
    · rw [if_pos hes]
      have hnp1 : ¬ s1.m_event_state = EVENT_STATE.PLAY_OVER := by rw [he1]; exact hnp
      have hcur1 : s1.m_game_info.getCurrentEvent = some ev := by rw [hi1]; exact hcur
      simp only [hcur1, logEventStateChange, hnp1, if_false, Option.bind_eq_bind,
        Option.some_bind, pure]
      exact ⟨_, ev.history ++ [s1.m_event_state], rfl, hg1, he1, ht1, hf1,
        getCurrentEvent_setCurrentEvent _ _⟩
  obtain ⟨s2, h, hs2, hg2, he2, ht2, hf2, hc2⟩ := h2
  -- third block
  refine ⟨s2, h, ?_, hg2, he2, ht2, hf2, hc2⟩
  simp only [hs2, Option.bind_eq_bind, Option.some_bind]
  unfold showCurrentEvent
  simp only [hc2]
  have hosd' : s2.mTrackerInfo.mDisplay = true →
      summaryNamesOk H { ev with history := h } = true := by
    intro hd
    rcases hosd with hoff | hn
    · rw [ht2, hoff] at hd; cases hd
    · exact summaryNamesOk_of_total H hn _
  split_ifs with c1 c2 c3 <;> first | rfl | (exact absurd (hosd' c2) c3)

theorem gameStep_ingame_noop (H : Header) (mem : Snapshot) (s : StatTracker)
    (hg : s.m_game_state = GAME_STATE.INGAME) (he : s.m_event_state ≠ EVENT_STATE.GAME_OVER) :
    gameStep H mem s = some s := by
  unfold gameStep
  rw [hg]
  simp only [he, if_false]

/-- A tick in game, outside PLAY_OVER: the logging block returns a state that
differs from the old one in the `_prev` members and the current event's
history, and the tick is the event step on that state followed by the game
step. -/
theorem tick_in_game (H : Header) (mem : Snapshot) (st : StatTracker) (ev : Event)
    (hg : st.m_game_state = GAME_STATE.INGAME)
    (hosd : st.mTrackerInfo.mDisplay = false ∨ ∀ id, (H.cCharIdToCharName id).isSome = true)
    (hnp : st.m_event_state ≠ EVENT_STATE.PLAY_OVER)
    (hcur : st.m_game_info.getCurrentEvent = some ev) :
    ∃ s h, lookForTriggerEvents H mem st = (eventStep H mem s).bind (gameStep H mem) ∧
      s.m_game_state = GAME_STATE.INGAME ∧ s.m_event_state = st.m_event_state ∧
      s.mTrackerInfo = st.mTrackerInfo ∧ s.m_fielder_tracker = st.m_fielder_tracker ∧
      s.m_game_info.getCurrentEvent = some { ev with history := h } := by
  obtain ⟨s, h, hs, hgs, hes, hts, hfs, hcs⟩ := logStateChanges_current H mem st ev hosd hnp hcur
  refine ⟨s, h, ?_, by rw [hgs, hg], hes, hts, hfs, hcs⟩
  unfold lookForTriggerEvents
  simp only [hs, Option.bind_eq_bind, Option.some_bind, hgs, hg, if_true]

/-- WAITING_FOR_EVENT with the pitch-thrown flag at 1: the HUD document is
written, a fresh Pitch is created, and the state becomes PITCH_RESULT. -/
theorem eventStep_pitch_thrown (H : Header) (mem : Snapshot) (s : StatTracker) (ev : Event)
    (hs : s.m_event_state = EVENT_STATE.WAITING_FOR_EVENT)
    (hid : Read_U32 mem .aGameId ≠ 0) (hpt : Read_U8 mem .aAB_PitchThrown = 1)
    (hcur : s.m_game_info.getCurrentEvent = some ev)
    (hlab : trackerLabelsOk H s.m_fielder_tracker = true) :
    ∃ s' p, eventStep H mem s = some s' ∧ s'.m_game_state = s.m_game_state ∧
      s'.m_event_state = EVENT_STATE.PITCH_RESULT ∧ s'.mTrackerInfo = s.mTrackerInfo ∧
      s'.m_game_info.getCurrentEvent = some { ev with pitch := some p } ∧ p.contact = none := by
  unfold eventStep
  rw [hs]
  have hne : Read_U8 mem .aAB_PitchThrown ≠ 0 := by rw [hpt]; decide
  simp only [stepWaitingForEvent, hid, if_false, hne, ne_eq, not_false_eq_true, true_or, if_true,
    logGameInfo_getCurrentEvent, hcur, Option.bind_eq_bind, Option.some_bind, writeHUD,
    getHUDJSON_completes, hlab, Bool.or_true, pure]
  refine ⟨_, _, rfl, rfl, rfl, rfl, getCurrentEvent_setCurrentEvent _ _, ?_⟩
  split_ifs <;> rfl

/-- PITCH_RESULT with a Pitch and the contact-made word nonzero: the pitch is
snapshotted, a fresh Contact is created, and the state becomes CONTACT_RESULT. -/
theorem eventStep_contact_made (H : Header) (mem : Snapshot) (s : StatTracker) (ev : Event)
    (p : Pitch)
    (hs : s.m_event_state = EVENT_STATE.PITCH_RESULT)
    (hcm : Read_U32 mem .aAB_ContactMade ≠ 0)
    (hcur : s.m_game_info.getCurrentEvent = some ev) (hp : ev.pitch = some p) :
    ∃ s' ev' p' c, eventStep H mem s = some s' ∧ s'.m_game_state = s.m_game_state ∧
      s'.m_event_state = EVENT_STATE.CONTACT_RESULT ∧ s'.mTrackerInfo = s.mTrackerInfo ∧
      s'.m_game_info.getCurrentEvent = some ev' ∧ ev'.pitch = some p' ∧
      p'.contact = some c ∧
      c.secondary_contact_result = (newContact H).secondary_contact_result := by
  unfold eventStep
  rw [hs]
  simp only [stepPitchResult, monitorPitch, hcur, hp, Option.bind_eq_bind, Option.some_bind, hcm,
    ne_eq, not_false_eq_true, if_true, logPitch, logContact, pure]
  exact ⟨_, _, _, _, rfl, rfl, rfl, rfl, getCurrentEvent_setCurrentEvent _ _, rfl, rfl, rfl⟩

/-- CONTACT_RESULT with a Contact and contact-result code 1: the pitch result is
6, the primary result 2, the secondary result untouched, and the state becomes
LOG_FIELDER. -/
theorem eventStep_landed_fair (H : Header) (mem : Snapshot) (s : StatTracker) (ev : Event)
    (p : Pitch) (c : Contact)
    (hs : s.m_event_state = EVENT_STATE.CONTACT_RESULT)
    (hcr : Read_U8 mem .aAB_ContactResult = 1)
    (hcur : s.m_game_info.getCurrentEvent = some ev) (hp : ev.pitch = some p)
    (hc : p.contact = some c) :
    ∃ s' ev' p' c', eventStep H mem s = some s' ∧ s'.m_game_state = s.m_game_state ∧
      s'.m_event_state = EVENT_STATE.LOG_FIELDER ∧
      s'.m_game_info.getCurrentEvent = some ev' ∧ ev'.pitch = some p' ∧
      p'.pitch_result = 6 ∧ p'.contact = some c' ∧
      c'.primary_contact_result = 2 ∧
      c'.secondary_contact_result = c.secondary_contact_result := by
  unfold eventStep
  rw [hs]
  have hne : Read_U8 mem .aAB_ContactResult ≠ 0 := by rw [hcr]; decide
  simp only [stepContactResult, hcur, hp, hc, Option.bind_eq_bind, Option.some_bind, hne, ne_eq,
    not_false_eq_true, if_true, logContactResult, hcr, true_or, pure, not_true_eq_false,
    if_false]
  exact ⟨_, _, _, _, rfl, rfl, rfl, getCurrentEvent_setCurrentEvent _ _, rfl, rfl, rfl, rfl, rfl⟩

/-- C3, as amended: starting in game in WAITING_FOR_EVENT with a current event
(the display off or every character id named, the HUD position labels
available), three consecutive ticks that read a nonzero game identifier and
pitch-thrown = 1, then contact-made = 1, then contact-result = 1 all complete
and take the event state through PITCH_RESULT and CONTACT_RESULT to LOG_FIELDER
(the fielder scan is pending; not MONITOR_RUNNERS), leaving a Contact whose
primary result is 2 (the code plus one, landed fair) and whose secondary result
is still the value a fresh Contact starts with. -/
theorem pitch_contact_landed_reaches_log_fielder (H : Header) (m1 m2 m3 : Snapshot)
    (st : StatTracker) (ev0 : Event)
    (hg : st.m_game_state = GAME_STATE.INGAME)
    (hs : st.m_event_state = EVENT_STATE.WAITING_FOR_EVENT)
    (hcur : st.m_game_info.getCurrentEvent = some ev0)
    (hosd : st.mTrackerInfo.mDisplay = false ∨ ∀ id, (H.cCharIdToCharName id).isSome = true)
    (hlab : trackerLabelsOk H st.m_fielder_tracker = true)
    (hid : Read_U32 m1 .aGameId ≠ 0) (hpt : Read_U8 m1 .aAB_PitchThrown = 1)
    (hcm : Read_U32 m2 .aAB_ContactMade = 1)
    (hcr : Read_U8 m3 .aAB_ContactResult = 1) :
    ∃ s1 s2 s3 ev p c,
      lookForTriggerEvents H m1 st = some s1 ∧ lookForTriggerEvents H m2 s1 = some s2 ∧
      lookForTriggerEvents H m3 s2 = some s3 ∧
      s1.m_event_state = EVENT_STATE.PITCH_RESULT ∧
      s2.m_event_state = EVENT_STATE.CONTACT_RESULT ∧
      s3.m_event_state = EVENT_STATE.LOG_FIELDER ∧
      s3.m_game_info.getCurrentEvent = some ev ∧ ev.pitch = some p ∧ p.contact = some c ∧
      c.primary_contact_result = 2 ∧
      c.secondary_contact_result = (newContact H).secondary_contact_result := by
  -- tick 1
  obtain ⟨a1, h1, ht1, hga1, hea1, hta1, hfa1, hca1⟩ :=
    tick_in_game H m1 st ev0 hg hosd (by rw [hs]; decide) hcur
  obtain ⟨s1, p1, hs1, hgs1, hes1, hts1, hcs1, _⟩ :=
    eventStep_pitch_thrown H m1 a1 _ (by rw [hea1, hs]) hid hpt hca1 (by rw [hfa1]; exact hlab)
  have hg1 : s1.m_game_state = GAME_STATE.INGAME := by rw [hgs1, hga1]
  have hT1 : lookForTriggerEvents H m1 st = some s1 := by
    rw [ht1, hs1]
    exact gameStep_ingame_noop H m1 s1 hg1 (by rw [hes1]; decide)
  have hosd1 : s1.mTrackerInfo.mDisplay = false ∨
      ∀ id, (H.cCharIdToCharName id).isSome = true := by rw [hts1, hta1]; exact hosd
  -- tick 2
  obtain ⟨a2, h2, ht2, hga2, hea2, hta2, _, hca2⟩ :=
    tick_in_game H m2 s1 _ hg1 hosd1 (by rw [hes1]; decide) hcs1
  obtain ⟨s2, ev2, p2, c2, hs2, hgs2, hes2, hts2, hcs2, hp2, hc2, hsec2⟩ :=
    eventStep_contact_made H m2 a2 _ p1 (by rw [hea2, hes1]) (by rw [hcm]; decide) hca2 rfl
  have hg2 : s2.m_game_state = GAME_STATE.INGAME := by rw [hgs2, hga2]
  have hT2 : lookForTriggerEvents H m2 s1 = some s2 := by
    rw [ht2, hs2]
    exact gameStep_ingame_noop H m2 s2 hg2 (by rw [hes2]; decide)
  have hosd2 : s2.mTrackerInfo.mDisplay = false ∨
      ∀ id, (H.cCharIdToCharName id).isSome = true := by rw [hts2, hta2]; exact hosd1
  -- tick 3
  obtain ⟨a3, h3, ht3, hga3, hea3, _, _, hca3⟩ :=
    tick_in_game H m3 s2 ev2 hg2 hosd2 (by rw [hes2]; decide) hcs2
  obtain ⟨s3, ev3, p3, c3, hs3, hgs3, hes3, hcs3, hp3, _, hc3, hprim3, hsec3⟩ :=
    eventStep_landed_fair H m3 a3 _ p2 c2 (by rw [hea3, hes2]) hcr hca3 hp2 hc2
  have hg3 : s3.m_game_state = GAME_STATE.INGAME := by rw [hgs3, hga3]
  have hT3 : lookForTriggerEvents H m3 s2 = some s3 := by
    rw [ht3, hs3]
    exact gameStep_ingame_noop H m3 s3 hg3 (by rw [hes3]; decide)
  exact ⟨s1, s2, s3, ev3, p3, c3, hT1, hT2, hT3, hes1, hes2, hes3, hcs3, hp3, hc3, hprim3,
    by rw [hsec3, hsec2]⟩

/-- Witness for C3 as amended: the sample tracker waiting for a pitch. -/
theorem pitch_contact_landed_reaches_log_fielder_witness :
    (trackerAt EVENT_STATE.WAITING_FOR_EVENT pickoffEvent).m_game_state = GAME_STATE.INGAME ∧
    (trackerAt EVENT_STATE.WAITING_FOR_EVENT pickoffEvent).m_event_state =
      EVENT_STATE.WAITING_FOR_EVENT ∧
    Read_U32 pitchThrownSnapshot .aGameId ≠ 0 ∧
    Read_U8 pitchThrownSnapshot .aAB_PitchThrown = 1 ∧
    Read_U32 contactMadeSnapshot .aAB_ContactMade = 1 ∧
    Read_U8 landedFairSnapshot .aAB_ContactResult = 1 ∧
    ∃ s1 s2 s3 ev p c,
      lookForTriggerEvents sampleHeader pitchThrownSnapshot
        (trackerAt EVENT_STATE.WAITING_FOR_EVENT pickoffEvent) = some s1 ∧
      lookForTriggerEvents sampleHeader contactMadeSnapshot s1 = some s2 ∧
      lookForTriggerEvents sampleHeader landedFairSnapshot s2 = some s3 ∧
      s1.m_event_state = EVENT_STATE.PITCH_RESULT ∧
      s2.m_event_state = EVENT_STATE.CONTACT_RESULT ∧
      s3.m_event_state = EVENT_STATE.LOG_FIELDER ∧
      s3.m_game_info.getCurrentEvent = some ev ∧ ev.pitch = some p ∧ p.contact = some c ∧
      c.primary_contact_result = 2 ∧
      c.secondary_contact_result = (newContact sampleHeader).secondary_contact_result :=
  ⟨rfl, rfl, by decide, by decide, by decide, by decide,
    pitch_contact_landed_reaches_log_fielder sampleHeader pitchThrownSnapshot contactMadeSnapshot
      landedFairSnapshot (trackerAt EVENT_STATE.WAITING_FOR_EVENT pickoffEvent) pickoffEvent
      rfl rfl rfl (Or.inl rfl) (by decide) (by decide) (by decide) (by decide) (by decide)⟩

/-- C3, counterexample: from the sample tracker in WAITING_FOR_EVENT, the three
ticks pitch-thrown = 1, contact-made = 1, contact-result = 1 leave the event
state at PITCH_RESULT, CONTACT_RESULT and then LOG_FIELDER, not
MONITOR_RUNNERS. -/
theorem pitch_contact_landed_not_monitor_runners :
    ((runTicks sampleHeader (trackerAt EVENT_STATE.WAITING_FOR_EVENT pickoffEvent)
        [pitchThrownSnapshot]).map fun s => s.m_event_state) =
      some EVENT_STATE.PITCH_RESULT ∧
    ((runTicks sampleHeader (trackerAt EVENT_STATE.WAITING_FOR_EVENT pickoffEvent)
        [pitchThrownSnapshot, contactMadeSnapshot]).map fun s => s.m_event_state) =
      some EVENT_STATE.CONTACT_RESULT ∧
    ((runTicks sampleHeader (trackerAt EVENT_STATE.WAITING_FOR_EVENT pickoffEvent)
        [pitchThrownSnapshot, contactMadeSnapshot, landedFairSnapshot]).map
          fun s => s.m_event_state) =
      some EVENT_STATE.LOG_FIELDER ∧
    EVENT_STATE.LOG_FIELDER ≠ EVENT_STATE.MONITOR_RUNNERS := by
  refine ⟨by decide, by decide, by decide, by decide⟩

/-! ## Event keys over the ticks of a game (C2) -/

theorem mapFind_isSome_of_mem_keys {α : Type} (k : Nat) :
    ∀ m : List (Nat × α), k ∈ mapKeys m → ∃ v, mapFind k m = some v := by
  intro m
  induction m with
  | nil => intro h; simp [mapKeys] at h
  | cons kv rest ih =>
    obtain ⟨k', w⟩ := kv
    intro h
    unfold mapFind
    by_cases hk : k' = k
    · exact ⟨w, by rw [if_pos hk]⟩
    · rw [if_neg hk]
      apply ih
      simp only [mapKeys, List.map_cons, List.mem_cons] at h ⊢
      rcases h with h | h
      · exact absurd h.symm hk
      · exact h

theorem KeepsKeys.trans {a b c : StatTracker} (h1 : KeepsKeys a b) (h2 : KeepsKeys b c) :
    KeepsKeys a c :=
  ⟨h2.1.trans h1.1, h2.2.1.trans h1.2.1, h2.2.2.trans h1.2.2⟩

theorem readPlayerNames_events (H : Header) (gi : GameInfo) (local_game : Bool) :
    (readPlayerNames H gi local_game).events = gi.events ∧
    (readPlayerNames H gi local_game).event_num = gi.event_num := by
  cases local_game <;> exact ⟨rfl, rfl⟩

theorem initPlayerInfo_events (H : Header) (mem : Snapshot) (gi : GameInfo) :
    (initPlayerInfo H mem gi).events = gi.events ∧
    (initPlayerInfo H mem gi).event_num = gi.event_num := by
  unfold initPlayerInfo
  simp only []
  split_ifs <;>
    first
      | exact ⟨rfl, rfl⟩
      | exact ⟨(readPlayerNames_events H _ _).1, (readPlayerNames_events H _ _).2⟩

/-- What the logging of a changed event state leaves when it completes: the
current event with the state appended to its history, nothing else changed. -/
theorem logEventStateChange_some (H : Header) (mem : Snapshot) (st st' : StatTracker)
    (ev : Event) (h : logEventStateChange H mem st ev = some st') :
    st' = { st with
            m_game_info :=
              st.m_game_info.setCurrentEvent
                { ev with history := ev.history ++ [st.m_event_state] } } := by
  unfold logEventStateChange at h
  simp only [] at h
  split_ifs at h
  · split at h
    · split_ifs at h
      exact (Option.some.inj h).symm
    · cases h
  · exact (Option.some.inj h).symm
  · exact (Option.some.inj h).symm

theorem mapAssign_mapAssign {α : Type} (k : Nat) (v1 v2 : α) :
    ∀ m : List (Nat × α), mapAssign k v2 (mapAssign k v1 m) = mapAssign k v2 m := by
  intro m
  induction m with
  | nil => simp [mapAssign]
  | cons kv rest ih =>
    obtain ⟨k', w⟩ := kv
    by_cases h1 : k < k'
    · simp [mapAssign, h1]
    · by_cases h2 : k = k'
      · subst h2; simp [mapAssign]
      · simp [mapAssign, h1, h2, ih]

theorem logPitch_some (mem : Snapshot) (gi : GameInfo) (ev ev' : Event)
    (h : logPitch mem gi ev = some ev') : ∃ p, ev.pitch = some p := by
  unfold logPitch at h
  cases hp : ev.pitch with
  | none => simp [hp] at h
  | some p => exact ⟨p, rfl⟩

theorem stepQuit_state (H : Header) (mem : Snapshot) (st st' : StatTracker)
    (h : stepQuit H mem st = some st') : st'.m_game_state = GAME_STATE.ENDGAME_LOGGED := by
  unfold stepQuit at h
  simp only [Option.bind_eq_bind, Option.bind_eq_some, pure, Option.some.injEq] at h
  obtain ⟨_, _, _, _, rfl⟩ := h
  rfl

theorem logEndOfGame_keys (H : Header) (mem : Snapshot) (st st' : StatTracker)
    (h : logEndOfGame H mem st = some st') :
    st'.m_game_info.events = st.m_game_info.events ∧
    st'.m_game_info.event_num = st.m_game_info.event_num := by
  unfold logEndOfGame at h
  have he := logGameInfo_events mem st.m_game_info
  have hn := logGameInfo_event_num mem st.m_game_info
  generalize logGameInfo mem st.m_game_info = X at h he hn
  simp only [] at h
  split_ifs at h <;> (cases h; exact ⟨he, hn⟩)

theorem statStadiumLocal_isSome (H : Header) (gi : GameInfo) (inDecode : Bool) :
    (statStadiumLocal H gi inDecode).isSome =
      (!inDecode || (H.cStadiumIdToStadiumName gi.stadium).isSome) := by
  unfold statStadiumLocal
  cases inDecode <;> simp

theorem decode_of_miss (H : Header) (ty : String) (tbl : Nat → Option String) (v : Nat)
    (h : tableOf H ty = some tbl) (hv : tbl v = none) :
    decode H ty v true = invalidValueText v := by
  rw [decode_decoded, decodeLabel_of_table H ty tbl v h]
  simp [lookupOr, hv, invalidValueText, ← invalid_text]

/-- C11, what the code does: in decoded mode `getStatJSON` first fetches the
stadium name with `cStadiumIdToStadiumName.at`, for a local it never streams.
For a stadium id absent from the table that lookup throws, so no document is
produced, for any fielder trackers; `decode`, through which `StadiumID` is
streamed afterwards, would have rendered the invalid-value marker, and the raw
mode, which skips the lookup, gets past the head of the document. -/
theorem getStatJSON_decoded_aborts_on_unnamed_stadium (H : Header) (gi : GameInfo)
    (trk : Trackers) (h : H.cStadiumIdToStadiumName gi.stadium = none) :
    statHeadPieces H gi true = none ∧
    getStatJSON_completes H gi trk true = false ∧
    decode H "Stadium" gi.stadium true = invalidValueText gi.stadium ∧
    (statHeadPieces H gi false).isSome = true := by
  refine ⟨?_, ?_, ?_, ?_⟩
  · unfold statHeadPieces statStadiumLocal
    simp [h]
  · unfold getStatJSON_completes
    simp [h]
  · exact decode_of_miss H "Stadium" H.cStadiumIdToStadiumName gi.stadium rfl h
  · unfold statHeadPieces statStadiumLocal
    simp

/-- Witness for C11: the sample game record with stadium id 200, which the
sample tables do not name. -/
theorem getStatJSON_decoded_aborts_on_unnamed_stadium_witness :
    sampleHeader.cStadiumIdToStadiumName unnamedStadiumGame.stadium = none ∧
    statHeadPieces sampleHeader unnamedStadiumGame true = none ∧
    getStatJSON_completes sampleHeader unnamedStadiumGame freshTrackers true = false ∧
    decode sampleHeader "Stadium" unnamedStadiumGame.stadium true =
      invalidValueText unnamedStadiumGame.stadium ∧
    (statHeadPieces sampleHeader unnamedStadiumGame false).isSome = true :=
  ⟨rfl, getStatJSON_decoded_aborts_on_unnamed_stadium sampleHeader unnamedStadiumGame
    freshTrackers rfl⟩


/-- A list of insertions that all succeed runs to the end, and a property of
every piece they stream holds for every piece of the result. -/
theorem collect_some_of_forall (P : Piece → Prop) :
    ∀ xs : List (Option (List Piece)),
      (∀ x ∈ xs, ∃ l, x = some l ∧ ∀ q ∈ l, P q) →
      ∃ ps, collect xs = some ps ∧ ∀ q ∈ ps, P q := by
  intro xs
  induction xs with
  | nil =>
    intro _
    exact ⟨[], rfl, fun q hq => by cases hq⟩
  | cons x rest ih =>
    intro h
    obtain ⟨l, rfl, hl⟩ := h x (List.mem_cons_self _ _)
    obtain ⟨ps, hps, hP⟩ := ih fun y hy => h y (List.mem_cons_of_mem _ hy)
    refine ⟨l ++ ps, by simp [collect, hps], ?_⟩
    intro q hq
    rcases List.mem_append.mp hq with hq | hq
    · exact hl q hq
    · exact hP q hq

/-- A per-position block whose labels exist is streamed, without the opening of
a `Previous Event` object. -/
theorem hudPositionPieces_some (H : Header) (counts : Nat → Nat)
    (h : positionLabelsOk H counts = true) :
    ∃ ps, hudPositionPieces H counts = some ps ∧ ∀ q ∈ ps, q ≠ previousEventOpening := by
  unfold hudPositionPieces
  by_cases hany : anyPositionFrom counts 0 = true
  · rw [if_pos hany]
    unfold positionLabelsOk at h
    simp only [hany, Bool.not_true, Bool.false_or, List.all_eq_true, Bool.or_eq_true,
      Bool.not_eq_true', decide_eq_false_iff_not] at h
    obtain ⟨rows, hrows, hP⟩ := collect_some_of_forall (fun q => q ≠ previousEventOpening)
      ((List.range cNumOfPositions).map fun pos =>
        if counts pos > 0 then
          (H.cPosition pos).map fun name =>
            [Piece.lit "            \"", Piece.str name, Piece.lit "\": ",
             Piece.str (toString (counts pos)),
             Piece.str (if anyPositionFrom counts (pos + 1) then "," else ""), Piece.lit "\n"]
        else some [])
      (by
        intro x hx
        obtain ⟨pos, hpos, rfl⟩ := List.mem_map.mp hx
        by_cases hc : counts pos > 0
        · rw [if_pos hc]
          rcases h pos hpos with hn | hs
          · exact absurd hc hn
          · obtain ⟨name, hname⟩ := Option.isSome_iff_exists.mp hs
            rw [hname]
            refine ⟨_, rfl, ?_⟩
            intro q hq
            simp only [List.mem_cons, List.mem_singleton, List.not_mem_nil, or_false] at hq
            rcases hq with rfl | rfl | rfl | rfl | rfl | rfl <;>
              simp [previousEventOpening]
        · rw [if_neg hc]
          exact ⟨[], rfl, fun q hq => by cases hq⟩)
    rw [hrows]
    refine ⟨_, rfl, ?_⟩
    intro q hq
    simp only [Option.map_some', List.mem_append, text, List.mem_singleton] at hq
    rcases hq with (rfl | hq) | rfl
    · simp [previousEventOpening]
    · exact hP q hq
    · simp [previousEventOpening]
  · rw [if_neg hany]
    exact ⟨[], rfl, fun q hq => by cases hq⟩

/-- No insertion of the head of the HUD document opens a `Previous Event` object. -/
theorem hudHeadPieces_no_opening (gi : GameInfo) (label : String) (curr : Event) :
    previousEventOpening ∉ hudHeadPieces gi label curr := by
  simp [hudHeadPieces, line, text, previousEventOpening]

/-- No insertion of a runner object opens a `Previous Event` object. -/
theorem hudRunnersPieces_no_opening (H : Header) (inDecode prevPresent : Bool) :
    ∀ runners, previousEventOpening ∉ hudRunnersPieces H inDecode prevPresent runners := by
  intro runners
  induction runners with
  | nil => simp [hudRunnersPieces]
  | cons r rest ih =>
    obtain ⟨runner_info, label⟩ := r
    unfold hudRunnersPieces
    rw [List.mem_append]
    intro h
    rcases h with h | h
    · simp [hudRunnerPieces, line, previousEventOpening] at h
    · exact ih h

/-- One pass of the character loop whose labels exist is streamed, without the
opening of a `Previous Event` object. -/
theorem hudCharacterPieces_some (H : Header) (gi : GameInfo) (trk : Trackers) (inDecode : Bool)
    (team roster : Nat)
    (h : rosterLabelsOk H (trk (if team = 0 then 1 else 0)) roster = true) :
    ∃ ps, hudCharacterPieces H gi trk inDecode team roster = some ps ∧
      ∀ q ∈ ps, q ≠ previousEventOpening := by
  unfold rosterLabelsOk at h
  simp only [Bool.and_eq_true] at h
  obtain ⟨⟨h1, h2⟩, h3⟩ := h
  obtain ⟨p1, hp1, hn1⟩ := hudPositionPieces_some H _ h1
  obtain ⟨p2, hp2, hn2⟩ := hudPositionPieces_some H _ h2
  obtain ⟨p3, hp3, hn3⟩ := hudPositionPieces_some H _ h3
  unfold hudCharacterPieces
  simp only [hp1, hp2, hp3, Option.bind_eq_bind, Option.some_bind, pure]
  refine ⟨_, rfl, ?_⟩
  intro q hq heq
  subst heq
  have m1 : previousEventOpening ∉ p1 := fun hm => hn1 _ hm rfl
  have m2 : previousEventOpening ∉ p2 := fun hm => hn2 _ hm rfl
  have m3 : previousEventOpening ∉ p3 := fun hm => hn3 _ hm rfl
  simp only [List.mem_append] at hq
  rcases hq with (((((hq | hq) | hq) | hq) | hq) | hq) | hq
  · simp [line, text, previousEventOpening] at hq
  · exact m1 hq
  · simp [line, text, previousEventOpening] at hq
  · exact m2 hq
  · simp [line, text, previousEventOpening] at hq
  · exact m3 hq
  · simp [line, text, previousEventOpening] at hq

/-- The character loop is streamed when every position label exists, without
the opening of a `Previous Event` object. -/
theorem hudCharactersPieces_some (H : Header) (gi : GameInfo) (trk : Trackers) (inDecode : Bool)
    (h : trackerLabelsOk H trk = true) :
    ∃ ps, hudCharactersPieces H gi trk inDecode = some ps ∧
      ∀ q ∈ ps, q ≠ previousEventOpening := by
  unfold trackerLabelsOk at h
  simp only [List.all_eq_true] at h
  unfold hudCharactersPieces
  apply collect_some_of_forall
  intro x hx
  obtain ⟨team, hteam, rfl⟩ := List.mem_map.mp hx
  apply collect_some_of_forall
  intro y hy
  obtain ⟨roster, hroster, rfl⟩ := List.mem_map.mp hy
  exact hudCharacterPieces_some H gi trk inDecode team roster (h team hteam roster hroster)

/-- The `Previous Event` object starts with its opening insertion. -/
theorem hudPreviousEventPieces_opening (H : Header) (inDecode : Bool) (prev : Event) :
    previousEventOpening ∈ hudPreviousEventPieces H inDecode prev := by
  simp [hudPreviousEventPieces, text, previousEventOpening]

/-- C15: for a current event with nonzero inning, when the position labels the
character loop looks up exist, `getHUDJSON` returns a document; the document
holds the opening of a `Previous Event` object if and only if a previous event
is supplied; with none supplied it is the head, the character entries and the
runner objects followed at once by the closing brace, the last runner object
closed without a comma; with one supplied it ends with the `Previous Event`
object and the closing brace. -/
theorem getHUDJSON_previous_event_iff (H : Header) (gi : GameInfo) (trk : Trackers)
    (in_event_num : String) (in_curr_event : Event) (in_prev_event : Option Event)
    (inDecode : Bool) (hinn : in_curr_event.inning ≠ 0) (hlab : trackerLabelsOk H trk = true) :
    ∃ characters doc, hudCharactersPieces H gi trk inDecode = some characters ∧
      getHUDJSON H gi trk in_event_num in_curr_event in_prev_event inDecode = some doc ∧
      (previousEventOpening ∈ doc ↔ in_prev_event.isSome = true) ∧
      (in_prev_event = none →
        doc = hudHeadPieces gi in_event_num in_curr_event ++ characters ++
          hudRunnersPieces H inDecode false (hudRunners in_curr_event) ++ text "\x7d") ∧
      (∀ prev, in_prev_event = some prev →
        doc = hudHeadPieces gi in_event_num in_curr_event ++ characters ++
          hudRunnersPieces H inDecode true (hudRunners in_curr_event) ++
          (hudPreviousEventPieces H inDecode prev ++ text "\x7d")) := by
  obtain ⟨characters, hch, hno⟩ := hudCharactersPieces_some H gi trk inDecode hlab
  have m1 := hudHeadPieces_no_opening gi in_event_num in_curr_event
  have m2 : previousEventOpening ∉ characters := fun hm => hno _ hm rfl
  have m3 := hudRunnersPieces_no_opening H inDecode in_prev_event.isSome (hudRunners in_curr_event)
  unfold getHUDJSON
  rw [if_neg hinn, hch]
  refine ⟨characters, _, rfl, rfl, ?_, ?_, ?_⟩
  · cases in_prev_event with
    | none =>
      have m4 : previousEventOpening ∉ text "\x7d" := by simp [text, previousEventOpening]
      simp only [Option.isSome_none] at m3
      simp only [List.mem_append, m1, m2, m3, m4, false_or, Option.isSome_none,
        Bool.false_eq_true, iff_false, not_false_eq_true]
    | some prev =>
      simp only [List.mem_append, Option.isSome_some, iff_true]
      exact Or.inr (Or.inl (hudPreviousEventPieces_opening H inDecode prev))
  · intro hnone
    subst hnone
    rfl
  · intro prev hprev
    subst hprev
    rfl

/-- Witness for C15: the sample home-run event rendered under the sample tables
with fresh trackers, once without and once with a previous event. -/
theorem getHUDJSON_previous_event_iff_witness :
    homeRunEvent.inning ≠ 0 ∧ trackerLabelsOk sampleHeader freshTrackers = true ∧
    (∃ characters doc, hudCharactersPieces sampleHeader zeroGameInfo freshTrackers true =
        some characters ∧
      getHUDJSON sampleHeader zeroGameInfo freshTrackers "0a" homeRunEvent none true = some doc ∧
      previousEventOpening ∉ doc ∧
      doc = hudHeadPieces zeroGameInfo "0a" homeRunEvent ++ characters ++
        hudRunnersPieces sampleHeader true false (hudRunners homeRunEvent) ++ text "\x7d") ∧
    (∃ doc, getHUDJSON sampleHeader zeroGameInfo freshTrackers "1a" homeRunEvent
        (some forcedOutEvent) true = some doc ∧ previousEventOpening ∈ doc) := by
  obtain ⟨characters, doc, hch, hdoc, hiff, hnone, _⟩ :=
    getHUDJSON_previous_event_iff sampleHeader zeroGameInfo freshTrackers "0a" homeRunEvent none
      true (by decide) (by decide)
  obtain ⟨_, doc2, _, hdoc2, hiff2, _, _⟩ :=
    getHUDJSON_previous_event_iff sampleHeader zeroGameInfo freshTrackers "1a" homeRunEvent
      (some forcedOutEvent) true (by decide) (by decide)
  exact ⟨by decide, by decide,
    ⟨characters, doc, hch, hdoc, fun hm => absurd (hiff.mp hm) (by decide), hnone rfl⟩,
    ⟨doc2, hdoc2, hiff2.mpr rfl⟩⟩

/-! ## Contact classification and the final result -/

/-- C17, as amended: if a Contact exists (with its Pitch and the batter-runner,
and a credited fielder when the batter-runner's out type is 2) and the final
at-bat result lies in `0x7..0xF`, then `logFinalResults` returns, the secondary
contact result equals that final result code, and the primary contact result
is 2, the landed-fair code: a primary that the `0xFF` classification recorded
as foul (1) is corrected to fair, not set to foul. -/
theorem logFinalResults_extended_outcome (mem : Snapshot) (ev : Event) (trk : Trackers)
    (rb : Runner) (p : Pitch) (c : Contact)
    (hp : ev.pitch = some p) (hc : p.contact = some c) (hrb : ev.runner_batter = some rb)
    (hlo : 0x7 ≤ ev.result_of_atbat) (hhi : ev.result_of_atbat ≤ 0xF)
    (hf : rb.out_type = 2 → (creditedFielder c).isSome = true) :
    ∃ ev' trk' p' c', logFinalResults mem ev trk = some (ev', trk') ∧
      ev'.pitch = some p' ∧ p'.contact = some c' ∧
      c'.secondary_contact_result = ev.result_of_atbat ∧
      c'.primary_contact_result = 2 := by
  have hne : ev.result_of_atbat ≠ 1 := by omega
  have hsec : logSecondaryResult ev =
      some { ev with
             pitch := some { p with
               contact := some { c with
                 secondary_contact_result := ev.result_of_atbat
                 primary_contact_result := 2 } } } := by
    unfold logSecondaryResult
    simp only [hp, hc]
    rw [if_pos ⟨hlo, hhi⟩]
  unfold logFinalResults
  simp only [logStrikeout, if_neg hne, Option.bind_eq_bind, Option.some_bind, hsec, hrb, pure]
  by_cases h2 : rb.out_type = 2
  · have hcf := hf h2
    obtain ⟨g, hg⟩ := Option.isSome_iff_exists.mp hcf
    have hg' : ∀ m, creditedFielder
        { c with secondary_contact_result := ev.result_of_atbat, primary_contact_result := 2,
                 multi_out := m } = some g := by
      intro m
      unfold creditedFielder at hg ⊢
      exact hg
    simp only [h2, if_true, hg', Option.some_bind]
    exact ⟨_, _, _, _, rfl, rfl, rfl, rfl, rfl⟩
  · simp only [h2, if_false]
    exact ⟨_, _, _, _, rfl, rfl, rfl, rfl, rfl⟩

/-- Witness for C17 as amended: the sample home-run event. -/
theorem logFinalResults_extended_outcome_witness :
    0x7 ≤ homeRunEvent.result_of_atbat ∧ homeRunEvent.result_of_atbat ≤ 0xF ∧
    ∃ ev' trk' p' c', logFinalResults playDeadSnapshot homeRunEvent freshTrackers =
        some (ev', trk') ∧
      ev'.pitch = some p' ∧ p'.contact = some c' ∧
      c'.secondary_contact_result = homeRunEvent.result_of_atbat ∧
      c'.primary_contact_result = 2 :=
  ⟨by decide, by decide,
    logFinalResults_extended_outcome playDeadSnapshot homeRunEvent freshTrackers zeroRunner
      { zeroPitch with
        contact := some
          { collectedContact with primary_contact_result := 1, secondary_contact_result := 3 } }
      { collectedContact with primary_contact_result := 1, secondary_contact_result := 3 }
      rfl rfl rfl (by decide) (by decide) (fun _ => rfl)⟩

/-- C17, counterexample: a Contact exists, the final result `0xA` lies in
`0x7..0xF`, and after `logFinalResults` the secondary contact result is `0xA`
while the primary contact result is 2, not the foul code 1. -/
theorem home_run_primary_is_fair :
    (homeRunEvent.pitch.bind fun p => p.contact).isSome = true ∧
    0x7 ≤ homeRunEvent.result_of_atbat ∧ homeRunEvent.result_of_atbat ≤ 0xF ∧
    ((logFinalResults playDeadSnapshot homeRunEvent freshTrackers).map fun r =>
      r.1.pitch.map fun p =>
        p.contact.map fun c => (c.primary_contact_result, c.secondary_contact_result)) =
      some (some (some (2, 0xA))) := by
  exact ⟨rfl, by decide, by decide, rfl⟩

/-- The airborne sampling of `CONTACT_RESULT`: the stored ball position becomes
the previous sample and the position read becomes the stored one. -/
theorem trackBall_samples (H : Header) (mem : Snapshot) (c : Contact) :
    (trackBall H mem c).prev_ball_x_pos = c.ball_x_pos ∧
    (trackBall H mem c).prev_ball_y_pos = c.ball_y_pos ∧
    (trackBall H mem c).prev_ball_z_pos = c.ball_z_pos ∧
    (trackBall H mem c).ball_x_pos = Read_U32 mem .aAB_BallPos_X ∧
    (trackBall H mem c).ball_y_pos = Read_U32 mem .aAB_BallPos_Y ∧
    (trackBall H mem c).ball_z_pos = Read_U32 mem .aAB_BallPos_Z := by
  unfold trackBall pollBobble
  simp only []
  split_ifs <;> exact ⟨rfl, rfl, rfl, rfl, rfl, rfl⟩

/-- C18: in `CONTACT_RESULT`, on a nonzero contact-result code (for code 3, with
the holder scan finding a fielder), the step completes, the pitch result is 6,
and the contact records: for codes 1 and 2 the primary result code + 1, the
secondary result untouched, the ball position as read on this tick and the
collector as the holder scan returns it; for code 3 primary 0 and secondary 0,
the ball position taken from the stored previous sample and the holder as
collector; for `0xFF` primary 1 and secondary 3; for any other code the code
as primary and `0xFF` as secondary. -/
theorem stepContactResult_classifies (H : Header) (mem : Snapshot) (st : StatTracker)
    (ev : Event) (p : Pitch) (c0 : Contact)
    (hcur : st.m_game_info.getCurrentEvent = some ev)
    (hp : ev.pitch = some p) (hc : p.contact = some c0)
    (hcode : Read_U8 mem .aAB_ContactResult ≠ 0)
    (hscan : Read_U8 mem .aAB_ContactResult = 3 →
      (logFielderWithBall H mem ev.manual_select_locks).isSome = true) :
    ∃ st' ev' p' c', stepContactResult H mem st = some st' ∧
      st'.m_game_info.getCurrentEvent = some ev' ∧ ev'.pitch = some p' ∧
      p'.contact = some c' ∧ p'.pitch_result = 6 ∧
      (Read_U8 mem .aAB_ContactResult = 1 ∨ Read_U8 mem .aAB_ContactResult = 2 →
        c'.primary_contact_result = Read_U8 mem .aAB_ContactResult + 1 ∧
        c'.secondary_contact_result = c0.secondary_contact_result ∧
        c'.ball_x_pos = Read_U32 mem .aAB_BallPos_X ∧
        c'.ball_y_pos = Read_U32 mem .aAB_BallPos_Y ∧
        c'.ball_z_pos = Read_U32 mem .aAB_BallPos_Z ∧
        c'.collect_fielder = logFielderWithBall H mem ev.manual_select_locks) ∧
      (Read_U8 mem .aAB_ContactResult = 3 →
        c'.primary_contact_result = 0 ∧ c'.secondary_contact_result = 0 ∧
        c'.ball_x_pos = c0.prev_ball_x_pos ∧ c'.ball_y_pos = c0.prev_ball_y_pos ∧
        c'.ball_z_pos = c0.prev_ball_z_pos ∧
        ∃ f g, logFielderWithBall H mem ev.manual_select_locks = some f ∧
          c'.collect_fielder = some g ∧ g.fielder_roster_loc = f.fielder_roster_loc ∧
          g.fielder_pos = f.fielder_pos) ∧
      (Read_U8 mem .aAB_ContactResult = 0xFF →
        c'.primary_contact_result = 1 ∧ c'.secondary_contact_result = 3) ∧
      (Read_U8 mem .aAB_ContactResult ≠ 1 → Read_U8 mem .aAB_ContactResult ≠ 2 →
        Read_U8 mem .aAB_ContactResult ≠ 3 → Read_U8 mem .aAB_ContactResult ≠ 0xFF →
        c'.primary_contact_result = Read_U8 mem .aAB_ContactResult ∧
        c'.secondary_contact_result = 0xFF) := by
  unfold stepContactResult
  simp only [hcur, hp, hc, Option.bind_eq_bind, Option.some_bind, if_pos hcode, pure]
  unfold logContactResult
  simp only []
  by_cases h12 : Read_U8 mem .aAB_ContactResult = 1 ∨ Read_U8 mem .aAB_ContactResult = 2
  · rw [if_pos h12]
    simp only [Option.some_bind]
    refine ⟨_, _, _, _, rfl, getCurrentEvent_setCurrentEvent _ _, rfl, rfl, rfl, ?_, ?_, ?_, ?_⟩
    · intro _; exact ⟨rfl, rfl, rfl, rfl, rfl, rfl⟩
    · intro h3; rcases h12 with h | h <;> omega
    · intro hff; rcases h12 with h | h <;> omega
    · intro h1 h2; rcases h12 with h | h
      · exact absurd h h1
      · exact absurd h h2
  · rw [if_neg h12]
    have hn1 : Read_U8 mem .aAB_ContactResult ≠ 1 := fun h => h12 (Or.inl h)
    have hn2 : Read_U8 mem .aAB_ContactResult ≠ 2 := fun h => h12 (Or.inr h)
    by_cases h3 : Read_U8 mem .aAB_ContactResult = 3
    · rw [if_pos h3]
      obtain ⟨f, hf⟩ := Option.isSome_iff_exists.mp (hscan h3)
      simp only [hf, Option.some_bind]
      refine ⟨_, _, _, _, rfl, getCurrentEvent_setCurrentEvent _ _, rfl, rfl, rfl, ?_, ?_, ?_, ?_⟩
      · intro h; exact absurd h h12
      · intro _; exact ⟨rfl, rfl, rfl, rfl, rfl, f, _, rfl, rfl, rfl, rfl⟩
      · intro hff; omega
      · intro _ _ h; exact absurd h3 h
    · rw [if_neg h3]
      by_cases hff : Read_U8 mem .aAB_ContactResult = 0xFF
      · rw [if_pos hff]
        simp only [Option.some_bind]
        refine ⟨_, _, _, _, rfl, getCurrentEvent_setCurrentEvent _ _, rfl, rfl, rfl, ?_, ?_, ?_, ?_⟩
        · intro h; exact absurd h h12
        · intro h; exact absurd h h3
        · intro _; exact ⟨rfl, rfl⟩
        · intro _ _ _ h; exact absurd hff h
      · rw [if_neg hff]
        simp only [Option.some_bind]
        refine ⟨_, _, _, _, rfl, getCurrentEvent_setCurrentEvent _ _, rfl, rfl, rfl, ?_, ?_, ?_, ?_⟩
        · intro h; exact absurd h h12
        · intro h; exact absurd h h3
        · intro h; exact absurd h hff
        · intro _ _ _ _; exact ⟨rfl, rfl⟩

/-- Witness for C18: the sample at-bat after contact on the tick that reads
code 3 with the fielder at position 6 holding the ball. -/
theorem stepContactResult_classifies_witness :
    Read_U8 caughtSnapshot .aAB_ContactResult = 3 ∧
    ∃ st' ev' p' c',
      stepContactResult sampleHeader caughtSnapshot
        (trackerAt EVENT_STATE.CONTACT_RESULT contactEvent) = some st' ∧
      st'.m_game_info.getCurrentEvent = some ev' ∧ ev'.pitch = some p' ∧
      p'.contact = some c' ∧ p'.pitch_result = 6 ∧
      c'.primary_contact_result = 0 ∧ c'.secondary_contact_result = 0 := by
  obtain ⟨st', ev', p', c', h1, h2, h3, h4, h5, _, h6, _⟩ :=
    stepContactResult_classifies sampleHeader caughtSnapshot
      (trackerAt EVENT_STATE.CONTACT_RESULT contactEvent) contactEvent
      { zeroPitch with contact := some zeroContact } zeroContact rfl rfl rfl (by decide)
      (fun _ => by decide)
  exact ⟨by decide, st', ev', p', c', h1, h2, h3, h4, h5, (h6 (by decide)).1, (h6 (by decide)).2.1⟩

/-! ## Submission of the full-game document -/

/-- C20: `shouldSubmitGame` returns true if and only if submission is enabled and
neither the away player's nor the home player's user id is `CPU`. -/
theorem shouldSubmitGame_iff (st : StatTracker) :
    shouldSubmitGame st = true ↔
      (st.mTrackerInfo.mSubmit = true ∧
        st.m_game_info.getAwayTeamPlayer.userid ≠ "CPU" ∧
        st.m_game_info.getHomeTeamPlayer.userid ≠ "CPU") := by
  unfold shouldSubmitGame
  simp only [Bool.and_eq_true, Bool.not_eq_true', Bool.or_eq_false_iff, decide_eq_false_iff_not]
  constructor
  · rintro ⟨⟨ha, hh⟩, hs⟩
    exact ⟨hs, ha, hh⟩
  · rintro ⟨hs, ha, hh⟩
    exact ⟨⟨ha, hh⟩, hs⟩

theorem logGameInfo_players (mem : Snapshot) (gi : GameInfo) :
    (logGameInfo mem gi).getAwayTeamPlayer = gi.getAwayTeamPlayer ∧
    (logGameInfo mem gi).getHomeTeamPlayer = gi.getHomeTeamPlayer := by
  obtain ⟨cs, h⟩ := logGameInfo_fields mem gi
  rw [h]
  exact ⟨rfl, rfl⟩

theorem shouldSubmitGame_congr (st st' : StatTracker)
    (ha : st'.m_game_info.getAwayTeamPlayer = st.m_game_info.getAwayTeamPlayer)
    (hh : st'.m_game_info.getHomeTeamPlayer = st.m_game_info.getHomeTeamPlayer)
    (hs : st'.mTrackerInfo = st.mTrackerInfo) :
    shouldSubmitGame st' = shouldSubmitGame st := by
  unfold shouldSubmitGame
  rw [ha, hh, hs]

theorem postCount_append (xs ys : List Output) :
    postCount (xs ++ ys) = postCount xs + postCount ys := by
  unfold postCount
  rw [List.filter_append, List.length_append]

/-- With no current event the logging block only synchronises the two `_prev`
members. -/
theorem logStateChanges_no_current (H : Header) (mem : Snapshot) (st : StatTracker)
    (hcur : st.m_game_info.getCurrentEvent = none) :
    ∃ s, logStateChanges H mem st = some s ∧
      s.m_game_state = st.m_game_state ∧ s.m_event_state = st.m_event_state ∧
      s.m_game_info = st.m_game_info ∧ s.m_fielder_tracker = st.m_fielder_tracker ∧
      s.mTrackerInfo = st.mTrackerInfo ∧ s.written = st.written := by
  unfold logStateChanges
  have h1 : ∃ gp, logGameStateChange st = { st with m_game_state_prev := gp } := by
    unfold logGameStateChange
    split_ifs
    · exact ⟨_, rfl⟩
    · exact ⟨st.m_game_state_prev, rfl⟩
  obtain ⟨gp, hgp⟩ := h1
  rw [hgp]
  have h2 : ∃ ep, logEventStateIfChanged H mem { st with m_game_state_prev := gp } =
      some { st with m_game_state_prev := gp, m_event_state_prev := ep } := by
    unfold logEventStateIfChanged
    simp only [hcur]
    split_ifs
    · exact ⟨_, rfl⟩
    · exact ⟨st.m_event_state_prev, rfl⟩
  obtain ⟨ep, hep⟩ := h2
  rw [hep]
  refine ⟨{ st with m_game_state_prev := gp, m_event_state_prev := ep }, ?_,
    rfl, rfl, rfl, rfl, rfl, rfl⟩
  simp only [Option.bind_eq_bind, Option.some_bind]
  unfold showCurrentEvent
  simp only [hcur]
  split_ifs <;> rfl

/-- When both final documents can be rendered, `logEndOfGame` returns the
tracker with the refreshed game record and the documents handed over. -/
theorem logEndOfGame_spec (H : Header) (mem : Snapshot) (st : StatTracker)
    (hstad : (H.cStadiumIdToStadiumName (Read_U8 mem .aStadiumId)).isSome = true)
    (hlab : trackerLabelsOk H st.m_fielder_tracker = true) :
    logEndOfGame H mem st =
      some { st with
             m_game_info := logGameInfo mem st.m_game_info
             written := st.written ++
               [.statFile "decoded." true (logGameInfo mem st.m_game_info) st.m_fielder_tracker] ++
               (if shouldSubmitGame { st with m_game_info := logGameInfo mem st.m_game_info } then
                  [.post (logGameInfo mem st.m_game_info) st.m_fielder_tracker]
                else []) ++
               [.deleteFile "partial.", .deleteFile "partial.decoded."] } := by
  unfold logEndOfGame
  simp only [getStatJSON_completes, logGameInfo_stadium, hstad, hlab, Bool.not_true,
    Bool.not_false, Bool.or_true, Bool.true_or, Bool.and_self, if_true]

/-- One tick in game at `GAME_OVER` with no current event: when the final
documents can be rendered the tick completes, stays where it is, and hands the
raw document to the submission whenever `shouldSubmitGame()` holds. -/
theorem game_over_tick (H : Header) (mem : Snapshot) (st : StatTracker)
    (hg : st.m_game_state = GAME_STATE.INGAME) (he : st.m_event_state = EVENT_STATE.GAME_OVER)
    (hcur : st.m_game_info.getCurrentEvent = none)
    (hlab : trackerLabelsOk H st.m_fielder_tracker = true)
    (hstad : (H.cStadiumIdToStadiumName (Read_U8 mem .aStadiumId)).isSome = true) :
    ∃ st', lookForTriggerEvents H mem st = some st' ∧
      st'.m_game_state = GAME_STATE.INGAME ∧ st'.m_event_state = EVENT_STATE.GAME_OVER ∧
      st'.m_game_info.getCurrentEvent = none ∧
      st'.m_fielder_tracker = st.m_fielder_tracker ∧
      shouldSubmitGame st' = shouldSubmitGame st ∧
      postCount st'.written = postCount st.written + (if shouldSubmitGame st then 1 else 0) := by
  obtain ⟨s0, hlog, hg0, he0, hgi0, htrk0, hti0, hw0⟩ := logStateChanges_no_current H mem st hcur
  have hg0' : s0.m_game_state = GAME_STATE.INGAME := hg0.trans hg
  have he0' : s0.m_event_state = EVENT_STATE.GAME_OVER := he0.trans he
  have htick : lookForTriggerEvents H mem st = logEndOfGame H mem s0 := by
    unfold lookForTriggerEvents
    rw [hlog]
    simp only [Option.bind_eq_bind, Option.some_bind]
    rw [if_pos hg0']
    unfold eventStep
    rw [he0']
    simp only [Option.some_bind]
    unfold gameStep
    rw [hg0']
    simp only []
    rw [if_pos he0']
  rw [htick, logEndOfGame_spec H mem s0 hstad (by rw [htrk0]; exact hlab)]
  have hc := logGameInfo_getCurrentEvent mem st.m_game_info
  have hpl := logGameInfo_players mem st.m_game_info
  rw [hgi0]
  generalize logGameInfo mem st.m_game_info = X at hc hpl
  have hsub : shouldSubmitGame { s0 with m_game_info := X } = shouldSubmitGame st :=
    shouldSubmitGame_congr _ _ hpl.1 hpl.2 hti0
  refine ⟨_, rfl, hg0', he0', ?_, htrk0, ?_, ?_⟩
  · rw [← hcur]; exact hc
  · exact shouldSubmitGame_congr _ _ hpl.1 hpl.2 hti0
  · simp only [postCount_append]
    rw [hsub, hw0]
    cases shouldSubmitGame st <;> simp [postCount]

/-- C19, what the code does: after the event state has reached `GAME_OVER` the
game state is still INGAME, so every further tick renders the final documents
and submits the raw one again: with submission enabled and no CPU participant,
`n` ticks at `GAME_OVER` add `n` submissions to the one made on the tick that
reached it. -/
theorem game_over_submits_every_tick (H : Header) (mems : List Snapshot) :
    ∀ st : StatTracker,
      st.m_game_state = GAME_STATE.INGAME → st.m_event_state = EVENT_STATE.GAME_OVER →
      st.m_game_info.getCurrentEvent = none →
      trackerLabelsOk H st.m_fielder_tracker = true →
      shouldSubmitGame st = true → stadiumsNamed H mems = true →
      ∃ st', runTicks H st mems = some st' ∧
        postCount st'.written = postCount st.written + mems.length := by
  induction mems with
  | nil =>
    intro st _ _ _ _ _ _
    exact ⟨st, rfl, rfl⟩
  | cons mem rest ih =>
    intro st hg he hcur hlab hsub hst
    unfold stadiumsNamed at hst
    rw [List.all_cons, Bool.and_eq_true] at hst
    obtain ⟨s1, h1, hg1, he1, hcur1, htrk1, hsub1, hcount1⟩ :=
      game_over_tick H mem st hg he hcur hlab hst.1
    obtain ⟨s2, h2, hcount2⟩ :=
      ih s1 hg1 he1 hcur1 (by rw [htrk1]; exact hlab) (by rw [hsub1]; exact hsub) hst.2
    refine ⟨s2, ?_, ?_⟩
    · unfold runTicks
      rw [h1]
      exact h2
    · rw [hcount2, hcount1, hsub]
      simp only [if_true, List.length_cons]
      omega

/-- Witness for C19: the sample tracker in game at `GAME_OVER`, submission
enabled and both players human, over two ticks: two submissions are made.  And
a game that completes: from `FINAL_RESULT`, three ticks reading the game-over
control state make three submissions, one on the tick that reaches `GAME_OVER`
and one on each tick after it. -/
theorem game_over_submits_every_tick_witness :
    shouldSubmitGame endedGame = true ∧
    (∃ st', runTicks sampleHeader endedGame [zeroSnapshot, zeroSnapshot] = some st' ∧
      postCount st'.written = postCount endedGame.written + 2) ∧
    ((runTicks sampleHeader (trackerAt EVENT_STATE.FINAL_RESULT forcedOutEvent)
        [gameEndSnapshot]).map fun s =>
      (decide (s.m_event_state = EVENT_STATE.GAME_OVER), postCount s.written)) =
      some (true, 1) ∧
    ((runTicks sampleHeader (trackerAt EVENT_STATE.FINAL_RESULT forcedOutEvent)
        [gameEndSnapshot, gameEndSnapshot, gameEndSnapshot]).map fun s =>
      postCount s.written) = some 3 :=
  ⟨by decide,
    game_over_submits_every_tick sampleHeader [zeroSnapshot, zeroSnapshot] endedGame rfl rfl rfl
      (by decide) (by decide) (by decide),
    by decide, by decide⟩

/-! ## How stored events change during an at-bat -/

theorem mapFind_mapAssign_ne {α : Type} (k n : Nat) (v : α) (hne : k ≠ n) :
    ∀ m : List (Nat × α), mapFind k (mapAssign n v m) = mapFind k m := by
  intro m
  induction m with
  | nil =>
    have : ¬ n = k := fun h => hne h.symm
    simp [mapAssign, mapFind, this]
  | cons kv rest ih =>
    obtain ⟨k', w⟩ := kv
    have hnk : ¬ n = k := fun h => hne h.symm
    by_cases h1 : n < k'
    · simp [mapAssign, h1, mapFind, hnk]
    · by_cases h2 : n = k'
      · subst h2
        simp [mapAssign, mapFind, hnk]
      · by_cases h3 : k' = k
        · subst h3
          simp [mapAssign, h1, h2, mapFind]
        · simp [mapAssign, h1, h2, mapFind, h3, ih]

theorem runnerEvolves_refl (slot : Nat) (r : Runner) : RunnerEvolves slot r r :=
  ⟨Nat.le_refl _, fun _ => Or.inl rfl⟩

theorem runnerEvolves_trans (slot : Nat) (a b c : Runner)
    (h1 : RunnerEvolves slot a b) (h2 : RunnerEvolves slot b c) : RunnerEvolves slot a c := by
  refine ⟨Nat.le_trans h1.1 h2.1, fun ha => ?_⟩
  rcases h1.2 ha with hb | ⟨hs, hb⟩
  · have hb0 : b.out_type ≠ 0 := by rw [hb]; exact ha
    rcases h2.2 hb0 with hc | ⟨hs, hc⟩
    · exact Or.inl (hc.trans hb)
    · exact Or.inr ⟨hs, hc⟩
  · have hb0 : b.out_type ≠ 0 := by rw [hb]; decide
    rcases h2.2 hb0 with hc | ⟨_, hc⟩
    · exact Or.inr ⟨hs, hc.trans hb⟩
    · exact Or.inr ⟨hs, hc⟩

theorem runnersEvolve_refl (ev : Event) : RunnersEvolve ev ev :=
  fun slot r h => ⟨r, h, runnerEvolves_refl slot r⟩

theorem runnersEvolve_trans (a b c : Event) (h1 : RunnersEvolve a b) (h2 : RunnersEvolve b c) :
    RunnersEvolve a c := by
  intro slot r hr
  obtain ⟨r1, hr1, he1⟩ := h1 slot r hr
  obtain ⟨r2, hr2, he2⟩ := h2 slot r1 hr1
  exact ⟨r2, hr2, runnerEvolves_trans slot r r1 r2 he1 he2⟩

theorem pitchStaysCleared_refl (ev : Event) : PitchStaysCleared ev ev :=
  fun p hp hd => ⟨p, hp, hd⟩

theorem pitchStaysCleared_trans (a b c : Event) (h1 : PitchStaysCleared a b)
    (h2 : PitchStaysCleared b c) : PitchStaysCleared a c := by
  intro p hp hd
  obtain ⟨p1, hp1, hd1⟩ := h1 p hp hd
  exact h2 p1 hp1 hd1

theorem atBatEvolves_refl (ev : Event) : AtBatEvolves ev ev :=
  ⟨runnersEvolve_refl ev, pitchStaysCleared_refl ev⟩

theorem atBatEvolves_trans (a b c : Event) (h1 : AtBatEvolves a b) (h2 : AtBatEvolves b c) :
    AtBatEvolves a c :=
  ⟨runnersEvolve_trans a b c h1.1 h2.1, pitchStaysCleared_trans a b c h1.2 h2.2⟩

/-- An update that keeps the four runner slots keeps the runners evolving. -/
theorem runnersEvolve_of_eq (ev ev' : Event)
    (hb : ev'.runner_batter = ev.runner_batter) (h1 : ev'.runner_1 = ev.runner_1)
    (h2 : ev'.runner_2 = ev.runner_2) (h3 : ev'.runner_3 = ev.runner_3) :
    RunnersEvolve ev ev' := by
  intro slot r hr
  refine ⟨r, ?_, runnerEvolves_refl slot r⟩
  unfold runnerAt at hr ⊢
  rw [hb, h1, h2, h3]
  exact hr

/-- The runners evolve when each slot that was filled is still filled by an
evolved runner. -/
theorem runnersEvolve_of_slots (ev ev' : Event)
    (hb : ∀ r, ev.runner_batter = some r →
      ∃ r', ev'.runner_batter = some r' ∧ RunnerEvolves 0 r r')
    (h1 : ∀ r, ev.runner_1 = some r → ∃ r', ev'.runner_1 = some r' ∧ RunnerEvolves 1 r r')
    (h2 : ∀ r, ev.runner_2 = some r → ∃ r', ev'.runner_2 = some r' ∧ RunnerEvolves 2 r r')
    (h3 : ∀ r, ev.runner_3 = some r → ∃ r', ev'.runner_3 = some r' ∧ RunnerEvolves 3 r r') :
    RunnersEvolve ev ev' := by
  intro slot r hr
  unfold runnerAt at hr ⊢
  by_cases c0 : slot = 0
  · subst c0; simpa using hb r (by simpa using hr)
  · by_cases c1 : slot = 1
    · subst c1; simpa using h1 r (by simpa using hr)
    · by_cases c2 : slot = 2
      · subst c2; simpa using h2 r (by simpa using hr)
      · by_cases c3 : slot = 3
        · subst c3; simpa using h3 r (by simpa using hr)
        · simp [c0, c1, c2, c3] at hr

/-- The function `logRunnerEvents` lets a runner evolve: the steal
classification is only raised, and a runner already out is returned as it is. -/
theorem logRunnerEvents_evolves (mem : Snapshot) (slot : Nat) (r : Runner) :
    RunnerEvolves slot r (logRunnerEvents mem r) := by
  unfold logRunnerEvents
  by_cases h0 : r.out_type ≠ 0
  · rw [if_pos h0]
    exact runnerEvolves_refl slot r
  · rw [if_neg h0]
    simp only []
    refine ⟨?_, fun h => absurd h h0⟩
    split_ifs <;> (dsimp only at *; omega)

theorem updateRunner_evolves (mem : Snapshot) (slot : Nat) (o : Option Runner) :
    ∀ r, o = some r → ∃ r', updateRunner mem o = some r' ∧ RunnerEvolves slot r r' := by
  intro r hr
  subst hr
  exact ⟨logRunnerEvents mem r, rfl, logRunnerEvents_evolves mem slot r⟩

theorem eventsEvolve_refl (R : Event → Event → Prop) (hR : ∀ e, R e e) (st : StatTracker) :
    EventsEvolve R st st :=
  fun _ ev h => ⟨ev, h, hR ev⟩

theorem eventsEvolve_trans (R : Event → Event → Prop)
    (hR : ∀ a b c, R a b → R b c → R a c) (s1 s2 s3 : StatTracker)
    (h1 : EventsEvolve R s1 s2) (h2 : EventsEvolve R s2 s3) : EventsEvolve R s1 s3 := by
  intro k ev hev
  obtain ⟨e2, he2, hr2⟩ := h1 k ev hev
  obtain ⟨e3, he3, hr3⟩ := h2 k e2 he2
  exact ⟨e3, he3, hR ev e2 e3 hr2 hr3⟩

theorem eventsEvolve_of_eq (R : Event → Event → Prop) (hR : ∀ e, R e e) (st st' : StatTracker)
    (h : st'.m_game_info.events = st.m_game_info.events) : EventsEvolve R st st' := by
  intro k ev hev
  exact ⟨ev, by rw [h]; exact hev, hR ev⟩

theorem eventsEvolve_mono (R S : Event → Event → Prop) (hRS : ∀ a b, R a b → S a b)
    (st st' : StatTracker) (h : EventsEvolve R st st') : EventsEvolve S st st' := by
  intro k ev hev
  obtain ⟨e, he, hr⟩ := h k ev hev
  exact ⟨e, he, hRS ev e hr⟩

/-- Writing an evolved event back over the current one lets the stored events
evolve; `gi` is the game record the write goes through, with the events and the
counter of `st`. -/
theorem eventsEvolve_of_set (R : Event → Event → Prop) (hR : ∀ e, R e e)
    (st st' : StatTracker) (gi : GameInfo) (ev ev' : Event)
    (he : gi.events = st.m_game_info.events)
    (hcur : gi.getCurrentEvent = some ev)
    (hinfo : st'.m_game_info.events = (gi.setCurrentEvent ev').events)
    (hr : R ev ev') : EventsEvolve R st st' := by
  intro k e hk
  rw [hinfo]
  unfold GameInfo.setCurrentEvent
  simp only []
  unfold GameInfo.getCurrentEvent at hcur
  by_cases hkn : k = gi.event_num
  · subst hkn
    rw [← he, hcur] at hk
    cases hk
    exact ⟨ev', mapFind_mapAssign _ _ _, hr⟩
  · rw [mapFind_mapAssign_ne k gi.event_num ev' hkn, he]
    exact ⟨e, hk, hR e⟩

/-- An update of the event that keeps the runner slots and, for a pitch that is
present, keeps a pitch with the same `potential_db`. -/
theorem atBatEvolves_of_keeps (ev ev' : Event)
    (hb : ev'.runner_batter = ev.runner_batter) (h1 : ev'.runner_1 = ev.runner_1)
    (h2 : ev'.runner_2 = ev.runner_2) (h3 : ev'.runner_3 = ev.runner_3)
    (hp : ∀ p, ev.pitch = some p → ∃ p', ev'.pitch = some p' ∧ p'.potential_db = p.potential_db) :
    AtBatEvolves ev ev' := by
  refine ⟨runnersEvolve_of_eq ev ev' hb h1 h2 h3, ?_⟩
  intro p hpp hd
  obtain ⟨p', hp', hd'⟩ := hp p hpp
  exact ⟨p', hp', by rw [hd', hd]⟩

theorem monitorPitch_evolves (H : Header) (mem : Snapshot) (ev : Event) (p : Pitch)
    (hp : ev.pitch = some p) : AtBatEvolves ev (monitorPitch H mem ev p) := by
  unfold monitorPitch
  refine ⟨runnersEvolve_of_slots _ _ (fun r hr => ⟨r, hr, runnerEvolves_refl 0 r⟩)
    (updateRunner_evolves mem 1 ev.runner_1) (updateRunner_evolves mem 2 ev.runner_2)
    (updateRunner_evolves mem 3 ev.runner_3), ?_⟩
  intro q hq hd
  rw [hp] at hq
  cases hq
  refine ⟨_, rfl, ?_⟩
  simp only [hd, Bool.false_eq_true, false_and, if_false]

theorem logPitch_evolves (mem : Snapshot) (gi : GameInfo) (ev ev' : Event)
    (h : logPitch mem gi ev = some ev') : AtBatEvolves ev ev' := by
  unfold logPitch at h
  simp only [Option.bind_eq_bind, Option.bind_eq_some, pure, Option.some.injEq] at h
  obtain ⟨p, hp, rfl⟩ := h
  refine atBatEvolves_of_keeps _ _ rfl rfl rfl rfl ?_
  intro q hq
  rw [hp] at hq
  cases hq
  exact ⟨_, rfl, rfl⟩

theorem logContact_evolves (H : Header) (mem : Snapshot) (ev ev' : Event)
    (h : logContact H mem ev = some ev') : AtBatEvolves ev ev' := by
  unfold logContact at h
  simp only [Option.bind_eq_bind, Option.bind_eq_some, pure, Option.some.injEq] at h
  obtain ⟨p, hp, rfl⟩ := h
  refine atBatEvolves_of_keeps _ _ rfl rfl rfl rfl ?_
  intro q hq
  rw [hp] at hq
  cases hq
  exact ⟨_, rfl, rfl⟩

theorem logStrikeout_evolves (ev ev' : Event) (h : logStrikeout ev = some ev') :
    AtBatEvolves ev ev' ∧ ev'.pitch = ev.pitch := by
  unfold logStrikeout at h
  split_ifs at h
  · simp only [Option.bind_eq_bind, Option.bind_eq_some, pure, Option.some.injEq] at h
    obtain ⟨r, hr, rfl⟩ := h
    refine ⟨⟨runnersEvolve_of_slots _ _ ?_ (fun r hr => ⟨r, hr, runnerEvolves_refl 1 r⟩)
      (fun r hr => ⟨r, hr, runnerEvolves_refl 2 r⟩)
      (fun r hr => ⟨r, hr, runnerEvolves_refl 3 r⟩), fun p hp hd => ⟨p, hp, hd⟩⟩, rfl⟩
    intro r0 hr0
    rw [hr] at hr0
    cases hr0
    exact ⟨_, rfl, Nat.le_refl _, fun _ => Or.inr ⟨rfl, rfl⟩⟩
  · cases h
    exact ⟨atBatEvolves_refl ev, rfl⟩

theorem logSecondaryResult_evolves (ev ev' : Event) (h : logSecondaryResult ev = some ev') :
    AtBatEvolves ev ev' := by
  unfold logSecondaryResult at h
  cases hp : ev.pitch with
  | none =>
    rw [hp] at h
    cases h
    exact atBatEvolves_refl ev
  | some p =>
    rw [hp] at h
    simp only [] at h
    have key : ∀ c' : Contact,
        AtBatEvolves ev { ev with pitch := some { p with contact := some c' } } := by
      intro c'
      refine atBatEvolves_of_keeps _ _ rfl rfl rfl rfl ?_
      intro q hq
      rw [hp] at hq
      cases hq
      exact ⟨_, rfl, rfl⟩
    cases hc : p.contact with
    | none =>
      rw [hc] at h
      cases h
      exact atBatEvolves_refl ev
    | some c =>
      rw [hc] at h
      simp only [] at h
      split_ifs at h
      · cases h
        exact key _
      · simp only [Option.bind_eq_bind, Option.bind_eq_some] at h
        obtain ⟨r, _, h⟩ := h
        split_ifs at h
        all_goals
          simp only [pure, Option.some.injEq] at h
          subst h
          first
            | exact key _
            | exact atBatEvolves_refl ev

theorem logFinalResults_evolves (mem : Snapshot) (ev ev' : Event) (trk trk' : Trackers)
    (h : logFinalResults mem ev trk = some (ev', trk')) : AtBatEvolves ev ev' := by
  unfold logFinalResults at h
  simp only [Option.bind_eq_bind, Option.bind_eq_some] at h
  obtain ⟨e1, h1, e2, h2, p, hp, c, _, h⟩ := h
  have h12 := atBatEvolves_trans ev e1 e2 (logStrikeout_evolves ev e1 h1).1
    (logSecondaryResult_evolves e1 e2 h2)
  have key : ∀ c' : Contact,
      AtBatEvolves e2 { e2 with pitch := some { p with contact := some c' } } := by
    intro c'
    refine atBatEvolves_of_keeps _ _ rfl rfl rfl rfl ?_
    intro q hq
    rw [hp] at hq
    cases hq
    exact ⟨_, rfl, rfl⟩
  obtain ⟨r, _, h⟩ := h
  split_ifs at h
  all_goals
    simp only [Option.bind_eq_some, pure, Option.some.injEq, Prod.mk.injEq] at h
    first
      | (obtain ⟨f, _, hev, _⟩ := h
         rw [← hev]
         exact atBatEvolves_trans _ _ _ h12 (key _))
      | (rw [← h.1]
         exact atBatEvolves_trans _ _ _ h12 (key _))

/-- Replacing the pitch of an event by one with the same `potential_db`, with
or without a new final result, lets the event evolve. -/
theorem atBatEvolves_set_pitch (ev ev' : Event) (p q : Pitch) (hp : ev.pitch = some p)
    (hpitch : ev'.pitch = some q)
    (hb : ev'.runner_batter = ev.runner_batter) (h1 : ev'.runner_1 = ev.runner_1)
    (h2 : ev'.runner_2 = ev.runner_2) (h3 : ev'.runner_3 = ev.runner_3)
    (hq : q.potential_db = p.potential_db) : AtBatEvolves ev ev' := by
  refine atBatEvolves_of_keeps ev ev' hb h1 h2 h3 ?_
  intro p0 hp0
  rw [hp] at hp0
  cases hp0
  exact ⟨q, hpitch, hq⟩

/-- An update that leaves the runner slots and the pitch alone. -/
theorem atBatEvolves_of_same (ev ev' : Event)
    (hb : ev'.runner_batter = ev.runner_batter) (h1 : ev'.runner_1 = ev.runner_1)
    (h2 : ev'.runner_2 = ev.runner_2) (h3 : ev'.runner_3 = ev.runner_3)
    (hpitch : ev'.pitch = ev.pitch) : AtBatEvolves ev ev' :=
  atBatEvolves_of_keeps ev ev' hb h1 h2 h3 (fun p hp => ⟨p, hpitch.trans hp, rfl⟩)

theorem stepPlayOver_evolves (mem : Snapshot) (st st' : StatTracker)
    (h : stepPlayOver mem st = some st') : EventsEvolve AtBatEvolves st st' := by
  unfold stepPlayOver at h
  split_ifs at h
  · simp only [Option.bind_eq_bind, Option.bind_eq_some, pure, Option.some.injEq] at h
    obtain ⟨ev, hev, rfl⟩ := h
    exact eventsEvolve_of_set _ atBatEvolves_refl st _ st.m_game_info ev _ rfl hev rfl
      (atBatEvolves_of_same _ _ rfl rfl rfl rfl rfl)
  · cases h
    exact eventsEvolve_refl _ atBatEvolves_refl st

theorem stepMonitorRunners_evolves (mem : Snapshot) (st st' : StatTracker)
    (h : stepMonitorRunners mem st = some st') : EventsEvolve AtBatEvolves st st' := by
  unfold stepMonitorRunners at h
  simp only [Option.bind_eq_bind, Option.bind_eq_some] at h
  obtain ⟨ev, hev, h⟩ := h
  split_ifs at h
  · simp only [pure, Option.some.injEq] at h
    subst h
    exact eventsEvolve_of_set _ atBatEvolves_refl st _ st.m_game_info ev _ rfl hev rfl
      (atBatEvolves_of_same _ _ rfl rfl rfl rfl rfl)
  · simp only [Option.bind_eq_some, pure, Option.some.injEq] at h
    obtain ⟨rb, hrb, rfl⟩ := h
    refine eventsEvolve_of_set _ atBatEvolves_refl st _ st.m_game_info ev _ rfl hev rfl ⟨?_, ?_⟩
    · refine runnersEvolve_of_slots _ _ ?_ (updateRunner_evolves mem 1 ev.runner_1)
        (updateRunner_evolves mem 2 ev.runner_2) (updateRunner_evolves mem 3 ev.runner_3)
      intro r hr
      rw [hrb] at hr
      cases hr
      exact ⟨_, rfl, logRunnerEvents_evolves mem 0 rb⟩
    · exact fun p hp hd => ⟨p, hp, hd⟩

theorem stepPitchResult_evolves (H : Header) (mem : Snapshot) (st st' : StatTracker)
    (h : stepPitchResult H mem st = some st') : EventsEvolve AtBatEvolves st st' := by
  unfold stepPitchResult at h
  simp only [Option.bind_eq_bind, Option.bind_eq_some] at h
  obtain ⟨ev, hev, p, hp, h⟩ := h
  have h1 := monitorPitch_evolves H mem ev p hp
  generalize monitorPitch H mem ev p = ev1 at h h1
  have hk : ∀ (e : Event) (es : EVENT_STATE), AtBatEvolves ev e →
      EventsEvolve AtBatEvolves st { st with
        m_game_info := st.m_game_info.setCurrentEvent e, m_event_state := es } :=
    fun e es hr => eventsEvolve_of_set _ atBatEvolves_refl st _ st.m_game_info ev e rfl hev rfl hr
  have hres : ∀ (e : Event) (n : Nat), AtBatEvolves e { e with result_of_atbat := n } :=
    fun e n => atBatEvolves_of_same _ _ rfl rfl rfl rfl rfl
  split_ifs at h
  all_goals
    simp only [Option.bind_eq_some, pure, Option.some.injEq] at h
    first
      | (obtain ⟨e2, he2, e3, he3, rfl⟩ := h
         exact hk _ _ (atBatEvolves_trans _ _ _ h1
           (atBatEvolves_trans _ _ _ (logPitch_evolves _ _ _ _ he2)
             (logContact_evolves _ _ _ _ he3))))
      | (obtain ⟨e2, he2, rfl⟩ := h
         first
           | exact hk _ _ (atBatEvolves_trans _ _ _ h1 (logPitch_evolves _ _ _ _ he2))
           | exact hk _ _ (atBatEvolves_trans _ _ _ h1
               (atBatEvolves_trans _ _ _ (logPitch_evolves _ _ _ _ he2) (hres _ _))))
      | (subst h
         exact hk _ _ h1)

theorem stepContactResult_evolves (H : Header) (mem : Snapshot) (st st' : StatTracker)
    (h : stepContactResult H mem st = some st') : EventsEvolve AtBatEvolves st st' := by
  unfold stepContactResult at h
  simp only [Option.bind_eq_bind, Option.bind_eq_some] at h
  obtain ⟨ev, hev, p, hp, h⟩ := h
  by_cases hc : Read_U8 mem .aAB_ContactResult ≠ 0
  · rw [if_pos hc] at h
    simp only [Option.bind_eq_some, pure, Option.some.injEq] at h
    obtain ⟨c, _, ⟨c', es, trk⟩, hres, rfl⟩ := h
    exact eventsEvolve_of_set _ atBatEvolves_refl st _ st.m_game_info ev _ rfl hev rfl
      (atBatEvolves_set_pitch ev _ p _ hp rfl rfl rfl rfl rfl rfl)
  · rw [if_neg hc] at h
    simp only [Option.bind_eq_some, pure, Option.some.injEq] at h
    obtain ⟨c, _, rfl⟩ := h
    exact eventsEvolve_of_set _ atBatEvolves_refl st _ st.m_game_info ev _ rfl hev rfl
      (atBatEvolves_set_pitch ev _ p _ hp rfl rfl rfl rfl rfl rfl)

theorem stepLogFielder_evolves (H : Header) (mem : Snapshot) (st st' : StatTracker)
    (h : stepLogFielder H mem st = some st') : EventsEvolve AtBatEvolves st st' := by
  unfold stepLogFielder at h
  simp only [Option.bind_eq_bind, Option.bind_eq_some] at h
  obtain ⟨ev, hev, p, hp, c, _, h⟩ := h
  generalize scanFielders H mem ev.manual_select_locks c st.m_event_state = sc at h
  split_ifs at h
  all_goals
    simp only [pure, Option.some.injEq] at h
    subst h
    exact eventsEvolve_of_set _ atBatEvolves_refl st _ st.m_game_info ev _ rfl hev rfl
      (atBatEvolves_set_pitch ev _ p _ hp rfl rfl rfl rfl rfl rfl)

theorem writeHUD_info (H : Header) (st st' : StatTracker) (suffix : String) (ev : Event)
    (h : writeHUD H st suffix ev = some st') :
    st' = { st with
            written := st.written ++
              [.hudFile (toString st.m_game_info.event_num ++ suffix) st.m_game_info
                 st.m_fielder_tracker ev st.m_game_info.previous_state] } := by
  unfold writeHUD at h
  split_ifs at h
  cases h
  rfl

theorem flushInning_info (H : Header) (mem : Snapshot) (st st' : StatTracker)
    (h : flushInning H mem st = some st') :
    st'.m_game_info.events = st.m_game_info.events ∧
    st'.m_game_info.previous_state = st.m_game_info.previous_state ∧
    st'.m_fielder_tracker = st.m_fielder_tracker ∧
    st'.m_game_state = st.m_game_state := by
  unfold flushInning at h
  simp only [] at h
  have he := logGameInfo_events mem { st.m_game_info with partial_game := 1 }
  have hp := logGameInfo_previous_state mem { st.m_game_info with partial_game := 1 }
  generalize logGameInfo mem { st.m_game_info with partial_game := 1 } = X at h he hp
  split_ifs at h
  simp only [Option.some.injEq] at h
  subst h
  exact ⟨he, hp, rfl, rfl⟩

theorem leaveFinalResult_info (mem : Snapshot) (st : StatTracker) :
    (leaveFinalResult mem st).m_game_info.events = st.m_game_info.events ∧
    (leaveFinalResult mem st).m_game_info.previous_state = st.m_game_info.previous_state ∧
    (leaveFinalResult mem st).m_fielder_tracker = st.m_fielder_tracker ∧
    (leaveFinalResult mem st).m_game_state = st.m_game_state := by
  unfold leaveFinalResult
  simp only []
  split_ifs <;> exact ⟨rfl, rfl, rfl, rfl⟩

/-- What a `FINAL_RESULT` step that completes has done: the current event, with
`db` raised when the pitch was a potential DB, has gone through
`logFinalResults`; the result is stored under the counter the step started
with and copied into `previous_state`. -/
theorem stepFinalResult_shape (H : Header) (mem : Snapshot) (st st' : StatTracker)
    (h : stepFinalResult H mem st = some st') :
    ∃ ev p ev1 trk1, st.m_game_info.getCurrentEvent = some ev ∧ ev.pitch = some p ∧
      logFinalResults mem
        (if p.potential_db then { ev with pitch := some { p with db := 1 } } else ev)
        st.m_fielder_tracker = some (ev1, trk1) ∧
      st'.m_game_info.events = (st.m_game_info.setCurrentEvent ev1).events ∧
      st'.m_game_info.previous_state = some ev1 ∧
      st'.m_fielder_tracker = trk1 ∧ st'.m_game_state = st.m_game_state := by
  unfold stepFinalResult at h
  simp only [Option.bind_eq_bind, Option.bind_eq_some] at h
  obtain ⟨ev, hev, p, hp, ⟨ev1, trk1⟩, hfin, s1, hw, h⟩ := h
  have hXe := logGameInfo_events mem (st.m_game_info.setCurrentEvent ev1)
  generalize logGameInfo mem (st.m_game_info.setCurrentEvent ev1) = X at hw hXe
  have hs1 := writeHUD_info H _ s1 _ _ hw
  have hk2 : ∃ s2, s2.m_game_info.events = s1.m_game_info.events ∧
      s2.m_game_info.previous_state = s1.m_game_info.previous_state ∧
      s2.m_fielder_tracker = s1.m_fielder_tracker ∧ s2.m_game_state = s1.m_game_state ∧
      st' = leaveFinalResult mem s2 := by
    split_ifs at h
    · simp only [Option.bind_eq_some, pure, Option.some.injEq] at h
      obtain ⟨s2, hfl, rfl⟩ := h
      obtain ⟨a, b, c, d⟩ := flushInning_info H mem s1 s2 hfl
      exact ⟨s2, a, b, c, d, rfl⟩
    · simp only [Option.some_bind, pure, Option.some.injEq] at h
      exact ⟨s1, rfl, rfl, rfl, rfl, h.symm⟩
  obtain ⟨s2, h2e, h2p, h2t, h2g, rfl⟩ := hk2
  obtain ⟨l1, l2, l3, l4⟩ := leaveFinalResult_info mem s2
  refine ⟨ev, p, ev1, trk1, hev, hp, hfin, ?_, ?_, ?_, ?_⟩
  · rw [l1, h2e, hs1]; exact hXe
  · rw [l2, h2p, hs1]
  · rw [l3, h2t, hs1]
  · rw [l4, h2g, hs1]

theorem stepFinalResult_evolves (H : Header) (mem : Snapshot) (st st' : StatTracker)
    (h : stepFinalResult H mem st = some st') : EventsEvolve AtBatEvolves st st' := by
  obtain ⟨ev, p, ev1, trk1, hev, hp, hfin, hevents, _, _, _⟩ := stepFinalResult_shape H mem st st' h
  refine eventsEvolve_of_set _ atBatEvolves_refl st st' st.m_game_info ev ev1 rfl hev hevents ?_
  refine atBatEvolves_trans ev _ ev1 ?_ (logFinalResults_evolves mem _ ev1 _ trk1 hfin)
  split_ifs
  · exact atBatEvolves_set_pitch ev _ p _ hp rfl rfl rfl rfl rfl rfl
  · exact atBatEvolves_refl ev

/-- What the logging block changes: the two `_prev` members, and the history of
the current event when the event state has changed. -/
theorem logStateChanges_shape (H : Header) (mem : Snapshot) (st st' : StatTracker)
    (h : logStateChanges H mem st = some st') :
    ∃ gp ep evs,
      st' = { st with
              m_game_state_prev := gp
              m_event_state_prev := ep
              m_game_info := { st.m_game_info with events := evs } } ∧
      (evs = st.m_game_info.events ∨
        ∃ ev hist, st.m_game_info.getCurrentEvent = some ev ∧
          evs = (st.m_game_info.setCurrentEvent { ev with history := hist }).events) := by
  have h1 : ∃ gp, logGameStateChange st = { st with m_game_state_prev := gp } := by
    unfold logGameStateChange
    split_ifs
    · exact ⟨_, rfl⟩
    · exact ⟨st.m_game_state_prev, rfl⟩
  obtain ⟨gp, hgp⟩ := h1
  unfold logStateChanges at h
  rw [hgp] at h
  simp only [Option.bind_eq_bind, Option.bind_eq_some] at h
  obtain ⟨s2, h2, h3⟩ := h
  have hk3 : st' = s2 := by
    unfold showCurrentEvent at h3
    split at h3
    · split at h3
      · split_ifs at h3 <;> cases h3 <;> rfl
      · cases h3; rfl
    · cases h3; rfl
  subst hk3
  unfold logEventStateIfChanged at h2
  split_ifs at h2
  · cases hcur : st.m_game_info.getCurrentEvent with
    | none =>
      have hcur' : ({ st with m_game_state_prev := gp } : StatTracker).m_game_info.getCurrentEvent
          = none := hcur
      simp only [hcur', Option.bind_eq_bind, Option.some_bind, pure, Option.some.injEq] at h2
      subst h2
      exact ⟨gp, _, st.m_game_info.events, rfl, Or.inl rfl⟩
    | some ev =>
      have hcur' : ({ st with m_game_state_prev := gp } : StatTracker).m_game_info.getCurrentEvent
          = some ev := hcur
      simp only [hcur', Option.bind_eq_bind, Option.bind_eq_some, pure, Option.some.injEq] at h2
      obtain ⟨s, hsome, rfl⟩ := h2
      rw [logEventStateChange_some H mem _ s ev hsome]
      exact ⟨gp, _, _, rfl, Or.inr ⟨ev, _, rfl, rfl⟩⟩
  · cases h2
    exact ⟨gp, st.m_event_state_prev, st.m_game_info.events, rfl, Or.inl rfl⟩

theorem logStateChanges_evolves (H : Header) (mem : Snapshot) (st st' : StatTracker)
    (h : logStateChanges H mem st = some st') : EventsEvolve AtBatEvolves st st' := by
  obtain ⟨gp, ep, evs, rfl, hevs⟩ := logStateChanges_shape H mem st st' h
  rcases hevs with rfl | ⟨ev, hist, hcur, rfl⟩
  · exact eventsEvolve_of_eq _ atBatEvolves_refl _ _ rfl
  · exact eventsEvolve_of_set _ atBatEvolves_refl st _ st.m_game_info ev _ rfl hcur rfl
      (atBatEvolves_of_same _ _ rfl rfl rfl rfl rfl)

/-- In `WAITING_FOR_EVENT` the step either quits or lets the runners of the
stored events evolve (the pitch it creates is new). -/
theorem stepWaitingForEvent_evolves (H : Header) (mem : Snapshot) (st st' : StatTracker)
    (h : stepWaitingForEvent H mem st = some st') :
    st'.m_game_state = GAME_STATE.ENDGAME_LOGGED ∨ EventsEvolve RunnersEvolve st st' := by
  unfold stepWaitingForEvent at h
  by_cases hid : Read_U32 mem .aGameId = 0
  · rw [if_pos hid] at h
    exact Or.inl (stepQuit_state H mem st st' h)
  · rw [if_neg hid] at h
    right
    by_cases hany : Read_U8 mem .aAB_PitchThrown ≠ 0 ∨ Read_U8 mem .aAB_PickoffAttempt ≠ 0
    · rw [if_pos hany] at h
      simp only [Option.bind_eq_bind, Option.bind_eq_some, logGameInfo_getCurrentEvent] at h
      obtain ⟨ev, hev, s1, hw, h⟩ := h
      have hXe := logGameInfo_events mem st.m_game_info
      have hXn := logGameInfo_event_num mem st.m_game_info
      generalize logGameInfo mem st.m_game_info = X at hw hXe hXn
      have hs1 := writeHUD_info H _ s1 _ _ hw
      subst hs1
      have hcurX : X.getCurrentEvent = some ev := by
        unfold GameInfo.getCurrentEvent at hev ⊢
        rw [hXe, hXn]; exact hev
      split_ifs at h
      all_goals
        simp only [pure, Option.some.injEq] at h
        subst h
        first
          | exact eventsEvolve_of_set _ runnersEvolve_refl st _ X ev _ hXe hcurX rfl
              (runnersEvolve_of_eq _ _ rfl rfl rfl rfl)
          | exact eventsEvolve_of_eq _ runnersEvolve_refl _ _ hXe
    · rw [if_neg hany] at h
      cases h
      exact eventsEvolve_refl _ runnersEvolve_refl st

/-- The game state machine keeps the stored events, or clears them on a reset. -/
theorem gameStep_events (H : Header) (mem : Snapshot) (s s' : StatTracker)
    (h : gameStep H mem s = some s') :
    s'.m_game_info.events = s.m_game_info.events ∨
    (s.m_game_state = GAME_STATE.ENDGAME_LOGGED ∧ s'.m_game_info.events = [] ∧
      s'.m_game_state = GAME_STATE.PREGAME) := by
  unfold gameStep at h
  cases hgs : s.m_game_state with
  | PREGAME =>
    rw [hgs] at h
    simp only [] at h
    split_ifs at h <;> cases h <;> exact Or.inl rfl
  | INGAME =>
    rw [hgs] at h
    simp only [] at h
    split_ifs at h
    · exact Or.inl (logEndOfGame_keys H mem s s' h).1
    · cases h; exact Or.inl rfl
  | ENDGAME_LOGGED =>
    rw [hgs] at h
    simp only [Option.some.injEq] at h
    subst h
    exact Or.inr ⟨rfl, rfl, rfl⟩
  | UNDEFINED =>
    rw [hgs] at h
    simp only [Option.some.injEq] at h
    subst h
    exact Or.inl rfl

/-- The at-bat machine outside `START_AB`: in `WAITING_FOR_EVENT` it quits or
lets the runners evolve; in every other state the stored events evolve. -/
theorem eventStep_evolves (H : Header) (mem : Snapshot) (s s' : StatTracker)
    (h : eventStep H mem s = some s') (hne : s.m_event_state ≠ EVENT_STATE.START_AB) :
    (s.m_event_state = EVENT_STATE.WAITING_FOR_EVENT ∧
      (s'.m_game_state = GAME_STATE.ENDGAME_LOGGED ∨ EventsEvolve RunnersEvolve s s')) ∨
    (s.m_event_state ≠ EVENT_STATE.WAITING_FOR_EVENT ∧ EventsEvolve AtBatEvolves s s') := by
  unfold eventStep at h
  cases hes : s.m_event_state with
  | START_AB => exact absurd hes hne
  | WAITING_FOR_EVENT =>
    rw [hes] at h
    exact Or.inl ⟨rfl, stepWaitingForEvent_evolves H mem s s' h⟩
  | PITCH_RESULT =>
    rw [hes] at h
    exact Or.inr ⟨by decide, stepPitchResult_evolves H mem s s' h⟩
  | CONTACT_RESULT =>
    rw [hes] at h
    exact Or.inr ⟨by decide, stepContactResult_evolves H mem s s' h⟩
  | LOG_FIELDER =>
    rw [hes] at h
    exact Or.inr ⟨by decide, stepLogFielder_evolves H mem s s' h⟩
  | MONITOR_RUNNERS =>
    rw [hes] at h
    exact Or.inr ⟨by decide, stepMonitorRunners_evolves mem s s' h⟩
  | PLAY_OVER =>
    rw [hes] at h
    exact Or.inr ⟨by decide, stepPlayOver_evolves mem s s' h⟩
  | FINAL_RESULT =>
    rw [hes] at h
    exact Or.inr ⟨by decide, stepFinalResult_evolves H mem s s' h⟩
  | GAME_OVER =>
    rw [hes] at h
    cases h
    exact Or.inr ⟨by decide, eventsEvolve_refl _ atBatEvolves_refl s⟩
  | UNDEFINED =>
    rw [hes] at h
    cases h
    exact Or.inr ⟨by decide, eventsEvolve_of_eq _ atBatEvolves_refl _ _ rfl⟩

theorem inAtBat_spec (st : StatTracker) (h : inAtBat st = true) :
    st.m_game_state = GAME_STATE.INGAME ∧ st.m_event_state ≠ EVENT_STATE.START_AB := by
  unfold inAtBat at h
  simp only [Bool.and_eq_true, Bool.or_eq_true, decide_eq_true_eq] at h
  refine ⟨h.1, fun hs => ?_⟩
  rw [hs] at h
  simp at h

theorem inAtBat_pregame (st : StatTracker) (h : st.m_game_state = GAME_STATE.PREGAME) :
    inAtBat st = false := by
  unfold inAtBat
  simp [h]

/-- A completed tick in game is the logging block, then the at-bat machine,
then the game machine. -/
theorem tick_ingame_split (H : Header) (mem : Snapshot) (st st' : StatTracker)
    (hg : st.m_game_state = GAME_STATE.INGAME)
    (h : lookForTriggerEvents H mem st = some st') :
    ∃ s1 s2, logStateChanges H mem st = some s1 ∧ eventStep H mem s1 = some s2 ∧
      gameStep H mem s2 = some st' := by
  unfold lookForTriggerEvents at h
  cases h1 : logStateChanges H mem st with
  | none => rw [h1] at h; cases h
  | some s1 =>
    rw [h1] at h
    simp only [Option.bind_eq_bind, Option.some_bind] at h
    obtain ⟨gp, ep, evs, hs1, _⟩ := logStateChanges_shape H mem st s1 h1
    have hg1 : s1.m_game_state = GAME_STATE.INGAME := by rw [hs1]; exact hg
    rw [if_pos hg1] at h
    cases h2 : eventStep H mem s1 with
    | none => rw [h2] at h; cases h
    | some s2 =>
      rw [h2] at h
      simp only [Option.some_bind] at h
      exact ⟨s1, s2, rfl, h2, h⟩

/-- A tick that starts inside an at-bat lets the runners of every stored event
evolve, unless it quits, in which case the tick ends with the reset. -/
theorem tick_runners_evolve (H : Header) (mem : Snapshot) (st st' : StatTracker)
    (hin : inAtBat st = true) (h : lookForTriggerEvents H mem st = some st') :
    EventsEvolve RunnersEvolve st st' ∨
    (st'.m_game_info.events = [] ∧ inAtBat st' = false) := by
  obtain ⟨hg, hne⟩ := inAtBat_spec st hin
  obtain ⟨s1, s2, h1, h2, h3⟩ := tick_ingame_split H mem st st' hg h
  have he1 := logStateChanges_evolves H mem st s1 h1
  obtain ⟨gp, ep, evs, hs1, _⟩ := logStateChanges_shape H mem st s1 h1
  have hne1 : s1.m_event_state ≠ EVENT_STATE.START_AB := by rw [hs1]; exact hne
  have toR : EventsEvolve AtBatEvolves s1 s2 → EventsEvolve RunnersEvolve st s2 := fun hev =>
    eventsEvolve_trans _ runnersEvolve_trans st s1 s2
      (eventsEvolve_mono _ _ (fun _ _ hab => hab.1) _ _ he1)
      (eventsEvolve_mono _ _ (fun _ _ hab => hab.1) _ _ hev)
  have fromR : EventsEvolve RunnersEvolve s1 s2 → EventsEvolve RunnersEvolve st s2 := fun hev =>
    eventsEvolve_trans _ runnersEvolve_trans st s1 s2
      (eventsEvolve_mono _ _ (fun _ _ hab => hab.1) _ _ he1) hev
  rcases gameStep_events H mem s2 st' h3 with hsame | ⟨_, hnil, hpre⟩
  · have hfin : EventsEvolve RunnersEvolve s2 st' :=
      eventsEvolve_of_eq _ runnersEvolve_refl _ _ hsame
    rcases eventStep_evolves H mem s1 s2 h2 hne1 with ⟨_, hq | hev⟩ | ⟨_, hev⟩
    · -- the quit leaves ENDGAME_LOGGED, which the game machine resets
      unfold gameStep at h3
      rw [hq] at h3
      simp only [Option.some.injEq] at h3
      subst h3
      exact Or.inr ⟨rfl, inAtBat_pregame _ rfl⟩
    · exact Or.inl (eventsEvolve_trans _ runnersEvolve_trans _ _ _ (fromR hev) hfin)
    · exact Or.inl (eventsEvolve_trans _ runnersEvolve_trans _ _ _ (toR hev) hfin)
  · exact Or.inr ⟨hnil, inAtBat_pregame _ hpre⟩

theorem pastWaiting_spec (st : StatTracker) (h : pastWaiting st = true) :
    inAtBat st = true ∧ st.m_event_state ≠ EVENT_STATE.WAITING_FOR_EVENT := by
  unfold pastWaiting at h
  simp only [Bool.and_eq_true, Bool.not_eq_true', decide_eq_false_iff_not] at h
  exact h

/-- A tick that starts inside an at-bat past `WAITING_FOR_EVENT` lets every
stored event evolve, runners and pitch. -/
theorem tick_atbat_evolves (H : Header) (mem : Snapshot) (st st' : StatTracker)
    (hin : pastWaiting st = true) (h : lookForTriggerEvents H mem st = some st') :
    EventsEvolve AtBatEvolves st st' ∨
    (st'.m_game_info.events = [] ∧ pastWaiting st' = false) := by
  obtain ⟨hin', hnw⟩ := pastWaiting_spec st hin
  obtain ⟨hg, hne⟩ := inAtBat_spec st hin'
  obtain ⟨s1, s2, h1, h2, h3⟩ := tick_ingame_split H mem st st' hg h
  have he1 := logStateChanges_evolves H mem st s1 h1
  obtain ⟨gp, ep, evs, hs1, _⟩ := logStateChanges_shape H mem st s1 h1
  have hne1 : s1.m_event_state ≠ EVENT_STATE.START_AB := by rw [hs1]; exact hne
  have hnw1 : s1.m_event_state ≠ EVENT_STATE.WAITING_FOR_EVENT := by rw [hs1]; exact hnw
  rcases gameStep_events H mem s2 st' h3 with hsame | ⟨_, hnil, hpre⟩
  · rcases eventStep_evolves H mem s1 s2 h2 hne1 with ⟨hw, _⟩ | ⟨_, hev⟩
    · exact absurd hw hnw1
    · exact Or.inl (eventsEvolve_trans _ atBatEvolves_trans _ _ _
        (eventsEvolve_trans _ atBatEvolves_trans _ _ _ he1 hev)
        (eventsEvolve_of_eq _ atBatEvolves_refl _ _ hsame))
  · refine Or.inr ⟨hnil, ?_⟩
    unfold pastWaiting
    rw [inAtBat_pregame _ hpre]
    rfl

/-- Over a run of ticks that each start where `p` holds: if every such tick
lets the stored events evolve or ends with the events cleared outside `p`, so
does the whole run. -/
theorem runWhile_evolves (H : Header) (p : StatTracker → Bool) (R : Event → Event → Prop)
    (hrefl : ∀ e, R e e) (htrans : ∀ a b c, R a b → R b c → R a c)
    (htick : ∀ mem st st', p st = true → lookForTriggerEvents H mem st = some st' →
      EventsEvolve R st st' ∨ (st'.m_game_info.events = [] ∧ p st' = false))
    (mems : List Snapshot) :
    ∀ st st', runWhile H p st mems = some st' →
      EventsEvolve R st st' ∨ st'.m_game_info.events = [] := by
  induction mems with
  | nil =>
    intro st st' h
    unfold runWhile at h
    cases h
    exact Or.inl (eventsEvolve_refl R hrefl st)
  | cons mem rest ih =>
    intro st st' h
    unfold runWhile at h
    by_cases hp : p st = true
    · rw [if_pos hp] at h
      simp only [Option.bind_eq_some] at h
      obtain ⟨s1, h1, h2⟩ := h
      rcases htick mem st s1 hp h1 with hev | ⟨hnil, hp1⟩
      · rcases ih s1 st' h2 with hev2 | hnil2
        · exact Or.inl (eventsEvolve_trans R htrans st s1 st' hev hev2)
        · exact Or.inr hnil2
      · cases rest with
        | nil =>
          unfold runWhile at h2
          cases h2
          exact Or.inr hnil
        | cons m2 r2 =>
          unfold runWhile at h2
          rw [hp1] at h2
          simp at h2
    · rw [if_neg hp] at h
      cases h

/-- The weak reading of `EventsEvolve` that both outcomes of a run give. -/
theorem related_of_evolves_or_cleared (R : Event → Event → Prop) (st st' : StatTracker)
    (h : EventsEvolve R st st' ∨ st'.m_game_info.events = []) :
    ∀ k ev ev', mapFind k st.m_game_info.events = some ev →
      mapFind k st'.m_game_info.events = some ev' → R ev ev' := by
  intro k ev ev' hev hev'
  rcases h with h | h
  · obtain ⟨e, he, hr⟩ := h k ev hev
    rw [hev'] at he
    cases he
    exact hr
  · rw [h] at hev'
    simp [mapFind] at hev'

/-! ## Runners and the pitch over the ticks of an at-bat -/

theorem logSecondaryResult_runners (ev ev' : Event) (h : logSecondaryResult ev = some ev') :
    ev'.runner_batter = ev.runner_batter ∧ ev'.runner_1 = ev.runner_1 ∧
    ev'.runner_2 = ev.runner_2 ∧ ev'.runner_3 = ev.runner_3 := by
  unfold logSecondaryResult at h
  cases hp : ev.pitch with
  | none => rw [hp] at h; cases h; exact ⟨rfl, rfl, rfl, rfl⟩
  | some p =>
    rw [hp] at h
    simp only [] at h
    cases hc : p.contact with
    | none => rw [hc] at h; cases h; exact ⟨rfl, rfl, rfl, rfl⟩
    | some c =>
      rw [hc] at h
      simp only [] at h
      split_ifs at h
      · cases h; exact ⟨rfl, rfl, rfl, rfl⟩
      · simp only [Option.bind_eq_bind, Option.bind_eq_some] at h
        obtain ⟨r, _, h⟩ := h
        split_ifs at h
        all_goals
          simp only [pure, Option.some.injEq] at h
          subst h
          exact ⟨rfl, rfl, rfl, rfl⟩

/-- What `logFinalResults` does to the runners: the three runners on base are
untouched, and the batter-runner's out type is rewritten to `0x10` exactly when
the final result is 1. -/
theorem logFinalResults_runners (mem : Snapshot) (ev ev' : Event) (trk trk' : Trackers)
    (h : logFinalResults mem ev trk = some (ev', trk')) :
    ev'.runner_1 = ev.runner_1 ∧ ev'.runner_2 = ev.runner_2 ∧ ev'.runner_3 = ev.runner_3 ∧
    ∀ rb, ev.runner_batter = some rb →
      ∃ rb', ev'.runner_batter = some rb' ∧ rb'.steal = rb.steal ∧
        rb'.out_type = (if ev.result_of_atbat = 1 then 0x10 else rb.out_type) := by
  unfold logFinalResults at h
  simp only [Option.bind_eq_bind, Option.bind_eq_some] at h
  obtain ⟨e1, h1, e2, h2, p, hp, c, _, h⟩ := h
  obtain ⟨s0, s1, s2, s3⟩ := logSecondaryResult_runners e1 e2 h2
  have hfin : ev'.runner_batter = e2.runner_batter ∧ ev'.runner_1 = e2.runner_1 ∧
      ev'.runner_2 = e2.runner_2 ∧ ev'.runner_3 = e2.runner_3 := by
    obtain ⟨r, _, h⟩ := h
    split_ifs at h
    all_goals
      simp only [Option.bind_eq_some, pure, Option.some.injEq, Prod.mk.injEq] at h
      first
        | (obtain ⟨f, _, hev, _⟩ := h
           rw [← hev]
           exact ⟨rfl, rfl, rfl, rfl⟩)
        | (rw [← h.1]
           exact ⟨rfl, rfl, rfl, rfl⟩)
  obtain ⟨f0, f1, f2, f3⟩ := hfin
  unfold logStrikeout at h1
  by_cases hres : ev.result_of_atbat = 1
  · rw [if_pos hres] at h1
    simp only [Option.bind_eq_bind, Option.bind_eq_some, pure, Option.some.injEq] at h1
    obtain ⟨r, hr, rfl⟩ := h1
    refine ⟨f1.trans s1, f2.trans s2, f3.trans s3, ?_⟩
    intro rb hrb
    rw [hr] at hrb
    cases hrb
    exact ⟨_, f0.trans s0, rfl, by rw [if_pos hres]⟩
  · rw [if_neg hres] at h1
    cases h1
    refine ⟨f1.trans s1, f2.trans s2, f3.trans s3, ?_⟩
    intro rb hrb
    exact ⟨rb, (f0.trans s0).trans hrb, rfl, by rw [if_neg hres]⟩

/-- Over a run of ticks inside one at-bat the runners of every stored event
evolve. -/
theorem runWhile_runners_evolve (H : Header) (mems : List Snapshot) (st st' : StatTracker)
    (h : runWhile H inAtBat st mems = some st') :
    ∀ k ev ev', mapFind k st.m_game_info.events = some ev →
      mapFind k st'.m_game_info.events = some ev' → RunnersEvolve ev ev' :=
  related_of_evolves_or_cleared RunnersEvolve st st'
    (runWhile_evolves H inAtBat RunnersEvolve runnersEvolve_refl runnersEvolve_trans
      (tick_runners_evolve H) mems st st' h)

/-- C12: `logRunnerEvents` never lowers the runner's stored steal
classification, for every runner and snapshot; hence over any run of ticks
inside one at-bat (each tick starting in game, in a state between
`WAITING_FOR_EVENT` and `FINAL_RESULT`), every runner of an event that is still
stored is still there with a steal value at least what it was. -/
theorem steal_never_lowered (H : Header) :
    (∀ (mem : Snapshot) (r : Runner), r.steal ≤ (logRunnerEvents mem r).steal) ∧
    ∀ (mems : List Snapshot) (st st' : StatTracker),
      runWhile H inAtBat st mems = some st' →
      ∀ k ev ev' slot r, mapFind k st.m_game_info.events = some ev →
        mapFind k st'.m_game_info.events = some ev' → runnerAt ev slot = some r →
        ∃ r', runnerAt ev' slot = some r' ∧ r.steal ≤ r'.steal := by
  refine ⟨fun mem r => (logRunnerEvents_evolves mem 0 r).1, ?_⟩
  intro mems st st' h k ev ev' slot r hev hev' hr
  obtain ⟨r', hr', hle, _⟩ := runWhile_runners_evolve H mems st st' h k ev ev' hev hev' slot r hr
  exact ⟨r', hr', hle⟩

/-- Witness for C12: a runner on first steals (code 2) on one tick of
`MONITOR_RUNNERS` and the steal byte reads 0 on the next; the stored steal value
goes from 0 to 2 and stays. -/
theorem steal_never_lowered_witness :
    ((runWhile sampleHeader inAtBat (trackerAt EVENT_STATE.MONITOR_RUNNERS stealEvent)
        [stealSnapshot, pitchThrownSnapshot]).map fun s =>
      (mapFind 0 s.m_game_info.events).bind fun e => (runnerAt e 1).map fun r => r.steal) =
      some (some 2) ∧
    ∀ st', runWhile sampleHeader inAtBat (trackerAt EVENT_STATE.MONITOR_RUNNERS stealEvent)
        [stealSnapshot, pitchThrownSnapshot] = some st' →
      ∀ ev', mapFind 0 st'.m_game_info.events = some ev' →
        ∃ r', runnerAt ev' 1 = some r' ∧
          ({ zeroRunner with initial_base := 1 } : Runner).steal ≤ r'.steal :=
  ⟨by decide, fun st' h ev' hev' =>
    (steal_never_lowered sampleHeader).2 [stealSnapshot, pitchThrownSnapshot]
      (trackerAt EVENT_STATE.MONITOR_RUNNERS stealEvent) st' h 0 stealEvent ev' 1
      { zeroRunner with initial_base := 1 } rfl hev' rfl⟩

/-- C13, as amended: `logRunnerEvents` returns a runner whose out type is
nonzero as it is, and `logFinalResults` leaves the runners on base alone and
rewrites the batter-runner's out type to `0x10` exactly when the final result
is 1; hence over any run of ticks inside one at-bat, a runner whose out type is
nonzero keeps that out type, except that the batter-runner's may have become
`0x10`. -/
theorem out_type_kept_except_strikeout (H : Header) :
    (∀ (mem : Snapshot) (r : Runner), r.out_type ≠ 0 → logRunnerEvents mem r = r) ∧
    (∀ (mem : Snapshot) (ev ev' : Event) (trk trk' : Trackers),
      logFinalResults mem ev trk = some (ev', trk') →
      ev'.runner_1 = ev.runner_1 ∧ ev'.runner_2 = ev.runner_2 ∧ ev'.runner_3 = ev.runner_3 ∧
      ∀ rb, ev.runner_batter = some rb →
        ∃ rb', ev'.runner_batter = some rb' ∧
          rb'.out_type = (if ev.result_of_atbat = 1 then 0x10 else rb.out_type)) ∧
    ∀ (mems : List Snapshot) (st st' : StatTracker),
      runWhile H inAtBat st mems = some st' →
      ∀ k ev ev' slot r, mapFind k st.m_game_info.events = some ev →
        mapFind k st'.m_game_info.events = some ev' → runnerAt ev slot = some r →
        r.out_type ≠ 0 →
        ∃ r', runnerAt ev' slot = some r' ∧
          (r'.out_type = r.out_type ∨ (slot = 0 ∧ r'.out_type = 0x10)) := by
  refine ⟨?_, ?_, ?_⟩
  · intro mem r h0
    unfold logRunnerEvents
    rw [if_pos h0]
  · intro mem ev ev' trk trk' h
    obtain ⟨h1, h2, h3, hb⟩ := logFinalResults_runners mem ev ev' trk trk' h
    refine ⟨h1, h2, h3, fun rb hrb => ?_⟩
    obtain ⟨rb', hrb', _, hout⟩ := hb rb hrb
    exact ⟨rb', hrb', hout⟩
  · intro mems st st' h k ev ev' slot r hev hev' hr h0
    obtain ⟨r', hr', _, hout⟩ :=
      runWhile_runners_evolve H mems st st' h k ev ev' hev hev' slot r hr
    exact ⟨r', hr', hout h0⟩

/-- Witness for C13 as amended: the batter-runner read as forced out, then the
play ending with final result 0: four ticks inside the at-bat, the last of them
the finalization, after which the stored out type is still 2. -/
theorem out_type_kept_except_strikeout_witness :
    ((runWhile sampleHeader inAtBat
        (pairedTrackerAt EVENT_STATE.MONITOR_RUNNERS forcedOutEvent) outThenPlayDead).map
      fun s => (batterOutType s, s.m_event_state)) =
      some (some 2, EVENT_STATE.FINAL_RESULT) ∧
    ∀ st', runWhile sampleHeader inAtBat
        (pairedTrackerAt EVENT_STATE.MONITOR_RUNNERS forcedOutEvent) outThenPlayDead =
        some st' →
      ∀ ev', mapFind 0 st'.m_game_info.events = some ev' →
        ∃ r', runnerAt ev' 0 = some r' ∧
          (r'.out_type = forcedOutRunner.out_type ∨ ((0 : Nat) = 0 ∧ r'.out_type = 0x10)) :=
  ⟨by decide, fun st' h ev' hev' =>
    (out_type_kept_except_strikeout sampleHeader).2.2 outThenPlayDead
      (pairedTrackerAt EVENT_STATE.MONITOR_RUNNERS forcedOutEvent) st' h 0 forcedOutEvent ev' 0
      forcedOutRunner rfl hev' rfl (by decide)⟩

/-- C13, counterexample: the finalization itself.  For an event whose
batter-runner has out type 2 and whose stored final result is 1,
`logFinalResults` returns the batter-runner with out type `0x10`; and the tick
of the at-bat machine in `FINAL_RESULT` with that event as the current one, a
tick inside the at-bat, changes the stored out type from 2 to `0x10`. -/
theorem finalization_rewrites_out_type :
    (struckOutEvent.runner_batter.map fun r => r.out_type) = some 2 ∧
    ((logFinalResults playDeadSnapshot struckOutEvent freshTrackers).map fun p =>
      p.1.runner_batter.map fun r => r.out_type) = some (some 0x10) ∧
    inAtBat (pairedTrackerAt EVENT_STATE.FINAL_RESULT struckOutEvent) = true ∧
    batterOutType (pairedTrackerAt EVENT_STATE.FINAL_RESULT struckOutEvent) = some 2 ∧
    ((lookForTriggerEvents sampleHeader playDeadSnapshot
      (pairedTrackerAt EVENT_STATE.FINAL_RESULT struckOutEvent)).bind batterOutType) =
      some 0x10 := by
  exact ⟨by decide, by decide, by decide, by decide, by decide⟩

/-- The creation of the Pitch in `WAITING_FOR_EVENT`: when the step completes
on a thrown pitch, the current event carries a fresh Pitch whose `potential_db`
is true exactly when the pitcher's X-position byte read 0. -/
theorem stepWaitingForEvent_creates_pitch (H : Header) (mem : Snapshot) (st st' : StatTracker)
    (hid : Read_U32 mem .aGameId ≠ 0) (hpt : Read_U8 mem .aAB_PitchThrown ≠ 0)
    (h : stepWaitingForEvent H mem st = some st') :
    ∃ ev' p', st'.m_game_info.getCurrentEvent = some ev' ∧ ev'.pitch = some p' ∧
      st'.m_event_state = EVENT_STATE.PITCH_RESULT ∧
      (p'.potential_db = true ↔ Read_U8 mem (.aFielder_Pos_X 0) = 0) := by
  unfold stepWaitingForEvent at h
  rw [if_neg hid, if_pos (Or.inl hpt)] at h
  simp only [Option.bind_eq_bind, Option.bind_eq_some, logGameInfo_getCurrentEvent] at h
  obtain ⟨ev, hev, s1, hw, h⟩ := h
  generalize logGameInfo mem st.m_game_info = X at hw
  have hs1 := writeHUD_info H _ s1 _ _ hw
  subst hs1
  rw [if_pos hpt] at h
  simp only [pure, Option.some.injEq] at h
  subst h
  refine ⟨_, _, getCurrentEvent_setCurrentEvent _ _, rfl, rfl, ?_⟩
  by_cases hx : Read_U8 mem (.aFielder_Pos_X 0) = 0
  · simp only [hx, if_true]
  · simp only [hx, if_false, iff_false]
    unfold newPitch
    simp

/-- Over a run of ticks inside one at-bat past `WAITING_FOR_EVENT`, every stored
event evolves, runners and pitch. -/
theorem runWhile_atbat_evolves (H : Header) (mems : List Snapshot) (st st' : StatTracker)
    (h : runWhile H pastWaiting st mems = some st') :
    ∀ k ev ev', mapFind k st.m_game_info.events = some ev →
      mapFind k st'.m_game_info.events = some ev' → AtBatEvolves ev ev' :=
  related_of_evolves_or_cleared AtBatEvolves st st'
    (runWhile_evolves H pastWaiting AtBatEvolves atBatEvolves_refl atBatEvolves_trans
      (tick_atbat_evolves H) mems st st' h)

/-- C14: the Pitch that `WAITING_FOR_EVENT` creates has `potential_db` true
exactly when the pitcher's X-position byte read 0 on that tick; in
`PITCH_RESULT` a potential DB is cleared by a nonzero curve input while the
pitcher has control; and over any run of later ticks of the at-bat (each
starting in game, in a state between `PITCH_RESULT` and `FINAL_RESULT`) a
`potential_db` that is false is false afterwards.  So it can be true at a tick
only if the byte read 0 at creation, and once cleared it stays cleared. -/
theorem potential_db_only_cleared (H : Header) :
    (∀ (mem : Snapshot) (st st' : StatTracker),
      Read_U32 mem .aGameId ≠ 0 → Read_U8 mem .aAB_PitchThrown ≠ 0 →
      stepWaitingForEvent H mem st = some st' →
      ∃ ev' p', st'.m_game_info.getCurrentEvent = some ev' ∧ ev'.pitch = some p' ∧
        st'.m_event_state = EVENT_STATE.PITCH_RESULT ∧
        (p'.potential_db = true ↔ Read_U8 mem (.aFielder_Pos_X 0) = 0)) ∧
    (∀ (mem : Snapshot) (ev : Event) (p : Pitch),
      p.potential_db = true → Read_U8 mem .aAB_PitcherHasCtrlofPitch = 1 →
      H.floatIsNonzero (Read_U32 mem .aAB_PitchCurveInput) = true →
      (monitorPitch H mem ev p).pitch = some { p with potential_db := false }) ∧
    ∀ (mems : List Snapshot) (st st' : StatTracker),
      runWhile H pastWaiting st mems = some st' →
      ∀ k ev ev' p, mapFind k st.m_game_info.events = some ev →
        mapFind k st'.m_game_info.events = some ev' →
        ev.pitch = some p → p.potential_db = false →
        ∃ p', ev'.pitch = some p' ∧ p'.potential_db = false := by
  refine ⟨fun mem st st' => stepWaitingForEvent_creates_pitch H mem st st', ?_, ?_⟩
  · intro mem ev p hd hc hf
    unfold monitorPitch
    simp only [hd, hc, hf, and_self, if_true]
  · intro mems st st' h k ev ev' p hev hev' hp hd
    exact (runWhile_atbat_evolves H mems st st' h k ev ev' hev hev').2 p hp hd

/-- Witness for C14: the sample tracker waiting for a pitch, on the tick a pitch
is thrown from the centre of the mound (X byte 0): the Pitch is created as a
potential DB; and a pitch that is not a potential DB, over two ticks of
`PITCH_RESULT`, stays one. -/
theorem potential_db_only_cleared_witness :
    (∃ ev' p',
      (stepWaitingForEvent sampleHeader pitchThrownSnapshot
        (trackerAt EVENT_STATE.WAITING_FOR_EVENT pickoffEvent)).bind
          (fun s => s.m_game_info.getCurrentEvent) = some ev' ∧
      ev'.pitch = some p' ∧ p'.potential_db = true) ∧
    ((runWhile sampleHeader pastWaiting (trackerAt EVENT_STATE.PITCH_RESULT missedPitchEvent)
        [pitchThrownSnapshot, pitchThrownSnapshot]).map fun s =>
      (mapFind 0 s.m_game_info.events).bind fun e => e.pitch.map fun p => p.potential_db) =
      some (some false) ∧
    ∀ st', runWhile sampleHeader pastWaiting
        (trackerAt EVENT_STATE.PITCH_RESULT missedPitchEvent)
        [pitchThrownSnapshot, pitchThrownSnapshot] = some st' →
      ∀ ev', mapFind 0 st'.m_game_info.events = some ev' →
        ∃ p', ev'.pitch = some p' ∧ p'.potential_db = false := by
  have hsome : (stepWaitingForEvent sampleHeader pitchThrownSnapshot
      (trackerAt EVENT_STATE.WAITING_FOR_EVENT pickoffEvent)).isSome = true := by decide
  obtain ⟨s, hs⟩ := Option.isSome_iff_exists.mp hsome
  obtain ⟨ev', p', h1, h2, _, h3⟩ :=
    (potential_db_only_cleared sampleHeader).1 pitchThrownSnapshot
      (trackerAt EVENT_STATE.WAITING_FOR_EVENT pickoffEvent) s (by decide) (by decide) hs
  refine ⟨⟨ev', p', by rw [hs]; exact h1, h2, h3.mpr (by decide)⟩, by decide, ?_⟩
  intro st' h ev' hev'
  exact (potential_db_only_cleared sampleHeader).2.2 [pitchThrownSnapshot, pitchThrownSnapshot]
    (trackerAt EVENT_STATE.PITCH_RESULT missedPitchEvent) st' h 0 missedPitchEvent ev' zeroPitch
    rfl hev' rfl rfl

/-! ## The previous-event snapshot -/

theorem readPlayerNames_previous_state (H : Header) (gi : GameInfo) (local_game : Bool) :
    (readPlayerNames H gi local_game).previous_state = gi.previous_state := by
  cases local_game <;> rfl

theorem initPlayerInfo_previous_state (H : Header) (mem : Snapshot) (gi : GameInfo) :
    (initPlayerInfo H mem gi).previous_state = gi.previous_state := by
  unfold initPlayerInfo
  simp only []
  split_ifs <;>
    first
      | rfl
      | exact readPlayerNames_previous_state H _ _

theorem createEvent_previous_state (H : Header) (mem : Snapshot) (gi : GameInfo) :
    (createEvent H mem gi).previous_state = gi.previous_state := by
  unfold createEvent
  simp only [GameInfo.setCurrentEvent, logGameInfo_previous_state]

theorem hudPrevs_append (xs ys : List Output) : hudPrevs (xs ++ ys) = hudPrevs xs ++ hudPrevs ys := by
  unfold hudPrevs
  rw [List.filterMap_append]

/-- The `START_AB` step writes nothing and keeps the previous-event snapshot. -/
theorem stepStartAB_previous (H : Header) (mem : Snapshot) (st st' : StatTracker)
    (h : stepStartAB H mem st = some st') :
    st'.written = st.written ∧ st'.m_game_state = st.m_game_state ∧
    st'.m_game_info.previous_state = st.m_game_info.previous_state := by
  unfold stepStartAB at h
  split_ifs at h
  · simp only [Option.some.injEq] at h
    subst h
    refine ⟨rfl, rfl, ?_⟩
    simp only [createEvent_previous_state]
    split_ifs
    · exact initPlayerInfo_previous_state H mem _
    · rfl
  · cases h
    exact ⟨rfl, rfl, rfl⟩

/-- The `WAITING_FOR_EVENT` step: a quit leaves ENDGAME_LOGGED and writes no HUD
document; otherwise the previous-event snapshot is kept, and the HUD document
written when a pitch or a pickoff is seen is rendered from it. -/
theorem stepWaitingForEvent_previous (H : Header) (mem : Snapshot) (st st' : StatTracker)
    (h : stepWaitingForEvent H mem st = some st') :
    ∃ new, st'.written = st.written ++ new ∧
      (∀ q ∈ hudPrevs new, q = st.m_game_info.previous_state) ∧
      (st'.m_game_state = GAME_STATE.ENDGAME_LOGGED ∨
        (st'.m_game_state = st.m_game_state ∧
          st'.m_game_info.previous_state = st.m_game_info.previous_state ∧
          ((Read_U8 mem .aAB_PitchThrown ≠ 0 ∨ Read_U8 mem .aAB_PickoffAttempt ≠ 0) →
            hudPrevs new = [st.m_game_info.previous_state]))) := by
  unfold stepWaitingForEvent at h
  by_cases hid : Read_U32 mem .aGameId = 0
  · rw [if_pos hid] at h
    have hq := stepQuit_state H mem st st' h
    unfold stepQuit at h
    simp only [Option.bind_eq_bind, Option.bind_eq_some, pure, Option.some.injEq] at h
    obtain ⟨s, hs, _, _, rfl⟩ := h
    unfold onGameQuit at hs
    simp only [] at hs
    generalize quitRecord mem st.m_game_info = X at hs
    split_ifs at hs
    simp only [Option.some.injEq] at hs
    subst hs
    refine ⟨_, rfl, ?_, Or.inl rfl⟩
    intro q hq
    unfold quitOutputs hudPrevs at hq
    split_ifs at hq <;> simp at hq
  · rw [if_neg hid] at h
    by_cases hany : Read_U8 mem .aAB_PitchThrown ≠ 0 ∨ Read_U8 mem .aAB_PickoffAttempt ≠ 0
    · rw [if_pos hany] at h
      simp only [Option.bind_eq_bind, Option.bind_eq_some, logGameInfo_getCurrentEvent] at h
      obtain ⟨ev, hev, s1, hw, h⟩ := h
      have hXp := logGameInfo_previous_state mem st.m_game_info
      generalize logGameInfo mem st.m_game_info = X at hw hXp
      have hs1 := writeHUD_info H _ s1 _ _ hw
      subst hs1
      have hnew : hudPrevs
          [Output.hudFile (toString X.event_num ++ "a") X st.m_fielder_tracker ev
            X.previous_state] = [st.m_game_info.previous_state] := by
        unfold hudPrevs
        simp [hXp]
      split_ifs at h
      all_goals
        simp only [pure, Option.some.injEq] at h
        subst h
        refine ⟨_, rfl, ?_, Or.inr ⟨rfl, hXp, fun _ => hnew⟩⟩
        intro q hq
        rw [hnew] at hq
        simpa using hq
    · rw [if_neg hany] at h
      cases h
      refine ⟨[], (List.append_nil _).symm, ?_, Or.inr ⟨rfl, rfl, fun hx => absurd hx hany⟩⟩
      intro q hq
      simp [hudPrevs] at hq

/-- The game state machine writes no HUD document; in game it keeps the game
state, the stored events and the previous-event snapshot, and from
ENDGAME_LOGGED it resets to PREGAME. -/
theorem gameStep_previous (H : Header) (mem : Snapshot) (s s' : StatTracker)
    (h : gameStep H mem s = some s') :
    ∃ new, s'.written = s.written ++ new ∧ hudPrevs new = [] ∧
      (s.m_game_state = GAME_STATE.INGAME →
        s'.m_game_state = GAME_STATE.INGAME ∧
        s'.m_game_info.previous_state = s.m_game_info.previous_state ∧
        s'.m_game_info.events = s.m_game_info.events) ∧
      (s.m_game_state = GAME_STATE.ENDGAME_LOGGED → s'.m_game_state = GAME_STATE.PREGAME) := by
  unfold gameStep at h
  cases hgs : s.m_game_state with
  | PREGAME =>
    rw [hgs] at h
    simp only [] at h
    split_ifs at h <;> cases h <;>
      exact ⟨[], (List.append_nil _).symm, rfl, fun hx => absurd hx (by decide), fun hx => absurd hx (by decide)⟩
  | INGAME =>
    rw [hgs] at h
    simp only [] at h
    split_ifs at h
    · unfold logEndOfGame at h
      have hp := logGameInfo_previous_state mem s.m_game_info
      have he := logGameInfo_events mem s.m_game_info
      generalize logGameInfo mem s.m_game_info = X at h hp he
      simp only [] at h
      split_ifs at h
      all_goals
        simp only [Option.some.injEq] at h
        subst h
        first
          | (refine ⟨[Output.statFile "decoded." true X s.m_fielder_tracker] ++
                ([Output.post X s.m_fielder_tracker] ++
                  [Output.deleteFile "partial.", Output.deleteFile "partial.decoded."]),
              ?_, ?_, fun _ => ⟨hgs, hp, he⟩, fun hx => absurd hx (by decide)⟩
             · simp only [List.append_assoc]
             · simp [hudPrevs])
          | (refine ⟨[Output.statFile "decoded." true X s.m_fielder_tracker] ++
                ([] ++ [Output.deleteFile "partial.", Output.deleteFile "partial.decoded."]),
              ?_, ?_, fun _ => ⟨hgs, hp, he⟩, fun hx => absurd hx (by decide)⟩
             · simp only [List.append_assoc]
             · simp [hudPrevs])
    · cases h
      exact ⟨[], (List.append_nil _).symm, rfl, fun _ => ⟨hgs, rfl, rfl⟩, fun hx => absurd hx (by decide)⟩
  | ENDGAME_LOGGED =>
    rw [hgs] at h
    simp only [Option.some.injEq] at h
    subst h
    exact ⟨[], (List.append_nil _).symm, rfl, fun hx => absurd hx (by decide), fun _ => rfl⟩
  | UNDEFINED =>
    rw [hgs] at h
    simp only [Option.some.injEq] at h
    subst h
    exact ⟨[], (List.append_nil _).symm, rfl, fun hx => absurd hx (by decide), fun hx => absurd hx (by decide)⟩


/-- State-change logging writes nothing and keeps both machines, the event
counter and the previous-event snapshot. -/
theorem logStateChanges_previous (H : Header) (mem : Snapshot) (st s1 : StatTracker)
    (h : logStateChanges H mem st = some s1) :
    s1.written = st.written ∧ s1.m_game_state = st.m_game_state ∧
    s1.m_event_state = st.m_event_state ∧
    s1.m_game_info.previous_state = st.m_game_info.previous_state ∧
    s1.m_game_info.event_num = st.m_game_info.event_num := by
  obtain ⟨gp, ep, evs, rfl, _⟩ := logStateChanges_shape H mem st s1 h
  exact ⟨rfl, rfl, rfl, rfl, rfl⟩

/-- A `FINAL_RESULT` tick ends with the previous-event snapshot equal to the
event stored under the key the tick started with. -/
theorem tick_final_result (H : Header) (mem : Snapshot) (st st' : StatTracker)
    (hg : st.m_game_state = GAME_STATE.INGAME)
    (hes : st.m_event_state = EVENT_STATE.FINAL_RESULT)
    (h : lookForTriggerEvents H mem st = some st') :
    ∃ ev, mapFind st.m_game_info.event_num st'.m_game_info.events = some ev ∧
      st'.m_game_info.previous_state = some ev := by
  obtain ⟨s1, s2, h1, h2, h3⟩ := tick_ingame_split H mem st st' hg h
  obtain ⟨_, hg1, he1, _, hn1⟩ := logStateChanges_previous H mem st s1 h1
  unfold eventStep at h2
  rw [he1, hes] at h2
  simp only [] at h2
  obtain ⟨ev, p, ev1, trk1, _, _, _, hevs, hprev, _, hg2⟩ := stepFinalResult_shape H mem s1 s2 h2
  obtain ⟨_, _, _, hin, _⟩ := gameStep_previous H mem s2 st' h3
  obtain ⟨_, hp3, he3⟩ := hin (by rw [hg2, hg1, hg])
  refine ⟨ev1, ?_, by rw [hp3, hprev]⟩
  rw [he3, hevs, ← hn1]
  exact mapFind_mapAssign _ _ _

/-- A tick between two at-bats or at the start of one: every HUD document it
writes is handed the previous-event snapshot the tick started with, the
snapshot is kept while the game goes on, and the tick of `WAITING_FOR_EVENT`
that sees a pitch or a pickoff in a running game writes exactly one. -/
theorem tick_awaiting (H : Header) (mem : Snapshot) (st st' : StatTracker)
    (hp : awaitingPitch st = true)
    (h : lookForTriggerEvents H mem st = some st') :
    ∃ new, st'.written = st.written ++ new ∧
      (∀ q ∈ hudPrevs new, q = st.m_game_info.previous_state) ∧
      (st'.m_game_state = GAME_STATE.INGAME →
        st'.m_game_info.previous_state = st.m_game_info.previous_state) ∧
      (st.m_event_state = EVENT_STATE.WAITING_FOR_EVENT → Read_U32 mem .aGameId ≠ 0 →
        (Read_U8 mem .aAB_PitchThrown ≠ 0 ∨ Read_U8 mem .aAB_PickoffAttempt ≠ 0) →
        hudPrevs new = [st.m_game_info.previous_state]) := by
  unfold awaitingPitch at hp
  simp only [Bool.and_eq_true, Bool.or_eq_true, decide_eq_true_eq] at hp
  obtain ⟨hg, hes⟩ := hp
  obtain ⟨s1, s2, h1, h2, h3⟩ := tick_ingame_split H mem st st' hg h
  obtain ⟨hw1, hg1, he1, hp1, _⟩ := logStateChanges_previous H mem st s1 h1
  obtain ⟨new2, hw3, hn3, hin, hend⟩ := gameStep_previous H mem s2 st' h3
  unfold eventStep at h2
  rw [he1] at h2
  rcases hes with hes | hes
  · rw [hes] at h2
    simp only [] at h2
    obtain ⟨hw2, hg2, hp2⟩ := stepStartAB_previous H mem s1 s2 h2
    refine ⟨new2, by rw [hw3, hw2, hw1], ?_, ?_, ?_⟩
    · intro q hq
      rw [hn3] at hq
      cases hq
    · intro _
      rw [(hin (by rw [hg2, hg1, hg])).2.1, hp2, hp1]
    · intro hx
      rw [hes] at hx
      exact absurd hx (by decide)
  · rw [hes] at h2
    simp only [] at h2
    obtain ⟨new1, hw2, hall, hcase⟩ := stepWaitingForEvent_previous H mem s1 s2 h2
    refine ⟨new1 ++ new2, by rw [hw3, hw2, hw1, List.append_assoc], ?_, ?_, ?_⟩
    · intro q hq
      rw [hudPrevs_append, hn3, List.append_nil] at hq
      rw [← hp1]
      exact hall q hq
    · intro hg3
      rcases hcase with hq | ⟨hg2, hp2, _⟩
      · rw [hend hq] at hg3
        exact absurd hg3 (by decide)
      · rw [(hin (by rw [hg2, hg1, hg])).2.1, hp2, hp1]
    · intro _ hid hany
      rw [hudPrevs_append, hn3, List.append_nil]
      rcases hcase with hq | ⟨_, _, hdoc⟩
      · exfalso
        unfold stepWaitingForEvent at h2
        rw [if_neg hid, if_pos hany] at h2
        simp only [Option.bind_eq_bind, Option.bind_eq_some] at h2
        obtain ⟨ev, _, s3, hw, h2⟩ := h2
        have hs3 := writeHUD_info H _ s3 _ _ hw
        subst hs3
        split_ifs at h2
        all_goals
          simp only [pure, Option.some.injEq] at h2
          subst h2
          rw [hg1, hg] at hq
          exact absurd hq (by decide)
      · rw [hdoc hany, hp1]

/-- Over any run of ticks between two at-bats, every HUD document written is
handed the previous-event snapshot the run started with, and the snapshot is
still the same while the game goes on. -/
theorem runWhile_awaiting (H : Header) (mems : List Snapshot) :
    ∀ st st', runWhile H awaitingPitch st mems = some st' →
      ∃ new, st'.written = st.written ++ new ∧
        (∀ q ∈ hudPrevs new, q = st.m_game_info.previous_state) ∧
        (st'.m_game_state = GAME_STATE.INGAME →
          st'.m_game_info.previous_state = st.m_game_info.previous_state) := by
  induction mems with
  | nil =>
    intro st st' h
    simp only [runWhile, Option.some.injEq] at h
    subst h
    exact ⟨[], (List.append_nil _).symm, fun q hq => by simp [hudPrevs] at hq, fun _ => rfl⟩
  | cons mem rest ih =>
    intro st st' h
    unfold runWhile at h
    by_cases hp : awaitingPitch st = true
    · rw [if_pos hp] at h
      simp only [Option.bind_eq_some] at h
      obtain ⟨s, hs, hrest⟩ := h
      obtain ⟨new1, hw1, hall1, hkeep1, _⟩ := tick_awaiting H mem st s hp hs
      obtain ⟨new2, hw2, hall2, hkeep2⟩ := ih s st' hrest
      cases rest with
      | nil =>
        simp only [runWhile, Option.some.injEq] at hrest
        subst hrest
        exact ⟨new1, hw1, hall1, hkeep1⟩
      | cons mem2 rest2 =>
        have hps : awaitingPitch s = true := by
          unfold runWhile at hrest
          by_contra hc
          rw [if_neg hc] at hrest
          cases hrest
        have hgs : s.m_game_state = GAME_STATE.INGAME := by
          unfold awaitingPitch at hps
          simp only [Bool.and_eq_true, decide_eq_true_eq] at hps
          exact hps.1
        refine ⟨new1 ++ new2, by rw [hw2, hw1, List.append_assoc], ?_, ?_⟩
        · intro q hq
          rw [hudPrevs_append, List.mem_append] at hq
          rcases hq with hq | hq
          · exact hall1 q hq
          · rw [← hkeep1 hgs]
            exact hall2 q hq
        · intro hg
          rw [hkeep2 hg, hkeep1 hgs]
    · rw [if_neg hp] at h
      cases h

/-- C16: a tick taken in game at `FINAL_RESULT` ends with the previous-event
snapshot equal, as a whole record, to the event stored under the key the tick
started with, which is the Event finalized on that tick; over any run of ticks
at `START_AB` and `WAITING_FOR_EVENT` that follows, every HUD document written
is handed the snapshot the run started with, and the snapshot is unchanged
while the game goes on; and the `WAITING_FOR_EVENT` tick that sees a pitch or
a pickoff in a running game writes exactly one HUD document, handed that
snapshot. -/
theorem previous_state_is_finalized_event (H : Header) :
    (∀ mem st st', st.m_game_state = GAME_STATE.INGAME →
      st.m_event_state = EVENT_STATE.FINAL_RESULT →
      lookForTriggerEvents H mem st = some st' →
      ∃ ev, mapFind st.m_game_info.event_num st'.m_game_info.events = some ev ∧
        st'.m_game_info.previous_state = some ev) ∧
    (∀ mems st st', runWhile H awaitingPitch st mems = some st' →
      ∃ new, st'.written = st.written ++ new ∧
        (∀ q ∈ hudPrevs new, q = st.m_game_info.previous_state) ∧
        (st'.m_game_state = GAME_STATE.INGAME →
          st'.m_game_info.previous_state = st.m_game_info.previous_state)) ∧
    (∀ mem st st', st.m_game_state = GAME_STATE.INGAME →
      st.m_event_state = EVENT_STATE.WAITING_FOR_EVENT →
      Read_U32 mem .aGameId ≠ 0 →
      (Read_U8 mem .aAB_PitchThrown ≠ 0 ∨ Read_U8 mem .aAB_PickoffAttempt ≠ 0) →
      lookForTriggerEvents H mem st = some st' →
      ∃ new, st'.written = st.written ++ new ∧
        hudPrevs new = [st.m_game_info.previous_state]) := by
  refine ⟨fun mem st st' hg hes h => tick_final_result H mem st st' hg hes h,
    fun mems st st' h => runWhile_awaiting H mems st st' h, ?_⟩
  intro mem st st' hg hes hid hany h
  have hp : awaitingPitch st = true := by
    unfold awaitingPitch
    simp only [Bool.and_eq_true, Bool.or_eq_true, decide_eq_true_eq]
    exact ⟨hg, Or.inr hes⟩
  obtain ⟨new, hw, _, _, hdoc⟩ := tick_awaiting H mem st st' hp h
  exact ⟨new, hw, hdoc hes hid hany⟩

theorem previous_state_is_finalized_event_witness :
    ∃ s1 s2 s3 ev,
      lookForTriggerEvents sampleHeader atBatSceneSnapshot
        (trackerAt EVENT_STATE.FINAL_RESULT forcedOutEvent) = some s1 ∧
      mapFind 0 s1.m_game_info.events = some ev ∧
      s1.m_game_info.previous_state = some ev ∧
      s1.m_event_state = EVENT_STATE.START_AB ∧
      lookForTriggerEvents sampleHeader atBatSceneSnapshot s1 = some s2 ∧
      s2.m_event_state = EVENT_STATE.WAITING_FOR_EVENT ∧
      lookForTriggerEvents sampleHeader pitchThrownSnapshot s2 = some s3 ∧
      (∃ new, s3.written = s2.written ++ new ∧ hudPrevs new = [some ev]) ∧
      (∃ new, s3.written = s1.written ++ new ∧ ∀ q ∈ hudPrevs new, q = some ev) := by
  have h1 : (lookForTriggerEvents sampleHeader atBatSceneSnapshot
      (trackerAt EVENT_STATE.FINAL_RESULT forcedOutEvent)).isSome = true := by decide
  obtain ⟨s1, hs1⟩ := Option.isSome_iff_exists.mp h1
  have h2 : ((lookForTriggerEvents sampleHeader atBatSceneSnapshot
      (trackerAt EVENT_STATE.FINAL_RESULT forcedOutEvent)).bind
        (lookForTriggerEvents sampleHeader atBatSceneSnapshot)).isSome = true := by decide
  rw [hs1, Option.some_bind] at h2
  obtain ⟨s2, hs2⟩ := Option.isSome_iff_exists.mp h2
  have h3 : (((lookForTriggerEvents sampleHeader atBatSceneSnapshot
      (trackerAt EVENT_STATE.FINAL_RESULT forcedOutEvent)).bind
        (lookForTriggerEvents sampleHeader atBatSceneSnapshot)).bind
        (lookForTriggerEvents sampleHeader pitchThrownSnapshot)).isSome = true := by decide
  rw [hs1, Option.some_bind, hs2, Option.some_bind] at h3
  obtain ⟨s3, hs3⟩ := Option.isSome_iff_exists.mp h3
  have he1 : ((lookForTriggerEvents sampleHeader atBatSceneSnapshot
      (trackerAt EVENT_STATE.FINAL_RESULT forcedOutEvent)).map fun s =>
        (s.m_game_state, s.m_event_state)) =
      some (GAME_STATE.INGAME, EVENT_STATE.START_AB) := by decide
  rw [hs1] at he1
  simp only [Option.map_some', Option.some.injEq, Prod.mk.injEq] at he1
  have he2 : (((lookForTriggerEvents sampleHeader atBatSceneSnapshot
      (trackerAt EVENT_STATE.FINAL_RESULT forcedOutEvent)).bind
        (lookForTriggerEvents sampleHeader atBatSceneSnapshot)).map fun s =>
        (s.m_game_state, s.m_event_state)) =
      some (GAME_STATE.INGAME, EVENT_STATE.WAITING_FOR_EVENT) := by decide
  rw [hs1, Option.some_bind, hs2] at he2
  simp only [Option.map_some', Option.some.injEq, Prod.mk.injEq] at he2
  obtain ⟨ev, hev, hprev⟩ := (previous_state_is_finalized_event sampleHeader).1
    atBatSceneSnapshot (trackerAt EVENT_STATE.FINAL_RESULT forcedOutEvent) s1 rfl rfl hs1
  have hrun : runWhile sampleHeader awaitingPitch s1 [atBatSceneSnapshot, pitchThrownSnapshot] =
      some s3 := by
    have hp1 : awaitingPitch s1 = true := by
      unfold awaitingPitch
      rw [he1.1, he1.2]
      decide
    have hp2 : awaitingPitch s2 = true := by
      unfold awaitingPitch
      rw [he2.1, he2.2]
      decide
    simp only [runWhile, hp1, hp2, if_true, hs2, hs3, Option.some_bind]
  obtain ⟨new, hw, hall, _⟩ := (previous_state_is_finalized_event sampleHeader).2.1
    [atBatSceneSnapshot, pitchThrownSnapshot] s1 s3 hrun
  obtain ⟨new2, hw2, hdoc⟩ := (previous_state_is_finalized_event sampleHeader).2.2
    pitchThrownSnapshot s2 s3 he2.1 he2.2 (by decide) (Or.inl (by decide)) hs3
  have hkeep : s2.m_game_info.previous_state = some ev := by
    obtain ⟨_, _, _, hk⟩ := (previous_state_is_finalized_event sampleHeader).2.1
      [atBatSceneSnapshot] s1 s2
      (by
        have hp1 : awaitingPitch s1 = true := by
          unfold awaitingPitch
          rw [he1.1, he1.2]
          decide
        simp only [runWhile, hp1, if_true, hs2, Option.some_bind])
    rw [hk he2.1, hprev]
  exact ⟨s1, s2, s3, ev, hs1, hev, hprev, he1.2, hs2, he2.2, hs3,
    ⟨new2, hw2, by rw [hdoc, hkeep]⟩, ⟨new, hw, fun q hq => by rw [hall q hq, hprev]⟩⟩

/-! ## The runner update rule -/

/-- C28: `logRunnerEvents` leaves a runner whose out type is nonzero unchanged
in every field; for a runner whose out type is 0, a nonzero live out byte for
the runner's initial base is recorded as out type, with the live current base
as out location and `0xFF` as result base, and a zero out byte leaves the out
type 0 and the out location alone and records the live current base as result
base; and applying the function twice under one snapshot gives the same runner
as applying it once. -/
theorem logRunnerEvents_rule (mem : Snapshot) (r : Runner) :
    (r.out_type ≠ 0 → logRunnerEvents mem r = r) ∧
    (r.out_type = 0 → Read_U8 mem (.aRunner_OutType r.initial_base) ≠ 0 →
      (logRunnerEvents mem r).out_type = Read_U8 mem (.aRunner_OutType r.initial_base) ∧
      (logRunnerEvents mem r).out_location = Read_U8 mem (.aRunner_CurrentBase r.initial_base) ∧
      (logRunnerEvents mem r).result_base = 0xFF) ∧
    (r.out_type = 0 → Read_U8 mem (.aRunner_OutType r.initial_base) = 0 →
      (logRunnerEvents mem r).out_type = 0 ∧
      (logRunnerEvents mem r).out_location = r.out_location ∧
      (logRunnerEvents mem r).result_base = Read_U8 mem (.aRunner_CurrentBase r.initial_base)) ∧
    logRunnerEvents mem (logRunnerEvents mem r) = logRunnerEvents mem r := by
  refine ⟨?_, ?_, ?_, ?_⟩
  · intro h0
    unfold logRunnerEvents
    rw [if_pos h0]
  · intro h0 hout
    unfold logRunnerEvents
    simp only [h0, ne_eq, not_true_eq_false, if_false, hout, not_false_eq_true, if_true]
    split_ifs <;> exact ⟨rfl, rfl, rfl⟩
  · intro h0 hout
    unfold logRunnerEvents
    simp only [h0, ne_eq, not_true_eq_false, if_false, hout]
    split_ifs <;> exact ⟨rfl, rfl, rfl⟩
  · by_cases h0 : r.out_type ≠ 0
    · have e : logRunnerEvents mem r = r := by
        unfold logRunnerEvents
        rw [if_pos h0]
      rw [e, e]
    · have h0' : r.out_type = 0 := not_not.mp h0
      by_cases hout : Read_U8 mem (.aRunner_OutType r.initial_base) ≠ 0
      · have hnz : (logRunnerEvents mem r).out_type ≠ 0 := by
          unfold logRunnerEvents
          simp only [h0', ne_eq, not_true_eq_false, if_false, hout, not_false_eq_true, if_true]
          split_ifs <;> exact hout
        generalize logRunnerEvents mem r = r1 at hnz
        unfold logRunnerEvents
        rw [if_pos hnz]
      · have hout' : Read_U8 mem (.aRunner_OutType r.initial_base) = 0 := not_not.mp hout
        unfold logRunnerEvents
        simp only [h0', ne_eq, not_true_eq_false, if_false, hout']
        by_cases hs : Read_U8 mem (.aRunner_Stealing r.initial_base) > r.steal
        · simp only [hs, if_true, hout', gt_iff_lt, lt_self_iff_false, if_false,
            ne_eq, not_true_eq_false]
        · simp only [hs, if_false, hout', ne_eq, not_true_eq_false]

/-- Witness for C28: a runner already forced out, and a fresh batter-runner
under a snapshot whose out byte reads 2 and under one whose out byte reads 0. -/
theorem logRunnerEvents_rule_witness :
    forcedOutRunner.out_type ≠ 0 ∧
    logRunnerEvents forcedOutSnapshot forcedOutRunner = forcedOutRunner ∧
    ((logRunnerEvents forcedOutSnapshot zeroRunner).out_type = 2 ∧
      (logRunnerEvents forcedOutSnapshot zeroRunner).out_location = 0 ∧
      (logRunnerEvents forcedOutSnapshot zeroRunner).result_base = 0xFF) ∧
    ((logRunnerEvents stealSnapshot { zeroRunner with initial_base := 1 }).out_type = 0 ∧
      (logRunnerEvents stealSnapshot { zeroRunner with initial_base := 1 }).steal = 2) ∧
    logRunnerEvents stealSnapshot
        (logRunnerEvents stealSnapshot { zeroRunner with initial_base := 1 }) =
      logRunnerEvents stealSnapshot { zeroRunner with initial_base := 1 } :=
  ⟨by decide,
    (logRunnerEvents_rule forcedOutSnapshot forcedOutRunner).1 (by decide),
    (logRunnerEvents_rule forcedOutSnapshot zeroRunner).2.1 rfl (by decide),
    ⟨((logRunnerEvents_rule stealSnapshot { zeroRunner with initial_base := 1 }).2.2.1 rfl
        (by decide)).1, by decide⟩,
    (logRunnerEvents_rule stealSnapshot { zeroRunner with initial_base := 1 }).2.2.2⟩

/-- The guarded block of `logFinalResults` for a final result outside
`0x7..0xF`: the secondary contact result follows the batter-runner's out type,
the primary one and the two fielders are kept. -/
theorem logSecondaryResult_rule (ev : Event) (rb : Runner) (p : Pitch) (c : Contact)
    (hrb : ev.runner_batter = some rb) (hp : ev.pitch = some p) (hc : p.contact = some c)
    (hout : ¬ (0x7 ≤ ev.result_of_atbat ∧ ev.result_of_atbat ≤ 0xF)) :
    ∃ c', logSecondaryResult ev = some { ev with pitch := some { p with contact := some c' } } ∧
      c'.first_fielder = c.first_fielder ∧ c'.collect_fielder = c.collect_fielder ∧
      c'.primary_contact_result = c.primary_contact_result ∧
      c'.secondary_contact_result =
        (if rb.out_type = 2 ∨ rb.out_type = 3 then rb.out_type
         else if rb.out_type = 0 ∧ ev.result_of_atbat = 4 then 4
         else c.secondary_contact_result) := by
  unfold logSecondaryResult
  simp only [hp, hc, hrb, Option.bind_eq_bind, Option.some_bind, pure]
  rw [if_neg hout]
  by_cases h23 : rb.out_type = 2 ∨ rb.out_type = 3
  · rw [if_pos h23]
    exact ⟨_, rfl, rfl, rfl, rfl, by rw [if_pos h23]⟩
  · rw [if_neg h23]
    by_cases h04 : rb.out_type = 0 ∧ ev.result_of_atbat = 4
    · rw [if_pos h04]
      exact ⟨_, rfl, rfl, rfl, rfl, by rw [if_neg h23, if_pos h04]; exact h04.2⟩
    · rw [if_neg h04]
      refine ⟨c, ?_, rfl, rfl, rfl, by rw [if_neg h23, if_neg h04]⟩
      cases ev
      cases p
      simp_all

/-- The part of `logFinalResults` after the strikeout statement, for a final
result outside `0x7..0xF`. -/
theorem logFinalResults_after_strikeout (mem : Snapshot) (ev ev1 : Event) (trk : Trackers)
    (rb : Runner) (p : Pitch) (c : Contact)
    (hs : logStrikeout ev = some ev1) (hres : ev1.result_of_atbat = ev.result_of_atbat)
    (hrb : ev1.runner_batter = some rb) (hp : ev1.pitch = some p) (hc : p.contact = some c)
    (hout : ¬ (0x7 ≤ ev.result_of_atbat ∧ ev.result_of_atbat ≤ 0xF))
    (hf : rb.out_type = 2 → (creditedFielder c).isSome = true) :
    ∃ ev' trk' p' c', logFinalResults mem ev trk = some (ev', trk') ∧
      ev'.runner_batter = some rb ∧ ev'.pitch = some p' ∧ p'.contact = some c' ∧
      c'.primary_contact_result = c.primary_contact_result ∧
      c'.secondary_contact_result =
        (if rb.out_type = 2 ∨ rb.out_type = 3 then rb.out_type
         else if rb.out_type = 0 ∧ ev.result_of_atbat = 4 then 4
         else c.secondary_contact_result) := by
  obtain ⟨c', hsec, hff, hcf, hprim, hsecv⟩ :=
    logSecondaryResult_rule ev1 rb p c hrb hp hc (by rw [hres]; exact hout)
  rw [hres] at hsecv
  unfold logFinalResults
  simp only [hs, Option.bind_eq_bind, Option.some_bind, hsec, hrb, pure]
  by_cases h2 : rb.out_type = 2
  · obtain ⟨g, hg⟩ := Option.isSome_iff_exists.mp (hf h2)
    have hg' : ∀ m, creditedFielder { c' with multi_out := m } = some g := by
      intro m
      unfold creditedFielder at hg ⊢
      simpa [hff, hcf] using hg
    rw [if_pos h2]
    simp only [hg', Option.some_bind]
    exact ⟨_, _, _, _, rfl, rfl, rfl, rfl, hprim, hsecv⟩
  · rw [if_neg h2]
    exact ⟨_, _, _, _, rfl, rfl, rfl, rfl, hprim, hsecv⟩

/-- C29: when the Pitch, its Contact and the batter-runner exist (with a
credited fielder should the out type tested be 2) and the final at-bat result
lies outside `0x7..0xF`, `logFinalResults` returns; the batter-runner's out
type is first set to `0x10` if the final result is 1; the secondary contact
result then becomes that out type if it is 2 or 3, else 4 if the out type is 0
and the final result is 4, and is otherwise left as it was; the primary
contact result is left as it was in every one of these cases. -/
theorem logFinalResults_secondary_rule (mem : Snapshot) (ev : Event) (trk : Trackers)
    (rb : Runner) (p : Pitch) (c : Contact)
    (hp : ev.pitch = some p) (hc : p.contact = some c) (hrb : ev.runner_batter = some rb)
    (hout : ¬ (0x7 ≤ ev.result_of_atbat ∧ ev.result_of_atbat ≤ 0xF))
    (hf : ev.result_of_atbat ≠ 1 → rb.out_type = 2 → (creditedFielder c).isSome = true) :
    ∃ ev' trk' rb' p' c', logFinalResults mem ev trk = some (ev', trk') ∧
      ev'.runner_batter = some rb' ∧ ev'.pitch = some p' ∧ p'.contact = some c' ∧
      rb'.out_type = (if ev.result_of_atbat = 1 then 0x10 else rb.out_type) ∧
      c'.primary_contact_result = c.primary_contact_result ∧
      c'.secondary_contact_result =
        (if rb'.out_type = 2 ∨ rb'.out_type = 3 then rb'.out_type
         else if rb'.out_type = 0 ∧ ev.result_of_atbat = 4 then 4
         else c.secondary_contact_result) := by
  by_cases h1 : ev.result_of_atbat = 1
  · have hs : logStrikeout ev =
        some { ev with runner_batter := some { rb with out_type := 0x10 } } := by
      unfold logStrikeout
      rw [if_pos h1, hrb]
      rfl
    obtain ⟨ev', trk', p', c', h, hrb', hp', hc', hprim, hsec⟩ :=
      logFinalResults_after_strikeout mem ev _ trk { rb with out_type := 0x10 } p c hs rfl rfl
        hp hc hout (fun h => absurd (show (0x10 : Nat) = 2 from h) (by decide))
    exact ⟨ev', trk', _, p', c', h, hrb', hp', hc', by rw [if_pos h1], hprim, hsec⟩
  · have hs : logStrikeout ev = some ev := by
      unfold logStrikeout
      rw [if_neg h1]
    obtain ⟨ev', trk', p', c', h, hrb', hp', hc', hprim, hsec⟩ :=
      logFinalResults_after_strikeout mem ev ev trk rb p c hs rfl hrb hp hc hout (hf h1)
    exact ⟨ev', trk', rb, p', c', h, hrb', hp', hc', by rw [if_neg h1], hprim, hsec⟩

/-- Witness for C29: the sample forced-out event (out type 2, final result 0):
the secondary contact result becomes 2 and the primary one is kept. -/
theorem logFinalResults_secondary_rule_witness :
    ¬ (0x7 ≤ forcedOutEvent.result_of_atbat ∧ forcedOutEvent.result_of_atbat ≤ 0xF) ∧
    ∃ ev' trk' rb' p' c',
      logFinalResults playDeadSnapshot forcedOutEvent freshTrackers = some (ev', trk') ∧
      ev'.runner_batter = some rb' ∧ ev'.pitch = some p' ∧ p'.contact = some c' ∧
      rb'.out_type = 2 ∧
      c'.primary_contact_result = collectedContact.primary_contact_result ∧
      c'.secondary_contact_result = 2 := by
  obtain ⟨ev', trk', rb', p', c', h, hrb', hp', hc', hout, hprim, hsec⟩ :=
    logFinalResults_secondary_rule playDeadSnapshot forcedOutEvent freshTrackers forcedOutRunner
      { zeroPitch with contact := some collectedContact } collectedContact rfl rfl rfl
      (by decide) (fun _ _ => rfl)
  have hout2 : rb'.out_type = 2 := hout
  refine ⟨by decide, ev', trk', rb', p', c', h, hrb', hp', hc', hout2, hprim, ?_⟩
  rw [hsec, hout2]
  rfl

/-! ## Steps of the at-bat machine, case by case -/

/-- What the logging block leaves of a current event: the same event with
possibly a longer history, under the same counter, both machine states, the
trackers, the switches and the outputs as they were. -/
theorem logStateChanges_current_of (H : Header) (mem : Snapshot) (st s1 : StatTracker) (ev : Event)
    (h : logStateChanges H mem st = some s1) (hcur : st.m_game_info.getCurrentEvent = some ev) :
    ∃ hist, s1.m_game_info.getCurrentEvent = some { ev with history := hist } ∧
      s1.m_game_state = st.m_game_state ∧ s1.m_event_state = st.m_event_state ∧
      s1.m_game_info.event_num = st.m_game_info.event_num ∧
      s1.m_fielder_tracker = st.m_fielder_tracker ∧ s1.mTrackerInfo = st.mTrackerInfo ∧
      s1.written = st.written := by
  obtain ⟨gp, ep, evs, rfl, hevs⟩ := logStateChanges_shape H mem st s1 h
  rcases hevs with rfl | ⟨ev0, hist, hcur0, rfl⟩
  · refine ⟨ev.history, ?_, rfl, rfl, rfl, rfl, rfl, rfl⟩
    exact hcur
  · rw [hcur] at hcur0
    cases hcur0
    refine ⟨hist, ?_, rfl, rfl, rfl, rfl, rfl, rfl⟩
    exact mapFind_mapAssign _ _ _

/-- C25, what the code does: in `MONITOR_RUNNERS` with the pitch-thrown or the
pickoff flag still set, the step starts with `runner_batter.value()`.  With the
batter-runner slot empty that access throws, so the step, and the tick, abort;
with the batter-runner present the step completes, stays in `MONITOR_RUNNERS`,
and applies `logRunnerEvents` to the batter-runner and to each of the other
three slots that is present. -/
theorem monitor_runners_needs_batter (H : Header) (mem : Snapshot) (st : StatTracker) (ev : Event)
    (hg : st.m_game_state = GAME_STATE.INGAME)
    (hes : st.m_event_state = EVENT_STATE.MONITOR_RUNNERS)
    (hcur : st.m_game_info.getCurrentEvent = some ev)
    (hflag : Read_U8 mem .aAB_PitchThrown ≠ 0 ∨ Read_U8 mem .aAB_PickoffAttempt ≠ 0) :
    (ev.runner_batter = none →
      stepMonitorRunners mem st = none ∧ lookForTriggerEvents H mem st = none) ∧
    (∀ rb, ev.runner_batter = some rb →
      ∃ st', stepMonitorRunners mem st = some st' ∧
        st'.m_event_state = EVENT_STATE.MONITOR_RUNNERS ∧
        st'.m_game_info.getCurrentEvent =
          some { ev with
                 runner_batter := some (logRunnerEvents mem rb)
                 runner_1 := ev.runner_1.map (logRunnerEvents mem)
                 runner_2 := ev.runner_2.map (logRunnerEvents mem)
                 runner_3 := ev.runner_3.map (logRunnerEvents mem) }) := by
  have hnot : ¬ (Read_U8 mem .aAB_PitchThrown = 0 ∧ Read_U8 mem .aAB_PickoffAttempt = 0) := by
    intro hc
    rcases hflag with h1 | h1
    · exact h1 hc.1
    · exact h1 hc.2
  refine ⟨?_, ?_⟩
  · intro hnone
    have hstep : ∀ (s : StatTracker) (e : Event), s.m_game_info.getCurrentEvent = some e →
        e.runner_batter = none → stepMonitorRunners mem s = none := by
      intro s e hs he
      unfold stepMonitorRunners
      simp only [hs, Option.bind_eq_bind, Option.some_bind, if_neg hnot, he, Option.none_bind]
    refine ⟨hstep st ev hcur hnone, ?_⟩
    cases htick : lookForTriggerEvents H mem st with
    | none => rfl
    | some st' =>
      exfalso
      obtain ⟨s1, s2, h1, h2, _⟩ := tick_ingame_split H mem st st' hg htick
      obtain ⟨hist, hcur1, _, hes1, _⟩ := logStateChanges_current_of H mem st s1 ev h1 hcur
      unfold eventStep at h2
      rw [hes1, hes] at h2
      simp only [] at h2
      rw [hstep s1 _ hcur1 hnone] at h2
      cases h2
  · intro rb hrb
    unfold stepMonitorRunners
    simp only [hcur, Option.bind_eq_bind, Option.some_bind, if_neg hnot, hrb, pure, updateRunner]
    exact ⟨_, rfl, hes, getCurrentEvent_setCurrentEvent _ _⟩

/-- Witness for C25: a game played from its start in which the roster byte of
the batter's slot reads `0xFF` when the at-bat opens: the Event is created
without a batter-runner, a pickoff attempt takes the machine to
`MONITOR_RUNNERS`, and the next tick with the flag still set aborts. -/
theorem monitor_runners_needs_batter_witness :
    ((runTicks sampleHeader sampleTracker
        [matchStartSnapshot, emptyBoxSnapshot, pickoffSnapshot]).map fun s =>
      (s.m_event_state, s.m_game_info.getCurrentEvent.map fun e => e.runner_batter.isSome)) =
      some (EVENT_STATE.MONITOR_RUNNERS, some false) ∧
    (runTicks sampleHeader sampleTracker
        [matchStartSnapshot, emptyBoxSnapshot, pickoffSnapshot, pickoffSnapshot]).isSome = false ∧
    stepMonitorRunners pickoffSnapshot (trackerAt EVENT_STATE.MONITOR_RUNNERS batterlessEvent) =
      none ∧
    lookForTriggerEvents sampleHeader pickoffSnapshot
      (trackerAt EVENT_STATE.MONITOR_RUNNERS batterlessEvent) = none :=
  ⟨by decide, by decide,
    (monitor_runners_needs_batter sampleHeader pickoffSnapshot
      (trackerAt EVENT_STATE.MONITOR_RUNNERS batterlessEvent) batterlessEvent rfl rfl rfl
      (Or.inr (by decide))).1 rfl⟩

/-- C27, as amended: in `PITCH_RESULT` with no contact detected, the
hit-by-pitch flag is examined only when the pitcher-has-control flag does not
read 1.  Then a tick on which it reads 1 snapshots the pitch fields and, if the
pitch-thrown flag reads zero, captures the final at-bat result and moves to
`PLAY_OVER`, staying in `PITCH_RESULT` otherwise.  When the pitcher-has-control
flag reads 1 and flight frames remain, the step stores the monitored event and
nothing else: no pitch snapshot, no final result, the event state unchanged,
whatever the hit-by-pitch flag reads. -/
theorem stepPitchResult_hit_by_pitch (H : Header) (mem : Snapshot) (st : StatTracker)
    (ev : Event) (p : Pitch)
    (hcur : st.m_game_info.getCurrentEvent = some ev) (hp : ev.pitch = some p)
    (hnc : Read_U32 mem .aAB_ContactMade = 0) :
    (Read_U8 mem .aAB_PitcherHasCtrlofPitch ≠ 1 → Read_U8 mem .aAB_HitByPitch = 1 →
      ∃ ev1, logPitch mem st.m_game_info (monitorPitch H mem ev p) = some ev1 ∧
        (Read_U8 mem .aAB_PitchThrown = 0 →
          stepPitchResult H mem st =
            some { st with
                   m_game_info :=
                     st.m_game_info.setCurrentEvent
                       { ev1 with result_of_atbat := Read_U8 mem .aAB_FinalResult }
                   m_event_state := EVENT_STATE.PLAY_OVER }) ∧
        (Read_U8 mem .aAB_PitchThrown ≠ 0 →
          stepPitchResult H mem st =
            some { st with m_game_info := st.m_game_info.setCurrentEvent ev1 })) ∧
    (Read_U8 mem .aAB_PitcherHasCtrlofPitch = 1 →
      Read_U16 mem .aAB_FramesUnitlBallArrivesBatter ≠ 0 →
      stepPitchResult H mem st =
        some { st with
               m_game_info := st.m_game_info.setCurrentEvent (monitorPitch H mem ev p) }) := by
  have hnc' : ¬ Read_U32 mem .aAB_ContactMade ≠ 0 := fun h => h hnc
  refine ⟨?_, ?_⟩
  · intro hctl hhbp
    have hlp : ∃ ev1, logPitch mem st.m_game_info (monitorPitch H mem ev p) = some ev1 := by
      unfold logPitch monitorPitch
      simp only [Option.bind_eq_bind, Option.some_bind, pure]
      exact ⟨_, rfl⟩
    obtain ⟨ev1, hev1⟩ := hlp
    refine ⟨ev1, hev1, ?_, ?_⟩
    · intro hpt
      unfold stepPitchResult
      simp only [hcur, hp, Option.bind_eq_bind, Option.some_bind, if_neg hnc', if_neg hctl,
        if_pos hhbp, hev1, if_pos hpt, pure]
    · intro hpt
      unfold stepPitchResult
      simp only [hcur, hp, Option.bind_eq_bind, Option.some_bind, if_neg hnc', if_neg hctl,
        if_pos hhbp, hev1, if_neg hpt, pure]
  · intro hctl hfr
    have hfr' : ¬ Read_U16 mem .aAB_FramesUnitlBallArrivesBatter ≤ 0 := by omega
    unfold stepPitchResult
    simp only [hcur, hp, Option.bind_eq_bind, Option.some_bind, if_neg hnc', if_pos hctl,
      if_neg hfr', pure]

/-- Witness for C27 as amended: the sample event with a pitch and no contact,
under the hit-by-pitch reading without and with pitcher control. -/
theorem stepPitchResult_hit_by_pitch_witness :
    (∃ ev1, logPitch hitByPitchSnapshot
        (trackerAt EVENT_STATE.PITCH_RESULT missedPitchEvent).m_game_info
        (monitorPitch sampleHeader hitByPitchSnapshot missedPitchEvent zeroPitch) = some ev1 ∧
      stepPitchResult sampleHeader hitByPitchSnapshot
          (trackerAt EVENT_STATE.PITCH_RESULT missedPitchEvent) =
        some { trackerAt EVENT_STATE.PITCH_RESULT missedPitchEvent with
               m_game_info :=
                 (trackerAt EVENT_STATE.PITCH_RESULT missedPitchEvent).m_game_info.setCurrentEvent
                   { ev1 with result_of_atbat := Read_U8 hitByPitchSnapshot .aAB_FinalResult }
               m_event_state := EVENT_STATE.PLAY_OVER }) ∧
    stepPitchResult sampleHeader hitByPitchHeldSnapshot
        (trackerAt EVENT_STATE.PITCH_RESULT missedPitchEvent) =
      some { trackerAt EVENT_STATE.PITCH_RESULT missedPitchEvent with
             m_game_info :=
               (trackerAt EVENT_STATE.PITCH_RESULT missedPitchEvent).m_game_info.setCurrentEvent
                 (monitorPitch sampleHeader hitByPitchHeldSnapshot missedPitchEvent zeroPitch) } := by
  obtain ⟨ev1, h1, h2, _⟩ :=
    (stepPitchResult_hit_by_pitch sampleHeader hitByPitchSnapshot
      (trackerAt EVENT_STATE.PITCH_RESULT missedPitchEvent) missedPitchEvent zeroPitch rfl rfl
      (by decide)).1 (by decide) (by decide)
  exact ⟨⟨ev1, h1, h2 (by decide)⟩,
    (stepPitchResult_hit_by_pitch sampleHeader hitByPitchHeldSnapshot
      (trackerAt EVENT_STATE.PITCH_RESULT missedPitchEvent) missedPitchEvent zeroPitch rfl rfl
      (by decide)).2 (by decide) (by decide)⟩

/-- C27, counterexample: no contact, five flight frames left, the hit-by-pitch
flag at 1 and the pitch-thrown flag at 0.  With the pitcher-has-control flag at
0 the tick snapshots the pitch, captures the final result 2 and moves to
`PLAY_OVER`; with the flag at 1 the tick stays in `PITCH_RESULT`, the pitch is
not snapshotted and no final result is captured. -/
theorem hit_by_pitch_ignored_under_control :
    ((lookForTriggerEvents sampleHeader hitByPitchSnapshot
        (trackerAt EVENT_STATE.PITCH_RESULT missedPitchEvent)).map fun s =>
      (s.m_event_state,
       s.m_game_info.getCurrentEvent.map fun e =>
         (e.result_of_atbat, e.pitch.map fun q => q.logged))) =
      some (EVENT_STATE.PLAY_OVER, some (2, some true)) ∧
    ((lookForTriggerEvents sampleHeader hitByPitchHeldSnapshot
        (trackerAt EVENT_STATE.PITCH_RESULT missedPitchEvent)).map fun s =>
      (s.m_event_state,
       s.m_game_info.getCurrentEvent.map fun e =>
         (e.result_of_atbat, e.pitch.map fun q => q.logged))) =
      some (EVENT_STATE.PITCH_RESULT, some (0, some false)) :=
  ⟨by decide, by decide⟩

/-- The two exits of `FINAL_RESULT`: each test that holds increments the
counter, and the second one decides the state when both hold. -/
theorem leaveFinalResult_counter (mem : Snapshot) (st : StatTracker) :
    (leaveFinalResult mem st).m_game_info.event_num =
      st.m_game_info.event_num +
        (if Read_U8 mem .aGameControlStateCurr = 0x1 then 1 else 0) +
        (if Read_U8 mem .aGameControlStateCurr = 0xE ∨ Read_U8 mem .aEndOfGameFlag = 1
         then 1 else 0) ∧
    (leaveFinalResult mem st).m_event_state =
      (if Read_U8 mem .aGameControlStateCurr = 0xE ∨ Read_U8 mem .aEndOfGameFlag = 1
       then EVENT_STATE.GAME_OVER
       else if Read_U8 mem .aGameControlStateCurr = 0x1 then EVENT_STATE.START_AB
       else st.m_event_state) := by
  unfold leaveFinalResult
  split_ifs <;> exact ⟨rfl, rfl⟩

/-- The end-of-inning flush keeps the counter and the event state. -/
theorem flushInning_counter (H : Header) (mem : Snapshot) (st st' : StatTracker)
    (h : flushInning H mem st = some st') :
    st'.m_game_info.event_num = st.m_game_info.event_num ∧
    st'.m_event_state = st.m_event_state := by
  unfold flushInning at h
  simp only [] at h
  have hn := logGameInfo_event_num mem { st.m_game_info with partial_game := 1 }
  generalize logGameInfo mem { st.m_game_info with partial_game := 1 } = X at h hn
  split_ifs at h
  simp only [Option.some.injEq] at h
  subst h
  exact ⟨hn, rfl⟩

/-- The `FINAL_RESULT` step changes the counter and the event state through
its two exits only. -/
theorem stepFinalResult_counter (H : Header) (mem : Snapshot) (st st' : StatTracker)
    (h : stepFinalResult H mem st = some st') :
    st'.m_game_info.event_num =
      st.m_game_info.event_num +
        (if Read_U8 mem .aGameControlStateCurr = 0x1 then 1 else 0) +
        (if Read_U8 mem .aGameControlStateCurr = 0xE ∨ Read_U8 mem .aEndOfGameFlag = 1
         then 1 else 0) ∧
    st'.m_event_state =
      (if Read_U8 mem .aGameControlStateCurr = 0xE ∨ Read_U8 mem .aEndOfGameFlag = 1
       then EVENT_STATE.GAME_OVER
       else if Read_U8 mem .aGameControlStateCurr = 0x1 then EVENT_STATE.START_AB
       else st.m_event_state) := by
  unfold stepFinalResult at h
  simp only [Option.bind_eq_bind, Option.bind_eq_some] at h
  obtain ⟨ev, _, p, _, ⟨ev1, trk1⟩, _, s1, hw, h⟩ := h
  have hn := logGameInfo_event_num mem (st.m_game_info.setCurrentEvent ev1)
  generalize logGameInfo mem (st.m_game_info.setCurrentEvent ev1) = X at hw hn
  have hs1 := writeHUD_info H _ s1 _ _ hw
  have hk2 : ∃ s2, s2.m_game_info.event_num = s1.m_game_info.event_num ∧
      s2.m_event_state = s1.m_event_state ∧ st' = leaveFinalResult mem s2 := by
    split_ifs at h
    · simp only [Option.bind_eq_some, pure, Option.some.injEq] at h
      obtain ⟨s2, hfl, rfl⟩ := h
      obtain ⟨a, b⟩ := flushInning_counter H mem s1 s2 hfl
      exact ⟨s2, a, b, rfl⟩
    · simp only [Option.some_bind, pure, Option.some.injEq] at h
      exact ⟨s1, rfl, rfl, h.symm⟩
  obtain ⟨s2, h2n, h2e, rfl⟩ := hk2
  obtain ⟨c1, c2⟩ := leaveFinalResult_counter mem s2
  have e1 : s2.m_game_info.event_num = st.m_game_info.event_num := by
    rw [h2n, hs1]
    exact hn
  have e2 : s2.m_event_state = st.m_event_state := by
    rw [h2e, hs1]
  rw [e1] at c1
  rw [e2] at c2
  exact ⟨c1, c2⟩

/-- In game the game state machine keeps the counter and the event state. -/
theorem gameStep_ingame_counter (H : Header) (mem : Snapshot) (s s' : StatTracker)
    (hg : s.m_game_state = GAME_STATE.INGAME) (h : gameStep H mem s = some s') :
    s'.m_game_info.event_num = s.m_game_info.event_num ∧
    s'.m_event_state = s.m_event_state := by
  unfold gameStep at h
  rw [hg] at h
  simp only [] at h
  split_ifs at h
  · unfold logEndOfGame at h
    have hn := logGameInfo_event_num mem s.m_game_info
    generalize logGameInfo mem s.m_game_info = X at h hn
    simp only [] at h
    split_ifs at h
    all_goals
      simp only [Option.some.injEq] at h
      subst h
      exact ⟨hn, rfl⟩
  · cases h
    exact ⟨rfl, rfl⟩

/-- C26, as amended: on a tick taken in game at `FINAL_RESULT` the event
counter grows by one for each of the two exit tests that holds (the control
state reading 1; the control state reading `0xE` or the end-of-game flag
reading 1), and the event state ends at `GAME_OVER` if the second test holds,
else at `START_AB` if the first holds, else stays `FINAL_RESULT`.  So the
counter is unchanged when the state stays, grows by one when exactly one test
holds, and grows by two when the control state reads 1 while the end-of-game
flag reads 1. -/
theorem final_result_tick_counter (H : Header) (mem : Snapshot) (st st' : StatTracker)
    (hg : st.m_game_state = GAME_STATE.INGAME)
    (hes : st.m_event_state = EVENT_STATE.FINAL_RESULT)
    (h : lookForTriggerEvents H mem st = some st') :
    st'.m_game_info.event_num =
      st.m_game_info.event_num +
        (if Read_U8 mem .aGameControlStateCurr = 0x1 then 1 else 0) +
        (if Read_U8 mem .aGameControlStateCurr = 0xE ∨ Read_U8 mem .aEndOfGameFlag = 1
         then 1 else 0) ∧
    st'.m_event_state =
      (if Read_U8 mem .aGameControlStateCurr = 0xE ∨ Read_U8 mem .aEndOfGameFlag = 1
       then EVENT_STATE.GAME_OVER
       else if Read_U8 mem .aGameControlStateCurr = 0x1 then EVENT_STATE.START_AB
       else EVENT_STATE.FINAL_RESULT) := by
  obtain ⟨s1, s2, h1, h2, h3⟩ := tick_ingame_split H mem st st' hg h
  obtain ⟨_, hg1, he1, _, hn1⟩ := logStateChanges_previous H mem st s1 h1
  unfold eventStep at h2
  rw [he1, hes] at h2
  simp only [] at h2
  obtain ⟨c1, c2⟩ := stepFinalResult_counter H mem s1 s2 h2
  obtain ⟨_, _, _, _, _, _, _, _, _, _, hg2⟩ := stepFinalResult_shape H mem s1 s2 h2
  obtain ⟨d1, d2⟩ := gameStep_ingame_counter H mem s2 st' (by rw [hg2, hg1, hg]) h3
  rw [he1, hes] at c2
  rw [hn1] at c1
  exact ⟨d1.trans c1, d2.trans c2⟩

/-- Witness for C26 as amended: the sample finalization tick under three
readings: the control state at 0 (the state stays, the counter stays at 0), at
1 (to `START_AB`, counter 1) and at `0xE` (to `GAME_OVER`, counter 1). -/
theorem final_result_tick_counter_witness :
    ((lookForTriggerEvents sampleHeader playDeadSnapshot
        (trackerAt EVENT_STATE.FINAL_RESULT forcedOutEvent)).map fun s =>
      (s.m_event_state, s.m_game_info.event_num)) = some (EVENT_STATE.FINAL_RESULT, 0) ∧
    ((lookForTriggerEvents sampleHeader atBatSceneSnapshot
        (trackerAt EVENT_STATE.FINAL_RESULT forcedOutEvent)).map fun s =>
      (s.m_event_state, s.m_game_info.event_num)) = some (EVENT_STATE.START_AB, 1) ∧
    ∃ st', lookForTriggerEvents sampleHeader gameEndSnapshot
        (trackerAt EVENT_STATE.FINAL_RESULT forcedOutEvent) = some st' ∧
      st'.m_game_info.event_num = 1 ∧ st'.m_event_state = EVENT_STATE.GAME_OVER := by
  have hsome : (lookForTriggerEvents sampleHeader gameEndSnapshot
      (trackerAt EVENT_STATE.FINAL_RESULT forcedOutEvent)).isSome = true := by decide
  obtain ⟨st', hst'⟩ := Option.isSome_iff_exists.mp hsome
  obtain ⟨c1, c2⟩ := final_result_tick_counter sampleHeader gameEndSnapshot
    (trackerAt EVENT_STATE.FINAL_RESULT forcedOutEvent) st' rfl rfl hst'
  exact ⟨by decide, by decide, st', hst', c1, c2⟩

/-- C26, counterexample: the finalization tick reads the control state 1 and
the end-of-game flag 1.  Both exit tests hold: the tick leaves `FINAL_RESULT`
for `GAME_OVER` and the counter goes from 0 to 2. -/
theorem final_result_counter_jumps_by_two :
    (trackerAt EVENT_STATE.FINAL_RESULT forcedOutEvent).m_game_info.event_num = 0 ∧
    ((lookForTriggerEvents sampleHeader bothExitsSnapshot
        (trackerAt EVENT_STATE.FINAL_RESULT forcedOutEvent)).map fun s =>
      (s.m_event_state, s.m_game_info.event_num)) = some (EVENT_STATE.GAME_OVER, 2) :=
  ⟨by decide, by decide⟩

/-- The fielder polls of `LOG_FIELDER` when a collector is already recorded:
nothing is scanned and the event state is returned as it was. -/
theorem scanFielders_collected (H : Header) (mem : Snapshot) (locks : Fin 9 → Nat)
    (c : Contact) (f : Fielder) (es : EVENT_STATE) (hcol : c.collect_fielder = some f) :
    scanFielders H mem locks c es = (c, es) := by
  unfold scanFielders pollBobble
  simp [hcol]

/-- The fielder polls of `LOG_FIELDER` when no collector is recorded: the
holder scan is made, and finding a holder sets the state to MONITOR_RUNNERS. -/
theorem scanFielders_uncollected (H : Header) (mem : Snapshot) (locks : Fin 9 → Nat)
    (c : Contact) (es : EVENT_STATE) (hcol : c.collect_fielder = none) :
    (scanFielders H mem locks c es).1.collect_fielder = logFielderWithBall H mem locks ∧
    (scanFielders H mem locks c es).2 =
      (if (logFielderWithBall H mem locks).isSome then EVENT_STATE.MONITOR_RUNNERS else es) := by
  unfold scanFielders pollBobble
  split_ifs <;> simp_all

/-- C24, what the code does: on a tick taken in game in `LOG_FIELDER` with the
pitch-thrown flag still set, the event state becomes `MONITOR_RUNNERS` only
when the holder scan of this very tick finds the collector.  When the Contact
already has a collecting fielder on entry (found by `logContactResult` for
contact-result codes 1 and 2) the scan is skipped: the tick ends with the
collector still recorded and the event state still `LOG_FIELDER`. -/
theorem log_fielder_skips_found_collector (H : Header) (mem : Snapshot) (st st' : StatTracker)
    (ev : Event) (p : Pitch) (c : Contact)
    (hg : st.m_game_state = GAME_STATE.INGAME)
    (hes : st.m_event_state = EVENT_STATE.LOG_FIELDER)
    (hcur : st.m_game_info.getCurrentEvent = some ev)
    (hp : ev.pitch = some p) (hc : p.contact = some c)
    (hpt : Read_U8 mem .aAB_PitchThrown ≠ 0)
    (h : lookForTriggerEvents H mem st = some st') :
    ∃ ev' p' c', st'.m_game_info.getCurrentEvent = some ev' ∧ ev'.pitch = some p' ∧
      p'.contact = some c' ∧
      (∀ f, c.collect_fielder = some f →
        c'.collect_fielder = some f ∧ st'.m_event_state = EVENT_STATE.LOG_FIELDER) ∧
      (c.collect_fielder = none →
        c'.collect_fielder = logFielderWithBall H mem ev.manual_select_locks ∧
        st'.m_event_state =
          (if c'.collect_fielder.isSome then EVENT_STATE.MONITOR_RUNNERS
           else EVENT_STATE.LOG_FIELDER)) := by
  obtain ⟨s1, s2, h1, h2, h3⟩ := tick_ingame_split H mem st st' hg h
  obtain ⟨hist, hcur1, hg1, hes1, _⟩ := logStateChanges_current_of H mem st s1 ev h1 hcur
  unfold eventStep at h2
  rw [hes1, hes] at h2
  simp only [] at h2
  unfold stepLogFielder at h2
  simp only [hcur1, hp, hc, Option.bind_eq_bind, Option.some_bind, if_neg hpt, pure,
    Option.some.injEq] at h2
  have hes1' : s1.m_event_state = EVENT_STATE.LOG_FIELDER := hes1.trans hes
  cases hcol : c.collect_fielder with
  | some f =>
    rw [scanFielders_collected H mem _ c f _ hcol] at h2
    subst h2
    have h3' := gameStep_ingame_noop H mem _
      (show ({ s1 with
               m_game_info := s1.m_game_info.setCurrentEvent
                 { ev with history := hist, pitch := some { p with contact := some c } }
               m_event_state := s1.m_event_state } : StatTracker).m_game_state =
          GAME_STATE.INGAME from hg1.trans hg)
      (show ({ s1 with
               m_game_info := s1.m_game_info.setCurrentEvent
                 { ev with history := hist, pitch := some { p with contact := some c } }
               m_event_state := s1.m_event_state } : StatTracker).m_event_state ≠
          EVENT_STATE.GAME_OVER from by rw [hes1']; decide)
    rw [h3'] at h3
    simp only [Option.some.injEq] at h3
    subst h3
    refine ⟨_, _, c, getCurrentEvent_setCurrentEvent _ _, rfl, rfl, ?_, ?_⟩
    · intro f' hf'
      cases hf'
      exact ⟨hcol, hes1'⟩
    · intro hx
      cases hx
  | none =>
    obtain ⟨hsc1, hsc2⟩ := scanFielders_uncollected H mem ev.manual_select_locks c
      s1.m_event_state hcol
    generalize scanFielders H mem _ c s1.m_event_state = sc at h2 hsc1 hsc2
    subst h2
    have hne : sc.2 ≠ EVENT_STATE.GAME_OVER := by
      rw [hsc2, hes1']
      split_ifs <;> decide
    have h3' := gameStep_ingame_noop H mem _
      (show ({ s1 with
               m_game_info := s1.m_game_info.setCurrentEvent
                 { ev with history := hist, pitch := some { p with contact := some sc.1 } }
               m_event_state := sc.2 } : StatTracker).m_game_state =
          GAME_STATE.INGAME from hg1.trans hg)
      (show ({ s1 with
               m_game_info := s1.m_game_info.setCurrentEvent
                 { ev with history := hist, pitch := some { p with contact := some sc.1 } }
               m_event_state := sc.2 } : StatTracker).m_event_state ≠
          EVENT_STATE.GAME_OVER from hne)
    rw [h3'] at h3
    simp only [Option.some.injEq] at h3
    subst h3
    refine ⟨_, _, sc.1, getCurrentEvent_setCurrentEvent _ _, rfl, rfl, ?_, ?_⟩
    · intro f' hf'
      cases hf'
    · intro _
      refine ⟨hsc1, ?_⟩
      show sc.2 = _
      rw [hsc2, hsc1, hes1']

/-- Witness for C24: a tick in `LOG_FIELDER` on the sample event whose contact
already has its collector; and two at-bats from `CONTACT_RESULT`: one whose
classification tick (code 1) finds the holder, after which three more ticks
with the pitch-thrown flag set all end in `LOG_FIELDER`, and one whose
classification finds nobody and whose `LOG_FIELDER` scan finds the holder,
ending in `MONITOR_RUNNERS`. -/
theorem log_fielder_skips_found_collector_witness :
    (∃ st' ev' p' c',
      lookForTriggerEvents sampleHeader pitchThrownSnapshot
        (trackerAt EVENT_STATE.LOG_FIELDER forcedOutEvent) = some st' ∧
      st'.m_game_info.getCurrentEvent = some ev' ∧ ev'.pitch = some p' ∧
      p'.contact = some c' ∧ c'.collect_fielder = some sampleCollector ∧
      st'.m_event_state = EVENT_STATE.LOG_FIELDER) ∧
    (runTicks sampleHeader (trackerAt EVENT_STATE.CONTACT_RESULT contactEvent)
        [fieldedFairSnapshot]).map collectorView =
      some (EVENT_STATE.LOG_FIELDER, some (some 4)) ∧
    (runTicks sampleHeader (trackerAt EVENT_STATE.CONTACT_RESULT contactEvent)
        [fieldedFairSnapshot, fieldedFairSnapshot, pitchThrownSnapshot,
         pitchThrownSnapshot]).map collectorView =
      some (EVENT_STATE.LOG_FIELDER, some (some 4)) ∧
    (runTicks sampleHeader (trackerAt EVENT_STATE.CONTACT_RESULT contactEvent)
        [landedFairSnapshot, fieldedFairSnapshot]).map collectorView =
      some (EVENT_STATE.MONITOR_RUNNERS, some (some 4)) := by
  have hsome : (lookForTriggerEvents sampleHeader pitchThrownSnapshot
      (trackerAt EVENT_STATE.LOG_FIELDER forcedOutEvent)).isSome = true := by decide
  obtain ⟨st', hst'⟩ := Option.isSome_iff_exists.mp hsome
  obtain ⟨ev', p', c', h1, h2, h3, h4, _⟩ :=
    log_fielder_skips_found_collector sampleHeader pitchThrownSnapshot
      (trackerAt EVENT_STATE.LOG_FIELDER forcedOutEvent) st' forcedOutEvent
      { zeroPitch with contact := some collectedContact } collectedContact rfl rfl rfl rfl rfl
      (by decide) hst'
  exact ⟨⟨st', ev', p', c', hst', h1, h2, h3, (h4 sampleCollector rfl).1,
    (h4 sampleCollector rfl).2⟩, by decide, by decide, by decide⟩

/-! ## The start of a game and of an at-bat -/

/-- C21: from game state PREGAME the at-bat machine is not stepped: the tick is
the logging block followed by the game machine.  A tick that completes ends in
INGAME if and only if the game identifier read is nonzero, recording is
enabled and the current control-state byte reads `0x5`; it then has stored the
identifier read and the session's ranked, netplay, host and alias settings in
the record; otherwise the game state is still PREGAME.  The event state, the
trackers and the outputs are as before either way, and with no current event
the tick does complete. -/
theorem pregame_tick_starts_game (H : Header) (mem : Snapshot) (st : StatTracker)
    (hg : st.m_game_state = GAME_STATE.PREGAME) :
    lookForTriggerEvents H mem st = (logStateChanges H mem st).bind (gameStep H mem) ∧
    (∀ st', lookForTriggerEvents H mem st = some st' →
      (st'.m_game_state = GAME_STATE.INGAME ↔
        (Read_U32 mem .aGameId ≠ 0 ∧ st.mTrackerInfo.mRecord = true ∧
          Read_U8 mem .aGameControlStateCurr = 0x5)) ∧
      (st'.m_game_state = GAME_STATE.INGAME ∨ st'.m_game_state = GAME_STATE.PREGAME) ∧
      (st'.m_game_state = GAME_STATE.INGAME →
        st'.m_game_info.game_id = Read_U32 mem .aGameId ∧
        st'.m_game_info.ranked = st.m_state.m_ranked_status ∧
        st'.m_game_info.netplay = st.m_state.m_netplay_session ∧
        st'.m_game_info.host = st.m_state.m_is_host ∧
        st'.m_game_info.netplay_opponent_alias = st.m_state.m_netplay_opponent_alias) ∧
      st'.m_event_state = st.m_event_state ∧
      st'.m_fielder_tracker = st.m_fielder_tracker ∧ st'.written = st.written) ∧
    (st.m_game_info.getCurrentEvent = none → ∃ st', lookForTriggerEvents H mem st = some st') := by
  have htick : lookForTriggerEvents H mem st =
      (logStateChanges H mem st).bind (gameStep H mem) := by
    unfold lookForTriggerEvents
    cases h1 : logStateChanges H mem st with
    | none => rfl
    | some s1 =>
      obtain ⟨_, hg1, _⟩ := logStateChanges_previous H mem st s1 h1
      have hne : ¬ s1.m_game_state = GAME_STATE.INGAME := by
        rw [hg1, hg]
        decide
      simp only [Option.bind_eq_bind, Option.some_bind, if_neg hne]
  refine ⟨htick, ?_, ?_⟩
  · intro st' h
    rw [htick] at h
    simp only [Option.bind_eq_some] at h
    obtain ⟨s1, h1, h3⟩ := h
    obtain ⟨gp, ep, evs, rfl, _⟩ := logStateChanges_shape H mem st s1 h1
    unfold gameStep at h3
    simp only [hg] at h3
    split_ifs at h3 with hc
    · simp only [Option.some.injEq] at h3
      subst h3
      exact ⟨⟨fun _ => hc, fun _ => rfl⟩, Or.inl rfl, fun _ => ⟨rfl, rfl, rfl, rfl, rfl⟩,
        rfl, rfl, rfl⟩
    · simp only [Option.some.injEq] at h3
      subst h3
      exact ⟨⟨fun hx => absurd (show GAME_STATE.PREGAME = GAME_STATE.INGAME from hx) (by decide),
          fun hx => absurd hx hc⟩, Or.inr rfl,
        fun hx => absurd (show GAME_STATE.PREGAME = GAME_STATE.INGAME from hx) (by decide),
        rfl, rfl, rfl⟩
  · intro hcur
    obtain ⟨s1, h1, hg1, _⟩ := logStateChanges_no_current H mem st hcur
    rw [htick, h1]
    simp only [Option.some_bind]
    unfold gameStep
    rw [hg1, hg]
    simp only []
    split_ifs
    · exact ⟨_, rfl⟩
    · exact ⟨_, rfl⟩

/-- Witness for C21: the fresh sample tracker, recording on, on the
match-start snapshot (the tick fires) and on the all-zero snapshot (it does
not). -/
theorem pregame_tick_starts_game_witness :
    (∃ st', lookForTriggerEvents sampleHeader matchStartSnapshot sampleTracker = some st' ∧
      st'.m_game_state = GAME_STATE.INGAME ∧ st'.m_game_info.game_id = 1 ∧
      st'.m_event_state = EVENT_STATE.START_AB) ∧
    (∃ st', lookForTriggerEvents sampleHeader zeroSnapshot sampleTracker = some st' ∧
      st'.m_game_state = GAME_STATE.PREGAME) := by
  obtain ⟨_, hall, hex⟩ := pregame_tick_starts_game sampleHeader matchStartSnapshot sampleTracker rfl
  obtain ⟨st', hst'⟩ := hex rfl
  obtain ⟨hiff, _, hrec, hes, _, _⟩ := hall st' hst'
  have hin : st'.m_game_state = GAME_STATE.INGAME := hiff.mpr (by decide)
  obtain ⟨_, hall0, hex0⟩ := pregame_tick_starts_game sampleHeader zeroSnapshot sampleTracker rfl
  obtain ⟨st0, hst0⟩ := hex0 rfl
  obtain ⟨hiff0, hor0, _⟩ := hall0 st0 hst0
  refine ⟨⟨st', hst', hin, (hrec hin).1, hes⟩, ⟨st0, hst0, ?_⟩⟩
  rcases hor0 with hx | hx
  · exact absurd (hiff0.mp hx) (by decide)
  · exact hx

/-- A key that is found is one of the keys of the map. -/
theorem mem_keys_of_mapFind {α : Type} (k : Nat) (v : α) :
    ∀ m : List (Nat × α), mapFind k m = some v → k ∈ mapKeys m := by
  intro m
  induction m with
  | nil =>
    intro h
    simp [mapFind] at h
  | cons kv rest ih =>
    obtain ⟨k', w⟩ := kv
    intro h
    unfold mapFind at h
    by_cases hk : k' = k
    · subst hk
      simp [mapKeys]
    · rw [if_neg hk] at h
      have := ih h
      simp only [mapKeys, List.map_cons, List.mem_cons] at this ⊢
      exact Or.inr this

/-- In `START_AB` a tracker whose keys all lie below the next key to assign has
no Event stored under the counter. -/
theorem keysInvariant_start_ab_no_current (st : StatTracker) (hk : KeysInvariant st)
    (hes : st.m_event_state = EVENT_STATE.START_AB) :
    st.m_game_info.getCurrentEvent = none := by
  cases hcur : st.m_game_info.getCurrentEvent with
  | none => rfl
  | some ev =>
    exfalso
    have hmem := mem_keys_of_mapFind _ ev _ hcur
    have hlt := hk.2 _ hmem
    unfold nextKeyBound at hlt
    rw [if_pos (Or.inr (Or.inl hes))] at hlt
    exact Nat.lt_irrefl _ hlt

/-- The Event `createEvent` stores: it goes under the counter, carries the
counter as its own `event_num` and the inning read, and the counter is kept. -/
theorem createEvent_spec (H : Header) (mem : Snapshot) (gi : GameInfo) :
    ∃ ev, (createEvent H mem gi).events = mapAssign gi.event_num ev gi.events ∧
      ev.event_num = gi.event_num ∧ ev.inning = Read_U8 mem .aAB_Inning ∧
      (createEvent H mem gi).event_num = gi.event_num := by
  unfold createEvent
  simp only [GameInfo.setCurrentEvent, logGameInfo_events, logGameInfo_event_num,
    mapAssign_mapAssign]
  exact ⟨_, rfl, rfl, rfl, trivial⟩

/-- C30: a tick taken in game in `START_AB`, with no Event stored under the
counter yet, completes.  When the current control-state byte reads 1 and the
previous one does not, it stores a new Event under the key equal to the event
counter, the Event's own `event_num` being that key, leaves every other entry
and the counter as they were, and ends in `WAITING_FOR_EVENT`; on any other
reading the event state is still `START_AB` and the events map is unchanged.
So the tick ends in `WAITING_FOR_EVENT` exactly on that edge. -/
theorem start_ab_tick_creates_event (H : Header) (mem : Snapshot) (st : StatTracker)
    (hg : st.m_game_state = GAME_STATE.INGAME)
    (hes : st.m_event_state = EVENT_STATE.START_AB)
    (hcur : st.m_game_info.getCurrentEvent = none) :
    ∃ st', lookForTriggerEvents H mem st = some st' ∧
      (st'.m_event_state = EVENT_STATE.WAITING_FOR_EVENT ↔
        (Read_U8 mem .aGameControlStateCurr = 0x1 ∧ Read_U8 mem .aGameControlStatePrev ≠ 0x1)) ∧
      ((Read_U8 mem .aGameControlStateCurr = 0x1 ∧ Read_U8 mem .aGameControlStatePrev ≠ 0x1) →
        st'.m_game_info.event_num = st.m_game_info.event_num ∧
        ∃ ev, st'.m_game_info.events =
            mapAssign st.m_game_info.event_num ev st.m_game_info.events ∧
          mapFind st.m_game_info.event_num st'.m_game_info.events = some ev ∧
          ev.event_num = st.m_game_info.event_num ∧
          ∀ k, k ≠ st.m_game_info.event_num →
            mapFind k st'.m_game_info.events = mapFind k st.m_game_info.events) ∧
      (¬ (Read_U8 mem .aGameControlStateCurr = 0x1 ∧ Read_U8 mem .aGameControlStatePrev ≠ 0x1) →
        st'.m_event_state = EVENT_STATE.START_AB ∧
        st'.m_game_info.events = st.m_game_info.events) := by
  obtain ⟨s1, h1, hg1, hes1, hgi1, _⟩ := logStateChanges_no_current H mem st hcur
  have hg1' : s1.m_game_state = GAME_STATE.INGAME := hg1.trans hg
  have hes1' : s1.m_event_state = EVENT_STATE.START_AB := hes1.trans hes
  have htick : lookForTriggerEvents H mem st =
      (stepStartAB H mem s1).bind (gameStep H mem) := by
    unfold lookForTriggerEvents
    rw [h1]
    simp only [Option.bind_eq_bind, Option.some_bind, if_pos hg1']
    unfold eventStep
    rw [hes1']
  rw [htick]
  unfold stepStartAB
  by_cases hedge : Read_U8 mem .aGameControlStateCurr = 0x1 ∧
      Read_U8 mem .aGameControlStatePrev ≠ 0x1
  · rw [if_pos hedge]
    simp only [Option.some_bind]
    refine ⟨_, gameStep_ingame_noop H mem _ hg1'
        (fun hx => absurd (show EVENT_STATE.WAITING_FOR_EVENT = EVENT_STATE.GAME_OVER from hx)
          (by decide)),
      ⟨fun _ => hedge, fun _ => rfl⟩, fun _ => ?_, fun hn => absurd hedge hn⟩
    simp only []
    have hinit : (if s1.m_game_info.event_num = 0 then initPlayerInfo H mem s1.m_game_info
          else s1.m_game_info).events = st.m_game_info.events ∧
        (if s1.m_game_info.event_num = 0 then initPlayerInfo H mem s1.m_game_info
          else s1.m_game_info).event_num = st.m_game_info.event_num := by
      split_ifs
      · obtain ⟨a, b⟩ := initPlayerInfo_events H mem s1.m_game_info
        rw [a, b, hgi1]
        exact ⟨rfl, rfl⟩
      · rw [hgi1]
        exact ⟨rfl, rfl⟩
    generalize (if s1.m_game_info.event_num = 0 then initPlayerInfo H mem s1.m_game_info
          else s1.m_game_info) = gi at hinit
    obtain ⟨ev, he, hnum, _, hcount⟩ := createEvent_spec H mem gi
    rw [hinit.1, hinit.2] at he
    rw [hinit.2] at hnum hcount
    refine ⟨hcount, ev, he, ?_, hnum, ?_⟩
    · rw [he]
      exact mapFind_mapAssign _ _ _
    · intro k hk
      rw [he]
      exact mapFind_mapAssign_ne k _ ev hk _
  · rw [if_neg hedge]
    simp only [Option.some_bind]
    rw [gameStep_ingame_noop H mem s1 hg1' (by rw [hes1']; decide)]
    refine ⟨s1, rfl, ⟨fun hx => ?_, fun hx => absurd hx hedge⟩, fun hx => absurd hx hedge,
      fun _ => ⟨hes1', by rw [hgi1]⟩⟩
    rw [hes1'] at hx
    cases hx

/-- Witness for C30: the sample tracker in game in `START_AB` with an empty
events map, on the at-bat-scene snapshot (the Event is created under key 0) and
on the all-zero snapshot (nothing changes). -/
theorem start_ab_tick_creates_event_witness :
    (∃ st' ev, lookForTriggerEvents sampleHeader atBatSceneSnapshot
        { sampleTracker with m_game_state := GAME_STATE.INGAME } = some st' ∧
      st'.m_event_state = EVENT_STATE.WAITING_FOR_EVENT ∧
      mapFind 0 st'.m_game_info.events = some ev ∧ ev.event_num = 0) ∧
    (∃ st', lookForTriggerEvents sampleHeader zeroSnapshot
        { sampleTracker with m_game_state := GAME_STATE.INGAME } = some st' ∧
      st'.m_event_state = EVENT_STATE.START_AB ∧ st'.m_game_info.events = []) := by
  obtain ⟨st', hst', hiff, hnew, _⟩ := start_ab_tick_creates_event sampleHeader atBatSceneSnapshot
    { sampleTracker with m_game_state := GAME_STATE.INGAME } rfl rfl rfl
  obtain ⟨_, ev, _, hfind, hnum, _⟩ := hnew (by decide)
  obtain ⟨st0, hst0, _, _, hsame⟩ := start_ab_tick_creates_event sampleHeader zeroSnapshot
    { sampleTracker with m_game_state := GAME_STATE.INGAME } rfl rfl rfl
  exact ⟨⟨st', ev, hst', hiff.mpr (by decide), hfind, hnum⟩,
    ⟨st0, hst0, (hsame (by decide)).1, (hsame (by decide)).2⟩⟩

/-! ## The ports of the two sides -/

theorem logGameInfo_ports (mem : Snapshot) (gi : GameInfo) :
    portsOf (logGameInfo mem gi) = portsOf gi := by
  obtain ⟨cs, h⟩ := logGameInfo_fields mem gi
  rw [h]
  rfl

theorem readPlayerNames_ports (H : Header) (gi : GameInfo) (local_game : Bool) :
    portsOf (readPlayerNames H gi local_game) = portsOf gi := by
  cases local_game <;> rfl

/-- The port block of `initPlayerInfo` when both team ports are unset. -/
theorem initPlayerInfo_ports_unset (H : Header) (mem : Snapshot) (gi : GameInfo)
    (h : gi.team0_port = 0xFF ∧ gi.team1_port = 0xFF) :
    portsOf (initPlayerInfo H mem gi) =
      (min (Read_U8 mem .aAB_FieldingPort) (Read_U8 mem .aAB_BattingPort),
       max (Read_U8 mem .aAB_FieldingPort) (Read_U8 mem .aAB_BattingPort),
       Read_U8 mem .aAB_BattingPort, Read_U8 mem .aAB_FieldingPort) := by
  have hmin : ∀ a b : Nat, a < b → min a b = a ∧ max a b = b := by
    intro a b hab
    exact ⟨Nat.min_eq_left (Nat.le_of_lt hab), Nat.max_eq_right (Nat.le_of_lt hab)⟩
  have hmax : ∀ a b : Nat, ¬ a < b → min a b = b ∧ max a b = a := by
    intro a b hab
    exact ⟨Nat.min_eq_right (Nat.not_lt.mp hab), Nat.max_eq_left (Nat.not_lt.mp hab)⟩
  unfold initPlayerInfo
  simp only [h, and_self, if_true]
  by_cases hlt : Read_U8 mem .aAB_FieldingPort < Read_U8 mem .aAB_BattingPort
  · simp only [if_pos hlt, (hmin _ _ hlt).1, (hmin _ _ hlt).2]
    split_ifs <;> exact readPlayerNames_ports H _ _
  · simp only [if_neg hlt, (hmax _ _ hlt).1, (hmax _ _ hlt).2]
    split_ifs <;> exact readPlayerNames_ports H _ _

/-- The function `initPlayerInfo` keeps the four ports once the team ports are set. -/
theorem initPlayerInfo_ports_set (H : Header) (mem : Snapshot) (gi : GameInfo)
    (h : ¬ (gi.team0_port = 0xFF ∧ gi.team1_port = 0xFF)) :
    portsOf (initPlayerInfo H mem gi) = portsOf gi := by
  unfold initPlayerInfo
  simp only [h, if_false]
  split_ifs <;> rfl

theorem createEvent_ports (H : Header) (mem : Snapshot) (gi : GameInfo) :
    portsOf (createEvent H mem gi) = portsOf gi := by
  have h : ∀ (g : GameInfo) (ev : Event),
      portsOf ((logGameInfo mem g).setCurrentEvent ev) = portsOf g := by
    intro g ev
    have hg := logGameInfo_ports mem g
    generalize logGameInfo mem g = X at hg ⊢
    exact hg
  unfold createEvent
  exact h _ _

theorem stepStartAB_ports (H : Header) (mem : Snapshot) (st st' : StatTracker)
    (hset : ¬ (st.m_game_info.team0_port = 0xFF ∧ st.m_game_info.team1_port = 0xFF))
    (h : stepStartAB H mem st = some st') :
    portsOf st'.m_game_info = portsOf st.m_game_info := by
  unfold stepStartAB at h
  split_ifs at h
  · simp only [Option.some.injEq] at h
    subst h
    simp only [createEvent_ports]
    split_ifs
    · exact initPlayerInfo_ports_set H mem _ hset
    · rfl
  · cases h
    rfl

theorem stepQuit_ports (H : Header) (mem : Snapshot) (st st' : StatTracker)
    (h : stepQuit H mem st = some st') :
    portsOf st'.m_game_info = portsOf st.m_game_info := by
  unfold stepQuit at h
  simp only [Option.bind_eq_bind, Option.bind_eq_some, pure, Option.some.injEq] at h
  obtain ⟨s, hs, _, _, rfl⟩ := h
  unfold onGameQuit at hs
  simp only [] at hs
  have hp : portsOf (quitRecord mem st.m_game_info) = portsOf st.m_game_info := by
    unfold quitRecord
    simp only []
    rw [logGameInfo_ports]
    rfl
  generalize quitRecord mem st.m_game_info = X at hs hp
  split_ifs at hs
  simp only [Option.some.injEq] at hs
  subst hs
  exact hp

theorem stepWaitingForEvent_ports (H : Header) (mem : Snapshot) (st st' : StatTracker)
    (h : stepWaitingForEvent H mem st = some st') :
    portsOf st'.m_game_info = portsOf st.m_game_info := by
  unfold stepWaitingForEvent at h
  by_cases hid : Read_U32 mem .aGameId = 0
  · rw [if_pos hid] at h
    exact stepQuit_ports H mem st st' h
  · rw [if_neg hid] at h
    by_cases hany : Read_U8 mem .aAB_PitchThrown ≠ 0 ∨ Read_U8 mem .aAB_PickoffAttempt ≠ 0
    · rw [if_pos hany] at h
      simp only [Option.bind_eq_bind, Option.bind_eq_some, logGameInfo_getCurrentEvent] at h
      obtain ⟨ev, hev, s1, hw, h⟩ := h
      have hX := logGameInfo_ports mem st.m_game_info
      generalize logGameInfo mem st.m_game_info = X at hw hX
      have hs1 := writeHUD_info H _ s1 _ _ hw
      subst hs1
      split_ifs at h
      all_goals
        simp only [pure, Option.some.injEq] at h
        subst h
        exact hX
    · rw [if_neg hany] at h
      cases h
      rfl

theorem stepPitchResult_ports (H : Header) (mem : Snapshot) (st st' : StatTracker)
    (h : stepPitchResult H mem st = some st') :
    portsOf st'.m_game_info = portsOf st.m_game_info := by
  unfold stepPitchResult at h
  simp only [Option.bind_eq_bind, Option.bind_eq_some] at h
  obtain ⟨ev, hev, p, hp, h⟩ := h
  generalize monitorPitch H mem ev p = ev1 at h
  split_ifs at h
  all_goals
    simp only [Option.bind_eq_some, pure, Option.some.injEq] at h
    obtain ⟨e2, he2, e3, he3, rfl⟩ := h
    rfl

theorem stepContactResult_ports (H : Header) (mem : Snapshot) (st st' : StatTracker)
    (h : stepContactResult H mem st = some st') :
    portsOf st'.m_game_info = portsOf st.m_game_info := by
  unfold stepContactResult at h
  simp only [Option.bind_eq_bind, Option.bind_eq_some] at h
  obtain ⟨ev, hev, p, hp, h⟩ := h
  by_cases hc : Read_U8 mem .aAB_ContactResult ≠ 0
  · rw [if_pos hc] at h
    simp only [Option.bind_eq_some, pure, Option.some.injEq] at h
    obtain ⟨c, _, ⟨c', es, trk⟩, hres, rfl⟩ := h
    rfl
  · rw [if_neg hc] at h
    simp only [Option.bind_eq_some, pure, Option.some.injEq] at h
    obtain ⟨c, _, rfl⟩ := h
    rfl

theorem stepLogFielder_ports (H : Header) (mem : Snapshot) (st st' : StatTracker)
    (h : stepLogFielder H mem st = some st') :
    portsOf st'.m_game_info = portsOf st.m_game_info := by
  unfold stepLogFielder at h
  simp only [Option.bind_eq_bind, Option.bind_eq_some] at h
  obtain ⟨ev, hev, p, hp, c, _, h⟩ := h
  generalize scanFielders H mem ev.manual_select_locks c st.m_event_state = sc at h
  split_ifs at h
  all_goals
    simp only [pure, Option.some.injEq] at h
    subst h
    rfl

theorem stepMonitorRunners_ports (mem : Snapshot) (st st' : StatTracker)
    (h : stepMonitorRunners mem st = some st') :
    portsOf st'.m_game_info = portsOf st.m_game_info := by
  unfold stepMonitorRunners at h
  simp only [Option.bind_eq_bind, Option.bind_eq_some] at h
  obtain ⟨ev, hev, h⟩ := h
  split_ifs at h
  · simp only [pure, Option.some.injEq] at h
    subst h
    rfl
  · simp only [Option.bind_eq_some, pure, Option.some.injEq] at h
    obtain ⟨rb, hrb, rfl⟩ := h
    rfl

theorem stepPlayOver_ports (mem : Snapshot) (st st' : StatTracker)
    (h : stepPlayOver mem st = some st') :
    portsOf st'.m_game_info = portsOf st.m_game_info := by
  unfold stepPlayOver at h
  split_ifs at h
  · simp only [Option.bind_eq_bind, Option.bind_eq_some, pure, Option.some.injEq] at h
    obtain ⟨ev, hev, rfl⟩ := h
    rfl
  · cases h
    rfl

theorem flushInning_ports (H : Header) (mem : Snapshot) (st st' : StatTracker)
    (h : flushInning H mem st = some st') :
    portsOf st'.m_game_info = portsOf st.m_game_info := by
  unfold flushInning at h
  simp only [] at h
  have hp := logGameInfo_ports mem { st.m_game_info with partial_game := 1 }
  generalize logGameInfo mem { st.m_game_info with partial_game := 1 } = X at h hp
  split_ifs at h
  simp only [Option.some.injEq] at h
  subst h
  exact hp

theorem leaveFinalResult_ports (mem : Snapshot) (st : StatTracker) :
    portsOf (leaveFinalResult mem st).m_game_info = portsOf st.m_game_info := by
  unfold leaveFinalResult
  simp only []
  split_ifs <;> rfl

theorem stepFinalResult_ports (H : Header) (mem : Snapshot) (st st' : StatTracker)
    (h : stepFinalResult H mem st = some st') :
    portsOf st'.m_game_info = portsOf st.m_game_info := by
  unfold stepFinalResult at h
  simp only [Option.bind_eq_bind, Option.bind_eq_some] at h
  obtain ⟨ev, _, p, _, ⟨ev1, trk1⟩, _, s1, hw, h⟩ := h
  have hX := logGameInfo_ports mem (st.m_game_info.setCurrentEvent ev1)
  generalize logGameInfo mem (st.m_game_info.setCurrentEvent ev1) = X at hw hX
  have hs1 := writeHUD_info H _ s1 _ _ hw
  have hk2 : ∃ s2, portsOf s2.m_game_info = portsOf s1.m_game_info ∧
      st' = leaveFinalResult mem s2 := by
    split_ifs at h
    · simp only [Option.bind_eq_some, pure, Option.some.injEq] at h
      obtain ⟨s2, hfl, rfl⟩ := h
      exact ⟨s2, flushInning_ports H mem s1 s2 hfl, rfl⟩
    · simp only [Option.some_bind, pure, Option.some.injEq] at h
      exact ⟨s1, rfl, h.symm⟩
  obtain ⟨s2, h2, rfl⟩ := hk2
  rw [leaveFinalResult_ports, h2, hs1]
  exact hX

theorem eventStep_ports (H : Header) (mem : Snapshot) (s s' : StatTracker)
    (hset : ¬ (s.m_game_info.team0_port = 0xFF ∧ s.m_game_info.team1_port = 0xFF))
    (h : eventStep H mem s = some s') :
    portsOf s'.m_game_info = portsOf s.m_game_info := by
  unfold eventStep at h
  cases hes : s.m_event_state with
  | START_AB =>
    rw [hes] at h
    exact stepStartAB_ports H mem s s' hset h
  | WAITING_FOR_EVENT =>
    rw [hes] at h
    exact stepWaitingForEvent_ports H mem s s' h
  | PITCH_RESULT =>
    rw [hes] at h
    exact stepPitchResult_ports H mem s s' h
  | CONTACT_RESULT =>
    rw [hes] at h
    exact stepContactResult_ports H mem s s' h
  | LOG_FIELDER =>
    rw [hes] at h
    exact stepLogFielder_ports H mem s s' h
  | MONITOR_RUNNERS =>
    rw [hes] at h
    exact stepMonitorRunners_ports mem s s' h
  | PLAY_OVER =>
    rw [hes] at h
    exact stepPlayOver_ports mem s s' h
  | FINAL_RESULT =>
    rw [hes] at h
    exact stepFinalResult_ports H mem s s' h
  | GAME_OVER =>
    rw [hes] at h
    cases h
    rfl
  | UNDEFINED =>
    rw [hes] at h
    cases h
    rfl

/-- The game machine keeps the ports unless it resets the tracker, which
leaves the game state at PREGAME. -/
theorem gameStep_ports (H : Header) (mem : Snapshot) (s s' : StatTracker)
    (h : gameStep H mem s = some s') :
    portsOf s'.m_game_info = portsOf s.m_game_info ∨
    (s.m_game_state = GAME_STATE.ENDGAME_LOGGED ∧ s'.m_game_state = GAME_STATE.PREGAME) := by
  unfold gameStep at h
  cases hgs : s.m_game_state with
  | PREGAME =>
    rw [hgs] at h
    simp only [] at h
    split_ifs at h <;> cases h <;> exact Or.inl rfl
  | INGAME =>
    rw [hgs] at h
    simp only [] at h
    split_ifs at h
    · unfold logEndOfGame at h
      have hp := logGameInfo_ports mem s.m_game_info
      generalize logGameInfo mem s.m_game_info = X at h hp
      simp only [] at h
      split_ifs at h
      all_goals
        simp only [Option.some.injEq] at h
        subst h
        exact Or.inl hp
    · cases h
      exact Or.inl rfl
  | ENDGAME_LOGGED =>
    rw [hgs] at h
    simp only [Option.some.injEq] at h
    subst h
    exact Or.inr ⟨rfl, rfl⟩
  | UNDEFINED =>
    rw [hgs] at h
    simp only [Option.some.injEq] at h
    subst h
    exact Or.inl rfl

/-- A tick taken in game with the team ports set keeps the four ports, unless
it ends the game by a quit and resets the tracker to PREGAME. -/
theorem tick_ports (H : Header) (mem : Snapshot) (st st' : StatTracker)
    (hg : st.m_game_state = GAME_STATE.INGAME)
    (hset : ¬ (st.m_game_info.team0_port = 0xFF ∧ st.m_game_info.team1_port = 0xFF))
    (h : lookForTriggerEvents H mem st = some st') :
    portsOf st'.m_game_info = portsOf st.m_game_info ∨ st'.m_game_state = GAME_STATE.PREGAME := by
  obtain ⟨s1, s2, h1, h2, h3⟩ := tick_ingame_split H mem st st' hg h
  have e1 : portsOf s1.m_game_info = portsOf st.m_game_info := by
    obtain ⟨gp, ep, evs, rfl, _⟩ := logStateChanges_shape H mem st s1 h1
    rfl
  have hset1 : ¬ (s1.m_game_info.team0_port = 0xFF ∧ s1.m_game_info.team1_port = 0xFF) := by
    have a : s1.m_game_info.team0_port = st.m_game_info.team0_port := congrArg (fun q => q.1) e1
    have b : s1.m_game_info.team1_port = st.m_game_info.team1_port :=
      congrArg (fun q => q.2.1) e1
    rw [a, b]
    exact hset
  have e2 := (eventStep_ports H mem s1 s2 hset1 h2).trans e1
  rcases gameStep_ports H mem s2 st' h3 with e3 | ⟨_, e3⟩
  · exact Or.inl (e3.trans e2)
  · exact Or.inr e3

/-- Over any run of ticks each starting in game, once the team ports are set
the four ports are what they were, as long as the run has not ended the game by
a quit (which resets the tracker to PREGAME). -/
theorem runWhile_ports (H : Header) (mems : List Snapshot) :
    ∀ st st', runWhile H inGame st mems = some st' →
      ¬ (st.m_game_info.team0_port = 0xFF ∧ st.m_game_info.team1_port = 0xFF) →
      st'.m_game_state = GAME_STATE.INGAME →
      portsOf st'.m_game_info = portsOf st.m_game_info := by
  induction mems with
  | nil =>
    intro st st' h _ _
    simp only [runWhile, Option.some.injEq] at h
    subst h
    rfl
  | cons mem rest ih =>
    intro st st' h hset hin
    unfold runWhile at h
    by_cases hp : inGame st = true
    · rw [if_pos hp] at h
      simp only [Option.bind_eq_some] at h
      obtain ⟨s, hs, hrest⟩ := h
      have hg : st.m_game_state = GAME_STATE.INGAME := by
        unfold inGame at hp
        simpa using hp
      have hsg : s.m_game_state = GAME_STATE.INGAME := by
        cases rest with
        | nil =>
          simp only [runWhile, Option.some.injEq] at hrest
          subst hrest
          exact hin
        | cons mem2 rest2 =>
          unfold runWhile at hrest
          by_cases hps : inGame s = true
          · unfold inGame at hps
            simpa using hps
          · rw [if_neg hps] at hrest
            cases hrest
      rcases tick_ports H mem st s hg hset hs with e | e
      · have hset' : ¬ (s.m_game_info.team0_port = 0xFF ∧ s.m_game_info.team1_port = 0xFF) := by
          have a : s.m_game_info.team0_port = st.m_game_info.team0_port :=
            congrArg (fun q => q.1) e
          have b : s.m_game_info.team1_port = st.m_game_info.team1_port :=
            congrArg (fun q => q.2.1) e
          rw [a, b]
          exact hset
        exact (ih s st' hrest hset' hin).trans e
      · rw [e] at hsg
        cases hsg
    · rw [if_neg hp] at h
      cases h

/-- C23: when both team ports are still `0xFF`, `initPlayerInfo` sets
`team0_port` to the smaller and `team1_port` to the larger of the fielding and
batting ports read, `away_port` to the batting port and `home_port` to the
fielding port; when they are not both `0xFF` it leaves the four ports as they
are; and since nothing else writes them, over any run of in-game ticks that
starts with the team ports set and has not quit the game, the four ports are
unchanged. -/
theorem initPlayerInfo_fixes_ports (H : Header) :
    (∀ (mem : Snapshot) (gi : GameInfo),
      gi.team0_port = 0xFF ∧ gi.team1_port = 0xFF →
      (initPlayerInfo H mem gi).team0_port =
        min (Read_U8 mem .aAB_FieldingPort) (Read_U8 mem .aAB_BattingPort) ∧
      (initPlayerInfo H mem gi).team1_port =
        max (Read_U8 mem .aAB_FieldingPort) (Read_U8 mem .aAB_BattingPort) ∧
      (initPlayerInfo H mem gi).away_port = Read_U8 mem .aAB_BattingPort ∧
      (initPlayerInfo H mem gi).home_port = Read_U8 mem .aAB_FieldingPort) ∧
    (∀ (mem : Snapshot) (gi : GameInfo),
      ¬ (gi.team0_port = 0xFF ∧ gi.team1_port = 0xFF) →
      (initPlayerInfo H mem gi).team0_port = gi.team0_port ∧
      (initPlayerInfo H mem gi).team1_port = gi.team1_port ∧
      (initPlayerInfo H mem gi).away_port = gi.away_port ∧
      (initPlayerInfo H mem gi).home_port = gi.home_port) ∧
    (∀ (mems : List Snapshot) (st st' : StatTracker),
      runWhile H inGame st mems = some st' →
      ¬ (st.m_game_info.team0_port = 0xFF ∧ st.m_game_info.team1_port = 0xFF) →
      st'.m_game_state = GAME_STATE.INGAME →
      st'.m_game_info.team0_port = st.m_game_info.team0_port ∧
      st'.m_game_info.team1_port = st.m_game_info.team1_port ∧
      st'.m_game_info.away_port = st.m_game_info.away_port ∧
      st'.m_game_info.home_port = st.m_game_info.home_port) := by
  have hsplit : ∀ (a b : GameInfo), portsOf a = portsOf b →
      a.team0_port = b.team0_port ∧ a.team1_port = b.team1_port ∧
      a.away_port = b.away_port ∧ a.home_port = b.home_port := by
    intro a b e
    exact ⟨congrArg (fun q => q.1) e, congrArg (fun q => q.2.1) e,
      congrArg (fun q => q.2.2.1) e, congrArg (fun q => q.2.2.2) e⟩
  refine ⟨?_, ?_, ?_⟩
  · intro mem gi h
    have e := initPlayerInfo_ports_unset H mem gi h
    exact ⟨congrArg (fun q => q.1) e, congrArg (fun q => q.2.1) e,
      congrArg (fun q => q.2.2.1) e, congrArg (fun q => q.2.2.2) e⟩
  · intro mem gi h
    exact hsplit _ _ (initPlayerInfo_ports_set H mem gi h)
  · intro mems st st' h hset hin
    exact hsplit _ _ (runWhile_ports H mems st st' h hset hin)

/-- Witness for C23: the fresh record on the first at-bat scene (fielding port
1, batting port 2), a record already paired on a scene with the sides changed,
and a run through one at-bat into the next. -/
theorem initPlayerInfo_fixes_ports_witness :
    portsOf (initPlayerInfo sampleHeader firstAtBatSnapshot (newGameInfo sampleHeader)) =
      (1, 2, 2, 1) ∧
    ((initPlayerInfo sampleHeader laterAtBatSnapshot pairedTracker.m_game_info).team0_port = 1 ∧
      (initPlayerInfo sampleHeader laterAtBatSnapshot pairedTracker.m_game_info).team1_port = 2 ∧
      (initPlayerInfo sampleHeader laterAtBatSnapshot pairedTracker.m_game_info).away_port = 2 ∧
      (initPlayerInfo sampleHeader laterAtBatSnapshot pairedTracker.m_game_info).home_port = 1) ∧
    ((runWhile sampleHeader inGame { sampleTracker with m_game_state := GAME_STATE.INGAME }
        sidesChangeTicks).map fun s => (s.m_game_info.event_num, portsOf s.m_game_info)) =
      some (1, (1, 2, 2, 1)) ∧
    ∃ st', runWhile sampleHeader inGame pairedTracker sidesChangeTicks = some st' ∧
      st'.m_game_info.team0_port = 1 ∧ st'.m_game_info.team1_port = 2 ∧
      st'.m_game_info.away_port = 2 ∧ st'.m_game_info.home_port = 1 := by
  have h1 := (initPlayerInfo_fixes_ports sampleHeader).1 firstAtBatSnapshot
    (newGameInfo sampleHeader) ⟨rfl, rfl⟩
  have h2 := (initPlayerInfo_fixes_ports sampleHeader).2.1 laterAtBatSnapshot
    pairedTracker.m_game_info (by decide)
  have hsome : (runWhile sampleHeader inGame pairedTracker sidesChangeTicks).isSome = true := by
    decide
  obtain ⟨st', hst'⟩ := Option.isSome_iff_exists.mp hsome
  have hin : ((runWhile sampleHeader inGame pairedTracker sidesChangeTicks).map fun s =>
      s.m_game_state) = some GAME_STATE.INGAME := by decide
  rw [hst'] at hin
  simp only [Option.map_some', Option.some.injEq] at hin
  have h3 := (initPlayerInfo_fixes_ports sampleHeader).2.2 sidesChangeTicks pairedTracker st'
    hst' (by decide) hin
  refine ⟨?_, h2, by decide, st', hst', h3⟩
  unfold portsOf
  rw [h1.1, h1.2.1, h1.2.2.1, h1.2.2.2]
  rfl

/-! ## The events of the full-game document -/

/-- A per-position block of `getStatJSON` whose labels exist is streamed. -/
theorem statPositionPieces_some (H : Header) (counts : Nat → Nat)
    (h : positionLabelsOk H counts = true) :
    ∃ ps, statPositionPieces H counts = some ps := by
  unfold statPositionPieces
  by_cases hany : anyPositionFrom counts 0 = true
  · rw [if_pos hany]
    unfold positionLabelsOk at h
    simp only [hany, Bool.not_true, Bool.false_or, List.all_eq_true, Bool.or_eq_true,
      Bool.not_eq_true', decide_eq_false_iff_not] at h
    obtain ⟨rows, hrows, _⟩ := collect_some_of_forall (fun _ => True)
      ((List.range cNumOfPositions).map fun pos =>
        if counts pos > 0 then
          (H.cPosition pos).map fun name =>
            [Piece.lit "            \"", Piece.str name, Piece.lit "\": ",
             Piece.str (toString (counts pos)),
             Piece.str (if anyPositionFrom counts (pos + 1) then "," else ""), Piece.lit "\n"]
        else some [])
      (by
        intro x hx
        obtain ⟨pos, hpos, rfl⟩ := List.mem_map.mp hx
        by_cases hc : counts pos > 0
        · rw [if_pos hc]
          rcases h pos hpos with hn | hs
          · exact absurd hc hn
          · obtain ⟨name, hname⟩ := Option.isSome_iff_exists.mp hs
            rw [hname]
            exact ⟨_, rfl, fun _ _ => trivial⟩
        · rw [if_neg hc]
          exact ⟨[], rfl, fun _ _ => trivial⟩)
    rw [hrows]
    exact ⟨_, rfl⟩
  · rw [if_neg hany]
    exact ⟨[], rfl⟩

/-- One pass of the character loop of `getStatJSON` whose labels exist is streamed. -/
theorem statCharacterPieces_some (H : Header) (gi : GameInfo) (trk : Trackers) (inDecode : Bool)
    (team roster : Nat)
    (h : rosterLabelsOk H (trk (if team = 0 then 1 else 0)) roster = true) :
    ∃ ps, statCharacterPieces H gi trk inDecode team roster = some ps := by
  unfold rosterLabelsOk at h
  simp only [Bool.and_eq_true] at h
  obtain ⟨⟨h1, h2⟩, h3⟩ := h
  obtain ⟨p1, hp1⟩ := statPositionPieces_some H _ h1
  obtain ⟨p2, hp2⟩ := statPositionPieces_some H _ h2
  obtain ⟨p3, hp3⟩ := statPositionPieces_some H _ h3
  unfold statCharacterPieces
  simp only [hp1, hp2, hp3, Option.bind_eq_bind, Option.some_bind, pure]
  exact ⟨_, rfl⟩

/-- The character loop of `getStatJSON` is streamed when every position label
exists. -/
theorem statCharactersPieces_some (H : Header) (gi : GameInfo) (trk : Trackers)
    (inDecode : Bool) (h : trackerLabelsOk H trk = true) :
    ∃ ps, statCharactersPieces H gi trk inDecode = some ps := by
  unfold trackerLabelsOk at h
  simp only [List.all_eq_true] at h
  unfold statCharactersPieces
  obtain ⟨ps, hps, _⟩ := collect_some_of_forall (fun _ => True)
    ((List.range cNumOfTeams).map fun team =>
      collect ((List.range cRosterSize).map fun roster =>
        statCharacterPieces H gi trk inDecode team roster))
    (by
      intro x hx
      obtain ⟨team, hteam, rfl⟩ := List.mem_map.mp hx
      apply collect_some_of_forall
      intro y hy
      obtain ⟨roster, hroster, rfl⟩ := List.mem_map.mp hy
      obtain ⟨q, hq⟩ := statCharacterPieces_some H gi trk inDecode team roster
        (h team hteam roster hroster)
      exact ⟨q, hq, fun _ _ => trivial⟩)
  exact ⟨ps, hps⟩

/-- The events loop streams one event object for every entry of the list whose
inning is nonzero, in the order of the list, and nothing else. -/
theorem statEventsPieces_objects (H : Header) (inDecode : Bool) :
    ∀ events : List (Nat × Event),
      ∃ objs : List (List Piece), statEventsPieces H inDecode events = objs.flatten ∧
        List.Forall₂ (fun obj kv => ∃ comma, obj = statEventPieces H inDecode kv.1 kv.2 comma)
          objs (events.filter fun kv => decide (kv.2.inning ≠ 0)) := by
  intro events
  induction events with
  | nil => exact ⟨[], rfl, List.Forall₂.nil⟩
  | cons kv rest ih =>
    obtain ⟨key, event⟩ := kv
    obtain ⟨objs, hflat, hall⟩ := ih
    unfold statEventsPieces
    by_cases h0 : event.inning = 0
    · rw [if_pos h0]
      refine ⟨objs, hflat, ?_⟩
      rw [List.filter_cons_of_neg (by simpa using h0)]
      exact hall
    · rw [if_neg h0]
      refine ⟨statEventPieces H inDecode key event (if !rest.isEmpty then "," else "") :: objs,
        by rw [List.flatten_cons, hflat], ?_⟩
      rw [List.filter_cons_of_pos (by simpa using h0)]
      exact List.Forall₂.cons ⟨_, rfl⟩ hall

/-- Every event object starts with its opening brace and the `Event Num`
field, whose value is the map key as held in a `u8`. -/
theorem statEventPieces_starts (H : Header) (inDecode : Bool) (key : Nat) (event : Event)
    (comma : String) :
    ∃ tail, statEventPieces H inDecode key event comma =
      eventOpening :: Piece.lit "      \"Event Num\": " ::
        Piece.str (toString (emittedEventNum key)) :: tail := by
  unfold statEventPieces statEventHeadPieces
  exact ⟨_, rfl⟩

/-- The keys of the entries that get an event object keep the order of the map. -/
theorem statEventEntries_keys_sorted (gi : GameInfo)
    (h : (mapKeys gi.events).Pairwise (· < ·)) :
    (mapKeys (statEventEntries gi)).Pairwise (· < ·) := by
  unfold statEventEntries mapKeys at *
  exact List.Pairwise.sublist (List.Sublist.map _ (List.filter_sublist _)) h

/-- C22: when `getStatJSON` returns (the stadium id is named in decoded mode
and the counted positions have labels), its document is the head, the character
entries, and an `Events` array made of event objects matched one to one, in
order, with the entries of the events map whose inning is nonzero: entries
with inning 0 get no object.  Each object opens with its brace and the
`Event Num` of its entry's key (as held in a `u8`), and with the map keys
strictly ascending, as in a `std::map`, the keys of the entries rendered are
strictly ascending too. -/
theorem getStatJSON_event_objects (H : Header) (gi : GameInfo) (trk : Trackers)
    (inDecode : Bool) (hc : getStatJSON_completes H gi trk inDecode = true) :
    ∃ (head characters : List Piece) (objs : List (List Piece)),
      statHeadPieces H gi inDecode = some head ∧
      statCharactersPieces H gi trk inDecode = some characters ∧
      getStatJSON H gi trk inDecode =
        some (head ++ characters ++ (text "  \x7d,\n" ++ text "  \"Events\": [\n") ++
          objs.flatten ++ (text "  ]\n" ++ text "\x7d\n")) ∧
      List.Forall₂
        (fun obj kv => ∃ comma tail,
          obj = statEventPieces H inDecode kv.1 kv.2 comma ∧
          obj = eventOpening :: Piece.lit "      \"Event Num\": " ::
            Piece.str (toString (emittedEventNum kv.1)) :: tail)
        objs (statEventEntries gi) ∧
      (∀ kv ∈ statEventEntries gi, kv ∈ gi.events ∧ kv.2.inning ≠ 0) ∧
      (∀ kv ∈ gi.events, kv.2.inning ≠ 0 → kv ∈ statEventEntries gi) ∧
      ((mapKeys gi.events).Pairwise (· < ·) →
        (mapKeys (statEventEntries gi)).Pairwise (· < ·)) := by
  unfold getStatJSON_completes at hc
  simp only [Bool.and_eq_true] at hc
  obtain ⟨hstad, hlab⟩ := hc
  have hhead : (statHeadPieces H gi inDecode).isSome = true := by
    have hl := statStadiumLocal_isSome H gi inDecode
    rw [hstad] at hl
    obtain ⟨sl, hsl⟩ := Option.isSome_iff_exists.mp hl
    unfold statHeadPieces
    simp only [hsl, Option.bind_eq_bind, Option.some_bind, pure, Option.isSome_some]
  obtain ⟨head, hh⟩ := Option.isSome_iff_exists.mp hhead
  obtain ⟨characters, hch⟩ := statCharactersPieces_some H gi trk inDecode hlab
  obtain ⟨objs, hflat, hall⟩ := statEventsPieces_objects H inDecode gi.events
  refine ⟨head, characters, objs, hh, hch, ?_, ?_, ?_, ?_, statEventEntries_keys_sorted gi⟩
  · unfold getStatJSON
    simp only [hh, hch, Option.bind_eq_bind, Option.some_bind, pure, hflat, List.flatten_cons,
      List.flatten_nil, List.append_nil]
  · unfold statEventEntries
    refine List.Forall₂.imp ?_ hall
    intro obj kv ⟨comma, hobj⟩
    obtain ⟨tail, htail⟩ := statEventPieces_starts H inDecode kv.1 kv.2 comma
    exact ⟨comma, tail, hobj, hobj.trans htail⟩
  · intro kv hkv
    unfold statEventEntries at hkv
    rw [List.mem_filter] at hkv
    exact ⟨hkv.1, by simpa using hkv.2⟩
  · intro kv hkv hinn
    unfold statEventEntries
    rw [List.mem_filter]
    exact ⟨hkv, by simpa using hinn⟩

set_option maxRecDepth 100000 in
theorem threeEventGame_rendered :
    getStatJSON_completes sampleHeader threeEventGame freshTrackers true = true ∧
    mapKeys (statEventEntries threeEventGame) = [0, 2] ∧
    eventNumsIn (statEventsPieces sampleHeader true threeEventGame.events) = ["0", "2"] ∧
    (statEventsPieces sampleHeader true threeEventGame.events).count eventOpening = 2 :=
  ⟨by decide, by decide, by decide, by decide⟩

/-- Witness for C22: the sample record with three stored events, the middle one
an inning-0 placeholder: two event objects, for keys 0 and 2 in that order. -/
theorem getStatJSON_event_objects_witness :
    getStatJSON_completes sampleHeader threeEventGame freshTrackers true = true ∧
    mapKeys (statEventEntries threeEventGame) = [0, 2] ∧
    eventNumsIn (statEventsPieces sampleHeader true threeEventGame.events) = ["0", "2"] ∧
    (statEventsPieces sampleHeader true threeEventGame.events).count eventOpening = 2 ∧
    ∃ (head characters : List Piece) (objs : List (List Piece)),
      getStatJSON sampleHeader threeEventGame freshTrackers true =
        some (head ++ characters ++ (text "  \x7d,\n" ++ text "  \"Events\": [\n") ++
          objs.flatten ++ (text "  ]\n" ++ text "\x7d\n")) ∧
      objs.length = 2 := by
  obtain ⟨h1, h2, h3, h4⟩ := threeEventGame_rendered
  obtain ⟨head, characters, objs, _, _, hdoc, hall, _⟩ :=
    getStatJSON_event_objects sampleHeader threeEventGame freshTrackers true h1
  have hlen := hall.length_eq
  have hent : (statEventEntries threeEventGame).length = 2 := by
    have := congrArg List.length h2
    simpa [mapKeys] using this
  exact ⟨h1, h2, h3, h4, head, characters, objs, hdoc, hlen.trans hent⟩

/-! ## The `StickVec` branch of `decode` (C40) -/

theorem and_mask_mod (v m : Nat) (hm : m < 16) : v &&& m = (v % 16) &&& m := by
  apply Nat.eq_of_testBit_eq
  intro i
  rw [Nat.testBit_and, Nat.testBit_and, show (16 : Nat) = 2 ^ 4 from rfl, Nat.testBit_mod_two_pow]
  by_cases hi : i < 4
  · simp [hi]
  · have h16 : m < 2 ^ i :=
      lt_of_lt_of_le hm (by
        have : 2 ^ 4 ≤ 2 ^ i := Nat.pow_le_pow_right (by decide) (Nat.le_of_not_lt hi)
        simpa using this)
    have : m.testBit i = false := Nat.testBit_lt_two_pow h16
    simp [this]

theorem decodeStickVec_mod (v : Nat) : decodeStickVec v = decodeStickVec (v % 16) := by
  unfold decodeStickVec
  rw [and_mask_mod v 0x1 (by decide), and_mask_mod v 0x2 (by decide),
    and_mask_mod v 0x4 (by decide), and_mask_mod v 0x8 (by decide)]

set_option maxRecDepth 100000 in
theorem decodeStickVec_low :
    ∀ w, w < 16 →
      decodeStickVec w =
        "+".intercalate
          (([("Left", 0), ("Right", 1), ("Down", 2), ("Up", 3)].filter
            fun d => w.testBit d.2).map Prod.fst) ∧
      decodeStickVec w ≠ "Unable to Decode" := by
  decide

theorem stick_bits_mod (v : Nat) :
    ([("Left", 0), ("Right", 1), ("Down", 2), ("Up", 3)].filter fun d => (v % 16).testBit d.2) =
      ([("Left", 0), ("Right", 1), ("Down", 2), ("Up", 3)].filter fun d => v.testBit d.2) := by
  have h : ∀ i, i < 4 → (v % 16).testBit i = v.testBit i := by
    intro i hi
    have := Nat.testBit_mod_two_pow v 4 i
    simpa [hi] using this
  simp only [List.filter, h 0 (by decide), h 1 (by decide), h 2 (by decide), h 3 (by decide)]

/-- C40: for every value `v` (in particular every byte), `decode` of type
`StickVec` in decoded mode returns, between quotes, the names of the directions
whose bit is set in `v`, joined by `+`, in the fixed order Left (bit 0), Right
(bit 1), Down (bit 2), Up (bit 3); the result is the one for the low four bits
of `v`. -/
theorem decode_stickvec_joins_set_bits (H : Header) (v : Nat) :
    decode H "StickVec" v true =
      "\"" ++ "+".intercalate
        (([("Left", 0), ("Right", 1), ("Down", 2), ("Up", 3)].filter
          fun d => v.testBit d.2).map Prod.fst) ++ "\"" ∧
    decode H "StickVec" v true = decode H "StickVec" (v % 16) true := by
  have hl : ∀ w, decodeLabel H "StickVec" w = decodeStickVec w := fun _ => rfl
  have hd : ∀ w, decode H "StickVec" w true = "\"" ++ decodeStickVec (w % 16) ++ "\"" := by
    intro w
    have hw := (decodeStickVec_low (w % 16) (Nat.mod_lt _ (by decide))).2
    unfold decode
    simp only [hl, Bool.not_true, Bool.false_eq_true, if_false]
    rw [decodeStickVec_mod w, if_neg hw]
  refine ⟨?_, ?_⟩
  · rw [hd, (decodeStickVec_low (v % 16) (Nat.mod_lt _ (by decide))).1, stick_bits_mod]
  · rw [hd, hd, Nat.mod_mod]

/-- Witness for C40: the byte `0xF5` (bits 0 and 2 set among the low four)
decodes to `"Left+Down"`, as its low nibble 5 does. -/
theorem decode_stickvec_joins_set_bits_witness :
    decode sampleHeader "StickVec" 0xF5 true = decode sampleHeader "StickVec" (0xF5 % 16) true ∧
    decode sampleHeader "StickVec" 0xF5 true = "\"Left+Down\"" ∧
    decode sampleHeader "StickVec" 0xF true = "\"Left+Right+Down+Up\"" :=
  ⟨(decode_stickvec_joins_set_bits sampleHeader 0xF5).2, by decide, by decide⟩

/-! ## The two fielder scans (C39) -/

/-- A scan `findSome?` over the positions `0..n-1` in index order returns `b`
exactly when some position yields `b` and no lower position yields anything. -/
theorem findSome_finRange_first {n : Nat} {β : Type} (f : Fin n → Option β) (b : β) :
    (List.finRange n).findSome? f = some b ↔
      ∃ pos : Fin n, f pos = some b ∧ ∀ q : Fin n, q < pos → f q = none := by
  have key : ∀ (l : List (Fin n)), l.Pairwise (· < ·) →
      (l.findSome? f = some b ↔
        ∃ pos ∈ l, f pos = some b ∧ ∀ q ∈ l, q < pos → f q = none) := by
    intro l
    induction l with
    | nil => intro _; simp
    | cons a rest ih =>
      intro hp
      rw [List.pairwise_cons] at hp
      rw [List.findSome?_cons]
      cases hfa : f a with
      | some c =>
        simp only []
        constructor
        · intro h
          have hcb : c = b := Option.some.inj h
          subst hcb
          refine ⟨a, List.mem_cons_self _ _, hfa, ?_⟩
          intro q hq hlt
          rcases List.mem_cons.mp hq with rfl | hq'
          · exact absurd hlt (lt_irrefl _)
          · exact absurd hlt (not_lt.mpr (le_of_lt (hp.1 q hq')))
        · rintro ⟨pos, hpos, hfp, hfirst⟩
          rcases List.mem_cons.mp hpos with rfl | hpos'
          · rw [hfa] at hfp; exact hfp
          · have := hfirst a (List.mem_cons_self _ _) (hp.1 pos hpos')
            rw [hfa] at this
            exact absurd this (by simp)
      | none =>
        simp only []
        rw [ih hp.2]
        constructor
        · rintro ⟨pos, hpos, hfp, hfirst⟩
          refine ⟨pos, List.mem_cons_of_mem _ hpos, hfp, ?_⟩
          intro q hq hlt
          rcases List.mem_cons.mp hq with rfl | hq'
          · exact hfa
          · exact hfirst q hq' hlt
        · rintro ⟨pos, hpos, hfp, hfirst⟩
          rcases List.mem_cons.mp hpos with rfl | hpos'
          · rw [hfa] at hfp; exact absurd hfp (by simp)
          · exact ⟨pos, hpos', hfp, fun q hq hlt => hfirst q (List.mem_cons_of_mem _ hq) hlt⟩
  rw [key _ (List.pairwise_lt_finRange n)]
  constructor
  · rintro ⟨pos, _, hfp, hfirst⟩
    exact ⟨pos, hfp, fun q hlt => hfirst q (List.mem_finRange q) hlt⟩
  · rintro ⟨pos, hfp, hfirst⟩
    exact ⟨pos, List.mem_finRange pos, hfp, fun q _ hlt => hfirst q hlt⟩

/-- A scan over the positions finds something exactly when some position yields
something. -/
theorem findSome_finRange_isSome {n : Nat} {β : Type} (f : Fin n → Option β) :
    ((List.finRange n).findSome? f).isSome = true ↔ ∃ pos : Fin n, (f pos).isSome = true := by
  rw [List.findSome?_isSome_iff]
  constructor
  · rintro ⟨pos, _, h⟩; exact ⟨pos, h⟩
  · rintro ⟨pos, h⟩; exact ⟨pos, List.mem_finRange pos, h⟩

theorem fielderWithBallAt_isSome (H : Header) (mem : Snapshot) (locks : Fin 9 → Nat)
    (pos : Fin 9) :
    (fielderWithBallAt H mem locks pos).isSome = true ↔
      Read_U8 mem (.aFielder_ControlStatus pos) = 0xA := by
  unfold fielderWithBallAt
  split_ifs with h <;> simp [h]

theorem fielderWithBallAt_none (H : Header) (mem : Snapshot) (locks : Fin 9 → Nat)
    (pos : Fin 9) :
    fielderWithBallAt H mem locks pos = none ↔
      Read_U8 mem (.aFielder_ControlStatus pos) ≠ 0xA := by
  unfold fielderWithBallAt
  split_ifs with h <;> simp [h]

theorem fielderWithBallAt_pos (H : Header) (mem : Snapshot) (locks : Fin 9 → Nat)
    (pos : Fin 9) (f : Fielder) (h : fielderWithBallAt H mem locks pos = some f) :
    f.fielder_pos = pos := by
  unfold fielderWithBallAt at h
  by_cases hc : Read_U8 mem (.aFielder_ControlStatus pos) = 0xA
  · rw [if_pos hc] at h
    rw [← Option.some.inj h]
  · rw [if_neg hc] at h
    exact absurd h (by simp)

/-- The disruption test of `logFielderBobble`: the code exceeds 1 exactly when
the knockout byte is nonzero or the bobble byte exceeds 1. -/
theorem typeOfFielderDisruption_gt (mem : Snapshot) (pos : Nat) :
    typeOfFielderDisruption mem pos > 0x1 ↔
      (Read_U8 mem (.aFielder_Knockout pos) ≠ 0 ∨ Read_U8 mem (.aFielder_Bobble pos) > 1) := by
  unfold typeOfFielderDisruption
  by_cases hk : Read_U8 mem (.aFielder_Knockout pos) = 0
  · by_cases hb : Read_U8 mem (.aFielder_Bobble pos) = 0
    · simp [hk, hb]
    · simp [hk, hb]
  · simp [hk]

theorem fielderBobbleAt_isSome (H : Header) (mem : Snapshot) (pos : Fin 9) :
    (fielderBobbleAt H mem pos).isSome = true ↔
      (Read_U8 mem (.aFielder_Knockout pos) ≠ 0 ∨ Read_U8 mem (.aFielder_Bobble pos) > 1) := by
  rw [← typeOfFielderDisruption_gt]
  unfold fielderBobbleAt
  split_ifs with h <;> simp [h]

theorem fielderBobbleAt_none (H : Header) (mem : Snapshot) (pos : Fin 9) :
    fielderBobbleAt H mem pos = none ↔
      ¬ (Read_U8 mem (.aFielder_Knockout pos) ≠ 0 ∨ Read_U8 mem (.aFielder_Bobble pos) > 1) := by
  rw [← typeOfFielderDisruption_gt]
  unfold fielderBobbleAt
  split_ifs with h <;> simp [h]

theorem fielderBobbleAt_fields (H : Header) (mem : Snapshot) (pos : Fin 9) (f : Fielder)
    (h : fielderBobbleAt H mem pos = some f) :
    f.fielder_pos = pos ∧
      f.bobble =
        (if Read_U8 mem (.aFielder_Knockout pos) ≠ 0 then 0x10
         else Read_U8 mem (.aFielder_Bobble pos)) := by
  unfold fielderBobbleAt at h
  by_cases hd : typeOfFielderDisruption mem pos > 0x1
  · rw [if_pos hd] at h
    rw [← Option.some.inj h]
    refine ⟨rfl, ?_⟩
    show typeOfFielderDisruption mem pos = _
    unfold typeOfFielderDisruption at hd ⊢
    by_cases hk : Read_U8 mem (.aFielder_Knockout pos) = 0
    · by_cases hb : Read_U8 mem (.aFielder_Bobble pos) = 0
      · simp [hk, hb] at hd
      · simp [hk, hb]
    · simp [hk]
  · rw [if_neg hd] at h
    exact absurd h (by simp)

/-- C39: both fielder scans return the first match by position index.
`logFielderWithBall` returns a fielder iff some position 0..8 has control
status `0xA`, and it returns `f` iff `f` is the record built at the lowest such
position, whose `fielder_pos` is that index.  `logFielderBobble` returns a
fielder iff some position has a nonzero knockout byte or a bobble byte greater
than 1, and it returns `f` iff `f` is the record built at the lowest such
position, with that index as `fielder_pos` and with bobble code `0x10` when the
knockout byte there is nonzero and the bobble byte otherwise. -/
theorem fielder_scans_return_first_match (H : Header) (mem : Snapshot) (locks : Fin 9 → Nat) :
    ((logFielderWithBall H mem locks).isSome = true ↔
      ∃ pos : Fin 9, Read_U8 mem (.aFielder_ControlStatus pos) = 0xA) ∧
    (∀ f, logFielderWithBall H mem locks = some f ↔
      ∃ pos : Fin 9, Read_U8 mem (.aFielder_ControlStatus pos) = 0xA ∧
        (∀ q : Fin 9, q < pos → Read_U8 mem (.aFielder_ControlStatus q) ≠ 0xA) ∧
        fielderWithBallAt H mem locks pos = some f ∧ f.fielder_pos = pos) ∧
    ((logFielderBobble H mem).isSome = true ↔
      ∃ pos : Fin 9, Read_U8 mem (.aFielder_Knockout pos) ≠ 0 ∨
        Read_U8 mem (.aFielder_Bobble pos) > 1) ∧
    (∀ f, logFielderBobble H mem = some f ↔
      ∃ pos : Fin 9,
        (Read_U8 mem (.aFielder_Knockout pos) ≠ 0 ∨ Read_U8 mem (.aFielder_Bobble pos) > 1) ∧
        (∀ q : Fin 9, q < pos →
          ¬ (Read_U8 mem (.aFielder_Knockout q) ≠ 0 ∨ Read_U8 mem (.aFielder_Bobble q) > 1)) ∧
        fielderBobbleAt H mem pos = some f ∧ f.fielder_pos = pos ∧
        f.bobble =
          (if Read_U8 mem (.aFielder_Knockout pos) ≠ 0 then 0x10
           else Read_U8 mem (.aFielder_Bobble pos))) := by
  refine ⟨?_, ?_, ?_, ?_⟩
  · unfold logFielderWithBall
    rw [findSome_finRange_isSome]
    simp only [fielderWithBallAt_isSome]
  · intro f
    unfold logFielderWithBall
    rw [findSome_finRange_first]
    constructor
    · rintro ⟨pos, hf, hfirst⟩
      refine ⟨pos, ?_, ?_, hf, fielderWithBallAt_pos H mem locks pos f hf⟩
      · rw [← fielderWithBallAt_isSome H mem locks, hf]; rfl
      · intro q hq
        exact (fielderWithBallAt_none H mem locks q).mp (hfirst q hq)
    · rintro ⟨pos, _, hfirst, hf, _⟩
      exact ⟨pos, hf, fun q hq => (fielderWithBallAt_none H mem locks q).mpr (hfirst q hq)⟩
  · unfold logFielderBobble
    rw [findSome_finRange_isSome]
    simp only [fielderBobbleAt_isSome]
  · intro f
    unfold logFielderBobble
    rw [findSome_finRange_first]
    constructor
    · rintro ⟨pos, hf, hfirst⟩
      obtain ⟨hp, hb⟩ := fielderBobbleAt_fields H mem pos f hf
      refine ⟨pos, ?_, ?_, hf, hp, hb⟩
      · rw [← fielderBobbleAt_isSome H mem, hf]; rfl
      · intro q hq
        exact (fielderBobbleAt_none H mem q).mp (hfirst q hq)
    · rintro ⟨pos, _, hfirst, hf, _⟩
      exact ⟨pos, hf, fun q hq => (fielderBobbleAt_none H mem q).mpr (hfirst q hq)⟩

/-- Witness for C39: with positions 6 and 8 holding the ball the holder scan
returns position 6; with bobble byte 1 at position 2, bobble byte 2 at position
3 and a knockout at position 5 the bobble scan returns position 3 with bobble
code 2; and a knockout at a bobbling position gives code `0x10`. -/
theorem fielder_scans_return_first_match_witness :
    (logFielderWithBall sampleHeader twoHoldersSnapshot (fun _ => 0)).isSome = true ∧
    ((logFielderWithBall sampleHeader twoHoldersSnapshot (fun _ => 0)).map fun f =>
      f.fielder_pos) = some 6 ∧
    (logFielderBobble sampleHeader bobbleSnapshot).isSome = true ∧
    ((logFielderBobble sampleHeader bobbleSnapshot).map fun f => (f.fielder_pos, f.bobble)) =
      some (3, 2) ∧
    ((logFielderBobble sampleHeader knockoutSnapshot).map fun f => (f.fielder_pos, f.bobble)) =
      some (3, 0x10) ∧
    logFielderBobble sampleHeader zeroSnapshot = none :=
  ⟨(fielder_scans_return_first_match sampleHeader twoHoldersSnapshot (fun _ => 0)).1.mpr
      ⟨6, by decide⟩,
   by decide,
   (fielder_scans_return_first_match sampleHeader bobbleSnapshot (fun _ => 0)).2.2.1.mpr
      ⟨3, by decide⟩,
   by decide, by decide, by decide⟩

/-! ## Separators and event numbers of the `Events` array (C35, C36) -/

/-- The events loop streams nothing for a run of entries whose inning is 0. -/
theorem statEventsPieces_skipped (H : Header) (inDecode : Bool) :
    ∀ rest : List (Nat × Event), (∀ kv ∈ rest, kv.2.inning = 0) →
      statEventsPieces H inDecode rest = [] := by
  intro rest
  induction rest with
  | nil => intro _; rfl
  | cons kv rest ih =>
    intro h
    obtain ⟨key, event⟩ := kv
    unfold statEventsPieces
    rw [if_pos (h (key, event) (List.mem_cons_self _ _))]
    exact ih fun kv hkv => h kv (List.mem_cons_of_mem _ hkv)

/-- Every event head ends with the separator that follows `Result of AB`. -/
theorem statEventHeadPieces_ends (H : Header) (inDecode : Bool) (key : Nat) (event : Event) :
    ∃ init, statEventHeadPieces H inDecode key event = init ++ [Piece.lit ",\n"] := by
  unfold statEventHeadPieces
  simp only [List.flatten, line, text, List.cons_append, List.nil_append, List.append_nil]
  exact ⟨_, (List.dropLast_append_getLast (List.cons_ne_nil _ _)).symm⟩

/-- C35, what the code does: the separator after an event object is chosen by
`std::next(iter) != events.end()`, before the skipped entries are known, and the
separator after `Result of AB` is unconditional.  So (1) when the entries after
an emitted one are all skipped for inning 0, the `Events` array text ends with
that object followed by a comma; and (2) the object of an event with no runner
and no pitch ends with `,` directly before its closing brace. -/
theorem events_array_trailing_commas (H : Header) (inDecode : Bool) (key : Nat) (event : Event)
    (rest : List (Nat × Event)) (comma : String) :
    (event.inning ≠ 0 → rest ≠ [] → (∀ kv ∈ rest, kv.2.inning = 0) →
      ∃ body, statEventsPieces H inDecode ((key, event) :: rest) =
        body ++ [Piece.lit "    \x7d", Piece.str ",", Piece.lit "\n"]) ∧
    (event.runner_batter = none → event.runner_1 = none → event.runner_2 = none →
      event.runner_3 = none → event.pitch = none →
      ∃ init, statEventPieces H inDecode key event comma =
        init ++ [Piece.lit ",\n", Piece.lit "    \x7d", Piece.str comma, Piece.lit "\n"]) := by
  refine ⟨?_, ?_⟩
  · intro hinn hne hskip
    have hempty : rest.isEmpty = false := by
      cases rest with
      | nil => exact absurd rfl hne
      | cons _ _ => rfl
    unfold statEventsPieces
    rw [if_neg hinn, statEventsPieces_skipped H inDecode rest hskip, hempty]
    unfold statEventPieces
    simp only [Bool.not_false, if_true, List.append_nil, line]
    exact ⟨_, rfl⟩
  · intro hb h1 h2 h3 hp
    obtain ⟨init, hinit⟩ := statEventHeadPieces_ends H inDecode key event
    unfold statEventPieces
    have hr : statRunners event = [] := by
      unfold statRunners
      rw [hb, h1, h2, h3]
      rfl
    rw [hr, hp, hinit]
    simp only [statRunnersPieces, List.append_nil, line, List.append_assoc, List.cons_append,
      List.nil_append]
    exact ⟨init, rfl⟩

/-- A full-game document that is returned ends with the text of the events
loop followed by the two closing insertions. -/
theorem getStatJSON_ends (H : Header) (gi : GameInfo) (trk : Trackers) (inDecode : Bool)
    (hc : getStatJSON_completes H gi trk inDecode = true) :
    ∃ front, getStatJSON H gi trk inDecode =
      some (front ++ statEventsPieces H inDecode gi.events ++
        [Piece.lit "  ]\n", Piece.lit "\x7d\n"]) := by
  unfold getStatJSON_completes at hc
  simp only [Bool.and_eq_true] at hc
  obtain ⟨hstad, hlab⟩ := hc
  have hhead : (statHeadPieces H gi inDecode).isSome = true := by
    have hl := statStadiumLocal_isSome H gi inDecode
    rw [hstad] at hl
    obtain ⟨sl, hsl⟩ := Option.isSome_iff_exists.mp hl
    unfold statHeadPieces
    simp only [hsl, Option.bind_eq_bind, Option.some_bind, pure, Option.isSome_some]
  obtain ⟨head, hh⟩ := Option.isSome_iff_exists.mp hhead
  obtain ⟨characters, hch⟩ := statCharactersPieces_some H gi trk inDecode hlab
  refine ⟨head ++ characters ++ (text "  \x7d,\n" ++ text "  \"Events\": [\n"), ?_⟩
  unfold getStatJSON
  simp only [hh, hch, Option.bind_eq_bind, Option.some_bind, pure, List.flatten_cons,
    List.flatten_nil, List.append_nil, text, List.append_assoc, List.cons_append,
    List.nil_append]

/-- Witness for C35: the record whose last stored event is an inning-0
placeholder renders a document whose `Events` array ends with an object followed
by a comma, right before the closing bracket; and the object of the event
without runner and pitch ends `,` before its closing brace. -/
theorem events_array_trailing_commas_witness :
    (∃ front, getStatJSON sampleHeader quitGameRecord freshTrackers true =
      some (front ++ [Piece.lit "    \x7d", Piece.str ",", Piece.lit "\n", Piece.lit "  ]\n",
        Piece.lit "\x7d\n"])) ∧
    (∃ init, statEventPieces sampleHeader true 0 bareEvent "" =
      init ++ [Piece.lit ",\n", Piece.lit "    \x7d", Piece.str "", Piece.lit "\n"]) := by
  obtain ⟨body, hbody⟩ :=
    (events_array_trailing_commas sampleHeader true 0 forcedOutEvent [(1, zeroEvent)] "").1
      (by decide) (by simp) (by simp [zeroEvent])
  obtain ⟨front, hfront⟩ :=
    getStatJSON_ends sampleHeader quitGameRecord freshTrackers true (by decide)
  refine ⟨⟨front ++ body, ?_⟩,
    (events_array_trailing_commas sampleHeader true 0 bareEvent [] "").2 rfl rfl rfl rfl rfl⟩
  rw [hfront]
  have he : quitGameRecord.events = [(0, forcedOutEvent), (1, zeroEvent)] := rfl
  rw [he, hbody]
  simp only [List.append_assoc, List.cons_append, List.nil_append]

/-- C36: in the full-game document the `Event Num` of an event object is the
map key narrowed to 8 bits.  The object opens with its brace and the label
followed by the text of `key % 256`; the number is the key itself for every key
below 256; and two keys that differ by a multiple of 256 give the same object
for the same event, in particular the same number. -/
theorem event_num_is_key_mod_256 (H : Header) (inDecode : Bool) (key : Nat) (event : Event)
    (comma : String) :
    (∃ tail, statEventPieces H inDecode key event comma =
      eventOpening :: Piece.lit "      \"Event Num\": " ::
        Piece.str (toString (key % 256)) :: tail) ∧
    (∀ k : Fin 256, emittedEventNum k = k) ∧
    (∀ n, emittedEventNum (key + 256 * n) = emittedEventNum key ∧
      statEventPieces H inDecode (key + 256 * n) event comma =
        statEventPieces H inDecode key event comma) := by
  refine ⟨?_, ?_, ?_⟩
  · unfold statEventPieces statEventHeadPieces
    exact ⟨_, rfl⟩
  · intro k
    unfold emittedEventNum
    exact Nat.mod_eq_of_lt k.isLt
  · intro n
    have h : emittedEventNum (key + 256 * n) = emittedEventNum key := by
      unfold emittedEventNum
      exact Nat.add_mul_mod_self_left key 256 n
    refine ⟨h, ?_⟩
    unfold statEventPieces statEventHeadPieces
    rw [h]

set_option maxRecDepth 100000 in
/-- The record whose two events are stored under keys 1 and 257 renders both
with `Event Num` 1. -/
theorem wrappedGame_rendered :
    mapKeys (statEventEntries wrappedGame) = [1, 257] ∧
    eventNumsIn (statEventsPieces sampleHeader true wrappedGame.events) = ["1", "1"] :=
  ⟨by decide, by decide⟩

/-- Witness for C36: keys 1 and 257 give the same number and the same object,
and the record storing events under both renders `Event Num` 1 twice. -/
theorem event_num_is_key_mod_256_witness :
    emittedEventNum 257 = emittedEventNum 1 ∧
    statEventPieces sampleHeader true 257 pickoffEvent "" =
      statEventPieces sampleHeader true 1 pickoffEvent "" ∧
    mapKeys (statEventEntries wrappedGame) = [1, 257] ∧
    eventNumsIn (statEventsPieces sampleHeader true wrappedGame.events) = ["1", "1"] :=
  ⟨((event_num_is_key_mod_256 sampleHeader true 1 pickoffEvent "").2.2 1).1,
    ((event_num_is_key_mod_256 sampleHeader true 1 pickoffEvent "").2.2 1).2,
    wrappedGame_rendered.1, wrappedGame_rendered.2⟩

/-! ## The unguarded accesses of the classification and of the logging block (C34, C31) -/

/-- The holder scan finds nobody exactly when no position has control status `0xA`. -/
theorem logFielderWithBall_none (H : Header) (mem : Snapshot) (locks : Fin 9 → Nat) :
    logFielderWithBall H mem locks = none ↔
      ∀ pos : Fin 9, Read_U8 mem (.aFielder_ControlStatus pos) ≠ 0xA := by
  unfold logFielderWithBall
  rw [List.findSome?_eq_none_iff]
  constructor
  · intro h pos hpos
    have := h pos (List.mem_finRange pos)
    unfold fielderWithBallAt at this
    rw [if_pos hpos] at this
    exact absurd this (by simp)
  · intro h pos _
    unfold fielderWithBallAt
    rw [if_neg (h pos)]

/-- C34, what the code does: on contact-result code 3 `logContactResult`
stores the result of the holder scan and then reads
`collect_fielder->fielder_roster_loc` with no presence test.  When no position
has control status `0xA` the collector is absent at that access: the
classification does not complete, and neither does the `CONTACT_RESULT` step nor
the tick.  It completes exactly when the scan finds a holder. -/
theorem caught_ball_needs_holder (H : Header) (mem : Snapshot) (st : StatTracker)
    (ev : Event) (p : Pitch) (c : Contact)
    (hg : st.m_game_state = GAME_STATE.INGAME)
    (hes : st.m_event_state = EVENT_STATE.CONTACT_RESULT)
    (hcur : st.m_game_info.getCurrentEvent = some ev)
    (hp : ev.pitch = some p) (hc : p.contact = some c)
    (hcode : Read_U8 mem .aAB_ContactResult = 3) :
    (∀ (cur : Event) (es : EVENT_STATE) (trk : Trackers) (c0 : Contact),
      ((logContactResult H mem cur es trk c0).isSome = true ↔
        ∃ pos : Fin 9, Read_U8 mem (.aFielder_ControlStatus pos) = 0xA)) ∧
    ((∀ pos : Fin 9, Read_U8 mem (.aFielder_ControlStatus pos) ≠ 0xA) →
      (∀ (cur : Event) (es : EVENT_STATE) (trk : Trackers) (c0 : Contact),
        logContactResult H mem cur es trk c0 = none) ∧
      stepContactResult H mem st = none ∧ lookForTriggerEvents H mem st = none) := by
  have hnone : (∀ pos : Fin 9, Read_U8 mem (.aFielder_ControlStatus pos) ≠ 0xA) →
      ∀ (cur : Event) (es : EVENT_STATE) (trk : Trackers) (c0 : Contact),
        logContactResult H mem cur es trk c0 = none := by
    intro hno cur es trk c0
    have hscan := (logFielderWithBall_none H mem cur.manual_select_locks).mpr hno
    unfold logContactResult
    simp only [hcode, hscan]
    rfl
  refine ⟨?_, ?_⟩
  · intro cur es trk c0
    constructor
    · intro hsome
      by_contra hex
      have hno : ∀ pos : Fin 9, Read_U8 mem (.aFielder_ControlStatus pos) ≠ 0xA :=
        fun pos hpos => hex ⟨pos, hpos⟩
      rw [hnone hno cur es trk c0] at hsome
      exact absurd hsome (by simp)
    · rintro ⟨pos, hpos⟩
      cases hscan : logFielderWithBall H mem cur.manual_select_locks with
      | none =>
        exact absurd hpos ((logFielderWithBall_none H mem cur.manual_select_locks).mp hscan pos)
      | some f =>
        unfold logContactResult
        simp only [hcode, hscan]
        rfl
  · intro hno
    have hstep : ∀ (s : StatTracker) (e : Event), s.m_game_info.getCurrentEvent = some e →
        e.pitch = some p → stepContactResult H mem s = none := by
      intro s e hs he
      have hne : Read_U8 mem .aAB_ContactResult ≠ 0 := by rw [hcode]; decide
      unfold stepContactResult
      simp only [hs, he, hc, Option.bind_eq_bind, Option.some_bind, if_pos hne, hnone hno,
        Option.none_bind]
    refine ⟨hnone hno, hstep st ev hcur hp, ?_⟩
    cases htick : lookForTriggerEvents H mem st with
    | none => rfl
    | some st' =>
      exfalso
      obtain ⟨s1, s2, h1, h2, _⟩ := tick_ingame_split H mem st st' hg htick
      obtain ⟨hist, hcur1, _, hes1, _⟩ := logStateChanges_current_of H mem st s1 ev h1 hcur
      unfold eventStep at h2
      rw [hes1, hes] at h2
      simp only [] at h2
      rw [hstep s1 _ hcur1 hp] at h2
      cases h2

/-- Witness for C34: the sample tracker at `CONTACT_RESULT` with a Contact, on
the snapshot reading contact-result 3 with no holder, aborts; on the snapshot
where position 6 holds the ball the same tick completes. -/
theorem caught_ball_needs_holder_witness :
    stepContactResult sampleHeader uncaughtSnapshot
      (trackerAt EVENT_STATE.CONTACT_RESULT contactEvent) = none ∧
    lookForTriggerEvents sampleHeader uncaughtSnapshot
      (trackerAt EVENT_STATE.CONTACT_RESULT contactEvent) = none ∧
    (lookForTriggerEvents sampleHeader caughtSnapshot
      (trackerAt EVENT_STATE.CONTACT_RESULT contactEvent)).isSome = true :=
  ⟨((caught_ball_needs_holder sampleHeader uncaughtSnapshot
      (trackerAt EVENT_STATE.CONTACT_RESULT contactEvent) contactEvent _ _ rfl rfl rfl rfl rfl
      rfl).2 (by decide)).2.1,
   ((caught_ball_needs_holder sampleHeader uncaughtSnapshot
      (trackerAt EVENT_STATE.CONTACT_RESULT contactEvent) contactEvent _ _ rfl rfl rfl rfl rfl
      rfl).2 (by decide)).2.2,
   by decide⟩

/-- The reads of the previous-event-result message never both have a defined
result: the pitcher's row is read before any value is assigned to it. -/
theorem resultMessageCharIds_none (gi : GameInfo) (ev : Event) :
    resultMessageCharIds gi ev = none := by
  unfold resultMessageCharIds
  simp only []
  cases summaryCharId gi (batterScreenSidePort gi ev) ev.batter_roster_loc <;> rfl

/-- The logging block on a tick whose event state has changed to `PLAY_OVER`,
with a current event: it completes only if the name lookups of the summary
message succeed and the at-bat result is 0. -/
theorem logStateChanges_play_over (H : Header) (mem : Snapshot) (st : StatTracker) (ev : Event)
    (hes : st.m_event_state = EVENT_STATE.PLAY_OVER)
    (hprev : st.m_event_state_prev ≠ EVENT_STATE.PLAY_OVER)
    (hcur : st.m_game_info.getCurrentEvent = some ev) :
    (logStateChanges H mem st).isSome = true →
      summaryNamesOk H ev = true ∧ ev.result_of_atbat = 0 := by
  intro hsome
  obtain ⟨s1, h⟩ := Option.isSome_iff_exists.mp hsome
  have h1 : ∃ gp, logGameStateChange st = { st with m_game_state_prev := gp } := by
    unfold logGameStateChange
    split_ifs
    · exact ⟨_, rfl⟩
    · exact ⟨st.m_game_state_prev, rfl⟩
  obtain ⟨gp, hgp⟩ := h1
  unfold logStateChanges at h
  rw [hgp] at h
  simp only [Option.bind_eq_bind, Option.bind_eq_some] at h
  obtain ⟨s2, h2, _⟩ := h
  unfold logEventStateIfChanged at h2
  have hne : ({ st with m_game_state_prev := gp } : StatTracker).m_event_state ≠
      ({ st with m_game_state_prev := gp } : StatTracker).m_event_state_prev := by
    show st.m_event_state ≠ st.m_event_state_prev
    rw [hes]
    exact fun hx => hprev hx.symm
  rw [if_pos hne] at h2
  have hcur' : ({ st with m_game_state_prev := gp } : StatTracker).m_game_info.getCurrentEvent
      = some ev := hcur
  simp only [hcur', Option.bind_eq_bind, Option.bind_eq_some, pure, Option.some.injEq] at h2
  obtain ⟨s, hs, _⟩ := h2
  unfold logEventStateChange at hs
  simp only [] at hs
  have hpo : ({ st with m_game_state_prev := gp } : StatTracker).m_event_state =
      EVENT_STATE.PLAY_OVER := hes
  rw [if_pos hpo] at hs
  have hnames : summaryNamesOk H { ev with history := ev.history ++ [st.m_event_state] } =
      summaryNamesOk H ev := rfl
  by_cases hn : summaryNamesOk H ev = true
  · refine ⟨hn, ?_⟩
    by_contra hres
    rw [hnames, if_pos hn] at hs
    have hres' : ({ ev with history := ev.history ++ [st.m_event_state] } : Event).result_of_atbat
        ≠ 0 := hres
    rw [if_pos hres', resultMessageCharIds_none] at hs
    cases hs
  · exfalso
    rw [hnames, if_neg hn] at hs
    cases hs

/-- C31, what the code does: on the tick that logs the entry into `PLAY_OVER`,
every name lookup is `cCharIdToCharName.at`, which throws for an id without a
name, so the tick aborts when the batter-runner's character id has none.  For
a nonzero at-bat result the row used to read the batter's character summary is
`team0_port` or `team1_port`, a port number and not a team index, so the read
has no defined result whenever that port is not 0 or 1; and the pitcher's row
is read before it is assigned, so the reads of the result message never both
have a defined result and the tick does not complete. -/
theorem play_over_logging_can_abort (H : Header) (mem : Snapshot) (st : StatTracker) (ev : Event)
    (hes : st.m_event_state = EVENT_STATE.PLAY_OVER)
    (hprev : st.m_event_state_prev ≠ EVENT_STATE.PLAY_OVER)
    (hcur : st.m_game_info.getCurrentEvent = some ev) :
    (batterScreenSidePort st.m_game_info ev =
        (if st.m_game_info.team0_port =
            (if ev.half_inning = 0 then st.m_game_info.away_port else st.m_game_info.home_port)
         then st.m_game_info.team0_port else st.m_game_info.team1_port)) ∧
    (¬ batterScreenSidePort st.m_game_info ev < cNumOfTeams →
      summaryCharId st.m_game_info (batterScreenSidePort st.m_game_info ev)
        ev.batter_roster_loc = none) ∧
    resultMessageCharIds st.m_game_info ev = none ∧
    ((∃ r, ev.runner_batter = some r ∧ H.cCharIdToCharName r.char_id = none) →
      logStateChanges H mem st = none ∧ lookForTriggerEvents H mem st = none) ∧
    (ev.result_of_atbat ≠ 0 →
      logStateChanges H mem st = none ∧ lookForTriggerEvents H mem st = none) := by
  have htick : logStateChanges H mem st = none → lookForTriggerEvents H mem st = none := by
    intro hl
    unfold lookForTriggerEvents
    rw [hl]
    rfl
  have hlog := logStateChanges_play_over H mem st ev hes hprev hcur
  refine ⟨rfl, ?_, resultMessageCharIds_none _ _, ?_, ?_⟩
  · intro hrow
    unfold summaryCharId
    rw [if_neg (fun hx => hrow hx.1)]
  · rintro ⟨r, hr, hname⟩
    have hl : logStateChanges H mem st = none := by
      cases hx : logStateChanges H mem st with
      | none => rfl
      | some s =>
        exfalso
        have hok := (hlog (by rw [hx]; rfl)).1
        unfold summaryNamesOk at hok
        rw [hr] at hok
        simp only [hname, Option.isSome_none, Bool.false_and] at hok
        exact absurd hok (by decide)
    exact ⟨hl, htick hl⟩
  · intro hres
    have hl : logStateChanges H mem st = none := by
      cases hx : logStateChanges H mem st with
      | none => rfl
      | some s => exact absurd (hlog (by rw [hx]; rfl)).2 hres
    exact ⟨hl, htick hl⟩

/-- Witness for C31: in the match between ports 1 and 2 the top-half batter's
row index is 2, outside the two-row table; the tick that logs `PLAY_OVER` for
an event with final result 7 aborts, it aborts for an event with final result 0
whose batter-runner's character id has no name, and it completes for an event
with final result 0 whose ids have names. -/
theorem play_over_logging_can_abort_witness :
    batterScreenSidePort (playOverEntered hitEvent).m_game_info hitEvent = 2 ∧
    lookForTriggerEvents sampleHeader playDeadSnapshot (playOverEntered hitEvent) = none ∧
    lookForTriggerEvents sampleHeader playDeadSnapshot (playOverEntered unnamedBatterEvent) =
      none ∧
    (lookForTriggerEvents sampleHeader playDeadSnapshot (playOverEntered contactEvent)).isSome =
      true :=
  ⟨by decide,
   ((play_over_logging_can_abort sampleHeader playDeadSnapshot (playOverEntered hitEvent)
      hitEvent rfl (by decide) rfl).2.2.2.2 (by decide)).2,
   ((play_over_logging_can_abort sampleHeader playDeadSnapshot
      (playOverEntered unnamedBatterEvent) unnamedBatterEvent rfl (by decide) rfl).2.2.2.1
      ⟨_, rfl, by decide⟩).2,
   by decide⟩

/-! ## The summary rows written at the end of a game (C37) -/

theorem logRosterStats_adjusted (mem : Snapshot) (g : GameInfo) (t r x : Nat) :
    adjustedTeamId (logRosterStats mem g t r) x = adjustedTeamId g x := rfl

/-- The two stat functions of one roster slot rewrite one cell of the summary
table, the one at row `adjusted_team_id`. -/
theorem logRosterStats_other (mem : Snapshot) (g : GameInfo) (t r row r0 : Nat)
    (h : row ≠ adjustedTeamId g t ∨ r0 ≠ r) :
    (logRosterStats mem g t r).character_summaries row r0 = g.character_summaries row r0 := by
  have hn : ¬ (row = adjustedTeamId g t ∧ r0 = r) := by
    rintro ⟨h1, h2⟩
    rcases h with h | h
    · exact h h1
    · exact h h2
  have hn' : ¬ (row = adjustedTeamId (logDefensiveStats mem g t r) t ∧ r0 = r) := hn
  unfold logRosterStats logOffensiveStats
  simp only [setSummary, if_neg hn']
  unfold logDefensiveStats
  simp only [setSummary, if_neg hn]

/-- What the two stat functions write into their cell is read from memory
alone: it does not depend on the record they are applied to. -/
theorem logRosterStats_written (mem : Snapshot) (g g' : GameInfo) (t r : Nat) :
    (logRosterStats mem g t r).character_summaries (adjustedTeamId g t) r =
      (logRosterStats mem g' t r).character_summaries (adjustedTeamId g' t) r := by
  have e1 : adjustedTeamId (logDefensiveStats mem g t r) t = adjustedTeamId g t := rfl
  have e2 : adjustedTeamId (logDefensiveStats mem g' t r) t = adjustedTeamId g' t := rfl
  unfold logRosterStats logOffensiveStats
  simp only [setSummary, e1, e2, and_self, if_true]
  unfold logDefensiveStats
  simp only [setSummary, and_self, if_true]

/-- The roster loop of `logGameInfo` for one memory team: the cells of the
team's row are written for the slots of the loop, every other cell is kept. -/
theorem foldl_roster_cells (mem : Snapshot) (t : Nat) :
    ∀ (rs : List Nat) (g : GameInfo),
      (∀ x, adjustedTeamId (rs.foldl (fun g r => logRosterStats mem g t r) g) x =
        adjustedTeamId g x) ∧
      (∀ row r0, (row ≠ adjustedTeamId g t ∨ r0 ∉ rs) →
        (rs.foldl (fun g r => logRosterStats mem g t r) g).character_summaries row r0 =
          g.character_summaries row r0) ∧
      (∀ r0 ∈ rs,
        (rs.foldl (fun g r => logRosterStats mem g t r) g).character_summaries
            (adjustedTeamId g t) r0 =
          (logRosterStats mem g t r0).character_summaries (adjustedTeamId g t) r0) := by
  intro rs
  induction rs with
  | nil =>
    intro g
    exact ⟨fun _ => rfl, fun _ _ _ => rfl, fun r0 h => absurd h (List.not_mem_nil _)⟩
  | cons r rest ih =>
    intro g
    obtain ⟨i1, i2, i3⟩ := ih (logRosterStats mem g t r)
    rw [List.foldl_cons]
    refine ⟨fun x => (i1 x).trans (logRosterStats_adjusted mem g t r x), ?_, ?_⟩
    · intro row r0 h
      have h' : row ≠ adjustedTeamId (logRosterStats mem g t r) t ∨ r0 ∉ rest := by
        rcases h with h | h
        · exact Or.inl h
        · exact Or.inr fun hx => h (List.mem_cons_of_mem _ hx)
      rw [i2 row r0 h']
      apply logRosterStats_other
      rcases h with h | h
      · exact Or.inl h
      · exact Or.inr fun hx => h (hx ▸ List.mem_cons_self _ _)
    · intro r0 hr0
      by_cases hin : r0 ∈ rest
      · have := i3 r0 hin
        rw [logRosterStats_adjusted] at this
        rw [this]
        exact logRosterStats_written mem _ g t r0
      · have hr : r0 = r := by
          rcases List.mem_cons.mp hr0 with h | h
          · exact h
          · exact absurd h hin
        subst hr
        exact i2 _ _ (Or.inr hin)

/-- With distinct rows for the two memory teams, the pass of `logGameInfo`
leaves in each team's row what that team's own stat functions wrote. -/
theorem logGameInfo_cells (mem : Snapshot) (gi : GameInfo)
    (hrows : adjustedTeamId gi 0 ≠ adjustedTeamId gi 1) (t r : Nat) (ht : t < 2)
    (hr : r < cRosterSize) :
    (logGameInfo mem gi).character_summaries (adjustedTeamId gi t) r =
      (logRosterStats mem gi t r).character_summaries (adjustedTeamId gi t) r := by
  have h2 : List.range cNumOfTeams = [0, 1] := rfl
  have hmem : r ∈ List.range cRosterSize := List.mem_range.mpr hr
  unfold logGameInfo
  simp only [h2, List.foldl_cons, List.foldl_nil]
  generalize hg0 : ({ gi with
      end_unix_date_time := toString mem.unix_time
      end_local_date_time := mem.local_time
      stadium := Read_U8 mem .aStadiumId
      innings_selected := Read_U8 mem .aInningsSelected
      innings_played := Read_U8 mem .aAB_Inning
      away_score := Read_U16 mem .aAwayTeam_Score
      home_score := Read_U16 mem .aHomeTeam_Score } : GameInfo) = g0
  have ha0 : ∀ x, adjustedTeamId g0 x = adjustedTeamId gi x := by
    intro x; rw [← hg0]; rfl
  obtain ⟨a1, a2, a3⟩ := foldl_roster_cells mem 0 (List.range cRosterSize) g0
  generalize (List.range cRosterSize).foldl (fun g r => logRosterStats mem g 0 r) g0 = gA
    at a1 a2 a3
  obtain ⟨b1, b2, b3⟩ := foldl_roster_cells mem 1 (List.range cRosterSize) gA
  generalize (List.range cRosterSize).foldl (fun g r => logRosterStats mem g 1 r) gA = gB
    at b1 b2 b3
  have ht' : t = 0 ∨ t = 1 := by omega
  rcases ht' with rfl | rfl
  · have hne : adjustedTeamId gi 0 ≠ adjustedTeamId gA 1 := by
      rw [a1, ha0]; exact hrows
    rw [b2 _ _ (Or.inl hne)]
    have := a3 r hmem
    rw [ha0] at this
    rw [this]
    have e := logRosterStats_written mem g0 gi 0 r
    rw [ha0] at e
    exact e
  · have := b3 r hmem
    rw [a1, ha0] at this
    rw [this]
    have e := logRosterStats_written mem gA gi 1 r
    rw [a1, ha0] at e
    exact e

/-- C37: given `team0_port` different from `team1_port` and `away_port` equal
to one of them, the row `adjusted_team_id` that `logDefensiveStats` and
`logOffensiveStats` write is 1 for the memory team whose port is the away port
and 0 for the other, so the two memory teams get two different rows.  Each
function writes the cell of its row and roster slot from the memory slots of its
own team and keeps every other cell; and after the pass of `logGameInfo` over
both teams each row still holds what its own team's functions wrote. -/
theorem end_game_rows_do_not_collide (mem : Snapshot) (gi : GameInfo)
    (hd : gi.team0_port ≠ gi.team1_port)
    (ha : gi.away_port = gi.team0_port ∨ gi.away_port = gi.team1_port) :
    adjustedTeamId gi 0 ≠ adjustedTeamId gi 1 ∧
    (gi.away_port = gi.team0_port → adjustedTeamId gi 0 = 1 ∧ adjustedTeamId gi 1 = 0) ∧
    (gi.away_port = gi.team1_port → adjustedTeamId gi 0 = 0 ∧ adjustedTeamId gi 1 = 1) ∧
    (∀ t roster row r0, (row ≠ adjustedTeamId gi t ∨ r0 ≠ roster) →
      (logDefensiveStats mem gi t roster).character_summaries row r0 =
        gi.character_summaries row r0 ∧
      (logOffensiveStats mem gi t roster).character_summaries row r0 =
        gi.character_summaries row r0) ∧
    (∀ t roster,
      ((logDefensiveStats mem gi t roster).character_summaries
          (adjustedTeamId gi t) roster).end_game_defensive_stats.batters_faced =
        Read_U8 mem (.aPitcher_BattersFaced (t * cRosterSize + roster)) ∧
      ((logOffensiveStats mem gi t roster).character_summaries
          (adjustedTeamId gi t) roster).end_game_offensive_stats.at_bats =
        Read_U8 mem (.aBatter_AtBats (t * cRosterSize + roster))) ∧
    (∀ t r, t < 2 → r < cRosterSize →
      (logGameInfo mem gi).character_summaries (adjustedTeamId gi t) r =
        (logRosterStats mem gi t r).character_summaries (adjustedTeamId gi t) r) := by
  have h0 : adjustedTeamId gi 0 = if gi.team0_port = gi.away_port then 1 else 0 := rfl
  have h1 : adjustedTeamId gi 1 = if gi.team1_port = gi.away_port then 1 else 0 := rfl
  have hA : gi.away_port = gi.team0_port → adjustedTeamId gi 0 = 1 ∧ adjustedTeamId gi 1 = 0 := by
    intro h
    rw [h0, h1, if_pos h.symm, if_neg (fun hx => hd (hx.trans h).symm)]
    exact ⟨rfl, rfl⟩
  have hB : gi.away_port = gi.team1_port → adjustedTeamId gi 0 = 0 ∧ adjustedTeamId gi 1 = 1 := by
    intro h
    rw [h0, h1, if_pos h.symm, if_neg (fun hx => hd (hx.trans h))]
    exact ⟨rfl, rfl⟩
  have hrows : adjustedTeamId gi 0 ≠ adjustedTeamId gi 1 := by
    rcases ha with h | h
    · rw [(hA h).1, (hA h).2]; decide
    · rw [(hB h).1, (hB h).2]; decide
  refine ⟨hrows, hA, hB, ?_, ?_, fun t r ht hr => logGameInfo_cells mem gi hrows t r ht hr⟩
  · intro t roster row r0 h
    have hn : ¬ (row = adjustedTeamId gi t ∧ r0 = roster) := by
      rintro ⟨e1, e2⟩
      rcases h with h | h
      · exact h e1
      · exact h e2
    constructor
    · unfold logDefensiveStats
      simp only [setSummary, if_neg hn]
    · unfold logOffensiveStats
      simp only [setSummary, if_neg hn]
  · intro t roster
    constructor
    · unfold logDefensiveStats
      simp only [setSummary, and_self, if_true]
    · unfold logOffensiveStats
      simp only [setSummary, and_self, if_true]

/-- Witness for C37: in the match between port 1 (team 0, home) and port 2
(team 1, away), memory team 0 is written to row 0 and memory team 1 to row 1,
and after the whole pass roster slot 2 of row 0 shows team 0's entries (7 at
bats, 3 batters faced) and that of row 1 team 1's (9 and 5). -/
theorem end_game_rows_do_not_collide_witness :
    adjustedTeamId pairedGame 0 = 0 ∧ adjustedTeamId pairedGame 1 = 1 ∧
    rowEntries (logGameInfo statTableSnapshot pairedGame) = ((7, 3), (9, 5)) :=
  ⟨((end_game_rows_do_not_collide statTableSnapshot pairedGame (by decide)
      (Or.inr rfl)).2.2.1 rfl).1,
   ((end_game_rows_do_not_collide statTableSnapshot pairedGame (by decide)
      (Or.inr rfl)).2.2.1 rfl).2,
   by decide⟩

/-! ## The tracker instance updated in play and the one serialized (C38) -/

theorem logStrikeout_half_inning (ev ev' : Event) (h : logStrikeout ev = some ev') :
    ev'.half_inning = ev.half_inning := by
  unfold logStrikeout at h
  split_ifs at h
  · simp only [Option.bind_eq_bind, Option.bind_eq_some, pure, Option.some.injEq] at h
    obtain ⟨r, _, rfl⟩ := h
    rfl
  · cases h; rfl

theorem logSecondaryResult_half_inning (ev ev' : Event) (h : logSecondaryResult ev = some ev') :
    ev'.half_inning = ev.half_inning := by
  unfold logSecondaryResult at h
  split at h
  · cases h; rfl
  · split at h
    · cases h; rfl
    · split_ifs at h
      · cases h; rfl
      · simp only [Option.bind_eq_bind, Option.bind_eq_some] at h
        obtain ⟨r, _, h⟩ := h
        split_ifs at h <;> cases h <;> rfl

/-- The classification of a contact touches the tracker of the fielding side only. -/
theorem logContactResult_other_tracker (H : Header) (mem : Snapshot) (cur : Event)
    (es es' : EVENT_STATE) (trk trk' : Trackers) (c c' : Contact)
    (h : logContactResult H mem cur es trk c = some (c', es', trk')) (i : Nat)
    (hi : i ≠ fieldingTracker cur.half_inning) : trk' i = trk i := by
  unfold logContactResult at h
  simp only [] at h
  split_ifs at h
  · cases h; rfl
  · split at h
    · cases h
    · simp only [Option.some.injEq, Prod.mk.injEq] at h
      obtain ⟨_, _, rfl⟩ := h
      rw [setAt_apply, if_neg hi]
  · cases h; rfl
  · cases h; rfl

/-- The finalization touches the tracker of the fielding side only. -/
theorem logFinalResults_other_tracker (mem : Snapshot) (ev ev' : Event) (trk trk' : Trackers)
    (h : logFinalResults mem ev trk = some (ev', trk')) (i : Nat)
    (hi : i ≠ fieldingTracker ev.half_inning) : trk' i = trk i := by
  unfold logFinalResults at h
  simp only [Option.bind_eq_bind, Option.bind_eq_some] at h
  obtain ⟨e1, h1, e2, h2, p, _, c, _, r, _, h⟩ := h
  have hh : e2.half_inning = ev.half_inning :=
    (logSecondaryResult_half_inning e1 e2 h2).trans (logStrikeout_half_inning ev e1 h1)
  have hi2 : i ≠ fieldingTracker e2.half_inning := by rw [hh]; exact hi
  have hT : (if Read_U8 mem .aAB_NumOutsDuringPlay > 0 then
      setAt trk (fieldingTracker e2.half_inning)
        (trk (fieldingTracker e2.half_inning)).incrementBatterOutForPosition
      else trk) i = trk i := by
    by_cases hn : Read_U8 mem .aAB_NumOutsDuringPlay > 0
    · rw [if_pos hn, setAt_apply, if_neg hi2]
    · rw [if_neg hn]
  by_cases hr : r.out_type = 2
  · rw [if_pos hr] at h
    simp only [Option.bind_eq_bind, Option.bind_eq_some, pure, Option.some.injEq,
      Prod.mk.injEq] at h
    obtain ⟨f, _, _, rfl⟩ := h
    rw [setAt_apply, if_neg hi2]
    exact hT
  · rw [if_neg hr] at h
    simp only [pure, Option.some.injEq, Prod.mk.injEq] at h
    obtain ⟨_, rfl⟩ := h
    exact hT

/-- C38: for the half-inning values 0 and 1, the tracker index used in play,
`!half_inning`, is the `tracker_team` the serializers use for the summary row
of the side in the field (row 0, home, in half-inning 0: tracker 1; row 1, away,
in half-inning 1: tracker 0).  The character entry of that row, in `getStatJSON`
and in `getHUDJSON`, is rendered from that tracker instance alone, and
`logContactResult` and `logFinalResults` in that half-inning leave every other
instance as it was. -/
theorem fielding_tracker_is_serialized (H : Header) (gi : GameInfo) (trk : Trackers)
    (inDecode : Bool) (roster h : Nat) (hh : h = 0 ∨ h = 1) :
    trackerTeam (fieldingRowPerSpec h) = fieldingTracker h ∧
    statCharacterPieces H gi trk inDecode (fieldingRowPerSpec h) roster =
      statCharacterPieces H gi (fun _ => trk (fieldingTracker h)) inDecode
        (fieldingRowPerSpec h) roster ∧
    hudCharacterPieces H gi trk inDecode (fieldingRowPerSpec h) roster =
      hudCharacterPieces H gi (fun _ => trk (fieldingTracker h)) inDecode
        (fieldingRowPerSpec h) roster ∧
    (∀ mem cur es c c' es' trk', cur.half_inning = h →
      logContactResult H mem cur es trk c = some (c', es', trk') →
      ∀ i, i ≠ fieldingTracker h → trk' i = trk i) ∧
    (∀ mem ev ev' trk', ev.half_inning = h →
      logFinalResults mem ev trk = some (ev', trk') →
      ∀ i, i ≠ fieldingTracker h → trk' i = trk i) := by
  have hidx : (if fieldingRowPerSpec h = 0 then 1 else 0) = fieldingTracker h := by
    rcases hh with rfl | rfl <;> rfl
  refine ⟨hidx, ?_, ?_, ?_, ?_⟩
  · unfold statCharacterPieces
    simp only [hidx]
  · unfold hudCharacterPieces
    simp only [hidx]
  · intro mem cur es c c' es' trk' hcur hres i hi
    exact logContactResult_other_tracker H mem cur es es' trk trk' c c' hres i (hcur ▸ hi)
  · intro mem ev ev' trk' hev hres i hi
    exact logFinalResults_other_tracker mem ev ev' trk trk' hres i (hev ▸ hi)

set_option maxRecDepth 100000 in
/-- A catch in the top half of the first inning by roster slot 4 at position 6:
the out shows in the character entry of row 0 and not in that of row 1. -/
theorem caught_tick_rendered :
    ((lookForTriggerEvents sampleHeader caughtSnapshot
        (trackerAt EVENT_STATE.CONTACT_RESULT contactEvent)).map fun s =>
      (outCount s.m_fielder_tracker 1 4 6, outCount s.m_fielder_tracker 0 4 6,
       (statCharacterPieces sampleHeader s.m_game_info s.m_fielder_tracker true 0 4).map
         (fun ps => ps.count (Piece.str "Known")),
       (statCharacterPieces sampleHeader s.m_game_info s.m_fielder_tracker true 1 4).map
         (fun ps => ps.count (Piece.str "Known")),
       (hudCharacterPieces sampleHeader s.m_game_info s.m_fielder_tracker true 0 4).map
         (fun ps => ps.count (Piece.str "Known")))) =
      some (1, 0, some 1, some 0, some 1) := by
  decide

/-- Witness for C38: half-inning 0 updates and serializes tracker 1, half-inning
1 tracker 0; and the out of a catch made in the top half shows in the character
entry of summary row 0, in both documents, and not in that of row 1. -/
theorem fielding_tracker_is_serialized_witness :
    trackerTeam (fieldingRowPerSpec 0) = 1 ∧ fieldingTracker 0 = 1 ∧
    trackerTeam (fieldingRowPerSpec 1) = 0 ∧ fieldingTracker 1 = 0 ∧
    ((lookForTriggerEvents sampleHeader caughtSnapshot
        (trackerAt EVENT_STATE.CONTACT_RESULT contactEvent)).map fun s =>
      (outCount s.m_fielder_tracker 1 4 6, outCount s.m_fielder_tracker 0 4 6,
       (statCharacterPieces sampleHeader s.m_game_info s.m_fielder_tracker true 0 4).map
         (fun ps => ps.count (Piece.str "Known")),
       (statCharacterPieces sampleHeader s.m_game_info s.m_fielder_tracker true 1 4).map
         (fun ps => ps.count (Piece.str "Known")),
       (hudCharacterPieces sampleHeader s.m_game_info s.m_fielder_tracker true 0 4).map
         (fun ps => ps.count (Piece.str "Known")))) =
      some (1, 0, some 1, some 0, some 1) :=
  ⟨(fielding_tracker_is_serialized sampleHeader zeroGameInfo freshTrackers true 0 0
      (Or.inl rfl)).1,
   rfl,
   (fielding_tracker_is_serialized sampleHeader zeroGameInfo freshTrackers true 0 1
      (Or.inr rfl)).1,
   rfl, caught_tick_rendered⟩

/-! ## The finalization pass over the ticks spent in `FINAL_RESULT` (C32) -/

theorem incrementOut_batter_count (t : FielderTracker) (r0 p0 roster pos : Nat) :
    ((t.incrementOutForPosition r0 p0).fielder_map roster).batter_outs_by_position pos =
      (t.fielder_map roster).batter_outs_by_position pos := by
  unfold FielderTracker.incrementOutForPosition
  simp only [setAt_apply]
  by_cases hr : roster = r0
  · subst hr; simp
  · simp [hr]

theorem incrementBatterOut_batter_count (t : FielderTracker) (roster pos : Nat) :
    ((t.incrementBatterOutForPosition).fielder_map roster).batter_outs_by_position pos =
      (t.fielder_map roster).batter_outs_by_position pos +
        (if t.current_position roster = some pos then 1 else 0) := by
  unfold FielderTracker.incrementBatterOutForPosition
  simp only []
  cases hcp : t.current_position roster with
  | none => simp
  | some q =>
    simp only [setAt_apply, Option.some.injEq]
    by_cases hq : pos = q
    · subst hq; simp
    · have hq' : ¬ q = pos := fun hx => hq hx.symm
      simp [hq, hq']

/-- The trackers `logFinalResults` returns: the fielding side's tracker gets a
batter out at every recorded position when an out was made on the play, and
then possibly one out for one fielder; nothing else changes. -/
theorem logFinalResults_trackers (mem : Snapshot) (ev ev' : Event) (trk trk' : Trackers)
    (h : logFinalResults mem ev trk = some (ev', trk')) :
    ev'.half_inning = ev.half_inning ∧
    ∃ T : Trackers,
      T = (if Read_U8 mem .aAB_NumOutsDuringPlay > 0 then
            setAt trk (fieldingTracker ev.half_inning)
              (trk (fieldingTracker ev.half_inning)).incrementBatterOutForPosition
           else trk) ∧
      (trk' = T ∨
        ∃ f : Fielder, trk' = setAt T (fieldingTracker ev.half_inning)
          ((T (fieldingTracker ev.half_inning)).incrementOutForPosition
            f.fielder_roster_loc f.fielder_pos)) := by
  unfold logFinalResults at h
  simp only [Option.bind_eq_bind, Option.bind_eq_some] at h
  obtain ⟨e1, h1, e2, h2, p, _, c, _, r, _, h⟩ := h
  have hh : e2.half_inning = ev.half_inning :=
    (logSecondaryResult_half_inning e1 e2 h2).trans (logStrikeout_half_inning ev e1 h1)
  rw [← hh]
  by_cases hr : r.out_type = 2
  · rw [if_pos hr] at h
    simp only [Option.bind_eq_bind, Option.bind_eq_some, pure, Option.some.injEq,
      Prod.mk.injEq] at h
    obtain ⟨f, _, rfl, rfl⟩ := h
    exact ⟨rfl, _, rfl, Or.inr ⟨f, rfl⟩⟩
  · rw [if_neg hr] at h
    simp only [pure, Option.some.injEq, Prod.mk.injEq] at h
    obtain ⟨rfl, rfl⟩ := h
    exact ⟨rfl, _, rfl, Or.inl rfl⟩

/-- The recorded positions are not touched by `logFinalResults`, and with an out
on the play every recorded position of the fielding side gets one more batter
out. -/
theorem logFinalResults_batter_outs (mem : Snapshot) (ev ev' : Event) (trk trk' : Trackers)
    (h : logFinalResults mem ev trk = some (ev', trk')) :
    (∀ idx roster, (trk' idx).current_position roster = (trk idx).current_position roster) ∧
    (Read_U8 mem .aAB_NumOutsDuringPlay > 0 → ∀ roster pos,
      (trk (fieldingTracker ev.half_inning)).current_position roster = some pos →
      batterOutCount trk' (fieldingTracker ev.half_inning) roster pos =
        batterOutCount trk (fieldingTracker ev.half_inning) roster pos + 1) := by
  obtain ⟨_, T, hT, hfin⟩ := logFinalResults_trackers mem ev ev' trk trk' h
  have hTpos : ∀ idx roster, (T idx).current_position roster =
      (trk idx).current_position roster := by
    intro idx roster
    rw [hT]
    split_ifs
    · rw [setAt_apply]
      split_ifs with hi
      · subst hi; rfl
      · rfl
    · rfl
  have hTcount : Read_U8 mem .aAB_NumOutsDuringPlay > 0 → ∀ roster pos,
      (trk (fieldingTracker ev.half_inning)).current_position roster = some pos →
      batterOutCount T (fieldingTracker ev.half_inning) roster pos =
        batterOutCount trk (fieldingTracker ev.half_inning) roster pos + 1 := by
    intro hn roster pos hpos
    rw [hT, if_pos hn]
    unfold batterOutCount
    rw [setAt_apply, if_pos rfl, incrementBatterOut_batter_count, if_pos hpos]
  rcases hfin with rfl | ⟨f, rfl⟩
  · exact ⟨hTpos, hTcount⟩
  · refine ⟨?_, ?_⟩
    · intro idx roster
      rw [setAt_apply]
      split_ifs with hi
      · subst hi; exact hTpos _ roster
      · exact hTpos idx roster
    · intro hn roster pos hpos
      rw [← hTcount hn roster pos hpos]
      unfold batterOutCount
      rw [setAt_apply, if_pos rfl, incrementOut_batter_count]

/-- The forced-out branch of `logFinalResults` leaves an event on which the same
branch is taken again: the batter-runner, the final result and the credited
fielder are the same. -/
theorem logFinalResults_forced_out_again (mem : Snapshot) (ev ev' : Event) (trk trk' : Trackers)
    (rb : Runner) (p : Pitch) (c : Contact) (g : Fielder)
    (hrb : ev.runner_batter = some rb) (hout : rb.out_type = 2) (hres : ev.result_of_atbat ≠ 1)
    (hp : ev.pitch = some p) (hc : p.contact = some c) (hg : creditedFielder c = some g)
    (h : logFinalResults mem ev trk = some (ev', trk')) :
    outCount trk' (fieldingTracker ev.half_inning) g.fielder_roster_loc g.fielder_pos =
      outCount trk (fieldingTracker ev.half_inning) g.fielder_roster_loc g.fielder_pos + 1 ∧
    ev'.runner_batter = some rb ∧ ev'.result_of_atbat ≠ 1 ∧
    ∃ p1 c1, ev'.pitch = some p1 ∧ p1.contact = some c1 ∧ creditedFielder c1 = some g := by
  obtain ⟨e0, t0, h0, hcount⟩ := logFinalResults_forced_out mem ev trk rb p c g hrb hout hres hp hc hg
  rw [h] at h0
  simp only [Option.some.injEq, Prod.mk.injEq] at h0
  obtain ⟨rfl, rfl⟩ := h0
  refine ⟨by rw [hcount]; simp, ?_⟩
  obtain ⟨c', hsec, hff, hcf⟩ := logSecondaryResult_present ev rb p c hrb hp hc
  have hg' : ∀ m, creditedFielder { c' with multi_out := m } = some g := by
    intro m
    unfold creditedFielder at hg ⊢
    simpa [hff, hcf] using hg
  unfold logFinalResults at h
  simp only [logStrikeout, if_neg hres, Option.bind_eq_bind, Option.some_bind, hsec, hrb, hout,
    if_true, hg', pure, Option.some.injEq, Prod.mk.injEq] at h
  obtain ⟨rfl, _⟩ := h
  exact ⟨rfl, hres, _, _, rfl, rfl, hg' _⟩

/-- In game the game state machine keeps the trackers, the game state and the
events. -/
theorem gameStep_ingame_trackers (H : Header) (mem : Snapshot) (s s' : StatTracker)
    (hg : s.m_game_state = GAME_STATE.INGAME) (h : gameStep H mem s = some s') :
    s'.m_fielder_tracker = s.m_fielder_tracker ∧ s'.m_game_state = s.m_game_state := by
  unfold gameStep at h
  rw [hg] at h
  simp only [] at h
  split_ifs at h
  · unfold logEndOfGame at h
    generalize logGameInfo mem s.m_game_info = X at h
    simp only [] at h
    split_ifs at h
    all_goals
      simp only [Option.some.injEq] at h
      subst h
      exact ⟨rfl, hg.symm ▸ rfl⟩
  · cases h
    exact ⟨rfl, rfl⟩

/-- One tick in game at `FINAL_RESULT` with an out on the play, none of the exit
tests holding: the state stays, the recorded positions stay, every recorded
position of the fielding side gets one more batter out, and in the forced-out
case the credited fielder gets one more out and the case holds again for the
event the tick leaves. -/
theorem finalization_tick_counts (H : Header) (mem : Snapshot) (st st' : StatTracker)
    (ev : Event)
    (hg : st.m_game_state = GAME_STATE.INGAME)
    (hes : st.m_event_state = EVENT_STATE.FINAL_RESULT)
    (hcur : st.m_game_info.getCurrentEvent = some ev)
    (hout : Read_U8 mem .aAB_NumOutsDuringPlay > 0)
    (hc1 : Read_U8 mem .aGameControlStateCurr ≠ 0x1)
    (hc2 : ¬ (Read_U8 mem .aGameControlStateCurr = 0xE ∨ Read_U8 mem .aEndOfGameFlag = 1))
    (h : lookForTriggerEvents H mem st = some st') :
    st'.m_game_state = GAME_STATE.INGAME ∧ st'.m_event_state = EVENT_STATE.FINAL_RESULT ∧
    (∀ idx roster, (st'.m_fielder_tracker idx).current_position roster =
      (st.m_fielder_tracker idx).current_position roster) ∧
    (∀ roster pos,
      (st.m_fielder_tracker (fieldingTracker ev.half_inning)).current_position roster = some pos →
      batterOutCount st'.m_fielder_tracker (fieldingTracker ev.half_inning) roster pos =
        batterOutCount st.m_fielder_tracker (fieldingTracker ev.half_inning) roster pos + 1) ∧
    ∃ ev1, st'.m_game_info.getCurrentEvent = some ev1 ∧ ev1.half_inning = ev.half_inning ∧
      ∀ (rb : Runner) (p : Pitch) (c : Contact) (g : Fielder),
        ev.runner_batter = some rb → rb.out_type = 2 → ev.result_of_atbat ≠ 1 →
        ev.pitch = some p → p.contact = some c → creditedFielder c = some g →
        outCount st'.m_fielder_tracker (fieldingTracker ev.half_inning)
            g.fielder_roster_loc g.fielder_pos =
          outCount st.m_fielder_tracker (fieldingTracker ev.half_inning)
            g.fielder_roster_loc g.fielder_pos + 1 ∧
        ev1.runner_batter = some rb ∧ ev1.result_of_atbat ≠ 1 ∧
        ∃ p1 c1, ev1.pitch = some p1 ∧ p1.contact = some c1 ∧ creditedFielder c1 = some g := by
  obtain ⟨s1, s2, h1, h2, h3⟩ := tick_ingame_split H mem st st' hg h
  obtain ⟨hist, hcur1, hg1, hes1, hn1, htrk1, _, _⟩ :=
    logStateChanges_current_of H mem st s1 ev h1 hcur
  unfold eventStep at h2
  rw [hes1, hes] at h2
  simp only [] at h2
  obtain ⟨ev0, p0, ev1, trk1, hev0, hp0, hfin, hevents, _, htrk2, hg2⟩ :=
    stepFinalResult_shape H mem s1 s2 h2
  obtain ⟨hnum2, hes2⟩ := stepFinalResult_counter H mem s1 s2 h2
  rw [if_neg hc1, if_neg hc2] at hnum2
  rw [if_neg hc2, if_neg hc1, hes1, hes] at hes2
  have hg2' : s2.m_game_state = GAME_STATE.INGAME := by rw [hg2, hg1, hg]
  have hnoop := gameStep_ingame_noop H mem s2 hg2'
    (by rw [hes2]; exact fun hx => absurd hx (by decide))
  rw [hnoop] at h3
  simp only [Option.some.injEq] at h3
  subst h3
  rw [hcur1] at hev0
  simp only [Option.some.injEq] at hev0
  subst hev0
  have hp0' : ev.pitch = some p0 := hp0
  rw [htrk1] at hfin
  generalize hX : (if p0.potential_db = true then
      ({ ({ ev with history := hist } : Event) with pitch := some { p0 with db := 1 } } : Event)
      else ({ ev with history := hist } : Event)) = evX at hfin
  have hXh : evX.half_inning = ev.half_inning := by
    rw [← hX]; split_ifs <;> rfl
  have hXrb : evX.runner_batter = ev.runner_batter := by
    rw [← hX]; split_ifs <;> rfl
  have hXres : evX.result_of_atbat = ev.result_of_atbat := by
    rw [← hX]; split_ifs <;> rfl
  have hXp : ∃ pX, evX.pitch = some pX ∧ pX.contact = p0.contact := by
    rw [← hX]
    split_ifs
    · exact ⟨_, rfl, rfl⟩
    · exact ⟨p0, hp0, rfl⟩
  obtain ⟨hpos, hbat⟩ := logFinalResults_batter_outs mem evX ev1 _ trk1 hfin
  obtain ⟨hh1, _⟩ := logFinalResults_trackers mem evX ev1 _ trk1 hfin
  rw [hXh] at hbat hh1
  have hcur2 : s2.m_game_info.getCurrentEvent = some ev1 := by
    unfold GameInfo.getCurrentEvent
    rw [hevents, hnum2]
    simp only [Nat.add_zero]
    unfold GameInfo.setCurrentEvent
    exact mapFind_mapAssign _ _ _
  refine ⟨hg2', hes2, ?_, ?_, ev1, hcur2, hh1, ?_⟩
  · intro idx roster
    rw [htrk2]
    exact hpos idx roster
  · intro roster pos hp
    rw [htrk2]
    exact hbat hout roster pos hp
  · intro rb p c g hrb ho hres hp hc hgf
    obtain ⟨pX, hpX, hcX⟩ := hXp
    have hpp : p0 = p := by
      rw [hp0'] at hp
      exact Option.some.inj hp
    subst hpp
    have := logFinalResults_forced_out_again mem evX ev1 _ trk1 rb pX c g
      (hXrb.trans hrb) ho (by rw [hXres]; exact hres) hpX (hcX.trans hc) hgf hfin
    rw [hXh] at this
    rw [htrk2]
    exact this

/-- Any number of ticks in game at `FINAL_RESULT`, each with an out on the play
and none of the exit tests holding: the counters grow by the number of ticks. -/
theorem finalization_ticks_count (H : Header) :
    ∀ (mems : List Snapshot) (st st' : StatTracker) (ev : Event),
      st.m_game_state = GAME_STATE.INGAME → st.m_event_state = EVENT_STATE.FINAL_RESULT →
      st.m_game_info.getCurrentEvent = some ev →
      (∀ mem ∈ mems, Read_U8 mem .aAB_NumOutsDuringPlay > 0 ∧
        Read_U8 mem .aGameControlStateCurr ≠ 0x1 ∧
        ¬ (Read_U8 mem .aGameControlStateCurr = 0xE ∨ Read_U8 mem .aEndOfGameFlag = 1)) →
      runTicks H st mems = some st' →
      st'.m_game_state = GAME_STATE.INGAME ∧ st'.m_event_state = EVENT_STATE.FINAL_RESULT ∧
      (∀ idx roster, (st'.m_fielder_tracker idx).current_position roster =
        (st.m_fielder_tracker idx).current_position roster) ∧
      (∀ roster pos,
        (st.m_fielder_tracker (fieldingTracker ev.half_inning)).current_position roster =
          some pos →
        batterOutCount st'.m_fielder_tracker (fieldingTracker ev.half_inning) roster pos =
          batterOutCount st.m_fielder_tracker (fieldingTracker ev.half_inning) roster pos +
            mems.length) ∧
      (∀ (rb : Runner) (p : Pitch) (c : Contact) (g : Fielder),
        ev.runner_batter = some rb → rb.out_type = 2 → ev.result_of_atbat ≠ 1 →
        ev.pitch = some p → p.contact = some c → creditedFielder c = some g →
        outCount st'.m_fielder_tracker (fieldingTracker ev.half_inning)
            g.fielder_roster_loc g.fielder_pos =
          outCount st.m_fielder_tracker (fieldingTracker ev.half_inning)
            g.fielder_roster_loc g.fielder_pos + mems.length) := by
  intro mems
  induction mems with
  | nil =>
    intro st st' ev hg hes _ _ h
    unfold runTicks at h
    cases h
    exact ⟨hg, hes, fun _ _ => rfl, fun _ _ _ => rfl, fun _ _ _ _ _ _ _ _ _ _ => rfl⟩
  | cons mem rest ih =>
    intro st st' ev hg hes hcur hall h
    unfold runTicks at h
    simp only [Option.bind_eq_some] at h
    obtain ⟨s, hs, hrest⟩ := h
    obtain ⟨hout, hc1, hc2⟩ := hall mem (List.mem_cons_self _ _)
    obtain ⟨sg, se, spos, sbat, ev1, scur, shalf, sforced⟩ :=
      finalization_tick_counts H mem st s ev hg hes hcur hout hc1 hc2 hs
    obtain ⟨rg, re, rpos, rbat, rforced⟩ :=
      ih s st' ev1 sg se scur (fun m hm => hall m (List.mem_cons_of_mem _ hm)) hrest
    rw [shalf] at rbat rforced
    refine ⟨rg, re, fun idx roster => (rpos idx roster).trans (spos idx roster), ?_, ?_⟩
    · intro roster pos hp
      rw [rbat roster pos ((spos _ roster).trans hp), sbat roster pos hp, List.length_cons]
      omega
    · intro rb p c g hrb ho hres hp hc hgf
      obtain ⟨hcount, hrb1, hres1, p1, c1, hp1, hc1', hg1⟩ := sforced rb p c g hrb ho hres hp hc hgf
      rw [rforced rb p1 c1 g hrb1 ho hres1 hp1 hc1' hg1, hcount, List.length_cons]
      omega

/-- C32, what the code does: case `FINAL_RESULT` calls `logFinalResults` on
every tick, and the state persists until the control state reads 1 or `0xE` or
the end-of-game flag reads 1.  Over `n` ticks spent in `FINAL_RESULT` with an
out on the play, the batter-out counter of every recorded position of the
fielding side grows by `n`, and when the batter-runner was forced out (out type
2, final result other than 1) the out counter of the credited fielder grows by
`n` as well: once per tick, not once per at-bat. -/
theorem final_result_counts_every_tick (H : Header) (mems : List Snapshot)
    (st st' : StatTracker) (ev : Event)
    (hg : st.m_game_state = GAME_STATE.INGAME)
    (hes : st.m_event_state = EVENT_STATE.FINAL_RESULT)
    (hcur : st.m_game_info.getCurrentEvent = some ev)
    (hall : ∀ mem ∈ mems, Read_U8 mem .aAB_NumOutsDuringPlay > 0 ∧
      Read_U8 mem .aGameControlStateCurr ≠ 0x1 ∧
      ¬ (Read_U8 mem .aGameControlStateCurr = 0xE ∨ Read_U8 mem .aEndOfGameFlag = 1))
    (h : runTicks H st mems = some st') :
    st'.m_event_state = EVENT_STATE.FINAL_RESULT ∧
    (∀ roster pos,
      (st.m_fielder_tracker (fieldingTracker ev.half_inning)).current_position roster =
        some pos →
      batterOutCount st'.m_fielder_tracker (fieldingTracker ev.half_inning) roster pos =
        batterOutCount st.m_fielder_tracker (fieldingTracker ev.half_inning) roster pos +
          mems.length) ∧
    (∀ (rb : Runner) (p : Pitch) (c : Contact) (g : Fielder),
      ev.runner_batter = some rb → rb.out_type = 2 → ev.result_of_atbat ≠ 1 →
      ev.pitch = some p → p.contact = some c → creditedFielder c = some g →
      outCount st'.m_fielder_tracker (fieldingTracker ev.half_inning)
          g.fielder_roster_loc g.fielder_pos =
        outCount st.m_fielder_tracker (fieldingTracker ev.half_inning)
          g.fielder_roster_loc g.fielder_pos + mems.length) := by
  obtain ⟨_, he, _, hbat, hforced⟩ := finalization_ticks_count H mems st st' ev hg hes hcur hall h
  exact ⟨he, hbat, hforced⟩

/-- Witness for C32: the sample tracker at `FINAL_RESULT` with roster slot 4
recorded at position 6 and the batter-runner forced out, run for three ticks of
the play-dead snapshot (one out on the play, control state 0): the ticks
complete, the state is still `FINAL_RESULT`, and both counters of slot 4 at
position 6 went from 0 to 3. -/
theorem final_result_counts_every_tick_witness :
    slotCounters stationedTracker = (0, 0) ∧
    ∃ st', runTicks sampleHeader stationedTracker
        [playDeadSnapshot, playDeadSnapshot, playDeadSnapshot] = some st' ∧
      st'.m_event_state = EVENT_STATE.FINAL_RESULT ∧
      batterOutCount st'.m_fielder_tracker 1 4 6 = 3 ∧
      outCount st'.m_fielder_tracker 1 4 6 = 3 := by
  have hsome : (runTicks sampleHeader stationedTracker
      [playDeadSnapshot, playDeadSnapshot, playDeadSnapshot]).isSome = true := by decide
  obtain ⟨st', hst'⟩ := Option.isSome_iff_exists.mp hsome
  obtain ⟨he, hbat, hforced⟩ := final_result_counts_every_tick sampleHeader
    [playDeadSnapshot, playDeadSnapshot, playDeadSnapshot] stationedTracker st' forcedOutEvent
    rfl rfl rfl
    (by
      intro mem hmem
      simp only [List.mem_cons, List.mem_singleton, List.not_mem_nil, or_false, or_self] at hmem
      subst hmem
      decide)
    hst'
  refine ⟨by decide, st', hst', he, ?_, ?_⟩
  · have := hbat 4 6 rfl
    simpa using this
  · have := hforced forcedOutRunner _ collectedContact sampleCollector rfl rfl (by decide) rfl rfl
      rfl
    simpa using this

/-! ## Presence of the sub-records read by the at-bat machine (C33) -/

theorem subRecordsPresent_idle (s : StatTracker) (h : needsPitch s.m_event_state = false) :
    subRecordsPresent s = true := by
  have hc : needsContact s.m_event_state = false := by
    unfold needsPitch at h
    unfold needsContact
    simp only [Bool.or_eq_false_iff] at h ⊢
    exact ⟨h.1.2, h.2⟩
  unfold subRecordsPresent
  rw [h, hc]
  rfl

theorem subRecordsPresent_intro (s : StatTracker) (ev : Event) (p : Pitch)
    (hcur : s.m_game_info.getCurrentEvent = some ev) (hp : ev.pitch = some p)
    (hc : needsContact s.m_event_state = true → p.contact.isSome = true) :
    subRecordsPresent s = true := by
  unfold subRecordsPresent
  rw [hcur]
  simp only [Option.some_bind, hp, Option.isSome_some, Bool.or_true, Bool.true_and,
    Bool.or_eq_true, Bool.not_eq_true']
  by_cases hn : needsContact s.m_event_state = true
  · exact Or.inr (hc hn)
  · exact Or.inl (by simpa using hn)

theorem subRecordsPresent_elim (s : StatTracker) (h : subRecordsPresent s = true)
    (hn : needsPitch s.m_event_state = true) :
    ∃ ev p, s.m_game_info.getCurrentEvent = some ev ∧ ev.pitch = some p ∧
      (needsContact s.m_event_state = true → ∃ c, p.contact = some c) := by
  unfold subRecordsPresent at h
  rw [hn] at h
  simp only [Bool.not_true, Bool.false_or, Bool.and_eq_true, Bool.or_eq_true,
    Bool.not_eq_true'] at h
  obtain ⟨h1, h2⟩ := h
  cases hcur : s.m_game_info.getCurrentEvent with
  | none => rw [hcur] at h1; exact absurd h1 (by simp)
  | some ev =>
    rw [hcur] at h1 h2
    simp only [Option.some_bind] at h1 h2
    cases hp : ev.pitch with
    | none => rw [hp] at h1; exact absurd h1 (by simp)
    | some p =>
      refine ⟨ev, p, rfl, hp, ?_⟩
      intro hc
      rw [hp] at h2
      simp only [Option.some_bind] at h2
      rcases h2 with h2 | h2
      · rw [hc] at h2; exact absurd h2 (by decide)
      · exact Option.isSome_iff_exists.mp h2

/-- The logging block keeps the event state and the sub-records of the current
event. -/
theorem logStateChanges_present (H : Header) (mem : Snapshot) (st s1 : StatTracker)
    (h : logStateChanges H mem st = some s1) (hpre : subRecordsPresent st = true) :
    subRecordsPresent s1 = true := by
  obtain ⟨gp, ep, evs, rfl, hevs⟩ := logStateChanges_shape H mem st s1 h
  rcases hevs with rfl | ⟨ev, hist, hcur, rfl⟩
  · exact hpre
  · have hcur' : ({ st with
        m_game_state_prev := gp
        m_event_state_prev := ep
        m_game_info :=
          { st.m_game_info with
            events := (st.m_game_info.setCurrentEvent { ev with history := hist }).events } } :
          StatTracker).m_game_info.getCurrentEvent = some { ev with history := hist } :=
      getCurrentEvent_setCurrentEvent _ _
    unfold subRecordsPresent at hpre ⊢
    rw [hcur] at hpre
    rw [hcur']
    exact hpre

theorem stepStartAB_present (H : Header) (mem : Snapshot) (st st' : StatTracker)
    (hes : st.m_event_state = EVENT_STATE.START_AB)
    (h : stepStartAB H mem st = some st') : subRecordsPresent st' = true := by
  unfold stepStartAB at h
  split_ifs at h
  · cases h
    exact subRecordsPresent_idle _ rfl
  · cases h
    exact subRecordsPresent_idle _ (by rw [hes]; rfl)

theorem stepWaitingForEvent_present (H : Header) (mem : Snapshot) (st st' : StatTracker)
    (hes : st.m_event_state = EVENT_STATE.WAITING_FOR_EVENT)
    (h : stepWaitingForEvent H mem st = some st') : subRecordsPresent st' = true := by
  unfold stepWaitingForEvent at h
  by_cases hid : Read_U32 mem .aGameId = 0
  · rw [if_pos hid] at h
    unfold stepQuit at h
    simp only [Option.bind_eq_bind, Option.bind_eq_some, pure, Option.some.injEq] at h
    obtain ⟨s, _, _, _, rfl⟩ := h
    exact subRecordsPresent_idle _ rfl
  · rw [if_neg hid] at h
    by_cases hany : Read_U8 mem .aAB_PitchThrown ≠ 0 ∨ Read_U8 mem .aAB_PickoffAttempt ≠ 0
    · rw [if_pos hany] at h
      simp only [Option.bind_eq_bind, Option.bind_eq_some, logGameInfo_getCurrentEvent] at h
      obtain ⟨ev, hev, s1, hw, h⟩ := h
      generalize logGameInfo mem st.m_game_info = X at hw
      have hs1 := writeHUD_info H _ s1 _ _ hw
      subst hs1
      by_cases hpt : Read_U8 mem .aAB_PitchThrown ≠ 0
      · rw [if_pos hpt] at h
        simp only [pure, Option.some.injEq] at h
        subst h
        exact subRecordsPresent_intro _ _ _ (getCurrentEvent_setCurrentEvent _ _) rfl
          (fun hx => absurd (show needsContact EVENT_STATE.PITCH_RESULT = true from hx)
            (by decide))
      · rw [if_neg hpt] at h
        by_cases hpk : Read_U8 mem .aAB_PickoffAttempt ≠ 0
        · rw [if_pos hpk] at h
          simp only [pure, Option.some.injEq] at h
          subst h
          exact subRecordsPresent_idle _ rfl
        · rw [if_neg hpk] at h
          simp only [pure, Option.some.injEq] at h
          subst h
          exact subRecordsPresent_idle _
            (by show needsPitch st.m_event_state = false; rw [hes]; rfl)
    · rw [if_neg hany] at h
      cases h
      exact subRecordsPresent_idle _ (by rw [hes]; rfl)

theorem logPitch_pitch (mem : Snapshot) (gi : GameInfo) (ev ev' : Event)
    (h : logPitch mem gi ev = some ev') : ∃ p', ev'.pitch = some p' := by
  unfold logPitch at h
  simp only [Option.bind_eq_bind, Option.bind_eq_some, pure, Option.some.injEq] at h
  obtain ⟨p, _, rfl⟩ := h
  exact ⟨_, rfl⟩

theorem logContact_contact (H : Header) (mem : Snapshot) (ev ev' : Event)
    (h : logContact H mem ev = some ev') :
    ∃ p' c', ev'.pitch = some p' ∧ p'.contact = some c' := by
  unfold logContact at h
  simp only [Option.bind_eq_bind, Option.bind_eq_some, pure, Option.some.injEq] at h
  obtain ⟨p, _, rfl⟩ := h
  exact ⟨_, _, rfl, rfl⟩

theorem stepPitchResult_present (H : Header) (mem : Snapshot) (st st' : StatTracker)
    (hes : st.m_event_state = EVENT_STATE.PITCH_RESULT)
    (h : stepPitchResult H mem st = some st') : subRecordsPresent st' = true := by
  unfold stepPitchResult at h
  simp only [Option.bind_eq_bind, Option.bind_eq_some] at h
  obtain ⟨ev, hev, p, hp, h⟩ := h
  have h1 : ∃ p1, (monitorPitch H mem ev p).pitch = some p1 := ⟨_, rfl⟩
  generalize monitorPitch H mem ev p = ev1 at h h1
  have hstay : ∀ (e : Event), (∃ q, e.pitch = some q) →
      subRecordsPresent { st with m_game_info := st.m_game_info.setCurrentEvent e } = true := by
    intro e he
    obtain ⟨q, hq⟩ := he
    refine subRecordsPresent_intro _ e q (getCurrentEvent_setCurrentEvent _ _) hq ?_
    intro hx
    have : needsContact st.m_event_state = true := hx
    rw [hes] at this
    exact absurd this (by decide)
  split_ifs at h
  all_goals
    simp only [Option.bind_eq_some, pure, Option.some.injEq] at h
    first
      | (obtain ⟨e2, he2, e3, he3, rfl⟩ := h
         obtain ⟨p3, c3, hp3, hc3⟩ := logContact_contact H mem e2 e3 he3
         exact subRecordsPresent_intro _ e3 p3 (getCurrentEvent_setCurrentEvent _ _) hp3
           (fun _ => by rw [hc3]; rfl))
      | (obtain ⟨e2, he2, rfl⟩ := h
         first
           | exact subRecordsPresent_idle _ rfl
           | exact hstay e2 (logPitch_pitch mem _ _ e2 he2))
      | (subst h
         exact hstay _ h1)

theorem stepContactResult_present (H : Header) (mem : Snapshot) (st st' : StatTracker)
    (h : stepContactResult H mem st = some st') : subRecordsPresent st' = true := by
  unfold stepContactResult at h
  simp only [Option.bind_eq_bind, Option.bind_eq_some] at h
  obtain ⟨ev, hev, p, hp, h⟩ := h
  by_cases hc : Read_U8 mem .aAB_ContactResult ≠ 0
  · rw [if_pos hc] at h
    simp only [Option.bind_eq_some, pure, Option.some.injEq] at h
    obtain ⟨c, _, ⟨c', es, trk⟩, hres, rfl⟩ := h
    exact subRecordsPresent_intro _ _ _ (getCurrentEvent_setCurrentEvent _ _) rfl (fun _ => rfl)
  · rw [if_neg hc] at h
    simp only [Option.bind_eq_some, pure, Option.some.injEq] at h
    obtain ⟨c, _, rfl⟩ := h
    exact subRecordsPresent_intro _ _ _ (getCurrentEvent_setCurrentEvent _ _) rfl (fun _ => rfl)

theorem stepLogFielder_present (H : Header) (mem : Snapshot) (st st' : StatTracker)
    (h : stepLogFielder H mem st = some st') : subRecordsPresent st' = true := by
  unfold stepLogFielder at h
  simp only [Option.bind_eq_bind, Option.bind_eq_some] at h
  obtain ⟨ev, hev, p, hp, c, _, h⟩ := h
  generalize scanFielders H mem ev.manual_select_locks c st.m_event_state = sc at h
  split_ifs at h
  all_goals
    simp only [pure, Option.some.injEq] at h
    subst h
    exact subRecordsPresent_intro _ _ _ (getCurrentEvent_setCurrentEvent _ _) rfl (fun _ => rfl)

theorem stepMonitorRunners_present (mem : Snapshot) (st st' : StatTracker)
    (hes : st.m_event_state = EVENT_STATE.MONITOR_RUNNERS)
    (h : stepMonitorRunners mem st = some st') : subRecordsPresent st' = true := by
  unfold stepMonitorRunners at h
  simp only [Option.bind_eq_bind, Option.bind_eq_some] at h
  obtain ⟨ev, hev, h⟩ := h
  split_ifs at h
  · simp only [pure, Option.some.injEq] at h
    subst h
    exact subRecordsPresent_idle _ rfl
  · simp only [Option.bind_eq_some, pure, Option.some.injEq] at h
    obtain ⟨rb, _, rfl⟩ := h
    exact subRecordsPresent_idle _ (by show needsPitch st.m_event_state = false; rw [hes]; rfl)

theorem stepPlayOver_present (mem : Snapshot) (st st' : StatTracker)
    (hes : st.m_event_state = EVENT_STATE.PLAY_OVER)
    (h : stepPlayOver mem st = some st') : subRecordsPresent st' = true := by
  unfold stepPlayOver at h
  split_ifs at h
  · simp only [Option.bind_eq_bind, Option.bind_eq_some, pure, Option.some.injEq] at h
    obtain ⟨ev, _, rfl⟩ := h
    exact subRecordsPresent_idle _ rfl
  · cases h
    exact subRecordsPresent_idle _ (by rw [hes]; rfl)

theorem stepFinalResult_present (H : Header) (mem : Snapshot) (st st' : StatTracker)
    (hes : st.m_event_state = EVENT_STATE.FINAL_RESULT)
    (h : stepFinalResult H mem st = some st') : subRecordsPresent st' = true := by
  obtain ⟨_, he⟩ := stepFinalResult_counter H mem st st' h
  apply subRecordsPresent_idle
  rw [he, hes]
  split_ifs <;> rfl

/-- Every case of the at-bat machine leaves the sub-records its next state reads. -/
theorem eventStep_present (H : Header) (mem : Snapshot) (st st' : StatTracker)
    (h : eventStep H mem st = some st') : subRecordsPresent st' = true := by
  unfold eventStep at h
  cases hes : st.m_event_state with
  | START_AB => rw [hes] at h; exact stepStartAB_present H mem st st' hes h
  | WAITING_FOR_EVENT => rw [hes] at h; exact stepWaitingForEvent_present H mem st st' hes h
  | PITCH_RESULT => rw [hes] at h; exact stepPitchResult_present H mem st st' hes h
  | CONTACT_RESULT => rw [hes] at h; exact stepContactResult_present H mem st st' h
  | LOG_FIELDER => rw [hes] at h; exact stepLogFielder_present H mem st st' h
  | MONITOR_RUNNERS => rw [hes] at h; exact stepMonitorRunners_present mem st st' hes h
  | PLAY_OVER => rw [hes] at h; exact stepPlayOver_present mem st st' hes h
  | FINAL_RESULT => rw [hes] at h; exact stepFinalResult_present H mem st st' hes h
  | GAME_OVER =>
    rw [hes] at h
    simp only [Option.some.injEq] at h
    subst h
    exact subRecordsPresent_idle _ (by rw [hes]; rfl)
  | UNDEFINED =>
    rw [hes] at h
    simp only [Option.some.injEq] at h
    subst h
    exact subRecordsPresent_idle _ rfl

/-- The game machine keeps the sub-records: it leaves the event state and the
current event alone, or returns the at-bat machine to `START_AB`. -/
theorem gameStep_present (H : Header) (mem : Snapshot) (s s' : StatTracker)
    (h : gameStep H mem s = some s') (hpre : subRecordsPresent s = true) :
    subRecordsPresent s' = true := by
  unfold gameStep at h
  cases hgs : s.m_game_state with
  | PREGAME =>
    rw [hgs] at h
    simp only [] at h
    split_ifs at h
    · cases h; exact hpre
    · cases h; exact hpre
  | INGAME =>
    rw [hgs] at h
    simp only [] at h
    split_ifs at h with hover
    · unfold logEndOfGame at h
      generalize logGameInfo mem s.m_game_info = X at h
      simp only [] at h
      split_ifs at h
      all_goals
        simp only [Option.some.injEq] at h
        subst h
        exact subRecordsPresent_idle _ (by show needsPitch s.m_event_state = false; rw [hover]; rfl)
    · cases h; exact hpre
  | ENDGAME_LOGGED =>
    rw [hgs] at h
    simp only [Option.some.injEq] at h
    subst h
    exact subRecordsPresent_idle _ rfl
  | UNDEFINED =>
    rw [hgs] at h
    simp only [Option.some.injEq] at h
    subst h
    exact subRecordsPresent_idle _ rfl

/-- One tick keeps the sub-records present. -/
theorem tick_present (H : Header) (mem : Snapshot) (st st' : StatTracker)
    (h : lookForTriggerEvents H mem st = some st') (hpre : subRecordsPresent st = true) :
    subRecordsPresent st' = true := by
  unfold lookForTriggerEvents at h
  cases h1 : logStateChanges H mem st with
  | none => rw [h1] at h; cases h
  | some s1 =>
    rw [h1] at h
    simp only [Option.bind_eq_bind, Option.some_bind] at h
    have p1 := logStateChanges_present H mem st s1 h1 hpre
    by_cases hg : s1.m_game_state = GAME_STATE.INGAME
    · rw [if_pos hg] at h
      cases h2 : eventStep H mem s1 with
      | none => rw [h2] at h; cases h
      | some s2 =>
        rw [h2] at h
        simp only [Option.some_bind] at h
        exact gameStep_present H mem s2 st' h (eventStep_present H mem s1 s2 h2)
    · rw [if_neg hg] at h
      exact gameStep_present H mem s1 st' h p1

theorem runTicks_present (H : Header) :
    ∀ (mems : List Snapshot) (st st' : StatTracker), runTicks H st mems = some st' →
      subRecordsPresent st = true → subRecordsPresent st' = true := by
  intro mems
  induction mems with
  | nil =>
    intro st st' h hpre
    unfold runTicks at h
    cases h
    exact hpre
  | cons mem rest ih =>
    intro st st' h hpre
    unfold runTicks at h
    simp only [Option.bind_eq_some] at h
    obtain ⟨s, hs, hrest⟩ := h
    exact ih s st' hrest (tick_present H mem st s hs hpre)

/-- C33: in every state reached from a state at `START_AB` by ticks (any
snapshots, any number of them), if the event state is `PITCH_RESULT`,
`CONTACT_RESULT` or `LOG_FIELDER` then the current Event exists and has a Pitch,
and if it is `CONTACT_RESULT` or `LOG_FIELDER` that Pitch has a Contact.  (A
Contact is a member of its Pitch, so it never exists without one.) -/
theorem sub_records_present_when_read (H : Header) (mems : List Snapshot)
    (st st' : StatTracker)
    (hstart : st.m_event_state = EVENT_STATE.START_AB)
    (h : runTicks H st mems = some st') :
    subRecordsPresent st' = true ∧
    ((st'.m_event_state = EVENT_STATE.PITCH_RESULT ∨
        st'.m_event_state = EVENT_STATE.CONTACT_RESULT ∨
        st'.m_event_state = EVENT_STATE.LOG_FIELDER) →
      ∃ ev p, st'.m_game_info.getCurrentEvent = some ev ∧ ev.pitch = some p ∧
        ((st'.m_event_state = EVENT_STATE.CONTACT_RESULT ∨
            st'.m_event_state = EVENT_STATE.LOG_FIELDER) →
          ∃ c, p.contact = some c)) := by
  have hpre : subRecordsPresent st = true :=
    subRecordsPresent_idle st (by rw [hstart]; rfl)
  have hpost := runTicks_present H mems st st' h hpre
  refine ⟨hpost, ?_⟩
  intro hstate
  have hn : needsPitch st'.m_event_state = true := by
    unfold needsPitch
    rcases hstate with h1 | h1 | h1 <;> rw [h1] <;> rfl
  obtain ⟨ev, p, hcur, hp, hc⟩ := subRecordsPresent_elim st' hpost hn
  refine ⟨ev, p, hcur, hp, ?_⟩
  intro hstate2
  apply hc
  unfold needsContact
  rcases hstate2 with h1 | h1 <;> rw [h1] <;> rfl

/-- Witness for C33: the sample tracker, started at `START_AB`, played through
the start of the match, the opening of an at-bat, a pitch and a contact, is at
`CONTACT_RESULT` with a current event that has a Pitch with a Contact. -/
theorem sub_records_present_when_read_witness :
    ∃ st', runTicks sampleHeader sampleTracker
        [matchStartSnapshot, atBatSceneSnapshot, pitchThrownSnapshot, contactMadeSnapshot] =
        some st' ∧
      st'.m_event_state = EVENT_STATE.CONTACT_RESULT ∧
      ∃ ev p c, st'.m_game_info.getCurrentEvent = some ev ∧ ev.pitch = some p ∧
        p.contact = some c := by
  have hsome : (runTicks sampleHeader sampleTracker
      [matchStartSnapshot, atBatSceneSnapshot, pitchThrownSnapshot, contactMadeSnapshot]).isSome
      = true := by decide
  obtain ⟨st', hst'⟩ := Option.isSome_iff_exists.mp hsome
  have hstate : st'.m_event_state = EVENT_STATE.CONTACT_RESULT := by
    have hm : ((runTicks sampleHeader sampleTracker
        [matchStartSnapshot, atBatSceneSnapshot, pitchThrownSnapshot, contactMadeSnapshot]).map
        fun s => s.m_event_state) = some EVENT_STATE.CONTACT_RESULT := by decide
    rw [hst'] at hm
    exact Option.some.inj hm
  obtain ⟨_, hrec⟩ := sub_records_present_when_read sampleHeader
    [matchStartSnapshot, atBatSceneSnapshot, pitchThrownSnapshot, contactMadeSnapshot]
    sampleTracker st' rfl hst'
  obtain ⟨ev, p, hcur, hp, hc⟩ := hrec (Or.inr (Or.inl hstate))
  obtain ⟨c, hc'⟩ := hc (Or.inl hstate)
  exact ⟨st', hst', hstate, ev, p, c, hcur, hp, hc'⟩

/-! ## The event keys over the ticks of a game, with a counter of `w` bits (C2) -/

end MSB
